import Mathlib

/-!
# akvirtualcamera: the video frame conversion engine

A shallow embedding of `VCamUtils/src/videoframe.cpp` (with the enumeration of
`VCamUtils/src/videoformattypes.h`) and theorems about it.

Conventions of the embedding:

* a frame buffer (`std::vector<uint8_t>`) is a `List` of bytes, a byte is a `Fin 256`;
* a pointer into a buffer is a byte offset from its start, so `line` returns a `Nat`;
* C `int` values are `Int`; the `for (int i = 0; i < n; i++)` loops are `forLoop`;
* accesses outside a buffer are undefined in C++; here a read outside gives `0` and a
  write outside is dropped, and the theorems carry the hypotheses that keep every access
  of interest inside the buffer;
* `VideoFormat::size`, `VideoFormat::bypl` and `VideoFormat::offset` live in
  `videoformat.cpp`; they are taken as a parameter `L : Layout` of every operation;
* the functions whose result depends on the 32 bits of `int` or on a zero divisor (`scaled`
  and its helpers, `rgbToHsl`, the sums of `adjustHsl`) are embedded a second time in the
  section *Machine arithmetic*, with wrap-around and a division that has no result for a
  zero divisor; the theorems on them carry the ranges in which both embeddings agree.
-/

set_option autoImplicit false

namespace AkVCam

/-! ## Pixel formats (videoformattypes.h) -/

/-- The C type `uint8_t`. -/
abbrev uint8_t := Fin 256

/-- The C type `FourCC = uint32_t`. -/
abbrev FourCC := Nat

/-- The macro `MKFOURCC(a, b, c, d)`. -/
def MKFOURCC (a b c d : Nat) : FourCC :=
  ((a &&& 0xff) <<< 24) ||| ((b &&& 0xff) <<< 16) ||| ((c &&& 0xff) <<< 8) ||| (d &&& 0xff)

def PixelFormatRGB32 : FourCC := MKFOURCC 'R'.toNat 'G'.toNat 'B'.toNat 32
def PixelFormatRGB24 : FourCC := MKFOURCC 'R'.toNat 'G'.toNat 'B'.toNat 24
def PixelFormatRGB16 : FourCC := MKFOURCC 'R'.toNat 'G'.toNat 'B'.toNat 16
def PixelFormatRGB15 : FourCC := MKFOURCC 'R'.toNat 'G'.toNat 'B'.toNat 15
def PixelFormatBGR32 : FourCC := MKFOURCC 'B'.toNat 'G'.toNat 'R'.toNat 32
def PixelFormatBGR24 : FourCC := MKFOURCC 'B'.toNat 'G'.toNat 'R'.toNat 24
def PixelFormatBGR16 : FourCC := MKFOURCC 'B'.toNat 'G'.toNat 'R'.toNat 16
def PixelFormatBGR15 : FourCC := MKFOURCC 'B'.toNat 'G'.toNat 'R'.toNat 15
def PixelFormatUYVY : FourCC := MKFOURCC 'U'.toNat 'Y'.toNat 'V'.toNat 'Y'.toNat
def PixelFormatYUY2 : FourCC := MKFOURCC 'Y'.toNat 'U'.toNat 'Y'.toNat '2'.toNat
def PixelFormatNV12 : FourCC := MKFOURCC 'N'.toNat 'V'.toNat '1'.toNat '2'.toNat
def PixelFormatNV21 : FourCC := MKFOURCC 'N'.toNat 'V'.toNat '2'.toNat '1'.toNat

/-- The enumerators of `enum PixelFormat`, in declaration order. -/
inductive PixelFormat where
  | RGB32 | RGB24 | RGB16 | RGB15
  | BGR32 | BGR24 | BGR16 | BGR15
  | UYVY | YUY2
  | NV12 | NV21
  deriving DecidableEq, Repr

/-- The value of an enumerator of `enum PixelFormat`. -/
def PixelFormat.toFourCC : PixelFormat → FourCC
  | .RGB32 => PixelFormatRGB32
  | .RGB24 => PixelFormatRGB24
  | .RGB16 => PixelFormatRGB16
  | .RGB15 => PixelFormatRGB15
  | .BGR32 => PixelFormatBGR32
  | .BGR24 => PixelFormatBGR24
  | .BGR16 => PixelFormatBGR16
  | .BGR15 => PixelFormatBGR15
  | .UYVY => PixelFormatUYVY
  | .YUY2 => PixelFormatYUY2
  | .NV12 => PixelFormatNV12
  | .NV21 => PixelFormatNV21

/-! ## Formats, layouts and frames -/

/-- The data members of `VideoFormat` that the frame code uses: `fourcc()`, `width()`,
`height()`. The default value is the default-constructed (cleared) format. -/
structure VideoFormat where
  fourcc : FourCC := 0
  width : Int := 0
  height : Int := 0
  deriving DecidableEq, Repr

/-- The layout queries of `VideoFormat` used by the frame code: `size()`, `bypl(plane)`
and `offset(plane)`. Their bodies are in `videoformat.cpp`; the frame code is embedded over
an arbitrary implementation of them. -/
structure Layout where
  size : VideoFormat → Nat
  bypl : VideoFormat → Nat → Nat
  offset : VideoFormat → Nat → Nat

/-- Plane `plane` of `format` has rows of at least `rowBytes` bytes, and `rows` of them lie
inside the `size()` bytes of the format. -/
def Layout.PlaneFits (L : Layout) (format : VideoFormat) (plane rowBytes rows : Nat) : Prop :=
  rowBytes ≤ L.bypl format plane ∧
    L.offset format plane + rows * L.bypl format plane ≤ L.size format

/-- `VideoData = std::vector<uint8_t>`. -/
abbrev VideoData := List uint8_t

/-- Read of the byte at offset `p`. -/
def peek (data : VideoData) (p : Nat) : uint8_t := data.getD p 0

/-- Write of the byte at offset `p`. -/
def poke (data : VideoData) (p : Nat) (v : uint8_t) : VideoData := data.set p v

/-- Conversion of a C `int` to `uint8_t` (reduction modulo 256). -/
def toUInt8 (n : Int) : uint8_t := ⟨(n % 256).toNat, by omega⟩

/-- The 16-bit storage unit of a bit-field struct at offset `p` (little-endian). -/
def peek16 (data : VideoData) (p : Nat) : Nat :=
  (peek data p).val + 256 * (peek data (p + 1)).val

/-- Write of a 16-bit storage unit at offset `p` (little-endian). -/
def poke16 (data : VideoData) (p : Nat) (w : Nat) : VideoData :=
  poke (poke data p (toUInt8 (w % 256))) (p + 1) (toUInt8 (w / 256 % 256))

/-- A bit-field `uint16_t name: width` whose lowest bit is bit `shift` of the storage
unit (fields are allocated from the least significant bit, in declaration order). -/
structure BitField where
  shift : Nat
  width : Nat
  deriving DecidableEq, Repr

/-- Read of a bit-field of the storage unit at offset `p`. -/
def peekBits (data : VideoData) (p : Nat) (f : BitField) : Nat :=
  peek16 data p / 2 ^ f.shift % 2 ^ f.width

/-- Assignment to a bit-field of the storage unit at offset `p`: the value is reduced
modulo `2 ^ width`, the other bits of the unit are kept. -/
def pokeBits (data : VideoData) (p : Nat) (f : BitField) (v : Nat) : VideoData :=
  let w := peek16 data p
  poke16 data p
    (w % 2 ^ f.shift + v % 2 ^ f.width * 2 ^ f.shift
      + w / 2 ^ (f.shift + f.width) * 2 ^ (f.shift + f.width))

/-- The data members `m_format` and `m_data` of `VideoFramePrivate`. The default value is
the default-constructed frame `VideoFrame {}`: cleared format, empty buffer. -/
structure VideoFrame where
  m_format : VideoFormat := {}
  m_data : VideoData := []
  deriving DecidableEq, Repr

/-- The constructor `VideoFrame::VideoFrame(const VideoFormat &format)`: the buffer is
resized to `format.size()` zero bytes when that size is positive. -/
def VideoFrame.ofFormat (L : Layout) (format : VideoFormat) : VideoFrame :=
  { m_format := format
    m_data := if L.size format > 0 then List.replicate (L.size format) 0 else [] }

/-- The method `VideoFrame::line(plane, y)`, as an offset from `m_data.data()`. -/
def VideoFrame.line (L : Layout) (self : VideoFrame) (plane y : Nat) : Nat :=
  L.offset self.m_format plane + y * L.bypl self.m_format plane

/-- The loop `for (int i = 0; i < n; i++) body(i)` over a state `s`. -/
def forLoop {σ : Type} (n : Int) (s : σ) (body : Nat → σ → σ) : σ :=
  (List.range n.toNat).foldl (fun s i => body i s) s

/-- The loop `for (int x = 0; x < width; x++) { ... x++; ... }` of the packed YUV
converters: the body is entered with `x`, increments `x` once itself, and the loop header
increments it once more. `fuel` bounds the number of iterations. -/
def pairLoop {σ : Type} (width : Int) (body : Nat → σ → σ) : Nat → Nat → σ → σ
  | 0, _, s => s
  | fuel + 1, x, s =>
    if (x : Int) < width then pairLoop width body fuel (x + 2) (body x s) else s

/-! ## Pixel structs

Byte offsets of the members of the byte structs, bit positions of the members of the
bit-field structs, and their sizes. -/

namespace RGB32
def x : Nat := 0
def b : Nat := 1
def g : Nat := 2
def r : Nat := 3
def sizeof : Nat := 4
end RGB32

namespace RGB24
def b : Nat := 0
def g : Nat := 1
def r : Nat := 2
def sizeof : Nat := 3
end RGB24

namespace RGB16
def b : BitField := ⟨0, 5⟩
def g : BitField := ⟨5, 6⟩
def r : BitField := ⟨11, 5⟩
def sizeof : Nat := 2
end RGB16

namespace RGB15
def b : BitField := ⟨0, 5⟩
def g : BitField := ⟨5, 5⟩
def r : BitField := ⟨10, 5⟩
def x : BitField := ⟨15, 1⟩
def sizeof : Nat := 2
end RGB15

namespace BGR32
def r : Nat := 0
def g : Nat := 1
def b : Nat := 2
def x : Nat := 3
def sizeof : Nat := 4
end BGR32

namespace BGR24
def r : Nat := 0
def g : Nat := 1
def b : Nat := 2
def sizeof : Nat := 3
end BGR24

namespace BGR16
def r : BitField := ⟨0, 5⟩
def g : BitField := ⟨5, 6⟩
def b : BitField := ⟨11, 5⟩
def sizeof : Nat := 2
end BGR16

namespace BGR15
def r : BitField := ⟨0, 5⟩
def g : BitField := ⟨5, 5⟩
def b : BitField := ⟨10, 5⟩
def x : BitField := ⟨15, 1⟩
def sizeof : Nat := 2
end BGR15

namespace UYVY
def v0 : Nat := 0
def y0 : Nat := 1
def u0 : Nat := 2
def y1 : Nat := 3
def sizeof : Nat := 4
end UYVY

namespace YUY2
def y0 : Nat := 0
def v0 : Nat := 1
def y1 : Nat := 2
def u0 : Nat := 3
def sizeof : Nat := 4
end YUY2

namespace UV
def u : Nat := 0
def v : Nat := 1
def sizeof : Nat := 2
end UV

namespace VU
def v : Nat := 0
def u : Nat := 1
def sizeof : Nat := 2
end VU

/-- Read of member `field` of element `x` of an array of structs of `size` bytes that
starts at offset `line`: `line[x].field`. -/
def getField (data : VideoData) (line size x field : Nat) : uint8_t :=
  peek data (line + x * size + field)

/-- The assignment `line[x].field = v` for a byte member. -/
def setField (data : VideoData) (line size x field : Nat) (v : uint8_t) : VideoData :=
  poke data (line + x * size + field) v

/-- Read of bit-field member `field` of element `x` of an array of 2-byte structs. -/
def getBits (data : VideoData) (line size x : Nat) (field : BitField) : Nat :=
  peekBits data (line + x * size) field

/-- The assignment `line[x].field = v` for a bit-field member. -/
def setBits (data : VideoData) (line size x : Nat) (field : BitField) (v : Nat) : VideoData :=
  pokeBits data (line + x * size) field v

/-- Member `field` of pixel `(x, y)` of plane 0 of a frame whose rows are arrays of structs
of `size` bytes: `reinterpret_cast<T *>(frame.line(0, y))[x].field`. -/
def VideoFrame.field (L : Layout) (self : VideoFrame) (y size x field : Nat) : uint8_t :=
  getField self.m_data (self.line L 0 y) size x field

/-- Bit-field member `field` of pixel `(x, y)` of plane 0 of a frame whose rows are arrays of
2-byte bit-field structs. -/
def VideoFrame.bits (L : Layout) (self : VideoFrame) (y size x : Nat) (field : BitField) : Nat :=
  getBits self.m_data (self.line L 0 y) size x field

/-- The accesses of one pass through the body of the pair loop entered with `x`: the source
columns read (`x`, and `x` after the increment in the body) and the destination group
written (`x_yuv = x / 2`). -/
def pairAccess (x : Nat) : List Nat × Nat := ([x, x + 1], x / 2)

/-- The accesses of the pair loop over a row of the given width, in execution order. -/
def pairTrace (width : Int) : List (List Nat × Nat) :=
  pairLoop width (fun x t => t ++ [pairAccess x]) width.toNat 0 []

/-! ## YUV helpers -/

/-- `VideoFramePrivate::rgb_y`. -/
def rgb_y (r g b : Int) : uint8_t :=
  toUInt8 (((66 * r + 129 * g + 25 * b + 128) >>> (8 : Nat)) + 16)

/-- `VideoFramePrivate::rgb_u`. -/
def rgb_u (r g b : Int) : uint8_t :=
  toUInt8 (((-38 * r - 74 * g + 112 * b + 128) >>> (8 : Nat)) + 128)

/-- `VideoFramePrivate::rgb_v`. -/
def rgb_v (r g b : Int) : uint8_t :=
  toUInt8 (((112 * r - 94 * g - 18 * b + 128) >>> (8 : Nat)) + 128)

/-- `rgb_y` of pixel `(x, y)` of a 24-bit frame whose `r`, `g`, `b` members are at the byte
offsets `r`, `g`, `b` of its 3-byte pixels. -/
def VideoFrame.lumaAt (L : Layout) (self : VideoFrame) (y x r g b : Nat) : uint8_t :=
  rgb_y (self.field L y 3 x r).val (self.field L y 3 x g).val (self.field L y 3 x b).val

/-- `rgb_u` of pixel `(x, y)` of a 24-bit frame, as `lumaAt`. -/
def VideoFrame.uAt (L : Layout) (self : VideoFrame) (y x r g b : Nat) : uint8_t :=
  rgb_u (self.field L y 3 x r).val (self.field L y 3 x g).val (self.field L y 3 x b).val

/-- `rgb_v` of pixel `(x, y)` of a 24-bit frame, as `lumaAt`. -/
def VideoFrame.vAt (L : Layout) (self : VideoFrame) (y x r g b : Nat) : uint8_t :=
  rgb_v (self.field L y 3 x r).val (self.field L y 3 x g).val (self.field L y 3 x b).val

/-! ## The conversion routines -/

/-- `VideoFramePrivate::bgr24_to_rgb32`. -/
def bgr24_to_rgb32 (L : Layout) (src : VideoFrame) : VideoFrame :=
  let format := { src.m_format with fourcc := PixelFormatRGB32 }
  let dst := VideoFrame.ofFormat L format
  let width := src.m_format.width
  let height := src.m_format.height
  { dst with m_data :=
      forLoop height dst.m_data fun y data =>
        let src_line := src.line L 0 y
        let dst_line := dst.line L 0 y
        forLoop width data fun x data =>
          let data := setField data dst_line RGB32.sizeof x RGB32.x 255
          let data := setField data dst_line RGB32.sizeof x RGB32.r (getField src.m_data src_line BGR24.sizeof x BGR24.r)
          let data := setField data dst_line RGB32.sizeof x RGB32.g (getField src.m_data src_line BGR24.sizeof x BGR24.g)
          let data := setField data dst_line RGB32.sizeof x RGB32.b (getField src.m_data src_line BGR24.sizeof x BGR24.b)
          data }

/-- `VideoFramePrivate::bgr24_to_rgb24`. -/
def bgr24_to_rgb24 (L : Layout) (src : VideoFrame) : VideoFrame :=
  let format := { src.m_format with fourcc := PixelFormatRGB24 }
  let dst := VideoFrame.ofFormat L format
  let width := src.m_format.width
  let height := src.m_format.height
  { dst with m_data :=
      forLoop height dst.m_data fun y data =>
        let src_line := src.line L 0 y
        let dst_line := dst.line L 0 y
        forLoop width data fun x data =>
          let data := setField data dst_line RGB24.sizeof x RGB24.r (getField src.m_data src_line BGR24.sizeof x BGR24.r)
          let data := setField data dst_line RGB24.sizeof x RGB24.g (getField src.m_data src_line BGR24.sizeof x BGR24.g)
          let data := setField data dst_line RGB24.sizeof x RGB24.b (getField src.m_data src_line BGR24.sizeof x BGR24.b)
          data }

/-- `VideoFramePrivate::bgr24_to_rgb16`. -/
def bgr24_to_rgb16 (L : Layout) (src : VideoFrame) : VideoFrame :=
  let format := { src.m_format with fourcc := PixelFormatRGB16 }
  let dst := VideoFrame.ofFormat L format
  let width := src.m_format.width
  let height := src.m_format.height
  { dst with m_data :=
      forLoop height dst.m_data fun y data =>
        let src_line := src.line L 0 y
        let dst_line := dst.line L 0 y
        forLoop width data fun x data =>
          let data := setBits data dst_line RGB16.sizeof x RGB16.r ((getField src.m_data src_line BGR24.sizeof x BGR24.r).val >>> 3)
          let data := setBits data dst_line RGB16.sizeof x RGB16.g ((getField src.m_data src_line BGR24.sizeof x BGR24.g).val >>> 2)
          let data := setBits data dst_line RGB16.sizeof x RGB16.b ((getField src.m_data src_line BGR24.sizeof x BGR24.b).val >>> 3)
          data }

/-- `VideoFramePrivate::bgr24_to_rgb15`. -/
def bgr24_to_rgb15 (L : Layout) (src : VideoFrame) : VideoFrame :=
  let format := { src.m_format with fourcc := PixelFormatRGB15 }
  let dst := VideoFrame.ofFormat L format
  let width := src.m_format.width
  let height := src.m_format.height
  { dst with m_data :=
      forLoop height dst.m_data fun y data =>
        let src_line := src.line L 0 y
        let dst_line := dst.line L 0 y
        forLoop width data fun x data =>
          let data := setBits data dst_line RGB15.sizeof x RGB15.x 1
          let data := setBits data dst_line RGB15.sizeof x RGB15.r ((getField src.m_data src_line BGR24.sizeof x BGR24.r).val >>> 3)
          let data := setBits data dst_line RGB15.sizeof x RGB15.g ((getField src.m_data src_line BGR24.sizeof x BGR24.g).val >>> 3)
          let data := setBits data dst_line RGB15.sizeof x RGB15.b ((getField src.m_data src_line BGR24.sizeof x BGR24.b).val >>> 3)
          data }

/-- `VideoFramePrivate::bgr24_to_bgr32`. -/
def bgr24_to_bgr32 (L : Layout) (src : VideoFrame) : VideoFrame :=
  let format := { src.m_format with fourcc := PixelFormatBGR32 }
  let dst := VideoFrame.ofFormat L format
  let width := src.m_format.width
  let height := src.m_format.height
  { dst with m_data :=
      forLoop height dst.m_data fun y data =>
        let src_line := src.line L 0 y
        let dst_line := dst.line L 0 y
        forLoop width data fun x data =>
          let data := setField data dst_line BGR32.sizeof x BGR32.x 255
          let data := setField data dst_line BGR32.sizeof x BGR32.r (getField src.m_data src_line BGR24.sizeof x BGR24.r)
          let data := setField data dst_line BGR32.sizeof x BGR32.g (getField src.m_data src_line BGR24.sizeof x BGR24.g)
          let data := setField data dst_line BGR32.sizeof x BGR32.b (getField src.m_data src_line BGR24.sizeof x BGR24.b)
          data }

/-- `VideoFramePrivate::bgr24_to_bgr16`. -/
def bgr24_to_bgr16 (L : Layout) (src : VideoFrame) : VideoFrame :=
  let format := { src.m_format with fourcc := PixelFormatBGR16 }
  let dst := VideoFrame.ofFormat L format
  let width := src.m_format.width
  let height := src.m_format.height
  { dst with m_data :=
      forLoop height dst.m_data fun y data =>
        let src_line := src.line L 0 y
        let dst_line := dst.line L 0 y
        forLoop width data fun x data =>
          let data := setBits data dst_line BGR16.sizeof x BGR16.r ((getField src.m_data src_line BGR24.sizeof x BGR24.r).val >>> 3)
          let data := setBits data dst_line BGR16.sizeof x BGR16.g ((getField src.m_data src_line BGR24.sizeof x BGR24.g).val >>> 2)
          let data := setBits data dst_line BGR16.sizeof x BGR16.b ((getField src.m_data src_line BGR24.sizeof x BGR24.b).val >>> 3)
          data }

/-- `VideoFramePrivate::bgr24_to_bgr15`. -/
def bgr24_to_bgr15 (L : Layout) (src : VideoFrame) : VideoFrame :=
  let format := { src.m_format with fourcc := PixelFormatBGR15 }
  let dst := VideoFrame.ofFormat L format
  let width := src.m_format.width
  let height := src.m_format.height
  { dst with m_data :=
      forLoop height dst.m_data fun y data =>
        let src_line := src.line L 0 y
        let dst_line := dst.line L 0 y
        forLoop width data fun x data =>
          let data := setBits data dst_line BGR15.sizeof x BGR15.x 1
          let data := setBits data dst_line BGR15.sizeof x BGR15.r ((getField src.m_data src_line BGR24.sizeof x BGR24.r).val >>> 3)
          let data := setBits data dst_line BGR15.sizeof x BGR15.g ((getField src.m_data src_line BGR24.sizeof x BGR24.g).val >>> 3)
          let data := setBits data dst_line BGR15.sizeof x BGR15.b ((getField src.m_data src_line BGR24.sizeof x BGR24.b).val >>> 3)
          data }

/-- `VideoFramePrivate::bgr24_to_uyvy`. -/
def bgr24_to_uyvy (L : Layout) (src : VideoFrame) : VideoFrame :=
  let format := { src.m_format with fourcc := PixelFormatUYVY }
  let dst := VideoFrame.ofFormat L format
  let width := src.m_format.width
  let height := src.m_format.height
  { dst with m_data :=
      forLoop height dst.m_data fun y data =>
        let src_line := src.line L 0 y
        let dst_line := dst.line L 0 y
        pairLoop width (fun x data =>
          let x_yuv := x / 2
          let r0 : Int := (getField src.m_data src_line BGR24.sizeof x BGR24.r).val
          let g0 : Int := (getField src.m_data src_line BGR24.sizeof x BGR24.g).val
          let b0 : Int := (getField src.m_data src_line BGR24.sizeof x BGR24.b).val
          let x := x + 1
          let r1 : Int := (getField src.m_data src_line BGR24.sizeof x BGR24.r).val
          let g1 : Int := (getField src.m_data src_line BGR24.sizeof x BGR24.g).val
          let b1 : Int := (getField src.m_data src_line BGR24.sizeof x BGR24.b).val
          let data := setField data dst_line UYVY.sizeof x_yuv UYVY.u0 (rgb_u r0 g0 b0)
          let data := setField data dst_line UYVY.sizeof x_yuv UYVY.y0 (rgb_y r0 g0 b0)
          let data := setField data dst_line UYVY.sizeof x_yuv UYVY.v0 (rgb_v r0 g0 b0)
          let data := setField data dst_line UYVY.sizeof x_yuv UYVY.y1 (rgb_y r1 g1 b1)
          data) width.toNat 0 data }

/-- `VideoFramePrivate::bgr24_to_yuy2`. -/
def bgr24_to_yuy2 (L : Layout) (src : VideoFrame) : VideoFrame :=
  let format := { src.m_format with fourcc := PixelFormatYUY2 }
  let dst := VideoFrame.ofFormat L format
  let width := src.m_format.width
  let height := src.m_format.height
  { dst with m_data :=
      forLoop height dst.m_data fun y data =>
        let src_line := src.line L 0 y
        let dst_line := dst.line L 0 y
        pairLoop width (fun x data =>
          let x_yuv := x / 2
          let r0 : Int := (getField src.m_data src_line BGR24.sizeof x BGR24.r).val
          let g0 : Int := (getField src.m_data src_line BGR24.sizeof x BGR24.g).val
          let b0 : Int := (getField src.m_data src_line BGR24.sizeof x BGR24.b).val
          let x := x + 1
          let r1 : Int := (getField src.m_data src_line BGR24.sizeof x BGR24.r).val
          let g1 : Int := (getField src.m_data src_line BGR24.sizeof x BGR24.g).val
          let b1 : Int := (getField src.m_data src_line BGR24.sizeof x BGR24.b).val
          let data := setField data dst_line YUY2.sizeof x_yuv YUY2.y0 (rgb_y r0 g0 b0)
          let data := setField data dst_line YUY2.sizeof x_yuv YUY2.u0 (rgb_u r0 g0 b0)
          let data := setField data dst_line YUY2.sizeof x_yuv YUY2.y1 (rgb_y r1 g1 b1)
          let data := setField data dst_line YUY2.sizeof x_yuv YUY2.v0 (rgb_v r0 g0 b0)
          data) width.toNat 0 data }

/-- `VideoFramePrivate::bgr24_to_nv12`. -/
def bgr24_to_nv12 (L : Layout) (src : VideoFrame) : VideoFrame :=
  let format := { src.m_format with fourcc := PixelFormatNV12 }
  let dst := VideoFrame.ofFormat L format
  let width := src.m_format.width
  let height := src.m_format.height
  { dst with m_data :=
      forLoop height dst.m_data fun y data =>
        let src_line := src.line L 0 y
        let dst_line_y := dst.line L 0 y
        let dst_line_vu := dst.line L 1 (y / 2)
        forLoop width data fun x data =>
          let r : Int := (getField src.m_data src_line BGR24.sizeof x BGR24.r).val
          let g : Int := (getField src.m_data src_line BGR24.sizeof x BGR24.g).val
          let b : Int := (getField src.m_data src_line BGR24.sizeof x BGR24.b).val
          let data := poke data (dst_line_y + y) (rgb_y r g b)
          if x &&& 0x1 = 0 ∧ y &&& 0x1 = 0 then
            let data := setField data dst_line_vu VU.sizeof (x / 2) VU.v (rgb_v r g b)
            let data := setField data dst_line_vu VU.sizeof (x / 2) VU.u (rgb_u r g b)
            data
          else data }

/-- `VideoFramePrivate::bgr24_to_nv21`. -/
def bgr24_to_nv21 (L : Layout) (src : VideoFrame) : VideoFrame :=
  let format := { src.m_format with fourcc := PixelFormatNV21 }
  let dst := VideoFrame.ofFormat L format
  let width := src.m_format.width
  let height := src.m_format.height
  { dst with m_data :=
      forLoop height dst.m_data fun y data =>
        let src_line := src.line L 0 y
        let dst_line_y := dst.line L 0 y
        let dst_line_vu := dst.line L 1 (y / 2)
        forLoop width data fun x data =>
          let r : Int := (getField src.m_data src_line BGR24.sizeof x BGR24.r).val
          let g : Int := (getField src.m_data src_line BGR24.sizeof x BGR24.g).val
          let b : Int := (getField src.m_data src_line BGR24.sizeof x BGR24.b).val
          let data := poke data (dst_line_y + y) (rgb_y r g b)
          if x &&& 0x1 = 0 ∧ y &&& 0x1 = 0 then
            let data := setField data dst_line_vu UV.sizeof (x / 2) UV.v (rgb_v r g b)
            let data := setField data dst_line_vu UV.sizeof (x / 2) UV.u (rgb_u r g b)
            data
          else data }

/-- `VideoFramePrivate::rgb24_to_rgb32`. -/
def rgb24_to_rgb32 (L : Layout) (src : VideoFrame) : VideoFrame :=
  let format := { src.m_format with fourcc := PixelFormatRGB32 }
  let dst := VideoFrame.ofFormat L format
  let width := src.m_format.width
  let height := src.m_format.height
  { dst with m_data :=
      forLoop height dst.m_data fun y data =>
        let src_line := src.line L 0 y
        let dst_line := dst.line L 0 y
        forLoop width data fun x data =>
          let data := setField data dst_line RGB32.sizeof x RGB32.x 255
          let data := setField data dst_line RGB32.sizeof x RGB32.r (getField src.m_data src_line RGB24.sizeof x RGB24.r)
          let data := setField data dst_line RGB32.sizeof x RGB32.g (getField src.m_data src_line RGB24.sizeof x RGB24.g)
          let data := setField data dst_line RGB32.sizeof x RGB32.b (getField src.m_data src_line RGB24.sizeof x RGB24.b)
          data }

/-- `VideoFramePrivate::rgb24_to_rgb16`. -/
def rgb24_to_rgb16 (L : Layout) (src : VideoFrame) : VideoFrame :=
  let format := { src.m_format with fourcc := PixelFormatRGB16 }
  let dst := VideoFrame.ofFormat L format
  let width := src.m_format.width
  let height := src.m_format.height
  { dst with m_data :=
      forLoop height dst.m_data fun y data =>
        let src_line := src.line L 0 y
        let dst_line := dst.line L 0 y
        forLoop width data fun x data =>
          let data := setBits data dst_line RGB16.sizeof x RGB16.r ((getField src.m_data src_line RGB24.sizeof x RGB24.r).val >>> 3)
          let data := setBits data dst_line RGB16.sizeof x RGB16.g ((getField src.m_data src_line RGB24.sizeof x RGB24.g).val >>> 2)
          let data := setBits data dst_line RGB16.sizeof x RGB16.b ((getField src.m_data src_line RGB24.sizeof x RGB24.b).val >>> 3)
          data }

/-- `VideoFramePrivate::rgb24_to_rgb15`. -/
def rgb24_to_rgb15 (L : Layout) (src : VideoFrame) : VideoFrame :=
  let format := { src.m_format with fourcc := PixelFormatRGB15 }
  let dst := VideoFrame.ofFormat L format
  let width := src.m_format.width
  let height := src.m_format.height
  { dst with m_data :=
      forLoop height dst.m_data fun y data =>
        let src_line := src.line L 0 y
        let dst_line := dst.line L 0 y
        forLoop width data fun x data =>
          let data := setBits data dst_line RGB15.sizeof x RGB15.x 1
          let data := setBits data dst_line RGB15.sizeof x RGB15.r ((getField src.m_data src_line RGB24.sizeof x RGB24.r).val >>> 3)
          let data := setBits data dst_line RGB15.sizeof x RGB15.g ((getField src.m_data src_line RGB24.sizeof x RGB24.g).val >>> 3)
          let data := setBits data dst_line RGB15.sizeof x RGB15.b ((getField src.m_data src_line RGB24.sizeof x RGB24.b).val >>> 3)
          data }

/-- `VideoFramePrivate::rgb24_to_bgr32`. -/
def rgb24_to_bgr32 (L : Layout) (src : VideoFrame) : VideoFrame :=
  let format := { src.m_format with fourcc := PixelFormatBGR32 }
  let dst := VideoFrame.ofFormat L format
  let width := src.m_format.width
  let height := src.m_format.height
  { dst with m_data :=
      forLoop height dst.m_data fun y data =>
        let src_line := src.line L 0 y
        let dst_line := dst.line L 0 y
        forLoop width data fun x data =>
          let data := setField data dst_line BGR32.sizeof x BGR32.x 255
          let data := setField data dst_line BGR32.sizeof x BGR32.r (getField src.m_data src_line RGB24.sizeof x RGB24.r)
          let data := setField data dst_line BGR32.sizeof x BGR32.g (getField src.m_data src_line RGB24.sizeof x RGB24.g)
          let data := setField data dst_line BGR32.sizeof x BGR32.b (getField src.m_data src_line RGB24.sizeof x RGB24.b)
          data }

/-- `VideoFramePrivate::rgb24_to_bgr24`. -/
def rgb24_to_bgr24 (L : Layout) (src : VideoFrame) : VideoFrame :=
  let format := { src.m_format with fourcc := PixelFormatBGR24 }
  let dst := VideoFrame.ofFormat L format
  let width := src.m_format.width
  let height := src.m_format.height
  { dst with m_data :=
      forLoop height dst.m_data fun y data =>
        let src_line := src.line L 0 y
        let dst_line := dst.line L 0 y
        forLoop width data fun x data =>
          let data := setField data dst_line BGR24.sizeof x BGR24.r (getField src.m_data src_line RGB24.sizeof x RGB24.r)
          let data := setField data dst_line BGR24.sizeof x BGR24.g (getField src.m_data src_line RGB24.sizeof x RGB24.g)
          let data := setField data dst_line BGR24.sizeof x BGR24.b (getField src.m_data src_line RGB24.sizeof x RGB24.b)
          data }

/-- `VideoFramePrivate::rgb24_to_bgr16`. -/
def rgb24_to_bgr16 (L : Layout) (src : VideoFrame) : VideoFrame :=
  let format := { src.m_format with fourcc := PixelFormatBGR16 }
  let dst := VideoFrame.ofFormat L format
  let width := src.m_format.width
  let height := src.m_format.height
  { dst with m_data :=
      forLoop height dst.m_data fun y data =>
        let src_line := src.line L 0 y
        let dst_line := dst.line L 0 y
        forLoop width data fun x data =>
          let data := setBits data dst_line BGR16.sizeof x BGR16.r ((getField src.m_data src_line RGB24.sizeof x RGB24.r).val >>> 3)
          let data := setBits data dst_line BGR16.sizeof x BGR16.g ((getField src.m_data src_line RGB24.sizeof x RGB24.g).val >>> 2)
          let data := setBits data dst_line BGR16.sizeof x BGR16.b ((getField src.m_data src_line RGB24.sizeof x RGB24.b).val >>> 3)
          data }

/-- `VideoFramePrivate::rgb24_to_bgr15`. -/
def rgb24_to_bgr15 (L : Layout) (src : VideoFrame) : VideoFrame :=
  let format := { src.m_format with fourcc := PixelFormatBGR15 }
  let dst := VideoFrame.ofFormat L format
  let width := src.m_format.width
  let height := src.m_format.height
  { dst with m_data :=
      forLoop height dst.m_data fun y data =>
        let src_line := src.line L 0 y
        let dst_line := dst.line L 0 y
        forLoop width data fun x data =>
          let data := setBits data dst_line BGR15.sizeof x BGR15.x 1
          let data := setBits data dst_line BGR15.sizeof x BGR15.r ((getField src.m_data src_line RGB24.sizeof x RGB24.r).val >>> 3)
          let data := setBits data dst_line BGR15.sizeof x BGR15.g ((getField src.m_data src_line RGB24.sizeof x RGB24.g).val >>> 3)
          let data := setBits data dst_line BGR15.sizeof x BGR15.b ((getField src.m_data src_line RGB24.sizeof x RGB24.b).val >>> 3)
          data }

/-- `VideoFramePrivate::rgb24_to_uyvy`. -/
def rgb24_to_uyvy (L : Layout) (src : VideoFrame) : VideoFrame :=
  let format := { src.m_format with fourcc := PixelFormatUYVY }
  let dst := VideoFrame.ofFormat L format
  let width := src.m_format.width
  let height := src.m_format.height
  { dst with m_data :=
      forLoop height dst.m_data fun y data =>
        let src_line := src.line L 0 y
        let dst_line := dst.line L 0 y
        pairLoop width (fun x data =>
          let x_yuv := x / 2
          let r0 : Int := (getField src.m_data src_line RGB24.sizeof x RGB24.r).val
          let g0 : Int := (getField src.m_data src_line RGB24.sizeof x RGB24.g).val
          let b0 : Int := (getField src.m_data src_line RGB24.sizeof x RGB24.b).val
          let x := x + 1
          let r1 : Int := (getField src.m_data src_line RGB24.sizeof x RGB24.r).val
          let g1 : Int := (getField src.m_data src_line RGB24.sizeof x RGB24.g).val
          let b1 : Int := (getField src.m_data src_line RGB24.sizeof x RGB24.b).val
          let data := setField data dst_line UYVY.sizeof x_yuv UYVY.u0 (rgb_u r0 g0 b0)
          let data := setField data dst_line UYVY.sizeof x_yuv UYVY.y0 (rgb_y r0 g0 b0)
          let data := setField data dst_line UYVY.sizeof x_yuv UYVY.v0 (rgb_v r0 g0 b0)
          let data := setField data dst_line UYVY.sizeof x_yuv UYVY.y1 (rgb_y r1 g1 b1)
          data) width.toNat 0 data }

/-- `VideoFramePrivate::rgb24_to_yuy2`. -/
def rgb24_to_yuy2 (L : Layout) (src : VideoFrame) : VideoFrame :=
  let format := { src.m_format with fourcc := PixelFormatYUY2 }
  let dst := VideoFrame.ofFormat L format
  let width := src.m_format.width
  let height := src.m_format.height
  { dst with m_data :=
      forLoop height dst.m_data fun y data =>
        let src_line := src.line L 0 y
        let dst_line := dst.line L 0 y
        pairLoop width (fun x data =>
          let x_yuv := x / 2
          let r0 : Int := (getField src.m_data src_line RGB24.sizeof x RGB24.r).val
          let g0 : Int := (getField src.m_data src_line RGB24.sizeof x RGB24.g).val
          let b0 : Int := (getField src.m_data src_line RGB24.sizeof x RGB24.b).val
          let x := x + 1
          let r1 : Int := (getField src.m_data src_line RGB24.sizeof x RGB24.r).val
          let g1 : Int := (getField src.m_data src_line RGB24.sizeof x RGB24.g).val
          let b1 : Int := (getField src.m_data src_line RGB24.sizeof x RGB24.b).val
          let data := setField data dst_line YUY2.sizeof x_yuv YUY2.y0 (rgb_y r0 g0 b0)
          let data := setField data dst_line YUY2.sizeof x_yuv YUY2.u0 (rgb_u r0 g0 b0)
          let data := setField data dst_line YUY2.sizeof x_yuv YUY2.y1 (rgb_y r1 g1 b1)
          let data := setField data dst_line YUY2.sizeof x_yuv YUY2.v0 (rgb_v r0 g0 b0)
          data) width.toNat 0 data }

/-- `VideoFramePrivate::rgb24_to_nv12`. -/
def rgb24_to_nv12 (L : Layout) (src : VideoFrame) : VideoFrame :=
  let format := { src.m_format with fourcc := PixelFormatNV12 }
  let dst := VideoFrame.ofFormat L format
  let width := src.m_format.width
  let height := src.m_format.height
  { dst with m_data :=
      forLoop height dst.m_data fun y data =>
        let src_line := src.line L 0 y
        let dst_line_y := dst.line L 0 y
        let dst_line_vu := dst.line L 1 (y / 2)
        forLoop width data fun x data =>
          let r : Int := (getField src.m_data src_line RGB24.sizeof x RGB24.r).val
          let g : Int := (getField src.m_data src_line RGB24.sizeof x RGB24.g).val
          let b : Int := (getField src.m_data src_line RGB24.sizeof x RGB24.b).val
          let data := poke data (dst_line_y + y) (rgb_y r g b)
          if x &&& 0x1 = 0 ∧ y &&& 0x1 = 0 then
            let data := setField data dst_line_vu VU.sizeof (x / 2) VU.v (rgb_v r g b)
            let data := setField data dst_line_vu VU.sizeof (x / 2) VU.u (rgb_u r g b)
            data
          else data }

/-- `VideoFramePrivate::rgb24_to_nv21`. -/
def rgb24_to_nv21 (L : Layout) (src : VideoFrame) : VideoFrame :=
  let format := { src.m_format with fourcc := PixelFormatNV21 }
  let dst := VideoFrame.ofFormat L format
  let width := src.m_format.width
  let height := src.m_format.height
  { dst with m_data :=
      forLoop height dst.m_data fun y data =>
        let src_line := src.line L 0 y
        let dst_line_y := dst.line L 0 y
        let dst_line_vu := dst.line L 1 (y / 2)
        forLoop width data fun x data =>
          let r : Int := (getField src.m_data src_line RGB24.sizeof x RGB24.r).val
          let g : Int := (getField src.m_data src_line RGB24.sizeof x RGB24.g).val
          let b : Int := (getField src.m_data src_line RGB24.sizeof x RGB24.b).val
          let data := poke data (dst_line_y + y) (rgb_y r g b)
          if x &&& 0x1 = 0 ∧ y &&& 0x1 = 0 then
            let data := setField data dst_line_vu UV.sizeof (x / 2) UV.v (rgb_v r g b)
            let data := setField data dst_line_vu UV.sizeof (x / 2) UV.u (rgb_u r g b)
            data
          else data }

/-! ## The conversion table and the public operations -/

/-- `struct VideoConvert`. -/
structure VideoConvert where
  «from» : FourCC
  «to» : FourCC
  convert : VideoFrame → VideoFrame

/-- The table `m_convert` built by the constructor of `VideoFramePrivate`. -/
def m_convert (L : Layout) : List VideoConvert :=
  [ ⟨PixelFormatBGR24, PixelFormatRGB32, bgr24_to_rgb32 L⟩,
    ⟨PixelFormatBGR24, PixelFormatRGB24, bgr24_to_rgb24 L⟩,
    ⟨PixelFormatBGR24, PixelFormatRGB16, bgr24_to_rgb16 L⟩,
    ⟨PixelFormatBGR24, PixelFormatRGB15, bgr24_to_rgb15 L⟩,
    ⟨PixelFormatBGR24, PixelFormatBGR32, bgr24_to_bgr32 L⟩,
    ⟨PixelFormatBGR24, PixelFormatBGR16, bgr24_to_bgr16 L⟩,
    ⟨PixelFormatBGR24, PixelFormatBGR15, bgr24_to_bgr15 L⟩,
    ⟨PixelFormatBGR24, PixelFormatUYVY, bgr24_to_uyvy L⟩,
    ⟨PixelFormatBGR24, PixelFormatYUY2, bgr24_to_yuy2 L⟩,
    ⟨PixelFormatBGR24, PixelFormatNV12, bgr24_to_nv12 L⟩,
    ⟨PixelFormatBGR24, PixelFormatNV21, bgr24_to_nv21 L⟩,
    ⟨PixelFormatRGB24, PixelFormatRGB32, rgb24_to_rgb32 L⟩,
    ⟨PixelFormatRGB24, PixelFormatRGB16, rgb24_to_rgb16 L⟩,
    ⟨PixelFormatRGB24, PixelFormatRGB15, rgb24_to_rgb15 L⟩,
    ⟨PixelFormatRGB24, PixelFormatBGR32, rgb24_to_bgr32 L⟩,
    ⟨PixelFormatRGB24, PixelFormatBGR24, rgb24_to_bgr24 L⟩,
    ⟨PixelFormatRGB24, PixelFormatBGR16, rgb24_to_bgr16 L⟩,
    ⟨PixelFormatRGB24, PixelFormatBGR15, rgb24_to_bgr15 L⟩,
    ⟨PixelFormatRGB24, PixelFormatUYVY, rgb24_to_uyvy L⟩,
    ⟨PixelFormatRGB24, PixelFormatYUY2, rgb24_to_yuy2 L⟩,
    ⟨PixelFormatRGB24, PixelFormatNV12, rgb24_to_nv12 L⟩,
    ⟨PixelFormatRGB24, PixelFormatNV21, rgb24_to_nv21 L⟩ ]

/-- The list `m_adjustFormats` built by the constructor of `VideoFramePrivate`. -/
def m_adjustFormats : List FourCC := [PixelFormatBGR24, PixelFormatRGB24]

/-- `VideoFrame::swapRgb() const`. -/
def VideoFrame.swapRgb (L : Layout) (self : VideoFrame) : VideoFrame :=
  if self.m_format.fourcc ∉ m_adjustFormats then {}
  else
    let dst := VideoFrame.ofFormat L self.m_format
    { dst with m_data :=
        forLoop self.m_format.height dst.m_data fun y data =>
          let srcLine := self.line L 0 y
          let destLine := dst.line L 0 y
          forLoop self.m_format.width data fun x data =>
            let data := setField data destLine RGB24.sizeof x RGB24.r
              (getField self.m_data srcLine RGB24.sizeof x RGB24.b)
            let data := setField data destLine RGB24.sizeof x RGB24.g
              (getField self.m_data srcLine RGB24.sizeof x RGB24.g)
            let data := setField data destLine RGB24.sizeof x RGB24.b
              (getField self.m_data srcLine RGB24.sizeof x RGB24.r)
            data }

/-- `VideoFrame::canConvert(input, output)`. -/
def VideoFrame.canConvert (L : Layout) (input output : FourCC) : Bool :=
  if input = output then true
  else (m_convert L).any fun convert => convert.«from» == input && convert.«to» == output

/-- `VideoFrame::convert(fourcc)`. -/
def VideoFrame.convert (L : Layout) (self : VideoFrame) (fourcc : FourCC) : VideoFrame :=
  if self.m_format.fourcc = fourcc then self
  else
    match (m_convert L).find? fun convert =>
        convert.«from» == self.m_format.fourcc && convert.«to» == fourcc with
    | none => {}
    | some converter => converter.convert self

/-! ## Scaling, mirroring and colour adjustment

C `int` arithmetic is embedded over `Int` without overflow; `/` and `%` of C are the
truncating `Int.tdiv` and `Int.tmod` (a zero divisor, undefined in C, gives 0 here), and
`size_t(v)` of an `int` used as an index is `v.toNat`. -/

/-- `enum Scaling` (declared in videoframe.h). -/
inductive Scaling where
  | ScalingFast
  | ScalingLinear
  deriving DecidableEq, Repr

/-- `enum AspectRatio` (declared in videoframe.h). -/
inductive AspectRatio where
  | AspectRatioIgnore
  | AspectRatioKeep
  | AspectRatioExpanding
  deriving DecidableEq, Repr

/-- The lookup tables returned by `gammaTable()` and `contrastTable()`. They are filled by
`initGammaTable` and `initContrastTable` with floating point arithmetic; the frame code only
indexes them, and is embedded over arbitrary table contents. -/
structure Tables where
  gamma : VideoData
  contrast : VideoData

/-- `VideoFramePrivate::bound(min, value, max)`. -/
def bound (min value max : Int) : Int :=
  if value < min then min else if value > max then max else value

/-- `VideoFramePrivate::mod(value, mod)`. -/
def mod (value mod : Int) : Int := ((value.tmod mod) + mod).tmod mod

/-- The C library function `abs` on `int`. -/
def c_abs (v : Int) : Int := if v < 0 then -v else v

/-- Conversion of an `int` to `size_t` (64 bits). -/
def toSizeT (v : Int) : Nat := (v % 2 ^ 64).toNat

/-- `VideoFramePrivate::grayval`. -/
def grayval (r g b : Int) : Int := (11 * r + 16 * g + 5 * b) >>> (5 : Nat)

/-- `VideoFramePrivate::rgbToHsl`: the values stored through `h`, `s`, `l`. -/
def rgbToHsl (r g b : Int) : Int × Int × Int :=
  let max := Max.max r (Max.max g b)
  let min := Min.min r (Min.min g b)
  let c := max - min
  let l := (max + min).tdiv 2
  if c = 0 then (0, 0, l)
  else
    let h :=
      if max = r then mod (g - b) (6 * c)
      else if max = g then b - r + 2 * c
      else r - g + 4 * c
    let h := (60 * h).tdiv c
    let s := (255 * c).tdiv (255 - c_abs (max + min - 255))
    (h, s, l)

/-- `VideoFramePrivate::hslToRgb`: the values stored through `r`, `g`, `b`. -/
def hslToRgb (h s l : Int) : Int × Int × Int :=
  let c := (s * (255 - c_abs (2 * l - 255))).tdiv 255
  let x := (c * (60 - c_abs (h.tmod 120 - 60))).tdiv 60
  let rgb : Int × Int × Int :=
    if h ≥ 0 ∧ h < 60 then (c, x, 0)
    else if h ≥ 60 ∧ h < 120 then (x, c, 0)
    else if h ≥ 120 ∧ h < 180 then (0, c, x)
    else if h ≥ 180 ∧ h < 240 then (0, x, c)
    else if h ≥ 240 ∧ h < 300 then (x, 0, c)
    else if h ≥ 300 ∧ h < 360 then (c, 0, x)
    else (0, 0, 0)
  let m := 2 * l - c
  ((2 * rgb.1 + m).tdiv 2, (2 * rgb.2.1 + m).tdiv 2, (2 * rgb.2.2 + m).tdiv 2)

/-- `VideoFramePrivate::extrapolateUp`: the values stored through `srcCoordMin`,
`srcCoordMax`, `kNum`, `kDen`. -/
def extrapolateUp (dstCoord num den s : Int) : Int × Int × Int × Int :=
  let srcCoordMin := (num * dstCoord + s).tdiv den
  let srcCoordMax := srcCoordMin + 1
  let dstCoordMin := (den * srcCoordMin - s).tdiv num
  let dstCoordMax := (den * srcCoordMax - s).tdiv num
  (srcCoordMin, srcCoordMax, dstCoord - dstCoordMin, dstCoordMax - dstCoordMin)

/-- `VideoFramePrivate::extrapolateDown`: the values stored through `srcCoordMin`,
`srcCoordMax`, `kNum`, `kDen`. -/
def extrapolateDown (dstCoord num den s : Int) : Int × Int × Int × Int :=
  let srcCoordMin := (num * dstCoord + s).tdiv den
  (srcCoordMin, srcCoordMin, 0, 1)

/-- `VideoFramePrivate::extrapolateComponent`. -/
def extrapolateComponent (min max : uint8_t) (kNum kDen : Int) : uint8_t :=
  toUInt8 ((kNum * ((max.val : Int) - (min.val : Int)) + kDen * (min.val : Int)).tdiv kDen)

/-- A value of `struct RGB24`, members in declaration order. -/
structure RGB24Value where
  b : uint8_t
  g : uint8_t
  r : uint8_t
  deriving DecidableEq, Repr

/-- Read of the struct `line[x]` of an array of `RGB24`. -/
def getPixel (data : VideoData) (line x : Nat) : RGB24Value :=
  { b := getField data line RGB24.sizeof x RGB24.b
    g := getField data line RGB24.sizeof x RGB24.g
    r := getField data line RGB24.sizeof x RGB24.r }

/-- The struct assignment `line[x] = v` into an array of `RGB24`. -/
def setPixel (data : VideoData) (line x : Nat) (v : RGB24Value) : VideoData :=
  let data := setField data line RGB24.sizeof x RGB24.b v.b
  let data := setField data line RGB24.sizeof x RGB24.g v.g
  let data := setField data line RGB24.sizeof x RGB24.r v.r
  data

/-- `memcpy(dst, src, n)` from the buffer `src` into the buffer `data`. -/
def memcpy (data : VideoData) (dst : Nat) (src : VideoData) (srcOff n : Nat) : VideoData :=
  forLoop (n : Int) data fun i data => poke data (dst + i) (peek src (srcOff + i))

/-- `VideoFramePrivate::extrapolateColor(colorMin, colorMax, kNum, kDen)`. -/
def extrapolateColor (colorMin colorMax : RGB24Value) (kNum kDen : Int) : RGB24Value :=
  { b := extrapolateComponent colorMin.b colorMax.b kNum kDen
    g := extrapolateComponent colorMin.g colorMax.g kNum kDen
    r := extrapolateComponent colorMin.r colorMax.r kNum kDen }

/-- `VideoFramePrivate::extrapolateColor(xMin, xMax, kNumX, kDenX, yMin, yMax, kNumY,
kDenY)` on the frame `self`. -/
def VideoFrame.extrapolateColor (L : Layout) (self : VideoFrame)
    (xMin xMax kNumX kDenX yMin yMax kNumY kDenY : Int) : RGB24Value :=
  let minLine := self.line L 0 yMin.toNat
  let maxLine := self.line L 0 yMax.toNat
  let colorMin := AkVCam.extrapolateColor (getPixel self.m_data minLine xMin.toNat)
    (getPixel self.m_data minLine xMax.toNat) kNumX kDenX
  let colorMax := AkVCam.extrapolateColor (getPixel self.m_data maxLine xMin.toNat)
    (getPixel self.m_data maxLine xMax.toNat) kNumX kDenX
  AkVCam.extrapolateColor colorMin colorMax kNumY kDenY

/-- `VideoFrame::mirror(horizontalMirror, verticalMirror)`. -/
def VideoFrame.mirror (L : Layout) (self : VideoFrame)
    (horizontalMirror verticalMirror : Bool) : VideoFrame :=
  if !horizontalMirror && !verticalMirror then self
  else if self.m_format.fourcc ∉ m_adjustFormats then {}
  else
    let dst := VideoFrame.ofFormat L self.m_format
    let width := self.m_format.width
    let height := self.m_format.height
    if horizontalMirror && verticalMirror then
      { dst with m_data :=
          forLoop height dst.m_data fun y data =>
            let srcLine := self.line L 0 (height - y - 1).toNat
            let dstLine := dst.line L 0 y
            forLoop width data fun x data =>
              setPixel data dstLine x (getPixel self.m_data srcLine (width - x - 1).toNat) }
    else if horizontalMirror then
      { dst with m_data :=
          forLoop height dst.m_data fun y data =>
            let srcLine := self.line L 0 y
            let dstLine := dst.line L 0 y
            forLoop width data fun x data =>
              setPixel data dstLine x (getPixel self.m_data srcLine (width - x - 1).toNat) }
    else if verticalMirror then
      { dst with m_data :=
          forLoop height dst.m_data fun y data =>
            let srcLine := self.line L 0 (height - y - 1).toNat
            let dstLine := dst.line L 0 y
            memcpy data dstLine self.m_data srcLine (width.toNat * RGB24.sizeof) }
    else dst

/-- `VideoFrame::scaled(width, height, mode, aspectRatio)`. -/
def VideoFrame.scaled (L : Layout) (self : VideoFrame) (width height : Int)
    (mode : Scaling) (aspectRatio : AspectRatio) : VideoFrame :=
  if self.m_format.width = width ∧ self.m_format.height = height then self
  else if self.m_format.fourcc ∉ m_adjustFormats then {}
  else
    let xDstMin : Int := 0
    let yDstMin : Int := 0
    let xDstMax : Int := width
    let yDstMax : Int := height
    let (xDstMin, xDstMax, yDstMin, yDstMax) :=
      if aspectRatio = AspectRatio.AspectRatioKeep then
        if width * self.m_format.height > self.m_format.width * height then
          ((width * self.m_format.height - self.m_format.width * height).tdiv
              (2 * self.m_format.height),
            (width * self.m_format.height + self.m_format.width * height).tdiv
              (2 * self.m_format.height),
            yDstMin, yDstMax)
        else if width * self.m_format.height < self.m_format.width * height then
          (xDstMin, xDstMax,
            (self.m_format.width * height - width * self.m_format.height).tdiv
              (2 * self.m_format.width),
            (self.m_format.width * height + width * self.m_format.height).tdiv
              (2 * self.m_format.width))
        else (xDstMin, xDstMax, yDstMin, yDstMax)
      else (xDstMin, xDstMax, yDstMin, yDstMax)
    let iWidth := self.m_format.width - 1
    let iHeight := self.m_format.height - 1
    let oWidth := xDstMax - xDstMin - 1
    let oHeight := yDstMax - yDstMin - 1
    let xNum := iWidth
    let xDen := oWidth
    let xs : Int := 0
    let yNum := iHeight
    let yDen := oHeight
    let ys : Int := 0
    let (xNum, xDen, xs, yNum, yDen, ys) :=
      if aspectRatio = AspectRatio.AspectRatioExpanding then
        let (iWidth, iHeight, oWidth, oHeight) :=
          if mode = Scaling.ScalingLinear then (iWidth - 1, iHeight - 1, oWidth - 1, oHeight - 1)
          else (iWidth, iHeight, oWidth, oHeight)
        if width * self.m_format.height < self.m_format.width * height then
          (2 * iHeight, 2 * oHeight, iWidth * oHeight - oWidth * iHeight, yNum, yDen, ys)
        else if width * self.m_format.height > self.m_format.width * height then
          (xNum, xDen, xs, 2 * iWidth, 2 * oWidth, oWidth * iHeight - iWidth * oHeight)
        else (xNum, xDen, xs, yNum, yDen, ys)
      else (xNum, xDen, xs, yNum, yDen, ys)
    let format := { self.m_format with width := width, height := height }
    let dst := VideoFrame.ofFormat L format
    match mode with
    | Scaling.ScalingFast =>
      { dst with m_data :=
          forLoop (yDstMax - yDstMin) dst.m_data fun ky data =>
            let y := yDstMin + ky
            let srcY := (yNum * (y - yDstMin) + ys).tdiv yDen
            let srcLine := self.line L 0 srcY.toNat
            let dstLine := dst.line L 0 y.toNat
            forLoop (xDstMax - xDstMin) data fun kx data =>
              let x := xDstMin + kx
              let srcX := (xNum * (x - xDstMin) + xs).tdiv xDen
              setPixel data dstLine x.toNat (getPixel self.m_data srcLine srcX.toNat) }
    | Scaling.ScalingLinear =>
      let extrapolateX := if self.m_format.width < width then extrapolateUp else extrapolateDown
      let extrapolateY := if self.m_format.height < height then extrapolateUp else extrapolateDown
      { dst with m_data :=
          forLoop (yDstMax - yDstMin) dst.m_data fun ky data =>
            let y := yDstMin + ky
            let dstLine := dst.line L 0 y.toNat
            let (yMin, yMax, kNumY, kDenY) := extrapolateY (y - yDstMin) yNum yDen ys
            forLoop (xDstMax - xDstMin) data fun kx data =>
              let x := xDstMin + kx
              let (xMin, xMax, kNumX, kDenX) := extrapolateX (x - xDstMin) xNum xDen xs
              let color := self.extrapolateColor L xMin xMax kNumX kDenX yMin yMax kNumY kDenY
              setPixel data dstLine x.toNat color }

/-- `VideoFrame::swapRgb(bool swap)`. -/
def VideoFrame.swapRgbIf (L : Layout) (self : VideoFrame) (swap : Bool) : VideoFrame :=
  if swap then self.swapRgb L else self

/-- `VideoFrame::adjustHsl(hue, saturation, luminance)`. -/
def VideoFrame.adjustHsl (L : Layout) (self : VideoFrame) (hue saturation luminance : Int) :
    VideoFrame :=
  if hue = 0 ∧ saturation = 0 ∧ luminance = 0 then self
  else if self.m_format.fourcc ∉ m_adjustFormats then {}
  else
    let dst := VideoFrame.ofFormat L self.m_format
    { dst with m_data :=
        forLoop self.m_format.height dst.m_data fun y data =>
          let srcLine := self.line L 0 y
          let destLine := dst.line L 0 y
          forLoop self.m_format.width data fun x data =>
            let (h, s, l) := rgbToHsl (getField self.m_data srcLine RGB24.sizeof x RGB24.r).val
              (getField self.m_data srcLine RGB24.sizeof x RGB24.g).val
              (getField self.m_data srcLine RGB24.sizeof x RGB24.b).val
            let h := mod (h + hue) 360
            let s := bound 0 (s + saturation) 255
            let l := bound 0 (l + luminance) 255
            let (r, g, b) := hslToRgb h s l
            let data := setField data destLine RGB24.sizeof x RGB24.r (toUInt8 r)
            let data := setField data destLine RGB24.sizeof x RGB24.g (toUInt8 g)
            let data := setField data destLine RGB24.sizeof x RGB24.b (toUInt8 b)
            data }

/-- `VideoFrame::adjustGamma(gamma)`. -/
def VideoFrame.adjustGamma (L : Layout) (T : Tables) (self : VideoFrame) (gamma : Int) :
    VideoFrame :=
  if gamma = 0 then self
  else if self.m_format.fourcc ∉ m_adjustFormats then {}
  else
    let dst := VideoFrame.ofFormat L self.m_format
    let dataGt := T.gamma
    let gamma := bound (-255) gamma 255
    let gammaOffset := toSizeT (gamma + 255) <<< 8
    { dst with m_data :=
        forLoop self.m_format.height dst.m_data fun y data =>
          let srcLine := self.line L 0 y
          let destLine := dst.line L 0 y
          forLoop self.m_format.width data fun x data =>
            let data := setField data destLine RGB24.sizeof x RGB24.r
              (peek dataGt (gammaOffset ||| (getField self.m_data srcLine RGB24.sizeof x RGB24.r).val))
            let data := setField data destLine RGB24.sizeof x RGB24.g
              (peek dataGt (gammaOffset ||| (getField self.m_data srcLine RGB24.sizeof x RGB24.g).val))
            let data := setField data destLine RGB24.sizeof x RGB24.b
              (peek dataGt (gammaOffset ||| (getField self.m_data srcLine RGB24.sizeof x RGB24.b).val))
            data }

/-- `VideoFrame::adjustContrast(contrast)`. -/
def VideoFrame.adjustContrast (L : Layout) (T : Tables) (self : VideoFrame) (contrast : Int) :
    VideoFrame :=
  if contrast = 0 then self
  else if self.m_format.fourcc ∉ m_adjustFormats then {}
  else
    let dst := VideoFrame.ofFormat L self.m_format
    let dataCt := T.contrast
    let contrast := bound (-255) contrast 255
    let contrastOffset := toSizeT (contrast + 255) <<< 8
    { dst with m_data :=
        forLoop self.m_format.height dst.m_data fun y data =>
          let srcLine := self.line L 0 y
          let destLine := dst.line L 0 y
          forLoop self.m_format.width data fun x data =>
            let data := setField data destLine RGB24.sizeof x RGB24.r
              (peek dataCt
                (contrastOffset ||| (getField self.m_data srcLine RGB24.sizeof x RGB24.r).val))
            let data := setField data destLine RGB24.sizeof x RGB24.g
              (peek dataCt
                (contrastOffset ||| (getField self.m_data srcLine RGB24.sizeof x RGB24.g).val))
            let data := setField data destLine RGB24.sizeof x RGB24.b
              (peek dataCt
                (contrastOffset ||| (getField self.m_data srcLine RGB24.sizeof x RGB24.b).val))
            data }

/-- `VideoFrame::toGrayScale()`. -/
def VideoFrame.toGrayScale (L : Layout) (self : VideoFrame) : VideoFrame :=
  if self.m_format.fourcc ∉ m_adjustFormats then {}
  else
    let dst := VideoFrame.ofFormat L self.m_format
    { dst with m_data :=
        forLoop self.m_format.height dst.m_data fun y data =>
          let srcLine := self.line L 0 y
          let destLine := dst.line L 0 y
          forLoop self.m_format.width data fun x data =>
            let luma := grayval (getField self.m_data srcLine RGB24.sizeof x RGB24.r).val
              (getField self.m_data srcLine RGB24.sizeof x RGB24.g).val
              (getField self.m_data srcLine RGB24.sizeof x RGB24.b).val
            let data := setField data destLine RGB24.sizeof x RGB24.r (toUInt8 luma)
            let data := setField data destLine RGB24.sizeof x RGB24.g (toUInt8 luma)
            let data := setField data destLine RGB24.sizeof x RGB24.b (toUInt8 luma)
            data }

/-- `VideoFrame::adjust(hue, saturation, luminance, gamma, contrast, gray)`. -/
def VideoFrame.adjust (L : Layout) (T : Tables) (self : VideoFrame)
    (hue saturation luminance gamma contrast : Int) (gray : Bool) : VideoFrame :=
  if hue = 0 ∧ saturation = 0 ∧ luminance = 0 ∧ gamma = 0 ∧ contrast = 0 ∧ !gray then self
  else if self.m_format.fourcc ∉ m_adjustFormats then {}
  else
    let dst := VideoFrame.ofFormat L self.m_format
    let dataGt := T.gamma
    let dataCt := T.contrast
    let gamma := bound (-255) gamma 255
    let gammaOffset := toSizeT (gamma + 255) <<< 8
    let contrast := bound (-255) contrast 255
    let contrastOffset := toSizeT (contrast + 255) <<< 8
    { dst with m_data :=
        forLoop self.m_format.height dst.m_data fun y data =>
          let srcLine := self.line L 0 y
          let destLine := dst.line L 0 y
          forLoop self.m_format.width data fun x data =>
            let r : Int := (getField self.m_data srcLine RGB24.sizeof x RGB24.r).val
            let g : Int := (getField self.m_data srcLine RGB24.sizeof x RGB24.g).val
            let b : Int := (getField self.m_data srcLine RGB24.sizeof x RGB24.b).val
            let (r, g, b) :=
              if hue ≠ 0 ∨ saturation ≠ 0 ∨ luminance ≠ 0 then
                let (h, s, l) := rgbToHsl r g b
                let h := mod (h + hue) 360
                let s := bound 0 (s + saturation) 255
                let l := bound 0 (l + luminance) 255
                hslToRgb h s l
              else (r, g, b)
            let (r, g, b) : Int × Int × Int :=
              if gamma ≠ 0 then
                (((peek dataGt (gammaOffset ||| toSizeT r)).val : Int),
                  ((peek dataGt (gammaOffset ||| toSizeT g)).val : Int),
                  ((peek dataGt (gammaOffset ||| toSizeT b)).val : Int))
              else (r, g, b)
            let (r, g, b) : Int × Int × Int :=
              if contrast ≠ 0 then
                (((peek dataCt (contrastOffset ||| toSizeT r)).val : Int),
                  ((peek dataCt (contrastOffset ||| toSizeT g)).val : Int),
                  ((peek dataCt (contrastOffset ||| toSizeT b)).val : Int))
              else (r, g, b)
            let (r, g, b) :=
              if gray then
                let luma := grayval r g b
                (luma, luma, luma)
              else (r, g, b)
            let data := setField data destLine RGB24.sizeof x RGB24.r (toUInt8 r)
            let data := setField data destLine RGB24.sizeof x RGB24.g (toUInt8 g)
            let data := setField data destLine RGB24.sizeof x RGB24.b (toUInt8 b)
            data }

/-! ## A concrete layout -/

/-- Modelled from the spec: bits per pixel of the interleaved encodings (32 for RGB32/BGR32,
24 for RGB24/BGR24, 16 for the 15/16-bit and the packed YUV encodings); `VideoFormat` is
implemented in `videoformat.cpp`, which is not among the sources at hand. -/
def specBpp (fourcc : FourCC) : Nat :=
  if fourcc = PixelFormatRGB32 ∨ fourcc = PixelFormatBGR32 then 32
  else if fourcc = PixelFormatRGB24 ∨ fourcc = PixelFormatBGR24 then 24
  else if fourcc = PixelFormatRGB16 ∨ fourcc = PixelFormatRGB15
      ∨ fourcc = PixelFormatBGR16 ∨ fourcc = PixelFormatBGR15
      ∨ fourcc = PixelFormatUYVY ∨ fourcc = PixelFormatYUY2 then 16
  else 0

/-- Modelled from the spec: the layout of a format descriptor without row padding
(`VideoFormat::size`, `bypl`, `offset` of `videoformat.cpp`, which is not among the sources
at hand). Interleaved encodings have one plane of `width * bpp / 8` bytes per line; NV12 and
NV21 have a full-resolution luma plane followed by a half-resolution plane of interleaved
chroma pairs; the total size is the sum over planes of bytes per line times plane height,
and is zero when the width or the height is not positive. -/
def specLayout : Layout where
  bypl := fun format plane =>
    if format.fourcc = PixelFormatNV12 ∨ format.fourcc = PixelFormatNV21 then
      if plane = 0 then format.width.toNat else 2 * ((format.width.toNat + 1) / 2)
    else format.width.toNat * specBpp format.fourcc / 8
  offset := fun format plane =>
    if format.fourcc = PixelFormatNV12 ∨ format.fourcc = PixelFormatNV21 then
      if plane = 0 then 0 else format.width.toNat * format.height.toNat
    else 0
  size := fun format =>
    if format.width ≤ 0 ∨ format.height ≤ 0 then 0
    else if format.fourcc = PixelFormatNV12 ∨ format.fourcc = PixelFormatNV21 then
      format.width.toNat * format.height.toNat
        + 2 * ((format.width.toNat + 1) / 2) * ((format.height.toNat + 1) / 2)
    else format.width.toNat * specBpp format.fourcc / 8 * format.height.toNat

/-- A 2x2 frame of the given encoding over `specLayout` whose 12 bytes are `10, 20, ...`. -/
def sampleFrame (fourcc : FourCC) : VideoFrame :=
  { m_format := { fourcc := fourcc, width := 2, height := 2 }
    m_data := [10, 20, 30, 40, 50, 60, 70, 80, 90, 100, 110, 120] }

/-- A frame of the given encoding, 2 pixels wide and 4 pixels high, over `specLayout`, whose
24 bytes are `10, 20, ...`. -/
def tallFrame (fourcc : FourCC) : VideoFrame :=
  { m_format := { fourcc := fourcc, width := 2, height := 4 }
    m_data := [10, 20, 30, 40, 50, 60, 70, 80, 90, 100, 110, 120,
      130, 140, 150, 160, 170, 180, 190, 200, 210, 220, 230, 240] }

/-! ## The lookup tables -/

/-- The floating point expressions evaluated by `initGammaTable` and `initContrastTable` for
one table entry. `gammaFirst i` is `uint8_t(255. * pow(i / 255., 255))`, `gammaEntry gamma i`
is `uint8_t(255. * pow(i / 255., k))` with `k = 255. / (gamma + 255)`, and
`contrastEntry contrast i` is `int(f * (i - 128) + 128.)` with
`f = 259. * (255 + contrast) / (255. * (259 - contrast))`. The initialisers are embedded
over arbitrary values of these expressions. -/
structure FloatExprs where
  gammaFirst : Nat → uint8_t
  gammaEntry : Int → Nat → uint8_t
  contrastEntry : Int → Nat → Int

/-- `initGammaTable()`. -/
def initGammaTable (F : FloatExprs) : VideoData :=
  let gammaTable : VideoData := forLoop 256 [] fun i gammaTable => gammaTable ++ [F.gammaFirst i]
  forLoop (256 - (-254)) gammaTable fun j gammaTable =>
    let gamma : Int := -254 + j
    forLoop 256 gammaTable fun i gammaTable => gammaTable ++ [F.gammaEntry gamma i]

/-- `initContrastTable()`. -/
def initContrastTable (F : FloatExprs) : VideoData :=
  forLoop (256 - (-255)) [] fun j contrastTable =>
    let contrast : Int := -255 + j
    forLoop 256 contrastTable fun i contrastTable =>
      contrastTable ++ [toUInt8 (bound 0 (F.contrastEntry contrast i) 255)]

/-! ## The geometry of `scaled` -/

/-- The local variables of `VideoFrame::scaled` that its loops use, after the computations
for `AspectRatioKeep` and `AspectRatioExpanding`. -/
structure ScaledGeometry where
  xDstMin : Int
  xDstMax : Int
  yDstMin : Int
  yDstMax : Int
  xNum : Int
  xDen : Int
  xs : Int
  yNum : Int
  yDen : Int
  ys : Int
  deriving DecidableEq, Repr

/-- The statements of `VideoFrame::scaled` between the check of the encoding and the
construction of the destination frame, for a source of size `srcWidth x srcHeight`
(`m_format.width()`, `m_format.height()`). -/
def scaledGeometry (srcWidth srcHeight width height : Int) (mode : Scaling)
    (aspectRatio : AspectRatio) : ScaledGeometry :=
  let xDstMin : Int := 0
  let yDstMin : Int := 0
  let xDstMax : Int := width
  let yDstMax : Int := height
  let (xDstMin, xDstMax, yDstMin, yDstMax) :=
    if aspectRatio = AspectRatio.AspectRatioKeep then
      if width * srcHeight > srcWidth * height then
        ((width * srcHeight - srcWidth * height).tdiv (2 * srcHeight),
          (width * srcHeight + srcWidth * height).tdiv (2 * srcHeight),
          yDstMin, yDstMax)
      else if width * srcHeight < srcWidth * height then
        (xDstMin, xDstMax,
          (srcWidth * height - width * srcHeight).tdiv (2 * srcWidth),
          (srcWidth * height + width * srcHeight).tdiv (2 * srcWidth))
      else (xDstMin, xDstMax, yDstMin, yDstMax)
    else (xDstMin, xDstMax, yDstMin, yDstMax)
  let iWidth := srcWidth - 1
  let iHeight := srcHeight - 1
  let oWidth := xDstMax - xDstMin - 1
  let oHeight := yDstMax - yDstMin - 1
  let xNum := iWidth
  let xDen := oWidth
  let xs : Int := 0
  let yNum := iHeight
  let yDen := oHeight
  let ys : Int := 0
  let (xNum, xDen, xs, yNum, yDen, ys) :=
    if aspectRatio = AspectRatio.AspectRatioExpanding then
      let (iWidth, iHeight, oWidth, oHeight) :=
        if mode = Scaling.ScalingLinear then (iWidth - 1, iHeight - 1, oWidth - 1, oHeight - 1)
        else (iWidth, iHeight, oWidth, oHeight)
      if width * srcHeight < srcWidth * height then
        (2 * iHeight, 2 * oHeight, iWidth * oHeight - oWidth * iHeight, yNum, yDen, ys)
      else if width * srcHeight > srcWidth * height then
        (xNum, xDen, xs, 2 * iWidth, 2 * oWidth, oWidth * iHeight - iWidth * oHeight)
      else (xNum, xDen, xs, yNum, yDen, ys)
    else (xNum, xDen, xs, yNum, yDen, ys)
  { xDstMin := xDstMin, xDstMax := xDstMax, yDstMin := yDstMin, yDstMax := yDstMax,
    xNum := xNum, xDen := xDen, xs := xs, yNum := yNum, yDen := yDen, ys := ys }

/-- A frame of the given encoding, 4 pixels wide and 2 pixels high, over `specLayout`, whose
24 bytes are `10, 20, ...`. -/
def wideFrame (fourcc : FourCC) : VideoFrame :=
  { m_format := { fourcc := fourcc, width := 4, height := 2 }
    m_data := [10, 20, 30, 40, 50, 60, 70, 80, 90, 100, 110, 120,
      130, 140, 150, 160, 170, 180, 190, 200, 210, 220, 230, 240] }

/-- Tables of `511 * 256` entries that are all 7 (gamma) and all 9 (contrast). -/
def constTables : Tables :=
  { gamma := List.replicate (511 * 256) 7, contrast := List.replicate (511 * 256) 9 }

/-! ## The bitmap decoder -/

/-- The state of the `std::ifstream` of `load` once it is open: the bytes of the file, the
read position and the fail bit. -/
structure IfStream where
  bytes : VideoData
  pos : Nat := 0
  fail : Bool := false

/-- The stream after `stream.read(buf, n)` and the bytes it extracted: all `n` of them, or
those left before the end of the file, in which case the fail bit is set. Nothing is
extracted from a stream whose fail bit is set. -/
def IfStream.read (stream : IfStream) (n : Nat) : IfStream × VideoData :=
  if stream.fail then (stream, [])
  else
    let got := (stream.bytes.drop stream.pos).take n
    ({ stream with pos := stream.pos + got.length, fail := decide (got.length < n) }, got)

/-- `stream.seekg(off, std::ios_base::beg)`; it does nothing on a stream whose fail bit is
set. -/
def IfStream.seekg (stream : IfStream) (off : Nat) : IfStream :=
  if stream.fail then stream else { stream with pos := off }

/-- The buffer `buf` after `stream.read` stored the extracted bytes `got` at its start. -/
def stored (buf got : VideoData) : VideoData := got ++ buf.drop got.length

/-- `std::vector::resize(n)`: the first `n` elements are kept, new elements are zero. -/
def resize (data : VideoData) (n : Nat) : VideoData :=
  data.take n ++ List.replicate (n - data.length) 0

/-- A `uint16_t` member at byte offset `p` of a struct read from the file (little-endian). -/
def uint16At (data : VideoData) (p : Nat) : Nat :=
  (peek data p).val + 256 * (peek data (p + 1)).val

/-- A `uint32_t` member at byte offset `p` of a struct read from the file (little-endian). -/
def uint32At (data : VideoData) (p : Nat) : Nat :=
  (peek data p).val + 256 * (peek data (p + 1)).val + 65536 * (peek data (p + 2)).val
    + 16777216 * (peek data (p + 3)).val

/-- The conversion `int(v)` of a `uint32_t` (two's complement). -/
def c_int (v : Nat) : Int := if v < 2147483648 then (v : Int) else (v : Int) - 4294967296

namespace BmpHeader
/-- Byte offset of the member `offBits` of `struct BmpHeader`. -/
def offBits : Nat := 8
/-- The size of `struct BmpHeader`. -/
def sizeof : Nat := 12
end BmpHeader

namespace BmpImageHeader
/-- Byte offset of the member `width` of `struct BmpImageHeader`. -/
def width : Nat := 4
/-- Byte offset of the member `height`. -/
def height : Nat := 8
/-- Byte offset of the member `bitCount`. -/
def bitCount : Nat := 14
/-- Byte offset of the member `sizeImage`. -/
def sizeImage : Nat := 20
/-- The size of `struct BmpImageHeader`. -/
def sizeof : Nat := 40
end BmpImageHeader

/-- The three reads at the start of `load`: the buffers `type`, `header` and `imageHeader`
after them, and the stream. `typeInit` is the indeterminate initial content of `type`; the
two structs are zero-initialised. -/
def loadHeaders (bytes typeInit : VideoData) : VideoData × VideoData × VideoData × IfStream :=
  let stream : IfStream := { bytes := bytes }
  let (stream, got) := stream.read 2
  let type := stored typeInit got
  let (stream, got) := stream.read BmpHeader.sizeof
  let header := stored (List.replicate BmpHeader.sizeof 0) got
  let (stream, got) := stream.read BmpImageHeader.sizeof
  let imageHeader := stored (List.replicate BmpImageHeader.sizeof 0) got
  (type, header, imageHeader, stream)

/-- The part of `load` after the size check: the frame is given the format and resized, the
pixel data are read at `offBits` and copied row by row according to `bitCount`. -/
def loadPixels (L : Layout) (self : VideoFrame) (header imageHeader : VideoData)
    (stream : IfStream) (format : VideoFormat) : Bool × VideoFrame :=
  let width := uint32At imageHeader BmpImageHeader.width
  let height := uint32At imageHeader BmpImageHeader.height
  let sizeImage := uint32At imageHeader BmpImageHeader.sizeImage
  let stream := stream.seekg (uint32At header BmpHeader.offBits)
  let frame : VideoFrame := { m_format := format, m_data := resize self.m_data (L.size format) }
  let data := stored (List.replicate sizeImage 0) (stream.read sizeImage).2
  if uint16At imageHeader BmpImageHeader.bitCount = 24 then
    let bmpFormat : VideoFormat :=
      { fourcc := PixelFormatBGR24, width := c_int width, height := c_int height }
    let m_data :=
      forLoop height frame.m_data fun y m_data =>
        let srcLine := y * L.bypl bmpFormat 0
        let dstLine := frame.line L 0 (height - y - 1)
        forLoop width m_data fun x m_data =>
          let m_data := setField m_data dstLine RGB24.sizeof x RGB24.r
            (getField data srcLine BGR24.sizeof x BGR24.r)
          let m_data := setField m_data dstLine RGB24.sizeof x RGB24.g
            (getField data srcLine BGR24.sizeof x BGR24.g)
          let m_data := setField m_data dstLine RGB24.sizeof x RGB24.b
            (getField data srcLine BGR24.sizeof x BGR24.b)
          m_data
    (true, { m_format := format, m_data := m_data })
  else if uint16At imageHeader BmpImageHeader.bitCount = 32 then
    let bmpFormat : VideoFormat :=
      { fourcc := PixelFormatBGR32, width := c_int width, height := c_int height }
    let m_data :=
      forLoop height frame.m_data fun y m_data =>
        let srcLine := y * L.bypl bmpFormat 0
        let dstLine := frame.line L 0 (height - y - 1)
        forLoop width m_data fun x m_data =>
          let m_data := setField m_data dstLine RGB24.sizeof x RGB24.r
            (getField data srcLine BGR32.sizeof x BGR32.r)
          let m_data := setField m_data dstLine RGB24.sizeof x RGB24.g
            (getField data srcLine BGR32.sizeof x BGR32.g)
          let m_data := setField m_data dstLine RGB24.sizeof x RGB24.b
            (getField data srcLine BGR32.sizeof x BGR32.b)
          m_data
    (true, { m_format := format, m_data := m_data })
  else (false, {})

/-- `VideoFrame::load(fileName)`: the value returned and the frame after the call. `file` is
the content of the file named `fileName`, or `none` when it cannot be opened. -/
def VideoFrame.load (L : Layout) (self : VideoFrame) (fileName : String)
    (file : Option VideoData) (typeInit : VideoData) : Bool × VideoFrame :=
  if fileName.isEmpty then (false, self)
  else
    match file with
    | none => (false, self)
    | some bytes =>
      let (type, header, imageHeader, stream) := loadHeaders bytes typeInit
      if type.take 2 ≠ [66, 77] then (false, self)
      else
        let format : VideoFormat :=
          { fourcc := PixelFormatRGB24,
            width := c_int (uint32At imageHeader BmpImageHeader.width),
            height := c_int (uint32At imageHeader BmpImageHeader.height) }
        if L.size format < 1 then (false, self)
        else loadPixels L self header imageHeader stream format

/-- The bitmap of the decoding scenario of the spec, a 24-bit bitmap one pixel
wide and two pixels high whose stored bottom row is `[B=10, G=20, R=30]` and whose top row is
`[B=40, G=50, R=60]`, with the rows 3 bytes apart as in `specLayout`: the magic, the 12-byte
file header with `offBits = 54`, the 40-byte image header with `width = 1`, `height = 2`,
`planes = 1`, `bitCount = 24`, `sizeImage = 6`, and the pixel data. -/
def scenarioBitmap : VideoData :=
  [66, 77,
    60, 0, 0, 0, 0, 0, 0, 0, 54, 0, 0, 0,
    40, 0, 0, 0, 1, 0, 0, 0, 2, 0, 0, 0, 1, 0, 24, 0, 0, 0, 0, 0, 6, 0, 0, 0,
    0, 0, 0, 0, 0, 0, 0, 0, 0, 0, 0, 0, 0, 0, 0, 0,
    10, 20, 30, 40, 50, 60]

/-! ## The per-pixel computations of the colour adjustments -/

/-- The statements of the inner loop of `adjustHsl` between the reads of the source pixel and
the writes of the destination pixel: the values of `r`, `g`, `b` that are written. -/
def hslPixel (hue saturation luminance : Int) (r g b : Int) : Int × Int × Int :=
  let (h, s, l) := rgbToHsl r g b
  let h := mod (h + hue) 360
  let s := bound 0 (s + saturation) 255
  let l := bound 0 (l + luminance) 255
  hslToRgb h s l

/-- The first statement on `(r, g, b)` of the inner loop of `adjust`: the HSL rotation, when
one of its arguments is not zero. -/
def stageHsl (hue saturation luminance : Int) (rgb : Int × Int × Int) : Int × Int × Int :=
  if hue ≠ 0 ∨ saturation ≠ 0 ∨ luminance ≠ 0 then
    hslPixel hue saturation luminance rgb.1 rgb.2.1 rgb.2.2
  else rgb

/-- The second statement on `(r, g, b)` of the inner loop of `adjust`: the gamma lookup, for
the level `gamma` clamped before the loops. -/
def stageGamma (T : Tables) (gamma : Int) (rgb : Int × Int × Int) : Int × Int × Int :=
  if bound (-255) gamma 255 ≠ 0 then
    (((peek T.gamma ((toSizeT (bound (-255) gamma 255 + 255) <<< 8) ||| toSizeT rgb.1)).val
        : Int),
      ((peek T.gamma ((toSizeT (bound (-255) gamma 255 + 255) <<< 8) ||| toSizeT rgb.2.1)).val
        : Int),
      ((peek T.gamma ((toSizeT (bound (-255) gamma 255 + 255) <<< 8) ||| toSizeT rgb.2.2)).val
        : Int))
  else rgb

/-- The third statement on `(r, g, b)` of the inner loop of `adjust`: the contrast lookup,
for the level `contrast` clamped before the loops. -/
def stageContrast (T : Tables) (contrast : Int) (rgb : Int × Int × Int) : Int × Int × Int :=
  if bound (-255) contrast 255 ≠ 0 then
    (((peek T.contrast
          ((toSizeT (bound (-255) contrast 255 + 255) <<< 8) ||| toSizeT rgb.1)).val : Int),
      ((peek T.contrast
          ((toSizeT (bound (-255) contrast 255 + 255) <<< 8) ||| toSizeT rgb.2.1)).val : Int),
      ((peek T.contrast
          ((toSizeT (bound (-255) contrast 255 + 255) <<< 8) ||| toSizeT rgb.2.2)).val : Int))
  else rgb

/-- The fourth statement on `(r, g, b)` of the inner loop of `adjust`: the luma, when `gray`
is set. -/
def stageGray (gray : Bool) (rgb : Int × Int × Int) : Int × Int × Int :=
  if gray then
    (grayval rgb.1 rgb.2.1 rgb.2.2, grayval rgb.1 rgb.2.1 rgb.2.2, grayval rgb.1 rgb.2.1 rgb.2.2)
  else rgb

/-- The members `(r, g, b)` of pixel `(x, y)` of a frame whose rows are arrays of `RGB24`. -/
def VideoFrame.rgb (L : Layout) (self : VideoFrame) (y x : Nat) : uint8_t × uint8_t × uint8_t :=
  (self.field L y RGB24.sizeof x RGB24.r, self.field L y RGB24.sizeof x RGB24.g,
    self.field L y RGB24.sizeof x RGB24.b)

/-- The members of a pixel as the `int` values that the loops compute with. -/
def ints3 (p : uint8_t × uint8_t × uint8_t) : Int × Int × Int :=
  ((p.1.val : Int), (p.2.1.val : Int), (p.2.2.val : Int))

/-- The conversion `uint8_t(r)`, `uint8_t(g)`, `uint8_t(b)` of the values written to a
pixel. -/
def bytes3 (rgb : Int × Int × Int) : uint8_t × uint8_t × uint8_t :=
  (toUInt8 rgb.1, toUInt8 rgb.2.1, toUInt8 rgb.2.2)

/-- A 2x2 RGB24 frame over `specLayout` whose pixels are the gray `(50, 50, 50)`, the pixel
with bytes `1, 2, 3`, white and black. -/
def grayFrame : VideoFrame :=
  { m_format := { fourcc := PixelFormatRGB24, width := 2, height := 2 }
    m_data := [50, 50, 50, 1, 2, 3, 255, 255, 255, 0, 0, 0] }

/-! ## The adjustment pipeline of the stream -/

/-- The value of a C `int` expression whose mathematical value is `v`: `v` reduced modulo
`2^32` to the range `[-2^31, 2^31)`. -/
def int32 (v : Int) : Int := (v + 2147483648) % 4294967296 - 2147483648

/-- C `a / b` on `int`. -/
def cdiv (a b : Int) : Option Int :=
  if b = 0 ∨ (a = -2147483648 ∧ b = -1) then none else some (a.tdiv b)

/-- C `a % b` on `int`. -/
def cmod (a b : Int) : Option Int :=
  if b = 0 ∨ (a = -2147483648 ∧ b = -1) then none else some (a.tmod b)

/-- A `for (int i = 0; i < n; i++)` loop whose body can stop the program: the state after
the loop, or `none` when an iteration stopped it. -/
def forLoopT {σ : Type} (n : Int) (s : σ) (body : Nat → σ → Option σ) : Option σ :=
  forLoop n (some s) fun i s => s.bind (body i)

/-- `VideoFramePrivate::mod(value, mod)` in machine arithmetic. -/
def Machine.mod (value mod : Int) : Option Int := do
  let r ← cmod value mod
  cmod (int32 (r + mod)) mod

/-- `VideoFramePrivate::rgbToHsl` in machine arithmetic: the values stored through `h`, `s`,
`l`, or `none` when a division stops the program. -/
def Machine.rgbToHsl (r g b : Int) : Option (Int × Int × Int) := do
  let max := Max.max r (Max.max g b)
  let min := Min.min r (Min.min g b)
  let c := int32 (max - min)
  let l ← cdiv (int32 (max + min)) 2
  if c = 0 then pure (0, 0, l)
  else
    let h ←
      if max = r then Machine.mod (int32 (g - b)) (int32 (6 * c))
      else if max = g then pure (int32 (b - r + 2 * c))
      else pure (int32 (r - g + 4 * c))
    let h ← cdiv (int32 (60 * h)) c
    let s ← cdiv (int32 (255 * c)) (int32 (255 - c_abs (int32 (max + min - 255))))
    pure (h, s, l)

/-- `VideoFramePrivate::extrapolateUp` in machine arithmetic. -/
def Machine.extrapolateUp (dstCoord num den s : Int) : Option (Int × Int × Int × Int) := do
  let srcCoordMin ← cdiv (int32 (num * dstCoord + s)) den
  let srcCoordMax := int32 (srcCoordMin + 1)
  let dstCoordMin ← cdiv (int32 (den * srcCoordMin - s)) num
  let dstCoordMax ← cdiv (int32 (den * srcCoordMax - s)) num
  pure (srcCoordMin, srcCoordMax, int32 (dstCoord - dstCoordMin),
    int32 (dstCoordMax - dstCoordMin))

/-- `VideoFramePrivate::extrapolateDown` in machine arithmetic. -/
def Machine.extrapolateDown (dstCoord num den s : Int) : Option (Int × Int × Int × Int) := do
  let srcCoordMin ← cdiv (int32 (num * dstCoord + s)) den
  pure (srcCoordMin, srcCoordMin, 0, 1)

/-- `VideoFramePrivate::extrapolateComponent` in machine arithmetic. -/
def Machine.extrapolateComponent (min max : uint8_t) (kNum kDen : Int) : Option uint8_t := do
  let v ← cdiv (int32 (kNum * ((max.val : Int) - (min.val : Int)) + kDen * (min.val : Int))) kDen
  pure (toUInt8 v)

/-- `VideoFramePrivate::extrapolateColor(colorMin, colorMax, kNum, kDen)` in machine
arithmetic. -/
def Machine.extrapolateColor (colorMin colorMax : RGB24Value) (kNum kDen : Int) :
    Option RGB24Value := do
  let b ← Machine.extrapolateComponent colorMin.b colorMax.b kNum kDen
  let g ← Machine.extrapolateComponent colorMin.g colorMax.g kNum kDen
  let r ← Machine.extrapolateComponent colorMin.r colorMax.r kNum kDen
  pure { b := b, g := g, r := r }

/-- Read of the struct `line[x]` of an array of `RGB24` that starts at offset `line`, for an
`int` index `x`: the struct at byte offset `line + 3 x`. An offset before the start of the
buffer is outside the buffer, and reads 0 as an offset past its end does. -/
def Machine.getPixelAt (data : VideoData) (line : Nat) (x : Int) : RGB24Value :=
  if 0 ≤ (line : Int) + 3 * x then getPixel data ((line : Int) + 3 * x).toNat 0
  else { b := 0, g := 0, r := 0 }

/-- The struct assignment `line[x] = v` into an array of `RGB24` for an `int` index `x`. -/
def Machine.setPixelAt (data : VideoData) (line : Nat) (x : Int) (v : RGB24Value) :
    VideoData :=
  if 0 ≤ (line : Int) + 3 * x then setPixel data ((line : Int) + 3 * x).toNat 0 v else data

/-- `VideoFramePrivate::extrapolateColor(xMin, xMax, kNumX, kDenX, yMin, yMax, kNumY,
kDenY)` on the frame `self`, in machine arithmetic. -/
def Machine.VideoFrame.extrapolateColor (L : Layout) (self : VideoFrame)
    (xMin xMax kNumX kDenX yMin yMax kNumY kDenY : Int) : Option RGB24Value := do
  let minLine := self.line L 0 (toSizeT yMin)
  let maxLine := self.line L 0 (toSizeT yMax)
  let colorMin ← Machine.extrapolateColor (Machine.getPixelAt self.m_data minLine xMin)
    (Machine.getPixelAt self.m_data minLine xMax) kNumX kDenX
  let colorMax ← Machine.extrapolateColor (Machine.getPixelAt self.m_data maxLine xMin)
    (Machine.getPixelAt self.m_data maxLine xMax) kNumX kDenX
  Machine.extrapolateColor colorMin colorMax kNumY kDenY

/-- The statements of `VideoFrame::scaled` between the check of the encoding and the
construction of the destination frame, in machine arithmetic (`scaledGeometry` is the same
block over `Int`). -/
def Machine.scaledGeometry (srcWidth srcHeight width height : Int) (mode : Scaling)
    (aspectRatio : AspectRatio) : Option ScaledGeometry := do
  let xDstMin : Int := 0
  let yDstMin : Int := 0
  let xDstMax : Int := width
  let yDstMax : Int := height
  let (xDstMin, xDstMax, yDstMin, yDstMax) ←
    if aspectRatio = AspectRatio.AspectRatioKeep then
      if int32 (width * srcHeight) > int32 (srcWidth * height) then do
        let xMin ← cdiv (int32 (width * srcHeight - srcWidth * height)) (int32 (2 * srcHeight))
        let xMax ← cdiv (int32 (width * srcHeight + srcWidth * height)) (int32 (2 * srcHeight))
        pure (xMin, xMax, yDstMin, yDstMax)
      else if int32 (width * srcHeight) < int32 (srcWidth * height) then do
        let yMin ← cdiv (int32 (srcWidth * height - width * srcHeight)) (int32 (2 * srcWidth))
        let yMax ← cdiv (int32 (srcWidth * height + width * srcHeight)) (int32 (2 * srcWidth))
        pure (xDstMin, xDstMax, yMin, yMax)
      else pure (xDstMin, xDstMax, yDstMin, yDstMax)
    else pure (xDstMin, xDstMax, yDstMin, yDstMax)
  let iWidth := int32 (srcWidth - 1)
  let iHeight := int32 (srcHeight - 1)
  let oWidth := int32 (xDstMax - xDstMin - 1)
  let oHeight := int32 (yDstMax - yDstMin - 1)
  let xNum := iWidth
  let xDen := oWidth
  let xs : Int := 0
  let yNum := iHeight
  let yDen := oHeight
  let ys : Int := 0
  let (xNum, xDen, xs, yNum, yDen, ys) :=
    if aspectRatio = AspectRatio.AspectRatioExpanding then
      let (iWidth, iHeight, oWidth, oHeight) :=
        if mode = Scaling.ScalingLinear then
          (int32 (iWidth - 1), int32 (iHeight - 1), int32 (oWidth - 1), int32 (oHeight - 1))
        else (iWidth, iHeight, oWidth, oHeight)
      if int32 (width * srcHeight) < int32 (srcWidth * height) then
        (int32 (2 * iHeight), int32 (2 * oHeight),
          int32 (iWidth * oHeight - oWidth * iHeight), yNum, yDen, ys)
      else if int32 (width * srcHeight) > int32 (srcWidth * height) then
        (xNum, xDen, xs, int32 (2 * iWidth), int32 (2 * oWidth),
          int32 (oWidth * iHeight - iWidth * oHeight))
      else (xNum, xDen, xs, yNum, yDen, ys)
    else (xNum, xDen, xs, yNum, yDen, ys)
  pure { xDstMin := xDstMin, xDstMax := xDstMax, yDstMin := yDstMin, yDstMax := yDstMax,
         xNum := xNum, xDen := xDen, xs := xs, yNum := yNum, yDen := yDen, ys := ys }

/-- The initialiser of `srcY` and of `srcX` in the `ScalingFast` loops of `scaled`,
`(num * (dst - dstMin) + s) / den`, in machine arithmetic. -/
def Machine.srcCoord (num dst dstMin s den : Int) : Option Int :=
  cdiv (int32 (num * (dst - dstMin) + s)) den

/-- `VideoFrame::scaled(width, height, mode, aspectRatio)` in machine arithmetic: the frame
returned, or `none` when a division stops the program. -/
def Machine.VideoFrame.scaled (L : Layout) (self : VideoFrame) (width height : Int)
    (mode : Scaling) (aspectRatio : AspectRatio) : Option VideoFrame :=
  if self.m_format.width = width ∧ self.m_format.height = height then some self
  else if self.m_format.fourcc ∉ m_adjustFormats then some {}
  else do
    let g ← Machine.scaledGeometry self.m_format.width self.m_format.height width height mode
      aspectRatio
    let format := { self.m_format with width := width, height := height }
    let dst := VideoFrame.ofFormat L format
    match mode with
    | Scaling.ScalingFast =>
      let m_data ← forLoopT (g.yDstMax - g.yDstMin) dst.m_data fun ky data => do
        let y := g.yDstMin + ky
        let srcY ← Machine.srcCoord g.yNum y g.yDstMin g.ys g.yDen
        let srcLine := self.line L 0 (toSizeT srcY)
        let dstLine := dst.line L 0 (toSizeT y)
        forLoopT (g.xDstMax - g.xDstMin) data fun kx data => do
          let x := g.xDstMin + kx
          let srcX ← Machine.srcCoord g.xNum x g.xDstMin g.xs g.xDen
          pure (Machine.setPixelAt data dstLine x (Machine.getPixelAt self.m_data srcLine srcX))
      pure { dst with m_data := m_data }
    | Scaling.ScalingLinear =>
      let extrapolateX :=
        if self.m_format.width < width then Machine.extrapolateUp else Machine.extrapolateDown
      let extrapolateY :=
        if self.m_format.height < height then Machine.extrapolateUp else Machine.extrapolateDown
      let m_data ← forLoopT (g.yDstMax - g.yDstMin) dst.m_data fun ky data => do
        let y := g.yDstMin + ky
        let dstLine := dst.line L 0 (toSizeT y)
        let (yMin, yMax, kNumY, kDenY) ← extrapolateY (int32 (y - g.yDstMin)) g.yNum g.yDen g.ys
        forLoopT (g.xDstMax - g.xDstMin) data fun kx data => do
          let x := g.xDstMin + kx
          let (xMin, xMax, kNumX, kDenX) ←
            extrapolateX (int32 (x - g.xDstMin)) g.xNum g.xDen g.xs
          let color ← Machine.VideoFrame.extrapolateColor L self xMin xMax kNumX kDenX yMin yMax
            kNumY kDenY
          pure (Machine.setPixelAt data dstLine x color)
      pure { dst with m_data := m_data }

/-- `VideoFrame::adjustHsl(hue, saturation, luminance)` with the sums `h + hue`,
`s + saturation` and `l + luminance` in machine arithmetic. `rgbToHsl` is called on bytes and
`hslToRgb` on `h` in `[0, 360)` and `s`, `l` in `[0, 255]`, where their arithmetic does not
overflow and `rgbToHsl` divides by no zero. -/
def Machine.VideoFrame.adjustHsl (L : Layout) (self : VideoFrame)
    (hue saturation luminance : Int) : VideoFrame :=
  if hue = 0 ∧ saturation = 0 ∧ luminance = 0 then self
  else if self.m_format.fourcc ∉ m_adjustFormats then {}
  else
    let dst := VideoFrame.ofFormat L self.m_format
    { dst with m_data :=
        forLoop self.m_format.height dst.m_data fun y data =>
          let srcLine := self.line L 0 y
          let destLine := dst.line L 0 y
          forLoop self.m_format.width data fun x data =>
            let (h, s, l) := AkVCam.rgbToHsl
              (getField self.m_data srcLine RGB24.sizeof x RGB24.r).val
              (getField self.m_data srcLine RGB24.sizeof x RGB24.g).val
              (getField self.m_data srcLine RGB24.sizeof x RGB24.b).val
            let h := AkVCam.mod (int32 (h + hue)) 360
            let s := bound 0 (int32 (s + saturation)) 255
            let l := bound 0 (int32 (l + luminance)) 255
            let (r, g, b) := hslToRgb h s l
            let data := setField data destLine RGB24.sizeof x RGB24.r (toUInt8 r)
            let data := setField data destLine RGB24.sizeof x RGB24.g (toUInt8 g)
            let data := setField data destLine RGB24.sizeof x RGB24.b (toUInt8 b)
            data }

/-- The statements of the inner loop of `adjustHsl` between the reads of the source pixel and
the writes of the destination pixel, with the three sums in machine arithmetic. -/
def Machine.hslPixel (hue saturation luminance : Int) (r g b : Int) : Int × Int × Int :=
  let (h, s, l) := AkVCam.rgbToHsl r g b
  let h := AkVCam.mod (int32 (h + hue)) 360
  let s := bound 0 (int32 (s + saturation)) 255
  let l := bound 0 (int32 (l + luminance)) 255
  hslToRgb h s l

/-! ## The contrast table in exact arithmetic -/

/-- The value of the `double` expression `f * (i - 128) + 128.` of `initContrastTable`, with
`f = 259. * (255 + contrast) / (255. * (259 - contrast))`, in exact rational arithmetic. -/
def contrastValue (contrast : Int) (i : Nat) : ℚ :=
  let f : ℚ := 259 * (255 + (contrast : ℚ)) / (255 * (259 - (contrast : ℚ)))
  f * ((i : ℚ) - 128) + 128

/-- The conversion `int(v)` of a floating point value: the fractional part is discarded. -/
def truncToInt (v : ℚ) : Int := if 0 ≤ v then ⌊v⌋ else ⌈v⌉

/-- The expressions of `FloatExprs` with the contrast expression evaluated exactly and
converted by `int()`. The gamma expressions raise to a real power and are not evaluated;
`initContrastTable` does not use them. -/
def exactContrast : FloatExprs :=
  { gammaFirst := fun _ => 0
    gammaEntry := fun _ _ => 0
    contrastEntry := fun contrast i => truncToInt (contrastValue contrast i) }

/-- A 24-bit bitmap 4 pixels wide and 1 pixel high with the member `sizeImage` of the image
header set to 0, as the bitmap format allows for uncompressed pixel data; the row of 12 bytes
of pixel data, a multiple of 4, is in the file at offset 54. -/
def zeroSizeBitmap : VideoData :=
  [66, 77,
    66, 0, 0, 0, 0, 0, 0, 0, 54, 0, 0, 0,
    40, 0, 0, 0, 4, 0, 0, 0, 1, 0, 0, 0, 1, 0, 24, 0, 0, 0, 0, 0, 0, 0, 0, 0,
    0, 0, 0, 0, 0, 0, 0, 0, 0, 0, 0, 0, 0, 0, 0, 0,
    10, 20, 30, 40, 50, 60, 70, 80, 90, 100, 110, 120]
/-! ## Buffers and loops -/

theorem length_poke (d : VideoData) (p : Nat) (v : uint8_t) : (poke d p v).length = d.length := by
  simp [poke]

theorem peek_poke (d : VideoData) (p q : Nat) (v : uint8_t) :
    peek (poke d p v) q = if p = q ∧ q < d.length then v else peek d q := by
  unfold peek poke
  simp only [List.getD_eq_getElem?_getD, List.getElem?_set]
  by_cases h : p = q
  · subst h
    by_cases hl : p < d.length
    · simp [hl]
    · simp [hl, List.getElem?_eq_none (Nat.le_of_not_lt hl)]
  · simp [h]

theorem peek_poke_same (d : VideoData) (p : Nat) (v : uint8_t) (h : p < d.length) :
    peek (poke d p v) p = v := by
  rw [peek_poke, if_pos ⟨rfl, h⟩]

theorem peek_poke_ne (d : VideoData) (p q : Nat) (v : uint8_t) (h : p ≠ q) :
    peek (poke d p v) q = peek d q := by
  rw [peek_poke, if_neg (fun hh => h hh.1)]

theorem forLoop_inv {σ : Type} (P : σ → Prop) (n : Int) (body : Nat → σ → σ) (s : σ)
    (h0 : P s) (hstep : ∀ (i : Nat) s, (i : Int) < n → P s → P (body i s)) :
    P (forLoop n s body) := by
  unfold forLoop
  have key : ∀ m : Nat, m ≤ n.toNat → P ((List.range m).foldl (fun s i => body i s) s) := by
    intro m
    induction m with
    | zero => intro _; simpa using h0
    | succ m ih =>
      intro hm
      rw [List.range_succ, List.foldl_append]
      exact hstep m _ (by omega) (ih (by omega))
  exact key _ le_rfl

theorem forLoop_last {σ : Type} (P Q : σ → Prop) (n : Int) (body : Nat → σ → σ) (i0 : Nat)
    (hi0 : (i0 : Int) < n)
    (hP : ∀ (i : Nat) s, (i : Int) < n → P s → P (body i s))
    (hset : ∀ s, P s → Q (body i0 s))
    (hkeep : ∀ (i : Nat) s, i0 < i → (i : Int) < n → P s → Q s → Q (body i s))
    (s : σ) (h0 : P s) : Q (forLoop n s body) := by
  unfold forLoop
  have key : ∀ m : Nat, m ≤ n.toNat →
      P ((List.range m).foldl (fun s i => body i s) s) ∧
      (i0 < m → Q ((List.range m).foldl (fun s i => body i s) s)) := by
    intro m
    induction m with
    | zero => intro _; exact ⟨by simpa using h0, fun h => absurd h (Nat.not_lt_zero _)⟩
    | succ m ih =>
      intro hm
      obtain ⟨hp, hq⟩ := ih (by omega)
      rw [List.range_succ, List.foldl_append]
      refine ⟨hP m _ (by omega) hp, fun hlt => ?_⟩
      · by_cases hm0 : i0 = m
        · subst hm0
          exact hset _ hp
        · exact hkeep m _ (by omega) (by omega) hp (hq (by omega))
  exact (key _ le_rfl).2 (by omega)

theorem forLoop2_inv {σ : Type} (P : σ → Prop) (h w : Int) (body : Nat → Nat → σ → σ) (s : σ)
    (h0 : P s)
    (hstep : ∀ (y x : Nat) s, (y : Int) < h → (x : Int) < w → P s → P (body y x s)) :
    P (forLoop h s fun y s => forLoop w s (body y)) :=
  forLoop_inv P h _ s h0 fun y s hy hs =>
    forLoop_inv P w _ s hs fun x s hx hs => hstep y x s hy hx hs

theorem forLoop2_last {σ : Type} (P Q : σ → Prop) (h w : Int) (body : Nat → Nat → σ → σ)
    (y0 x0 : Nat) (hy0 : (y0 : Int) < h) (hx0 : (x0 : Int) < w)
    (hP : ∀ (y x : Nat) s, (y : Int) < h → (x : Int) < w → P s → P (body y x s))
    (hset : ∀ s, P s → Q (body y0 x0 s))
    (hkeep : ∀ (y x : Nat) s, (y : Int) < h → (x : Int) < w →
      (y0 < y ∨ (y = y0 ∧ x0 < x)) → P s → Q s → Q (body y x s))
    (s : σ) (h0 : P s) : Q (forLoop h s fun y s => forLoop w s (body y)) := by
  refine forLoop_last P Q h _ y0 hy0 ?_ ?_ ?_ s h0
  · intro y s hy hs
    exact forLoop_inv P w _ s hs fun x s hx hs => hP y x s hy hx hs
  · intro s hs
    exact forLoop_last P Q w _ x0 hx0 (fun x s hx hs => hP y0 x s hy0 hx hs) hset
      (fun x s hlt hx hs hq => hkeep y0 x s hy0 hx (Or.inr ⟨rfl, hlt⟩) hs hq) s hs
  · intro y s hlt hy hs hq
    exact (forLoop_inv (fun s => P s ∧ Q s) w _ s ⟨hs, hq⟩ fun x s hx hpq =>
      ⟨hP y x s hy hx hpq.1, hkeep y x s hy hx (Or.inl hlt) hpq.1 hpq.2⟩).2

theorem row_sep (B y y0 : Nat) (h : y ≠ y0) : y * B + B ≤ y0 * B ∨ y0 * B + B ≤ y * B := by
  rcases Nat.lt_or_gt_of_ne h with h | h
  · left
    calc y * B + B = (y + 1) * B := by ring
      _ ≤ y0 * B := Nat.mul_le_mul_right B h
  · right
    calc y0 * B + B = (y0 + 1) * B := by ring
      _ ≤ y * B := Nat.mul_le_mul_right B h

theorem row_le (B y H : Nat) (h : y < H) : y * B + B ≤ H * B := by
  calc y * B + B = (y + 1) * B := by ring
    _ ≤ H * B := Nat.mul_le_mul_right B h

theorem length_ofFormat (L : Layout) (format : VideoFormat) :
    (VideoFrame.ofFormat L format).m_data.length = L.size format := by
  unfold VideoFrame.ofFormat
  by_cases h : L.size format > 0
  · simp [h]
  · simp only [h]; simp; omega

theorem ofFormat_format (L : Layout) (format : VideoFormat) :
    (VideoFrame.ofFormat L format).m_format = format := rfl

/-- A nested loop whose body at `(y, x)` only writes inside the `n`-byte cell of column `x`
in row `y`: an observation of the cell `(y0, x0)` that the body establishes there survives
the rest of the loop. -/
theorem cellLoop_obs {β : Type} (n off B : Nat) (H W : Int)
    (body : Nat → Nat → VideoData → VideoData) (obs : VideoData → β) (v : β) (y0 x0 : Nat)
    (hy0 : (y0 : Int) < H) (hx0 : (x0 : Int) < W) (hB : n * W.toNat ≤ B)
    (hlen : ∀ y x d, (body y x d).length = d.length)
    (hother : ∀ y x d q, (q < off + y * B + x * n ∨ off + y * B + x * n + n ≤ q) →
      peek (body y x d) q = peek d q)
    (hobs : ∀ d d', (∀ k, k < n →
      peek d (off + y0 * B + x0 * n + k) = peek d' (off + y0 * B + x0 * n + k)) → obs d = obs d')
    (hset : ∀ d, off + y0 * B + x0 * n + n ≤ d.length → obs (body y0 x0 d) = v)
    (d0 : VideoData) (hS : off + H.toNat * B ≤ d0.length) :
    obs (forLoop H d0 fun y d => forLoop W d (body y)) = v := by
  have hWn : n * W.toNat = W.toNat * n := Nat.mul_comm _ _
  refine forLoop2_last (fun d => d.length = d0.length) (fun d => obs d = v) H W body y0 x0
    hy0 hx0 ?_ ?_ ?_ d0 rfl
  · intro y x s _ _ hs
    rw [hlen, hs]
  · intro s hs
    apply hset
    have h1 := row_le B y0 H.toNat (by omega)
    have h2 := row_le n x0 W.toNat (by omega)
    omega
  · intro y x s hy hx hlt _ hq
    rw [← hq]
    apply hobs
    intro k hk
    apply hother
    have h2 := row_le n x0 W.toNat (by omega)
    have h3 := row_le n x W.toNat (by omega)
    by_cases hyy : y = y0
    · subst hyy
      have hxx : x ≠ x0 := by omega
      have h4 := row_sep n x x0 hxx
      omega
    · have h4 := row_sep B y y0 hyy
      omega

/-- Four byte members written per 4-byte cell. -/
theorem write4_loop (k1 k2 k3 k4 : Nat) (v1 v2 v3 v4 : Nat → Nat → uint8_t)
    (hperm : k1 < 4 ∧ k2 < 4 ∧ k3 < 4 ∧ k4 < 4 ∧ k1 ≠ k2 ∧ k1 ≠ k3 ∧ k1 ≠ k4
      ∧ k2 ≠ k3 ∧ k2 ≠ k4 ∧ k3 ≠ k4)
    (off B : Nat) (H W : Int) (d0 : VideoData)
    (hB : 4 * W.toNat ≤ B) (hS : off + H.toNat * B ≤ d0.length)
    (y x : Nat) (hy : (y : Int) < H) (hx : (x : Int) < W) :
    (fun d => (getField d (off + y * B) 4 x k1, getField d (off + y * B) 4 x k2,
        getField d (off + y * B) 4 x k3, getField d (off + y * B) 4 x k4))
      (forLoop H d0 fun y data => forLoop W data fun x data =>
        setField (setField (setField (setField data (off + y * B) 4 x k1 (v1 y x))
          (off + y * B) 4 x k2 (v2 y x)) (off + y * B) 4 x k3 (v3 y x))
          (off + y * B) 4 x k4 (v4 y x))
      = (v1 y x, v2 y x, v3 y x, v4 y x) := by
  refine cellLoop_obs 4 off B H W
    (fun y x data =>
      setField (setField (setField (setField data (off + y * B) 4 x k1 (v1 y x))
          (off + y * B) 4 x k2 (v2 y x)) (off + y * B) 4 x k3 (v3 y x))
          (off + y * B) 4 x k4 (v4 y x))
    (fun d => (getField d (off + y * B) 4 x k1, getField d (off + y * B) 4 x k2,
        getField d (off + y * B) 4 x k3, getField d (off + y * B) 4 x k4))
    _ y x hy hx hB ?_ ?_ ?_ ?_ d0 hS
  · intro y x d
    simp only [setField, length_poke]
  · intro y x d q hq
    simp only [setField]
    rw [peek_poke_ne _ _ _ _ (by omega), peek_poke_ne _ _ _ _ (by omega),
      peek_poke_ne _ _ _ _ (by omega), peek_poke_ne _ _ _ _ (by omega)]
  · intro d d' h
    simp only [getField]
    rw [h k1 (by omega), h k2 (by omega), h k3 (by omega), h k4 (by omega)]
  · intro d hd
    simp only [getField, setField, peek_poke, length_poke]
    have e1 : ∀ a b : Nat, a ≠ b → ¬ (off + y * B + x * 4 + a = off + y * B + x * 4 + b ∧
        off + y * B + x * 4 + b < d.length) := fun a b hab hh => hab (by omega)
    have e2 : ∀ a : Nat, a < 4 → off + y * B + x * 4 + a < d.length := fun a ha => by omega
    obtain ⟨h1, h2, h3, h4, h5, h6, h7, h8, h9, h10⟩ := hperm
    simp only [if_neg (e1 _ _ h5.symm), if_neg (e1 _ _ h6.symm), if_neg (e1 _ _ h7.symm),
      if_neg (e1 _ _ h8.symm), if_neg (e1 _ _ h9.symm), if_neg (e1 _ _ h10.symm),
      if_neg (e1 _ _ h5), if_neg (e1 _ _ h6), if_neg (e1 _ _ h7),
      if_neg (e1 _ _ h8), if_neg (e1 _ _ h9), if_neg (e1 _ _ h10),
      true_and, if_pos (e2 _ h1), if_pos (e2 _ h2), if_pos (e2 _ h3), if_pos (e2 _ h4)]

/-- Three byte members written per 3-byte cell. -/
theorem write3_loop (k1 k2 k3 : Nat) (v1 v2 v3 : Nat → Nat → uint8_t)
    (hperm : k1 < 3 ∧ k2 < 3 ∧ k3 < 3 ∧ k1 ≠ k2 ∧ k1 ≠ k3 ∧ k2 ≠ k3)
    (off B : Nat) (H W : Int) (d0 : VideoData)
    (hB : 3 * W.toNat ≤ B) (hS : off + H.toNat * B ≤ d0.length)
    (y x : Nat) (hy : (y : Int) < H) (hx : (x : Int) < W) :
    (fun d => (getField d (off + y * B) 3 x k1, getField d (off + y * B) 3 x k2,
        getField d (off + y * B) 3 x k3))
      (forLoop H d0 fun y data => forLoop W data fun x data =>
        setField (setField (setField data (off + y * B) 3 x k1 (v1 y x))
          (off + y * B) 3 x k2 (v2 y x)) (off + y * B) 3 x k3 (v3 y x))
      = (v1 y x, v2 y x, v3 y x) := by
  refine cellLoop_obs 3 off B H W
    (fun y x data =>
      setField (setField (setField data (off + y * B) 3 x k1 (v1 y x))
          (off + y * B) 3 x k2 (v2 y x)) (off + y * B) 3 x k3 (v3 y x))
    (fun d => (getField d (off + y * B) 3 x k1, getField d (off + y * B) 3 x k2,
        getField d (off + y * B) 3 x k3))
    _ y x hy hx hB ?_ ?_ ?_ ?_ d0 hS
  · intro y x d
    simp only [setField, length_poke]
  · intro y x d q hq
    simp only [setField]
    rw [peek_poke_ne _ _ _ _ (by omega), peek_poke_ne _ _ _ _ (by omega),
      peek_poke_ne _ _ _ _ (by omega)]
  · intro d d' h
    simp only [getField]
    rw [h k1 (by omega), h k2 (by omega), h k3 (by omega)]
  · intro d hd
    simp only [getField, setField, peek_poke, length_poke]
    have e1 : ∀ a b : Nat, a ≠ b → ¬ (off + y * B + x * 3 + a = off + y * B + x * 3 + b ∧
        off + y * B + x * 3 + b < d.length) := fun a b hab hh => hab (by omega)
    have e2 : ∀ a : Nat, a < 3 → off + y * B + x * 3 + a < d.length := fun a ha => by omega
    obtain ⟨h1, h2, h3, h5, h6, h8⟩ := hperm
    simp only [if_neg (e1 _ _ h5.symm), if_neg (e1 _ _ h6.symm),
      if_neg (e1 _ _ h8.symm), if_neg (e1 _ _ h5), if_neg (e1 _ _ h6),
      if_neg (e1 _ _ h8), true_and, if_pos (e2 _ h1), if_pos (e2 _ h2), if_pos (e2 _ h3)]

theorem toUInt8_val (n : Nat) (h : n < 256) : (toUInt8 (n : Int)).val = n := by
  simp only [toUInt8]
  omega

theorem peek16_lt (d : VideoData) (p : Nat) : peek16 d p < 65536 := by
  unfold peek16
  have h1 := (peek d p).isLt
  have h2 := (peek d (p + 1)).isLt
  omega

theorem length_poke16 (d : VideoData) (p w : Nat) : (poke16 d p w).length = d.length := by
  simp only [poke16, length_poke]

theorem peek_poke16_ne (d : VideoData) (p w q : Nat) (h : q < p ∨ p + 2 ≤ q) :
    peek (poke16 d p w) q = peek d q := by
  unfold poke16
  rw [peek_poke_ne _ _ _ _ (by omega), peek_poke_ne _ _ _ _ (by omega)]

theorem peek16_poke16 (d : VideoData) (p w : Nat) (h : p + 2 ≤ d.length) :
    peek16 (poke16 d p w) p = w % 65536 := by
  unfold peek16 poke16
  rw [peek_poke_ne _ _ _ _ (by omega), peek_poke_same _ _ _ (by omega),
    peek_poke_same _ _ _ (by rw [length_poke]; omega)]
  simp only [toUInt8]
  omega

theorem length_pokeBits (d : VideoData) (p : Nat) (f : BitField) (v : Nat) :
    (pokeBits d p f v).length = d.length := by
  simp only [pokeBits, length_poke16]

theorem peek_pokeBits_ne (d : VideoData) (p : Nat) (f : BitField) (v q : Nat)
    (h : q < p ∨ p + 2 ≤ q) : peek (pokeBits d p f v) q = peek d q := by
  simp only [pokeBits]
  exact peek_poke16_ne _ _ _ _ h

theorem peek16_pokeBits (d : VideoData) (p : Nat) (f : BitField) (v : Nat)
    (h : p + 2 ≤ d.length) :
    peek16 (pokeBits d p f v) p =
      (peek16 d p % 2 ^ f.shift + v % 2 ^ f.width * 2 ^ f.shift
        + peek16 d p / 2 ^ (f.shift + f.width) * 2 ^ (f.shift + f.width)) % 65536 := by
  simp only [pokeBits]
  exact peek16_poke16 _ _ _ h

/-- Assigning a bit-field of a 5/6/5 or of a 5/5/5/1 struct sets that member and keeps the
other members of the struct. -/
theorem peekBits_pokeBits (d : VideoData) (p : Nat) (f g : BitField) (v : Nat)
    (hfg : (f ∈ [(⟨0, 5⟩ : BitField), ⟨5, 6⟩, ⟨11, 5⟩] ∧ g ∈ [(⟨0, 5⟩ : BitField), ⟨5, 6⟩, ⟨11, 5⟩])
      ∨ (f ∈ [(⟨0, 5⟩ : BitField), ⟨5, 5⟩, ⟨10, 5⟩, ⟨15, 1⟩]
        ∧ g ∈ [(⟨0, 5⟩ : BitField), ⟨5, 5⟩, ⟨10, 5⟩, ⟨15, 1⟩]))
    (h : p + 2 ≤ d.length) :
    peekBits (pokeBits d p f v) p g = if f = g then v % 2 ^ f.width else peekBits d p g := by
  have hw := peek16_lt d p
  simp only [peekBits, peek16_pokeBits d p f v h]
  generalize peek16 d p = w at hw
  simp only [List.mem_cons, List.mem_singleton, List.not_mem_nil, or_false] at hfg
  rcases hfg with ⟨hf, hg⟩ | ⟨hf, hg⟩ <;>
    rcases hf with rfl | rfl | rfl | rfl <;>
    rcases hg with rfl | rfl | rfl | rfl <;>
    simp only [BitField.mk.injEq, if_true, and_self, and_true, and_false, if_false, if_neg,
      OfNat.ofNat_ne_zero, Nat.reduceEqDiff, Nat.reduceAdd, Nat.reducePow] <;>
    omega

/-- Three successive bit-field assignments to one storage unit. -/
theorem peekBits_chain3 (d : VideoData) (p : Nat) (f1 f2 f3 g : BitField) (v1 v2 v3 : Nat)
    (hm : ∀ f ∈ [f1, f2, f3, g], f ∈ [(⟨0, 5⟩ : BitField), ⟨5, 6⟩, ⟨11, 5⟩])
    (h : p + 2 ≤ d.length) :
    peekBits (pokeBits (pokeBits (pokeBits d p f1 v1) p f2 v2) p f3 v3) p g =
      if f3 = g then v3 % 2 ^ f3.width else if f2 = g then v2 % 2 ^ f2.width
        else if f1 = g then v1 % 2 ^ f1.width else peekBits d p g := by
  have m1 := hm f1 (by simp)
  have m2 := hm f2 (by simp)
  have m3 := hm f3 (by simp)
  have mg := hm g (by simp)
  rw [peekBits_pokeBits _ p f3 g v3 (Or.inl ⟨m3, mg⟩)
      (by rw [length_pokeBits, length_pokeBits]; exact h),
    peekBits_pokeBits _ p f2 g v2 (Or.inl ⟨m2, mg⟩) (by rw [length_pokeBits]; exact h),
    peekBits_pokeBits _ p f1 g v1 (Or.inl ⟨m1, mg⟩) h]

/-- Four successive bit-field assignments to one storage unit. -/
theorem peekBits_chain4 (d : VideoData) (p : Nat) (f1 f2 f3 f4 g : BitField) (v1 v2 v3 v4 : Nat)
    (hm : ∀ f ∈ [f1, f2, f3, f4, g], f ∈ [(⟨0, 5⟩ : BitField), ⟨5, 5⟩, ⟨10, 5⟩, ⟨15, 1⟩])
    (h : p + 2 ≤ d.length) :
    peekBits (pokeBits (pokeBits (pokeBits (pokeBits d p f1 v1) p f2 v2) p f3 v3) p f4 v4) p g =
      if f4 = g then v4 % 2 ^ f4.width else if f3 = g then v3 % 2 ^ f3.width
        else if f2 = g then v2 % 2 ^ f2.width
        else if f1 = g then v1 % 2 ^ f1.width else peekBits d p g := by
  have m1 := hm f1 (by simp)
  have m2 := hm f2 (by simp)
  have m3 := hm f3 (by simp)
  have m4 := hm f4 (by simp)
  have mg := hm g (by simp)
  rw [peekBits_pokeBits _ p f4 g v4 (Or.inr ⟨m4, mg⟩)
      (by rw [length_pokeBits, length_pokeBits, length_pokeBits]; exact h),
    peekBits_pokeBits _ p f3 g v3 (Or.inr ⟨m3, mg⟩)
      (by rw [length_pokeBits, length_pokeBits]; exact h),
    peekBits_pokeBits _ p f2 g v2 (Or.inr ⟨m2, mg⟩) (by rw [length_pokeBits]; exact h),
    peekBits_pokeBits _ p f1 g v1 (Or.inr ⟨m1, mg⟩) h]

/-- The fields of a 5/6/5 struct, written once each per 2-byte cell. -/
theorem bits3_loop (fr fg fb : BitField) (vr vg vb : Nat → Nat → Nat)
    (hf : (fr, fg, fb) = (RGB16.r, RGB16.g, RGB16.b) ∨ (fr, fg, fb) = (BGR16.r, BGR16.g, BGR16.b))
    (off B : Nat) (H W : Int) (d0 : VideoData)
    (hB : 2 * W.toNat ≤ B) (hS : off + H.toNat * B ≤ d0.length)
    (y x : Nat) (hy : (y : Int) < H) (hx : (x : Int) < W) :
    (fun d => (getBits d (off + y * B) 2 x fr, getBits d (off + y * B) 2 x fg,
        getBits d (off + y * B) 2 x fb))
      (forLoop H d0 fun y data => forLoop W data fun x data =>
        setBits (setBits (setBits data (off + y * B) 2 x fr (vr y x))
          (off + y * B) 2 x fg (vg y x)) (off + y * B) 2 x fb (vb y x))
      = (vr y x % 32, vg y x % 64, vb y x % 32) := by
  refine cellLoop_obs 2 off B H W
    (fun y x data =>
      setBits (setBits (setBits data (off + y * B) 2 x fr (vr y x))
          (off + y * B) 2 x fg (vg y x)) (off + y * B) 2 x fb (vb y x))
    (fun d => (getBits d (off + y * B) 2 x fr, getBits d (off + y * B) 2 x fg,
        getBits d (off + y * B) 2 x fb))
    _ y x hy hx hB ?_ ?_ ?_ ?_ d0 hS
  · intro y x d
    simp only [setBits, length_pokeBits]
  · intro y x d q hq
    simp only [setBits]
    rw [peek_pokeBits_ne _ _ _ _ _ (by omega), peek_pokeBits_ne _ _ _ _ _ (by omega),
      peek_pokeBits_ne _ _ _ _ _ (by omega)]
  · intro d d' h
    have h0 := h 0 (by omega)
    have h1 := h 1 (by omega)
    simp only [Nat.add_zero] at h0
    simp only [getBits, peekBits, peek16, h0, h1]
  · intro d hd
    rcases hf with hf | hf <;>
    · simp only [Prod.mk.injEq] at hf
      obtain ⟨rfl, rfl, rfl⟩ := hf
      simp only [getBits, setBits]
      rw [peekBits_chain3 _ _ _ _ _ _ _ _ _ (by decide) hd,
        peekBits_chain3 _ _ _ _ _ _ _ _ _ (by decide) hd,
        peekBits_chain3 _ _ _ _ _ _ _ _ _ (by decide) hd]
      simp [RGB16.r, RGB16.g, RGB16.b, BGR16.r, BGR16.g, BGR16.b]

/-- The fields of a 5/5/5/1 struct, written once each per 2-byte cell. -/
theorem bits4_loop (fx fr fg fb : BitField) (vx vr vg vb : Nat → Nat → Nat)
    (hf : (fx, fr, fg, fb) = (RGB15.x, RGB15.r, RGB15.g, RGB15.b)
      ∨ (fx, fr, fg, fb) = (BGR15.x, BGR15.r, BGR15.g, BGR15.b))
    (off B : Nat) (H W : Int) (d0 : VideoData)
    (hB : 2 * W.toNat ≤ B) (hS : off + H.toNat * B ≤ d0.length)
    (y x : Nat) (hy : (y : Int) < H) (hx : (x : Int) < W) :
    (fun d => (getBits d (off + y * B) 2 x fx, getBits d (off + y * B) 2 x fr,
        getBits d (off + y * B) 2 x fg, getBits d (off + y * B) 2 x fb))
      (forLoop H d0 fun y data => forLoop W data fun x data =>
        setBits (setBits (setBits (setBits data (off + y * B) 2 x fx (vx y x))
          (off + y * B) 2 x fr (vr y x)) (off + y * B) 2 x fg (vg y x))
          (off + y * B) 2 x fb (vb y x))
      = (vx y x % 2, vr y x % 32, vg y x % 32, vb y x % 32) := by
  refine cellLoop_obs 2 off B H W
    (fun y x data =>
      setBits (setBits (setBits (setBits data (off + y * B) 2 x fx (vx y x))
          (off + y * B) 2 x fr (vr y x)) (off + y * B) 2 x fg (vg y x))
          (off + y * B) 2 x fb (vb y x))
    (fun d => (getBits d (off + y * B) 2 x fx, getBits d (off + y * B) 2 x fr,
        getBits d (off + y * B) 2 x fg, getBits d (off + y * B) 2 x fb))
    _ y x hy hx hB ?_ ?_ ?_ ?_ d0 hS
  · intro y x d
    simp only [setBits, length_pokeBits]
  · intro y x d q hq
    simp only [setBits]
    rw [peek_pokeBits_ne _ _ _ _ _ (by omega), peek_pokeBits_ne _ _ _ _ _ (by omega),
      peek_pokeBits_ne _ _ _ _ _ (by omega), peek_pokeBits_ne _ _ _ _ _ (by omega)]
  · intro d d' h
    have h0 := h 0 (by omega)
    have h1 := h 1 (by omega)
    simp only [Nat.add_zero] at h0
    simp only [getBits, peekBits, peek16, h0, h1]
  · intro d hd
    rcases hf with hf | hf <;>
    · simp only [Prod.mk.injEq] at hf
      obtain ⟨rfl, rfl, rfl, rfl⟩ := hf
      simp only [getBits, setBits]
      rw [peekBits_chain4 _ _ _ _ _ _ _ _ _ _ _ (by decide) hd,
        peekBits_chain4 _ _ _ _ _ _ _ _ _ _ _ (by decide) hd,
        peekBits_chain4 _ _ _ _ _ _ _ _ _ _ _ (by decide) hd,
        peekBits_chain4 _ _ _ _ _ _ _ _ _ _ _ (by decide) hd]
      simp [RGB15.x, RGB15.r, RGB15.g, RGB15.b, BGR15.x, BGR15.r, BGR15.g, BGR15.b]

/-! ## The pair loop -/

/-- The pair loop entered at an even column `2 * k` runs its body at the columns `2 * j`,
`k ≤ j < (width + 1) / 2`, in increasing order, provided the fuel covers them. -/
theorem pairLoop_from {σ : Type} (width : Int) (body : Nat → σ → σ) :
    ∀ (fuel k : Nat) (s : σ), (width.toNat + 1) / 2 - k ≤ fuel →
      pairLoop width body fuel (2 * k) s =
        (List.range' k ((width.toNat + 1) / 2 - k)).foldl (fun s j => body (2 * j) s) s := by
  intro fuel
  induction fuel with
  | zero =>
    intro k s h
    have h0 : (width.toNat + 1) / 2 - k = 0 := by omega
    rw [h0]
    rfl
  | succ fuel ih =>
    intro k s h
    unfold pairLoop
    by_cases hlt : ((2 * k : Nat) : Int) < width
    · rw [if_pos hlt]
      have hk : (width.toNat + 1) / 2 - k = ((width.toNat + 1) / 2 - (k + 1)) + 1 := by omega
      have h2 : 2 * k + 2 = 2 * (k + 1) := by ring
      rw [hk, List.range'_succ, List.foldl_cons, h2]
      exact ih (k + 1) (body (2 * k) s) (by omega)
    · rw [if_neg hlt]
      have h0 : (width.toNat + 1) / 2 - k = 0 := by omega
      rw [h0]
      rfl

/-- With enough fuel the pair loop over a row is the plain loop over its
`(width + 1) / 2` pairs, the body being run at the even column of each pair. -/
theorem pairLoop_eq_forLoop {σ : Type} (width : Int) (body : Nat → σ → σ) (fuel : Nat)
    (hfuel : (width.toNat + 1) / 2 ≤ fuel) (s : σ) :
    pairLoop width body fuel 0 s =
      forLoop (((width.toNat + 1) / 2 : Nat) : Int) s (fun k => body (2 * k)) := by
  have h := pairLoop_from width body fuel 0 s (by omega)
  simp only [Nat.mul_zero, Nat.sub_zero] at h
  rw [h]
  unfold forLoop
  rw [Int.toNat_ofNat, List.range_eq_range']

/-! ## The conversion table -/

/-- The (source, target) keys of the conversion table do not depend on the layout. -/
theorem m_convert_keys (L : Layout) :
    (m_convert L).map (fun c => (c.«from», c.«to»)) =
      [ (PixelFormatBGR24, PixelFormatRGB32), (PixelFormatBGR24, PixelFormatRGB24),
        (PixelFormatBGR24, PixelFormatRGB16), (PixelFormatBGR24, PixelFormatRGB15),
        (PixelFormatBGR24, PixelFormatBGR32), (PixelFormatBGR24, PixelFormatBGR16),
        (PixelFormatBGR24, PixelFormatBGR15), (PixelFormatBGR24, PixelFormatUYVY),
        (PixelFormatBGR24, PixelFormatYUY2), (PixelFormatBGR24, PixelFormatNV12),
        (PixelFormatBGR24, PixelFormatNV21),
        (PixelFormatRGB24, PixelFormatRGB32), (PixelFormatRGB24, PixelFormatRGB16),
        (PixelFormatRGB24, PixelFormatRGB15), (PixelFormatRGB24, PixelFormatBGR32),
        (PixelFormatRGB24, PixelFormatBGR24), (PixelFormatRGB24, PixelFormatBGR16),
        (PixelFormatRGB24, PixelFormatBGR15), (PixelFormatRGB24, PixelFormatUYVY),
        (PixelFormatRGB24, PixelFormatYUY2), (PixelFormatRGB24, PixelFormatNV12),
        (PixelFormatRGB24, PixelFormatNV21) ] := rfl

/-- The table search of `canConvert` as a search over the keys. -/
theorem any_m_convert (L : Layout) (input output : FourCC) :
    ((m_convert L).any fun c => c.«from» == input && c.«to» == output) =
      ((m_convert L).map fun c => (c.«from», c.«to»)).any
        fun k => k.1 == input && k.2 == output := by
  induction m_convert L with
  | nil => rfl
  | cons c cs ih => simp only [List.any_cons, List.map_cons, ih]

/-- The numeric values of the twelve enumerators. -/
theorem toFourCC_values :
    PixelFormat.toFourCC = fun p => match p with
      | .RGB32 => 0x52474220 | .RGB24 => 0x52474218 | .RGB16 => 0x52474210
      | .RGB15 => 0x5247420f | .BGR32 => 0x42475220 | .BGR24 => 0x42475218
      | .BGR16 => 0x42475210 | .BGR15 => 0x4247520f | .UYVY => 0x55595659
      | .YUY2 => 0x59555932 | .NV12 => 0x4e563132 | .NV21 => 0x4e563231 := by
  funext p; cases p <;> rfl

/-- Distinct enumerators have distinct values. -/
theorem toFourCC_injective : Function.Injective PixelFormat.toFourCC := by
  intro p q h
  rw [toFourCC_values] at h
  cases p <;> cases q <;> first | rfl | (exfalso; revert h; decide)

/-- C1: converting a frame to the encoding it already has returns the frame itself, with
the same format and the same bytes, whatever the encoding and the contents. -/
theorem convert_same_encoding (L : Layout) (frame : VideoFrame) :
    frame.convert L frame.m_format.fourcc = frame ∧
      (frame.convert L frame.m_format.fourcc).m_format = frame.m_format ∧
      (frame.convert L frame.m_format.fourcc).m_data = frame.m_data := by
  simp [VideoFrame.convert]

/-- C2: when source and target differ and no table entry has this (source, target) pair,
`canConvert` is false and `convert` returns the default-constructed frame, whose format is
cleared (zero width and height) and whose buffer has length zero. -/
theorem convert_unregistered (L : Layout) (input output : FourCC) (hne : input ≠ output)
    (hreg : ∀ c ∈ m_convert L, ¬ (c.«from» = input ∧ c.«to» = output)) :
    VideoFrame.canConvert L input output = false ∧
      ∀ frame : VideoFrame, frame.m_format.fourcc = input →
        frame.convert L output = {} ∧
        (frame.convert L output).m_format.width = 0 ∧
        (frame.convert L output).m_format.height = 0 ∧
        (frame.convert L output).m_data.length = 0 := by
  have hfind : (m_convert L).find? (fun c => c.«from» == input && c.«to» == output) = none := by
    rw [List.find?_eq_none]
    intro c hc
    simpa using hreg c hc
  refine ⟨?_, ?_⟩
  · unfold VideoFrame.canConvert
    rw [if_neg hne, List.any_eq_false]
    intro c hc
    simpa using hreg c hc
  · intro frame hf
    have hconv : frame.convert L output = {} := by
      unfold VideoFrame.convert
      rw [hf, if_neg hne, hfind]
    rw [hconv]
    exact ⟨rfl, rfl, rfl, rfl⟩

/-- Witness for C2: the pair (RGB32, RGB24) is not in the table. -/
theorem convert_unregistered_witness :
    VideoFrame.canConvert specLayout PixelFormatRGB32 PixelFormatRGB24 = false ∧
      ∀ frame : VideoFrame, frame.m_format.fourcc = PixelFormatRGB32 →
        frame.convert specLayout PixelFormatRGB24 = {} ∧
        (frame.convert specLayout PixelFormatRGB24).m_format.width = 0 ∧
        (frame.convert specLayout PixelFormatRGB24).m_format.height = 0 ∧
        (frame.convert specLayout PixelFormatRGB24).m_data.length = 0 :=
  convert_unregistered specLayout PixelFormatRGB32 PixelFormatRGB24 (by decide)
    (by
      intro c hc
      have hk : (c.«from», c.«to») ∈ (m_convert specLayout).map (fun c => (c.«from», c.«to»)) :=
        List.mem_map_of_mem _ hc
      rw [m_convert_keys] at hk
      intro h
      rw [h.1, h.2] at hk
      revert hk
      decide)

/-- C3: over the twelve enumerated encodings `canConvert` holds exactly when source and
target are equal or the source is BGR24 or RGB24: every entry of the table has source
BGR24 or RGB24, and for each of these two sources every other enumerated encoding is the
target of some entry. -/
theorem canConvert_iff (L : Layout) :
    (∀ p q : PixelFormat, VideoFrame.canConvert L p.toFourCC q.toFourCC = true ↔
        (p = q ∨ p = PixelFormat.BGR24 ∨ p = PixelFormat.RGB24)) ∧
      (∀ c ∈ m_convert L, c.«from» = PixelFormatBGR24 ∨ c.«from» = PixelFormatRGB24) ∧
      (∀ p q : PixelFormat, (p = PixelFormat.BGR24 ∨ p = PixelFormat.RGB24) → q ≠ p →
        ∃ c ∈ m_convert L, c.«from» = p.toFourCC ∧ c.«to» = q.toFourCC) := by
  refine ⟨?_, ?_, ?_⟩
  · intro p q
    unfold VideoFrame.canConvert
    rw [any_m_convert, m_convert_keys]
    cases p <;> cases q <;> decide
  · intro c hc
    have hk : (c.«from», c.«to») ∈ (m_convert L).map (fun c => (c.«from», c.«to»)) :=
      List.mem_map_of_mem _ hc
    rw [m_convert_keys] at hk
    simp only [List.mem_cons, Prod.mk.injEq, List.mem_singleton, List.not_mem_nil,
      or_false] at hk
    rcases hk with h | h | h | h | h | h | h | h | h | h | h | h | h | h | h | h | h | h
      | h | h | h | h <;> simp [h.1]
  · intro p q hp hq
    have key : (p.toFourCC, q.toFourCC) ∈ (m_convert L).map (fun c => (c.«from», c.«to»)) := by
      rw [m_convert_keys]
      rcases hp with rfl | rfl <;> cases q <;> first | (exact absurd rfl hq) | decide
    obtain ⟨c, hc, hcq⟩ := List.mem_map.1 key
    exact ⟨c, hc, congrArg Prod.fst hcq, congrArg Prod.snd hcq⟩

/-! ## Dispatch -/

/-- The table search of `convert`, by position: the entry found is the one at the index of
the first matching key. -/
theorem find_eq_getElem_findIdx {α κ : Type} (key : α → κ) (q : κ → Bool) (l : List α) :
    l.find? (fun c => q (key c)) = l[(l.map key).findIdx q]? := by
  induction l with
  | nil => rfl
  | cons a l ih =>
    rw [List.find?_cons, List.map_cons, List.findIdx_cons]
    cases h : q (key a)
    · simp only [cond_false, List.getElem?_cons_succ]
      exact ih
    · simp only [cond_true, List.getElem?_cons_zero]

theorem find_m_convert (L : Layout) (a b : FourCC) :
    ((m_convert L).find? fun c => c.«from» == a && c.«to» == b) =
      (m_convert L)[((m_convert L).map fun c => (c.«from», c.«to»)).findIdx
        fun k => k.1 == a && k.2 == b]? :=
  find_eq_getElem_findIdx (fun c : VideoConvert => (c.«from», c.«to»))
    (fun k => k.1 == a && k.2 == b) (m_convert L)

/-- The routine that `convert` runs on a BGR24 frame, for each target. -/
theorem convert_of_bgr24 (L : Layout) (src : VideoFrame)
    (h : src.m_format.fourcc = PixelFormatBGR24) :
    src.convert L PixelFormatRGB32 = bgr24_to_rgb32 L src ∧
    src.convert L PixelFormatRGB24 = bgr24_to_rgb24 L src ∧
    src.convert L PixelFormatRGB16 = bgr24_to_rgb16 L src ∧
    src.convert L PixelFormatRGB15 = bgr24_to_rgb15 L src ∧
    src.convert L PixelFormatBGR32 = bgr24_to_bgr32 L src ∧
    src.convert L PixelFormatBGR16 = bgr24_to_bgr16 L src ∧
    src.convert L PixelFormatBGR15 = bgr24_to_bgr15 L src ∧
    src.convert L PixelFormatUYVY = bgr24_to_uyvy L src ∧
    src.convert L PixelFormatYUY2 = bgr24_to_yuy2 L src ∧
    src.convert L PixelFormatNV12 = bgr24_to_nv12 L src ∧
    src.convert L PixelFormatNV21 = bgr24_to_nv21 L src := by
  unfold VideoFrame.convert
  rw [h]
  refine ⟨?_, ?_, ?_, ?_, ?_, ?_, ?_, ?_, ?_, ?_, ?_⟩
  · rw [if_neg (by decide), find_m_convert, m_convert_keys,
      (by decide : List.findIdx (fun k : FourCC × FourCC => k.1 == PixelFormatBGR24 && k.2 == PixelFormatRGB32) _ = 0)]
    rfl
  · rw [if_neg (by decide), find_m_convert, m_convert_keys,
      (by decide : List.findIdx (fun k : FourCC × FourCC => k.1 == PixelFormatBGR24 && k.2 == PixelFormatRGB24) _ = 1)]
    rfl
  · rw [if_neg (by decide), find_m_convert, m_convert_keys,
      (by decide : List.findIdx (fun k : FourCC × FourCC => k.1 == PixelFormatBGR24 && k.2 == PixelFormatRGB16) _ = 2)]
    rfl
  · rw [if_neg (by decide), find_m_convert, m_convert_keys,
      (by decide : List.findIdx (fun k : FourCC × FourCC => k.1 == PixelFormatBGR24 && k.2 == PixelFormatRGB15) _ = 3)]
    rfl
  · rw [if_neg (by decide), find_m_convert, m_convert_keys,
      (by decide : List.findIdx (fun k : FourCC × FourCC => k.1 == PixelFormatBGR24 && k.2 == PixelFormatBGR32) _ = 4)]
    rfl
  · rw [if_neg (by decide), find_m_convert, m_convert_keys,
      (by decide : List.findIdx (fun k : FourCC × FourCC => k.1 == PixelFormatBGR24 && k.2 == PixelFormatBGR16) _ = 5)]
    rfl
  · rw [if_neg (by decide), find_m_convert, m_convert_keys,
      (by decide : List.findIdx (fun k : FourCC × FourCC => k.1 == PixelFormatBGR24 && k.2 == PixelFormatBGR15) _ = 6)]
    rfl
  · rw [if_neg (by decide), find_m_convert, m_convert_keys,
      (by decide : List.findIdx (fun k : FourCC × FourCC => k.1 == PixelFormatBGR24 && k.2 == PixelFormatUYVY) _ = 7)]
    rfl
  · rw [if_neg (by decide), find_m_convert, m_convert_keys,
      (by decide : List.findIdx (fun k : FourCC × FourCC => k.1 == PixelFormatBGR24 && k.2 == PixelFormatYUY2) _ = 8)]
    rfl
  · rw [if_neg (by decide), find_m_convert, m_convert_keys,
      (by decide : List.findIdx (fun k : FourCC × FourCC => k.1 == PixelFormatBGR24 && k.2 == PixelFormatNV12) _ = 9)]
    rfl
  · rw [if_neg (by decide), find_m_convert, m_convert_keys,
      (by decide : List.findIdx (fun k : FourCC × FourCC => k.1 == PixelFormatBGR24 && k.2 == PixelFormatNV21) _ = 10)]
    rfl

/-- The routine that `convert` runs on an RGB24 frame, for each target. -/
theorem convert_of_rgb24 (L : Layout) (src : VideoFrame)
    (h : src.m_format.fourcc = PixelFormatRGB24) :
    src.convert L PixelFormatRGB32 = rgb24_to_rgb32 L src ∧
    src.convert L PixelFormatRGB16 = rgb24_to_rgb16 L src ∧
    src.convert L PixelFormatRGB15 = rgb24_to_rgb15 L src ∧
    src.convert L PixelFormatBGR32 = rgb24_to_bgr32 L src ∧
    src.convert L PixelFormatBGR24 = rgb24_to_bgr24 L src ∧
    src.convert L PixelFormatBGR16 = rgb24_to_bgr16 L src ∧
    src.convert L PixelFormatBGR15 = rgb24_to_bgr15 L src ∧
    src.convert L PixelFormatUYVY = rgb24_to_uyvy L src ∧
    src.convert L PixelFormatYUY2 = rgb24_to_yuy2 L src ∧
    src.convert L PixelFormatNV12 = rgb24_to_nv12 L src ∧
    src.convert L PixelFormatNV21 = rgb24_to_nv21 L src := by
  unfold VideoFrame.convert
  rw [h]
  refine ⟨?_, ?_, ?_, ?_, ?_, ?_, ?_, ?_, ?_, ?_, ?_⟩
  · rw [if_neg (by decide), find_m_convert, m_convert_keys,
      (by decide : List.findIdx (fun k : FourCC × FourCC => k.1 == PixelFormatRGB24 && k.2 == PixelFormatRGB32) _ = 11)]
    rfl
  · rw [if_neg (by decide), find_m_convert, m_convert_keys,
      (by decide : List.findIdx (fun k : FourCC × FourCC => k.1 == PixelFormatRGB24 && k.2 == PixelFormatRGB16) _ = 12)]
    rfl
  · rw [if_neg (by decide), find_m_convert, m_convert_keys,
      (by decide : List.findIdx (fun k : FourCC × FourCC => k.1 == PixelFormatRGB24 && k.2 == PixelFormatRGB15) _ = 13)]
    rfl
  · rw [if_neg (by decide), find_m_convert, m_convert_keys,
      (by decide : List.findIdx (fun k : FourCC × FourCC => k.1 == PixelFormatRGB24 && k.2 == PixelFormatBGR32) _ = 14)]
    rfl
  · rw [if_neg (by decide), find_m_convert, m_convert_keys,
      (by decide : List.findIdx (fun k : FourCC × FourCC => k.1 == PixelFormatRGB24 && k.2 == PixelFormatBGR24) _ = 15)]
    rfl
  · rw [if_neg (by decide), find_m_convert, m_convert_keys,
      (by decide : List.findIdx (fun k : FourCC × FourCC => k.1 == PixelFormatRGB24 && k.2 == PixelFormatBGR16) _ = 16)]
    rfl
  · rw [if_neg (by decide), find_m_convert, m_convert_keys,
      (by decide : List.findIdx (fun k : FourCC × FourCC => k.1 == PixelFormatRGB24 && k.2 == PixelFormatBGR15) _ = 17)]
    rfl
  · rw [if_neg (by decide), find_m_convert, m_convert_keys,
      (by decide : List.findIdx (fun k : FourCC × FourCC => k.1 == PixelFormatRGB24 && k.2 == PixelFormatUYVY) _ = 18)]
    rfl
  · rw [if_neg (by decide), find_m_convert, m_convert_keys,
      (by decide : List.findIdx (fun k : FourCC × FourCC => k.1 == PixelFormatRGB24 && k.2 == PixelFormatYUY2) _ = 19)]
    rfl
  · rw [if_neg (by decide), find_m_convert, m_convert_keys,
      (by decide : List.findIdx (fun k : FourCC × FourCC => k.1 == PixelFormatRGB24 && k.2 == PixelFormatNV12) _ = 20)]
    rfl
  · rw [if_neg (by decide), find_m_convert, m_convert_keys,
      (by decide : List.findIdx (fun k : FourCC × FourCC => k.1 == PixelFormatRGB24 && k.2 == PixelFormatNV21) _ = 21)]
    rfl

/-- Every routine started from BGR24 returns a frame in the format of its input with the
encoding replaced by its target. -/
theorem bgr24_routines_format (L : Layout) (src : VideoFrame) :
    (bgr24_to_rgb32 L src).m_format = { src.m_format with fourcc := PixelFormatRGB32 } ∧
    (bgr24_to_rgb24 L src).m_format = { src.m_format with fourcc := PixelFormatRGB24 } ∧
    (bgr24_to_rgb16 L src).m_format = { src.m_format with fourcc := PixelFormatRGB16 } ∧
    (bgr24_to_rgb15 L src).m_format = { src.m_format with fourcc := PixelFormatRGB15 } ∧
    (bgr24_to_bgr32 L src).m_format = { src.m_format with fourcc := PixelFormatBGR32 } ∧
    (bgr24_to_bgr16 L src).m_format = { src.m_format with fourcc := PixelFormatBGR16 } ∧
    (bgr24_to_bgr15 L src).m_format = { src.m_format with fourcc := PixelFormatBGR15 } ∧
    (bgr24_to_uyvy L src).m_format = { src.m_format with fourcc := PixelFormatUYVY } ∧
    (bgr24_to_yuy2 L src).m_format = { src.m_format with fourcc := PixelFormatYUY2 } ∧
    (bgr24_to_nv12 L src).m_format = { src.m_format with fourcc := PixelFormatNV12 } ∧
    (bgr24_to_nv21 L src).m_format = { src.m_format with fourcc := PixelFormatNV21 } :=
  ⟨rfl, rfl, rfl, rfl, rfl, rfl, rfl, rfl, rfl, rfl, rfl⟩

/-- Every routine started from RGB24 returns a frame in the format of its input with the
encoding replaced by its target. -/
theorem rgb24_routines_format (L : Layout) (src : VideoFrame) :
    (rgb24_to_rgb32 L src).m_format = { src.m_format with fourcc := PixelFormatRGB32 } ∧
    (rgb24_to_rgb16 L src).m_format = { src.m_format with fourcc := PixelFormatRGB16 } ∧
    (rgb24_to_rgb15 L src).m_format = { src.m_format with fourcc := PixelFormatRGB15 } ∧
    (rgb24_to_bgr32 L src).m_format = { src.m_format with fourcc := PixelFormatBGR32 } ∧
    (rgb24_to_bgr24 L src).m_format = { src.m_format with fourcc := PixelFormatBGR24 } ∧
    (rgb24_to_bgr16 L src).m_format = { src.m_format with fourcc := PixelFormatBGR16 } ∧
    (rgb24_to_bgr15 L src).m_format = { src.m_format with fourcc := PixelFormatBGR15 } ∧
    (rgb24_to_uyvy L src).m_format = { src.m_format with fourcc := PixelFormatUYVY } ∧
    (rgb24_to_yuy2 L src).m_format = { src.m_format with fourcc := PixelFormatYUY2 } ∧
    (rgb24_to_nv12 L src).m_format = { src.m_format with fourcc := PixelFormatNV12 } ∧
    (rgb24_to_nv21 L src).m_format = { src.m_format with fourcc := PixelFormatNV21 } :=
  ⟨rfl, rfl, rfl, rfl, rfl, rfl, rfl, rfl, rfl, rfl, rfl⟩

/-- C4: converting a BGR24 or RGB24 frame to any other enumerated encoding gives a frame
whose encoding is the target and whose width and height are those of the input. -/
theorem convert_format (L : Layout) (src : VideoFrame) (target : PixelFormat)
    (hsrc : src.m_format.fourcc = PixelFormatBGR24 ∨ src.m_format.fourcc = PixelFormatRGB24)
    (hne : target.toFourCC ≠ src.m_format.fourcc) :
    (src.convert L target.toFourCC).m_format.fourcc = target.toFourCC ∧
      (src.convert L target.toFourCC).m_format.width = src.m_format.width ∧
      (src.convert L target.toFourCC).m_format.height = src.m_format.height := by
  rcases hsrc with h | h
  · obtain ⟨h1, h2, h3, h4, h5, h6, h7, h8, h9, h10, h11⟩ := convert_of_bgr24 L src h
    obtain ⟨f1, f2, f3, f4, f5, f6, f7, f8, f9, f10, f11⟩ := bgr24_routines_format L src
    cases target
    case BGR24 => exact absurd h.symm hne
    all_goals
      simp only [PixelFormat.toFourCC, h1, h2, h3, h4, h5, h6, h7, h8, h9, h10, h11,
        f1, f2, f3, f4, f5, f6, f7, f8, f9, f10, f11, and_self]
  · obtain ⟨h1, h2, h3, h4, h5, h6, h7, h8, h9, h10, h11⟩ := convert_of_rgb24 L src h
    obtain ⟨f1, f2, f3, f4, f5, f6, f7, f8, f9, f10, f11⟩ := rgb24_routines_format L src
    cases target
    case RGB24 => exact absurd h.symm hne
    all_goals
      simp only [PixelFormat.toFourCC, h1, h2, h3, h4, h5, h6, h7, h8, h9, h10, h11,
        f1, f2, f3, f4, f5, f6, f7, f8, f9, f10, f11, and_self]

/-- Witness for C4: the 2x2 BGR24 sample frame converted to NV12. -/
theorem convert_format_witness :
    ((sampleFrame PixelFormatBGR24).convert specLayout PixelFormat.NV12.toFourCC).m_format.fourcc
        = PixelFormat.NV12.toFourCC ∧
      ((sampleFrame PixelFormatBGR24).convert specLayout PixelFormat.NV12.toFourCC).m_format.width
        = (sampleFrame PixelFormatBGR24).m_format.width ∧
      ((sampleFrame PixelFormatBGR24).convert specLayout PixelFormat.NV12.toFourCC).m_format.height
        = (sampleFrame PixelFormatBGR24).m_format.height :=
  convert_format specLayout (sampleFrame PixelFormatBGR24) PixelFormat.NV12 (Or.inl rfl)
    (by decide)

/-! ## The 32-bit targets -/

theorem bgr24_to_rgb32_pixel (L : Layout) (src : VideoFrame)
    (hfit : L.PlaneFits { src.m_format with fourcc := PixelFormatRGB32 } 0
      (4 * src.m_format.width.toNat) src.m_format.height.toNat)
    (y x : Nat) (hy : (y : Int) < src.m_format.height) (hx : (x : Int) < src.m_format.width) :
    ((bgr24_to_rgb32 L src).field L y RGB32.sizeof x RGB32.x,
      (bgr24_to_rgb32 L src).field L y RGB32.sizeof x RGB32.r,
      (bgr24_to_rgb32 L src).field L y RGB32.sizeof x RGB32.g,
      (bgr24_to_rgb32 L src).field L y RGB32.sizeof x RGB32.b)
      = (255, src.field L y BGR24.sizeof x BGR24.r, src.field L y BGR24.sizeof x BGR24.g,
          src.field L y BGR24.sizeof x BGR24.b) :=
  write4_loop RGB32.x RGB32.r RGB32.g RGB32.b (fun _ _ => 255)
    (fun y x => src.field L y BGR24.sizeof x BGR24.r)
    (fun y x => src.field L y BGR24.sizeof x BGR24.g)
    (fun y x => src.field L y BGR24.sizeof x BGR24.b)
    (by decide) _ _ _ _ _ hfit.1 (by rw [length_ofFormat]; exact hfit.2) y x hy hx

theorem bgr24_to_bgr32_pixel (L : Layout) (src : VideoFrame)
    (hfit : L.PlaneFits { src.m_format with fourcc := PixelFormatBGR32 } 0
      (4 * src.m_format.width.toNat) src.m_format.height.toNat)
    (y x : Nat) (hy : (y : Int) < src.m_format.height) (hx : (x : Int) < src.m_format.width) :
    ((bgr24_to_bgr32 L src).field L y BGR32.sizeof x BGR32.x,
      (bgr24_to_bgr32 L src).field L y BGR32.sizeof x BGR32.r,
      (bgr24_to_bgr32 L src).field L y BGR32.sizeof x BGR32.g,
      (bgr24_to_bgr32 L src).field L y BGR32.sizeof x BGR32.b)
      = (255, src.field L y BGR24.sizeof x BGR24.r, src.field L y BGR24.sizeof x BGR24.g,
          src.field L y BGR24.sizeof x BGR24.b) :=
  write4_loop BGR32.x BGR32.r BGR32.g BGR32.b (fun _ _ => 255)
    (fun y x => src.field L y BGR24.sizeof x BGR24.r)
    (fun y x => src.field L y BGR24.sizeof x BGR24.g)
    (fun y x => src.field L y BGR24.sizeof x BGR24.b)
    (by decide) _ _ _ _ _ hfit.1 (by rw [length_ofFormat]; exact hfit.2) y x hy hx

theorem rgb24_to_rgb32_pixel (L : Layout) (src : VideoFrame)
    (hfit : L.PlaneFits { src.m_format with fourcc := PixelFormatRGB32 } 0
      (4 * src.m_format.width.toNat) src.m_format.height.toNat)
    (y x : Nat) (hy : (y : Int) < src.m_format.height) (hx : (x : Int) < src.m_format.width) :
    ((rgb24_to_rgb32 L src).field L y RGB32.sizeof x RGB32.x,
      (rgb24_to_rgb32 L src).field L y RGB32.sizeof x RGB32.r,
      (rgb24_to_rgb32 L src).field L y RGB32.sizeof x RGB32.g,
      (rgb24_to_rgb32 L src).field L y RGB32.sizeof x RGB32.b)
      = (255, src.field L y RGB24.sizeof x RGB24.r, src.field L y RGB24.sizeof x RGB24.g,
          src.field L y RGB24.sizeof x RGB24.b) :=
  write4_loop RGB32.x RGB32.r RGB32.g RGB32.b (fun _ _ => 255)
    (fun y x => src.field L y RGB24.sizeof x RGB24.r)
    (fun y x => src.field L y RGB24.sizeof x RGB24.g)
    (fun y x => src.field L y RGB24.sizeof x RGB24.b)
    (by decide) _ _ _ _ _ hfit.1 (by rw [length_ofFormat]; exact hfit.2) y x hy hx

theorem rgb24_to_bgr32_pixel (L : Layout) (src : VideoFrame)
    (hfit : L.PlaneFits { src.m_format with fourcc := PixelFormatBGR32 } 0
      (4 * src.m_format.width.toNat) src.m_format.height.toNat)
    (y x : Nat) (hy : (y : Int) < src.m_format.height) (hx : (x : Int) < src.m_format.width) :
    ((rgb24_to_bgr32 L src).field L y BGR32.sizeof x BGR32.x,
      (rgb24_to_bgr32 L src).field L y BGR32.sizeof x BGR32.r,
      (rgb24_to_bgr32 L src).field L y BGR32.sizeof x BGR32.g,
      (rgb24_to_bgr32 L src).field L y BGR32.sizeof x BGR32.b)
      = (255, src.field L y RGB24.sizeof x RGB24.r, src.field L y RGB24.sizeof x RGB24.g,
          src.field L y RGB24.sizeof x RGB24.b) :=
  write4_loop BGR32.x BGR32.r BGR32.g BGR32.b (fun _ _ => 255)
    (fun y x => src.field L y RGB24.sizeof x RGB24.r)
    (fun y x => src.field L y RGB24.sizeof x RGB24.g)
    (fun y x => src.field L y RGB24.sizeof x RGB24.b)
    (by decide) _ _ _ _ _ hfit.1 (by rw [length_ofFormat]; exact hfit.2) y x hy hx

/-- C5: for a BGR24 or RGB24 frame and every pixel inside it, conversion to RGB32 or BGR32
gives a pixel whose `r`, `g`, `b` members are the source pixel's and whose `x` member is 255;
hence for BGR24 to RGB32 the result's bytes 3, 2, 1 (alpha byte 0 dropped, order reversed) are
the source pixel's bytes 0, 1, 2. -/
theorem convert_to_32bit (L : Layout) (src : VideoFrame) (y x : Nat)
    (hy : (y : Int) < src.m_format.height) (hx : (x : Int) < src.m_format.width)
    (hfit : ∀ t, t = PixelFormatRGB32 ∨ t = PixelFormatBGR32 →
      L.PlaneFits { src.m_format with fourcc := t } 0
        (4 * src.m_format.width.toNat) src.m_format.height.toNat) :
    (src.m_format.fourcc = PixelFormatBGR24 →
      ((src.convert L PixelFormatRGB32).field L y RGB32.sizeof x RGB32.x = 255 ∧
          (src.convert L PixelFormatRGB32).field L y RGB32.sizeof x RGB32.r
            = src.field L y BGR24.sizeof x BGR24.r ∧
          (src.convert L PixelFormatRGB32).field L y RGB32.sizeof x RGB32.g
            = src.field L y BGR24.sizeof x BGR24.g ∧
          (src.convert L PixelFormatRGB32).field L y RGB32.sizeof x RGB32.b
            = src.field L y BGR24.sizeof x BGR24.b) ∧
      ((src.convert L PixelFormatBGR32).field L y BGR32.sizeof x BGR32.x = 255 ∧
          (src.convert L PixelFormatBGR32).field L y BGR32.sizeof x BGR32.r
            = src.field L y BGR24.sizeof x BGR24.r ∧
          (src.convert L PixelFormatBGR32).field L y BGR32.sizeof x BGR32.g
            = src.field L y BGR24.sizeof x BGR24.g ∧
          (src.convert L PixelFormatBGR32).field L y BGR32.sizeof x BGR32.b
            = src.field L y BGR24.sizeof x BGR24.b) ∧
      [(src.convert L PixelFormatRGB32).field L y 4 x 3,
        (src.convert L PixelFormatRGB32).field L y 4 x 2,
        (src.convert L PixelFormatRGB32).field L y 4 x 1]
        = [src.field L y 3 x 0, src.field L y 3 x 1, src.field L y 3 x 2]) ∧
    (src.m_format.fourcc = PixelFormatRGB24 →
      ((src.convert L PixelFormatRGB32).field L y RGB32.sizeof x RGB32.x = 255 ∧
          (src.convert L PixelFormatRGB32).field L y RGB32.sizeof x RGB32.r
            = src.field L y RGB24.sizeof x RGB24.r ∧
          (src.convert L PixelFormatRGB32).field L y RGB32.sizeof x RGB32.g
            = src.field L y RGB24.sizeof x RGB24.g ∧
          (src.convert L PixelFormatRGB32).field L y RGB32.sizeof x RGB32.b
            = src.field L y RGB24.sizeof x RGB24.b) ∧
      ((src.convert L PixelFormatBGR32).field L y BGR32.sizeof x BGR32.x = 255 ∧
          (src.convert L PixelFormatBGR32).field L y BGR32.sizeof x BGR32.r
            = src.field L y RGB24.sizeof x RGB24.r ∧
          (src.convert L PixelFormatBGR32).field L y BGR32.sizeof x BGR32.g
            = src.field L y RGB24.sizeof x RGB24.g ∧
          (src.convert L PixelFormatBGR32).field L y BGR32.sizeof x BGR32.b
            = src.field L y RGB24.sizeof x RGB24.b)) := by
  refine ⟨fun h => ?_, fun h => ?_⟩
  · have c := convert_of_bgr24 L src h
    have p1 := bgr24_to_rgb32_pixel L src (hfit _ (Or.inl rfl)) y x hy hx
    have p2 := bgr24_to_bgr32_pixel L src (hfit _ (Or.inr rfl)) y x hy hx
    rw [c.1, c.2.2.2.2.1]
    simp only [Prod.mk.injEq] at p1 p2
    refine ⟨p1, p2, ?_⟩
    have e1 : (bgr24_to_rgb32 L src).field L y 4 x 3 = src.field L y 3 x 0 := p1.2.1
    have e2 : (bgr24_to_rgb32 L src).field L y 4 x 2 = src.field L y 3 x 1 := p1.2.2.1
    have e3 : (bgr24_to_rgb32 L src).field L y 4 x 1 = src.field L y 3 x 2 := p1.2.2.2
    rw [e1, e2, e3]
  · have c := convert_of_rgb24 L src h
    have p1 := rgb24_to_rgb32_pixel L src (hfit _ (Or.inl rfl)) y x hy hx
    have p2 := rgb24_to_bgr32_pixel L src (hfit _ (Or.inr rfl)) y x hy hx
    rw [c.1, c.2.2.2.1]
    simp only [Prod.mk.injEq] at p1 p2
    exact ⟨p1, p2⟩

/-- Witness for C5: pixel (1, 1) of the 2x2 BGR24 sample frame, converted to RGB32. -/
theorem convert_to_32bit_witness :
    ((1 : Int) < (sampleFrame PixelFormatBGR24).m_format.height ∧
      (1 : Int) < (sampleFrame PixelFormatBGR24).m_format.width) ∧
      (((sampleFrame PixelFormatBGR24).convert specLayout PixelFormatRGB32).field specLayout 1 RGB32.sizeof 1 RGB32.x = 255 ∧
          ((sampleFrame PixelFormatBGR24).convert specLayout PixelFormatRGB32).field specLayout 1 RGB32.sizeof 1 RGB32.r
            = (sampleFrame PixelFormatBGR24).field specLayout 1 BGR24.sizeof 1 BGR24.r ∧
          ((sampleFrame PixelFormatBGR24).convert specLayout PixelFormatRGB32).field specLayout 1 RGB32.sizeof 1 RGB32.g
            = (sampleFrame PixelFormatBGR24).field specLayout 1 BGR24.sizeof 1 BGR24.g ∧
          ((sampleFrame PixelFormatBGR24).convert specLayout PixelFormatRGB32).field specLayout 1 RGB32.sizeof 1 RGB32.b
            = (sampleFrame PixelFormatBGR24).field specLayout 1 BGR24.sizeof 1 BGR24.b) :=
  ⟨by decide,
    ((convert_to_32bit specLayout (sampleFrame PixelFormatBGR24) 1 1 (by decide) (by decide)
      (by
        intro t ht
        rcases ht with rfl | rfl <;> (unfold Layout.PlaneFits; decide))).1 rfl).1⟩

/-! ## The 16-bit and 15-bit targets -/

theorem bgr24_to_rgb16_pixel (L : Layout) (src : VideoFrame)
    (hfit : L.PlaneFits { src.m_format with fourcc := PixelFormatRGB16 } 0
      (2 * src.m_format.width.toNat) src.m_format.height.toNat)
    (y x : Nat) (hy : (y : Int) < src.m_format.height) (hx : (x : Int) < src.m_format.width) :
    ((bgr24_to_rgb16 L src).bits L y RGB16.sizeof x RGB16.r,
      (bgr24_to_rgb16 L src).bits L y RGB16.sizeof x RGB16.g,
      (bgr24_to_rgb16 L src).bits L y RGB16.sizeof x RGB16.b)
      = ((src.field L y BGR24.sizeof x BGR24.r).val >>> 3,
          (src.field L y BGR24.sizeof x BGR24.g).val >>> 2,
          (src.field L y BGR24.sizeof x BGR24.b).val >>> 3) := by
  refine (bits3_loop RGB16.r RGB16.g RGB16.b
    (fun y x => (src.field L y BGR24.sizeof x BGR24.r).val >>> 3)
    (fun y x => (src.field L y BGR24.sizeof x BGR24.g).val >>> 2)
    (fun y x => (src.field L y BGR24.sizeof x BGR24.b).val >>> 3)
    (Or.inl rfl) _ _ _ _ _ hfit.1 (by rw [length_ofFormat]; exact hfit.2) y x hy hx).trans ?_
  simp only [Prod.mk.injEq]
  refine ⟨?_, ?_, ?_⟩ <;> omega

theorem bgr24_to_bgr16_pixel (L : Layout) (src : VideoFrame)
    (hfit : L.PlaneFits { src.m_format with fourcc := PixelFormatBGR16 } 0
      (2 * src.m_format.width.toNat) src.m_format.height.toNat)
    (y x : Nat) (hy : (y : Int) < src.m_format.height) (hx : (x : Int) < src.m_format.width) :
    ((bgr24_to_bgr16 L src).bits L y BGR16.sizeof x BGR16.r,
      (bgr24_to_bgr16 L src).bits L y BGR16.sizeof x BGR16.g,
      (bgr24_to_bgr16 L src).bits L y BGR16.sizeof x BGR16.b)
      = ((src.field L y BGR24.sizeof x BGR24.r).val >>> 3,
          (src.field L y BGR24.sizeof x BGR24.g).val >>> 2,
          (src.field L y BGR24.sizeof x BGR24.b).val >>> 3) := by
  refine (bits3_loop BGR16.r BGR16.g BGR16.b
    (fun y x => (src.field L y BGR24.sizeof x BGR24.r).val >>> 3)
    (fun y x => (src.field L y BGR24.sizeof x BGR24.g).val >>> 2)
    (fun y x => (src.field L y BGR24.sizeof x BGR24.b).val >>> 3)
    (Or.inr rfl) _ _ _ _ _ hfit.1 (by rw [length_ofFormat]; exact hfit.2) y x hy hx).trans ?_
  simp only [Prod.mk.injEq]
  refine ⟨?_, ?_, ?_⟩ <;> omega

theorem bgr24_to_rgb15_pixel (L : Layout) (src : VideoFrame)
    (hfit : L.PlaneFits { src.m_format with fourcc := PixelFormatRGB15 } 0
      (2 * src.m_format.width.toNat) src.m_format.height.toNat)
    (y x : Nat) (hy : (y : Int) < src.m_format.height) (hx : (x : Int) < src.m_format.width) :
    ((bgr24_to_rgb15 L src).bits L y RGB15.sizeof x RGB15.x,
      (bgr24_to_rgb15 L src).bits L y RGB15.sizeof x RGB15.r,
      (bgr24_to_rgb15 L src).bits L y RGB15.sizeof x RGB15.g,
      (bgr24_to_rgb15 L src).bits L y RGB15.sizeof x RGB15.b)
      = (1, (src.field L y BGR24.sizeof x BGR24.r).val >>> 3,
          (src.field L y BGR24.sizeof x BGR24.g).val >>> 3,
          (src.field L y BGR24.sizeof x BGR24.b).val >>> 3) := by
  refine (bits4_loop RGB15.x RGB15.r RGB15.g RGB15.b (fun _ _ => 1)
    (fun y x => (src.field L y BGR24.sizeof x BGR24.r).val >>> 3)
    (fun y x => (src.field L y BGR24.sizeof x BGR24.g).val >>> 3)
    (fun y x => (src.field L y BGR24.sizeof x BGR24.b).val >>> 3)
    (Or.inl rfl) _ _ _ _ _ hfit.1 (by rw [length_ofFormat]; exact hfit.2) y x hy hx).trans ?_
  simp only [Prod.mk.injEq]
  refine ⟨trivial, ?_, ?_, ?_⟩ <;> omega

theorem bgr24_to_bgr15_pixel (L : Layout) (src : VideoFrame)
    (hfit : L.PlaneFits { src.m_format with fourcc := PixelFormatBGR15 } 0
      (2 * src.m_format.width.toNat) src.m_format.height.toNat)
    (y x : Nat) (hy : (y : Int) < src.m_format.height) (hx : (x : Int) < src.m_format.width) :
    ((bgr24_to_bgr15 L src).bits L y BGR15.sizeof x BGR15.x,
      (bgr24_to_bgr15 L src).bits L y BGR15.sizeof x BGR15.r,
      (bgr24_to_bgr15 L src).bits L y BGR15.sizeof x BGR15.g,
      (bgr24_to_bgr15 L src).bits L y BGR15.sizeof x BGR15.b)
      = (1, (src.field L y BGR24.sizeof x BGR24.r).val >>> 3,
          (src.field L y BGR24.sizeof x BGR24.g).val >>> 3,
          (src.field L y BGR24.sizeof x BGR24.b).val >>> 3) := by
  refine (bits4_loop BGR15.x BGR15.r BGR15.g BGR15.b (fun _ _ => 1)
    (fun y x => (src.field L y BGR24.sizeof x BGR24.r).val >>> 3)
    (fun y x => (src.field L y BGR24.sizeof x BGR24.g).val >>> 3)
    (fun y x => (src.field L y BGR24.sizeof x BGR24.b).val >>> 3)
    (Or.inr rfl) _ _ _ _ _ hfit.1 (by rw [length_ofFormat]; exact hfit.2) y x hy hx).trans ?_
  simp only [Prod.mk.injEq]
  refine ⟨trivial, ?_, ?_, ?_⟩ <;> omega

theorem rgb24_to_rgb16_pixel (L : Layout) (src : VideoFrame)
    (hfit : L.PlaneFits { src.m_format with fourcc := PixelFormatRGB16 } 0
      (2 * src.m_format.width.toNat) src.m_format.height.toNat)
    (y x : Nat) (hy : (y : Int) < src.m_format.height) (hx : (x : Int) < src.m_format.width) :
    ((rgb24_to_rgb16 L src).bits L y RGB16.sizeof x RGB16.r,
      (rgb24_to_rgb16 L src).bits L y RGB16.sizeof x RGB16.g,
      (rgb24_to_rgb16 L src).bits L y RGB16.sizeof x RGB16.b)
      = ((src.field L y RGB24.sizeof x RGB24.r).val >>> 3,
          (src.field L y RGB24.sizeof x RGB24.g).val >>> 2,
          (src.field L y RGB24.sizeof x RGB24.b).val >>> 3) := by
  refine (bits3_loop RGB16.r RGB16.g RGB16.b
    (fun y x => (src.field L y RGB24.sizeof x RGB24.r).val >>> 3)
    (fun y x => (src.field L y RGB24.sizeof x RGB24.g).val >>> 2)
    (fun y x => (src.field L y RGB24.sizeof x RGB24.b).val >>> 3)
    (Or.inl rfl) _ _ _ _ _ hfit.1 (by rw [length_ofFormat]; exact hfit.2) y x hy hx).trans ?_
  simp only [Prod.mk.injEq]
  refine ⟨?_, ?_, ?_⟩ <;> omega

theorem rgb24_to_bgr16_pixel (L : Layout) (src : VideoFrame)
    (hfit : L.PlaneFits { src.m_format with fourcc := PixelFormatBGR16 } 0
      (2 * src.m_format.width.toNat) src.m_format.height.toNat)
    (y x : Nat) (hy : (y : Int) < src.m_format.height) (hx : (x : Int) < src.m_format.width) :
    ((rgb24_to_bgr16 L src).bits L y BGR16.sizeof x BGR16.r,
      (rgb24_to_bgr16 L src).bits L y BGR16.sizeof x BGR16.g,
      (rgb24_to_bgr16 L src).bits L y BGR16.sizeof x BGR16.b)
      = ((src.field L y RGB24.sizeof x RGB24.r).val >>> 3,
          (src.field L y RGB24.sizeof x RGB24.g).val >>> 2,
          (src.field L y RGB24.sizeof x RGB24.b).val >>> 3) := by
  refine (bits3_loop BGR16.r BGR16.g BGR16.b
    (fun y x => (src.field L y RGB24.sizeof x RGB24.r).val >>> 3)
    (fun y x => (src.field L y RGB24.sizeof x RGB24.g).val >>> 2)
    (fun y x => (src.field L y RGB24.sizeof x RGB24.b).val >>> 3)
    (Or.inr rfl) _ _ _ _ _ hfit.1 (by rw [length_ofFormat]; exact hfit.2) y x hy hx).trans ?_
  simp only [Prod.mk.injEq]
  refine ⟨?_, ?_, ?_⟩ <;> omega

theorem rgb24_to_rgb15_pixel (L : Layout) (src : VideoFrame)
    (hfit : L.PlaneFits { src.m_format with fourcc := PixelFormatRGB15 } 0
      (2 * src.m_format.width.toNat) src.m_format.height.toNat)
    (y x : Nat) (hy : (y : Int) < src.m_format.height) (hx : (x : Int) < src.m_format.width) :
    ((rgb24_to_rgb15 L src).bits L y RGB15.sizeof x RGB15.x,
      (rgb24_to_rgb15 L src).bits L y RGB15.sizeof x RGB15.r,
      (rgb24_to_rgb15 L src).bits L y RGB15.sizeof x RGB15.g,
      (rgb24_to_rgb15 L src).bits L y RGB15.sizeof x RGB15.b)
      = (1, (src.field L y RGB24.sizeof x RGB24.r).val >>> 3,
          (src.field L y RGB24.sizeof x RGB24.g).val >>> 3,
          (src.field L y RGB24.sizeof x RGB24.b).val >>> 3) := by
  refine (bits4_loop RGB15.x RGB15.r RGB15.g RGB15.b (fun _ _ => 1)
    (fun y x => (src.field L y RGB24.sizeof x RGB24.r).val >>> 3)
    (fun y x => (src.field L y RGB24.sizeof x RGB24.g).val >>> 3)
    (fun y x => (src.field L y RGB24.sizeof x RGB24.b).val >>> 3)
    (Or.inl rfl) _ _ _ _ _ hfit.1 (by rw [length_ofFormat]; exact hfit.2) y x hy hx).trans ?_
  simp only [Prod.mk.injEq]
  refine ⟨trivial, ?_, ?_, ?_⟩ <;> omega

theorem rgb24_to_bgr15_pixel (L : Layout) (src : VideoFrame)
    (hfit : L.PlaneFits { src.m_format with fourcc := PixelFormatBGR15 } 0
      (2 * src.m_format.width.toNat) src.m_format.height.toNat)
    (y x : Nat) (hy : (y : Int) < src.m_format.height) (hx : (x : Int) < src.m_format.width) :
    ((rgb24_to_bgr15 L src).bits L y BGR15.sizeof x BGR15.x,
      (rgb24_to_bgr15 L src).bits L y BGR15.sizeof x BGR15.r,
      (rgb24_to_bgr15 L src).bits L y BGR15.sizeof x BGR15.g,
      (rgb24_to_bgr15 L src).bits L y BGR15.sizeof x BGR15.b)
      = (1, (src.field L y RGB24.sizeof x RGB24.r).val >>> 3,
          (src.field L y RGB24.sizeof x RGB24.g).val >>> 3,
          (src.field L y RGB24.sizeof x RGB24.b).val >>> 3) := by
  refine (bits4_loop BGR15.x BGR15.r BGR15.g BGR15.b (fun _ _ => 1)
    (fun y x => (src.field L y RGB24.sizeof x RGB24.r).val >>> 3)
    (fun y x => (src.field L y RGB24.sizeof x RGB24.g).val >>> 3)
    (fun y x => (src.field L y RGB24.sizeof x RGB24.b).val >>> 3)
    (Or.inr rfl) _ _ _ _ _ hfit.1 (by rw [length_ofFormat]; exact hfit.2) y x hy hx).trans ?_
  simp only [Prod.mk.injEq]
  refine ⟨trivial, ?_, ?_, ?_⟩ <;> omega

/-- C6: for a BGR24 or RGB24 frame and every pixel inside it, conversion to RGB16/BGR16 stores
`r >> 3`, `g >> 2`, `b >> 3` in the members `r`, `g`, `b` (5, 6 and 5 bits), and conversion to
RGB15/BGR15 stores `r >> 3`, `g >> 3`, `b >> 3` in the three 5-bit members and 1 in the 1-bit
member `x`; every shifted channel value is below 2 to the width of its member. -/
theorem convert_to_16bit (L : Layout) (src : VideoFrame) (y x : Nat)
    (hy : (y : Int) < src.m_format.height) (hx : (x : Int) < src.m_format.width)
    (hfit : ∀ t, t = PixelFormatRGB16 ∨ t = PixelFormatBGR16 ∨ t = PixelFormatRGB15
        ∨ t = PixelFormatBGR15 →
      L.PlaneFits { src.m_format with fourcc := t } 0
        (2 * src.m_format.width.toNat) src.m_format.height.toNat) :
    (src.m_format.fourcc = PixelFormatBGR24 →
      ((src.convert L PixelFormatRGB16).bits L y RGB16.sizeof x RGB16.r
            = (src.field L y BGR24.sizeof x BGR24.r).val >>> 3 ∧
          (src.convert L PixelFormatRGB16).bits L y RGB16.sizeof x RGB16.g
            = (src.field L y BGR24.sizeof x BGR24.g).val >>> 2 ∧
          (src.convert L PixelFormatRGB16).bits L y RGB16.sizeof x RGB16.b
            = (src.field L y BGR24.sizeof x BGR24.b).val >>> 3) ∧
      ((src.convert L PixelFormatBGR16).bits L y BGR16.sizeof x BGR16.r
            = (src.field L y BGR24.sizeof x BGR24.r).val >>> 3 ∧
          (src.convert L PixelFormatBGR16).bits L y BGR16.sizeof x BGR16.g
            = (src.field L y BGR24.sizeof x BGR24.g).val >>> 2 ∧
          (src.convert L PixelFormatBGR16).bits L y BGR16.sizeof x BGR16.b
            = (src.field L y BGR24.sizeof x BGR24.b).val >>> 3) ∧
      ((src.convert L PixelFormatRGB15).bits L y RGB15.sizeof x RGB15.x = 1 ∧
          (src.convert L PixelFormatRGB15).bits L y RGB15.sizeof x RGB15.r
            = (src.field L y BGR24.sizeof x BGR24.r).val >>> 3 ∧
          (src.convert L PixelFormatRGB15).bits L y RGB15.sizeof x RGB15.g
            = (src.field L y BGR24.sizeof x BGR24.g).val >>> 3 ∧
          (src.convert L PixelFormatRGB15).bits L y RGB15.sizeof x RGB15.b
            = (src.field L y BGR24.sizeof x BGR24.b).val >>> 3) ∧
      ((src.convert L PixelFormatBGR15).bits L y BGR15.sizeof x BGR15.x = 1 ∧
          (src.convert L PixelFormatBGR15).bits L y BGR15.sizeof x BGR15.r
            = (src.field L y BGR24.sizeof x BGR24.r).val >>> 3 ∧
          (src.convert L PixelFormatBGR15).bits L y BGR15.sizeof x BGR15.g
            = (src.field L y BGR24.sizeof x BGR24.g).val >>> 3 ∧
          (src.convert L PixelFormatBGR15).bits L y BGR15.sizeof x BGR15.b
            = (src.field L y BGR24.sizeof x BGR24.b).val >>> 3)) ∧
    (src.m_format.fourcc = PixelFormatRGB24 →
      ((src.convert L PixelFormatRGB16).bits L y RGB16.sizeof x RGB16.r
            = (src.field L y RGB24.sizeof x RGB24.r).val >>> 3 ∧
          (src.convert L PixelFormatRGB16).bits L y RGB16.sizeof x RGB16.g
            = (src.field L y RGB24.sizeof x RGB24.g).val >>> 2 ∧
          (src.convert L PixelFormatRGB16).bits L y RGB16.sizeof x RGB16.b
            = (src.field L y RGB24.sizeof x RGB24.b).val >>> 3) ∧
      ((src.convert L PixelFormatBGR16).bits L y BGR16.sizeof x BGR16.r
            = (src.field L y RGB24.sizeof x RGB24.r).val >>> 3 ∧
          (src.convert L PixelFormatBGR16).bits L y BGR16.sizeof x BGR16.g
            = (src.field L y RGB24.sizeof x RGB24.g).val >>> 2 ∧
          (src.convert L PixelFormatBGR16).bits L y BGR16.sizeof x BGR16.b
            = (src.field L y RGB24.sizeof x RGB24.b).val >>> 3) ∧
      ((src.convert L PixelFormatRGB15).bits L y RGB15.sizeof x RGB15.x = 1 ∧
          (src.convert L PixelFormatRGB15).bits L y RGB15.sizeof x RGB15.r
            = (src.field L y RGB24.sizeof x RGB24.r).val >>> 3 ∧
          (src.convert L PixelFormatRGB15).bits L y RGB15.sizeof x RGB15.g
            = (src.field L y RGB24.sizeof x RGB24.g).val >>> 3 ∧
          (src.convert L PixelFormatRGB15).bits L y RGB15.sizeof x RGB15.b
            = (src.field L y RGB24.sizeof x RGB24.b).val >>> 3) ∧
      ((src.convert L PixelFormatBGR15).bits L y BGR15.sizeof x BGR15.x = 1 ∧
          (src.convert L PixelFormatBGR15).bits L y BGR15.sizeof x BGR15.r
            = (src.field L y RGB24.sizeof x RGB24.r).val >>> 3 ∧
          (src.convert L PixelFormatBGR15).bits L y BGR15.sizeof x BGR15.g
            = (src.field L y RGB24.sizeof x RGB24.g).val >>> 3 ∧
          (src.convert L PixelFormatBGR15).bits L y BGR15.sizeof x BGR15.b
            = (src.field L y RGB24.sizeof x RGB24.b).val >>> 3)) ∧
    (∀ v : uint8_t,
      v.val >>> 3 < 2 ^ RGB16.r.width ∧ v.val >>> 2 < 2 ^ RGB16.g.width ∧
      v.val >>> 3 < 2 ^ RGB16.b.width ∧ v.val >>> 3 < 2 ^ BGR16.r.width ∧
      v.val >>> 2 < 2 ^ BGR16.g.width ∧ v.val >>> 3 < 2 ^ BGR16.b.width ∧
      v.val >>> 3 < 2 ^ RGB15.r.width ∧ v.val >>> 3 < 2 ^ RGB15.g.width ∧
      v.val >>> 3 < 2 ^ RGB15.b.width ∧ v.val >>> 3 < 2 ^ BGR15.r.width ∧
      v.val >>> 3 < 2 ^ BGR15.g.width ∧ v.val >>> 3 < 2 ^ BGR15.b.width ∧
      1 < 2 ^ RGB15.x.width ∧ 1 < 2 ^ BGR15.x.width) := by
  refine ⟨fun h => ?_, fun h => ?_, fun v => ?_⟩
  · have c := convert_of_bgr24 L src h
    have p1 := bgr24_to_rgb16_pixel L src (hfit _ (Or.inl rfl)) y x hy hx
    have p2 := bgr24_to_bgr16_pixel L src (hfit _ (Or.inr (Or.inl rfl))) y x hy hx
    have p3 := bgr24_to_rgb15_pixel L src (hfit _ (Or.inr (Or.inr (Or.inl rfl)))) y x hy hx
    have p4 := bgr24_to_bgr15_pixel L src (hfit _ (Or.inr (Or.inr (Or.inr rfl)))) y x hy hx
    rw [c.2.2.1, c.2.2.2.2.2.1, c.2.2.2.1, c.2.2.2.2.2.2.1]
    simp only [Prod.mk.injEq] at p1 p2 p3 p4
    exact ⟨p1, p2, p3, p4⟩
  · have c := convert_of_rgb24 L src h
    have p1 := rgb24_to_rgb16_pixel L src (hfit _ (Or.inl rfl)) y x hy hx
    have p2 := rgb24_to_bgr16_pixel L src (hfit _ (Or.inr (Or.inl rfl))) y x hy hx
    have p3 := rgb24_to_rgb15_pixel L src (hfit _ (Or.inr (Or.inr (Or.inl rfl)))) y x hy hx
    have p4 := rgb24_to_bgr15_pixel L src (hfit _ (Or.inr (Or.inr (Or.inr rfl)))) y x hy hx
    rw [c.2.1, c.2.2.2.2.2.1, c.2.2.1, c.2.2.2.2.2.2.1]
    simp only [Prod.mk.injEq] at p1 p2 p3 p4
    exact ⟨p1, p2, p3, p4⟩
  · simp only [RGB16.r, RGB16.g, RGB16.b, BGR16.r, BGR16.g, BGR16.b, RGB15.r, RGB15.g, RGB15.b,
      RGB15.x, BGR15.r, BGR15.g, BGR15.b, BGR15.x, Nat.reducePow]
    omega

/-- Witness for C6: pixel (1, 1) of the 2x2 BGR24 sample frame, converted to RGB16. -/
theorem convert_to_16bit_witness :
    ((1 : Int) < (sampleFrame PixelFormatBGR24).m_format.height ∧
      (1 : Int) < (sampleFrame PixelFormatBGR24).m_format.width) ∧
      (((sampleFrame PixelFormatBGR24).convert specLayout PixelFormatRGB16).bits specLayout 1 RGB16.sizeof 1 RGB16.r
            = ((sampleFrame PixelFormatBGR24).field specLayout 1 BGR24.sizeof 1 BGR24.r).val >>> 3 ∧
          ((sampleFrame PixelFormatBGR24).convert specLayout PixelFormatRGB16).bits specLayout 1 RGB16.sizeof 1 RGB16.g
            = ((sampleFrame PixelFormatBGR24).field specLayout 1 BGR24.sizeof 1 BGR24.g).val >>> 2 ∧
          ((sampleFrame PixelFormatBGR24).convert specLayout PixelFormatRGB16).bits specLayout 1 RGB16.sizeof 1 RGB16.b
            = ((sampleFrame PixelFormatBGR24).field specLayout 1 BGR24.sizeof 1 BGR24.b).val >>> 3) :=
  ⟨by decide,
    ((convert_to_16bit specLayout (sampleFrame PixelFormatBGR24) 1 1 (by decide) (by decide)
      (by
        intro t ht
        rcases ht with rfl | rfl | rfl | rfl <;> (unfold Layout.PlaneFits; decide))).1 rfl).1⟩

/-! ## Channel order: RGB24, BGR24 and `swapRgb` -/

theorem bgr24_to_rgb24_pixel (L : Layout) (src : VideoFrame)
    (hfit : L.PlaneFits { src.m_format with fourcc := PixelFormatRGB24 } 0
      (3 * src.m_format.width.toNat) src.m_format.height.toNat)
    (y x : Nat) (hy : (y : Int) < src.m_format.height) (hx : (x : Int) < src.m_format.width) :
    ((bgr24_to_rgb24 L src).field L y RGB24.sizeof x RGB24.r,
      (bgr24_to_rgb24 L src).field L y RGB24.sizeof x RGB24.g,
      (bgr24_to_rgb24 L src).field L y RGB24.sizeof x RGB24.b)
      = (src.field L y BGR24.sizeof x BGR24.r, src.field L y BGR24.sizeof x BGR24.g,
          src.field L y BGR24.sizeof x BGR24.b) :=
  write3_loop RGB24.r RGB24.g RGB24.b
    (fun y x => src.field L y BGR24.sizeof x BGR24.r)
    (fun y x => src.field L y BGR24.sizeof x BGR24.g)
    (fun y x => src.field L y BGR24.sizeof x BGR24.b)
    (by decide) _ _ _ _ _ hfit.1 (by rw [length_ofFormat]; exact hfit.2) y x hy hx

theorem rgb24_to_bgr24_pixel (L : Layout) (src : VideoFrame)
    (hfit : L.PlaneFits { src.m_format with fourcc := PixelFormatBGR24 } 0
      (3 * src.m_format.width.toNat) src.m_format.height.toNat)
    (y x : Nat) (hy : (y : Int) < src.m_format.height) (hx : (x : Int) < src.m_format.width) :
    ((rgb24_to_bgr24 L src).field L y BGR24.sizeof x BGR24.r,
      (rgb24_to_bgr24 L src).field L y BGR24.sizeof x BGR24.g,
      (rgb24_to_bgr24 L src).field L y BGR24.sizeof x BGR24.b)
      = (src.field L y RGB24.sizeof x RGB24.r, src.field L y RGB24.sizeof x RGB24.g,
          src.field L y RGB24.sizeof x RGB24.b) :=
  write3_loop BGR24.r BGR24.g BGR24.b
    (fun y x => src.field L y RGB24.sizeof x RGB24.r)
    (fun y x => src.field L y RGB24.sizeof x RGB24.g)
    (fun y x => src.field L y RGB24.sizeof x RGB24.b)
    (by decide) _ _ _ _ _ hfit.1 (by rw [length_ofFormat]; exact hfit.2) y x hy hx

theorem swapRgb_adjustable (L : Layout) (self : VideoFrame)
    (hfmt : self.m_format.fourcc ∈ m_adjustFormats) :
    self.swapRgb L =
      VideoFrame.mk self.m_format
          (forLoop self.m_format.height (VideoFrame.ofFormat L self.m_format).m_data fun y data =>
            forLoop self.m_format.width data fun x data =>
              setField (setField (setField data
                ((VideoFrame.ofFormat L self.m_format).line L 0 y) RGB24.sizeof x RGB24.r
                  (getField self.m_data (self.line L 0 y) RGB24.sizeof x RGB24.b))
                ((VideoFrame.ofFormat L self.m_format).line L 0 y) RGB24.sizeof x RGB24.g
                  (getField self.m_data (self.line L 0 y) RGB24.sizeof x RGB24.g))
                ((VideoFrame.ofFormat L self.m_format).line L 0 y) RGB24.sizeof x RGB24.b
                  (getField self.m_data (self.line L 0 y) RGB24.sizeof x RGB24.r)) := by
  unfold VideoFrame.swapRgb
  rw [if_neg (not_not.2 hfmt)]
  rfl

theorem swapRgb_format (L : Layout) (self : VideoFrame)
    (hfmt : self.m_format.fourcc ∈ m_adjustFormats) :
    (self.swapRgb L).m_format = self.m_format := by
  rw [swapRgb_adjustable L self hfmt]

theorem swapRgb_pixel (L : Layout) (self : VideoFrame)
    (hfmt : self.m_format.fourcc ∈ m_adjustFormats)
    (hfit : L.PlaneFits self.m_format 0
      (3 * self.m_format.width.toNat) self.m_format.height.toNat)
    (y x : Nat) (hy : (y : Int) < self.m_format.height) (hx : (x : Int) < self.m_format.width) :
    ((self.swapRgb L).field L y RGB24.sizeof x RGB24.r,
      (self.swapRgb L).field L y RGB24.sizeof x RGB24.g,
      (self.swapRgb L).field L y RGB24.sizeof x RGB24.b)
      = (self.field L y RGB24.sizeof x RGB24.b, self.field L y RGB24.sizeof x RGB24.g,
          self.field L y RGB24.sizeof x RGB24.r) := by
  rw [swapRgb_adjustable L self hfmt]
  exact write3_loop RGB24.r RGB24.g RGB24.b
    (fun y x => self.field L y RGB24.sizeof x RGB24.b)
    (fun y x => self.field L y RGB24.sizeof x RGB24.g)
    (fun y x => self.field L y RGB24.sizeof x RGB24.r)
    (by decide) _ _ _ _ _ hfit.1 (by rw [length_ofFormat]; exact hfit.2) y x hy hx

theorem format_with_fourcc (format : VideoFormat) (t : FourCC) (h : format.fourcc = t) :
    { format with fourcc := t } = format := by
  cases format
  simp only at h
  subst h
  rfl

/-- C7: for a BGR24 frame and every pixel inside it, `convert(RGB24)` exchanges bytes 0 and 2
of the pixel and keeps byte 1, which is the pixel `swapRgb()` produces, and converting the
result back to BGR24 gives a frame with the format of the original and the original bytes of
the pixel; the same holds for an RGB24 frame converted to BGR24 and back. -/
theorem convert_rgb24_bgr24 (L : Layout) (src : VideoFrame) (y x : Nat)
    (hy : (y : Int) < src.m_format.height) (hx : (x : Int) < src.m_format.width)
    (hfit : ∀ t, t = PixelFormatBGR24 ∨ t = PixelFormatRGB24 →
      L.PlaneFits { src.m_format with fourcc := t } 0
        (3 * src.m_format.width.toNat) src.m_format.height.toNat) :
    (src.m_format.fourcc = PixelFormatBGR24 →
      ((src.convert L PixelFormatRGB24).field L y 3 x 0 = src.field L y 3 x 2 ∧
        (src.convert L PixelFormatRGB24).field L y 3 x 1 = src.field L y 3 x 1 ∧
        (src.convert L PixelFormatRGB24).field L y 3 x 2 = src.field L y 3 x 0) ∧
      (∀ k, k < 3 →
        (src.convert L PixelFormatRGB24).field L y 3 x k = (src.swapRgb L).field L y 3 x k) ∧
      ((src.convert L PixelFormatRGB24).convert L PixelFormatBGR24).m_format = src.m_format ∧
      (∀ k, k < 3 →
        ((src.convert L PixelFormatRGB24).convert L PixelFormatBGR24).field L y 3 x k
          = src.field L y 3 x k)) ∧
    (src.m_format.fourcc = PixelFormatRGB24 →
      ((src.convert L PixelFormatBGR24).field L y 3 x 0 = src.field L y 3 x 2 ∧
        (src.convert L PixelFormatBGR24).field L y 3 x 1 = src.field L y 3 x 1 ∧
        (src.convert L PixelFormatBGR24).field L y 3 x 2 = src.field L y 3 x 0) ∧
      (∀ k, k < 3 →
        (src.convert L PixelFormatBGR24).field L y 3 x k = (src.swapRgb L).field L y 3 x k) ∧
      ((src.convert L PixelFormatBGR24).convert L PixelFormatRGB24).m_format = src.m_format ∧
      (∀ k, k < 3 →
        ((src.convert L PixelFormatBGR24).convert L PixelFormatRGB24).field L y 3 x k
          = src.field L y 3 x k)) := by
  refine ⟨fun h => ?_, fun h => ?_⟩
  · have hsf : { src.m_format with fourcc := PixelFormatBGR24 } = src.m_format :=
      format_with_fourcc _ _ h
    have c := (convert_of_bgr24 L src h).2.1
    have fm : (bgr24_to_rgb24 L src).m_format = { src.m_format with fourcc := PixelFormatRGB24 } := rfl
    have c2 := (convert_of_rgb24 L (bgr24_to_rgb24 L src)
      (by rw [fm])).2.2.2.2.1
    have fb : (rgb24_to_bgr24 L (bgr24_to_rgb24 L src)).m_format = src.m_format := by
      have e : (rgb24_to_bgr24 L (bgr24_to_rgb24 L src)).m_format
          = { (bgr24_to_rgb24 L src).m_format with fourcc := PixelFormatBGR24 } := rfl
      rw [e, fm]
      exact hsf
    have p1 := bgr24_to_rgb24_pixel L src (hfit _ (Or.inr rfl)) y x hy hx
    have p2 := rgb24_to_bgr24_pixel L (bgr24_to_rgb24 L src)
      (by rw [fm]; exact hfit _ (Or.inl rfl)) y x (by rw [fm]; exact hy) (by rw [fm]; exact hx)
    have p3 := swapRgb_pixel L src (by rw [h]; decide)
      (by rw [← hsf]; exact hfit _ (Or.inl rfl)) y x hy hx
    simp only [Prod.mk.injEq, RGB24.sizeof, BGR24.sizeof, RGB24.r, RGB24.g, RGB24.b,
      BGR24.r, BGR24.g, BGR24.b] at p1 p2 p3
    rw [c, c2]
    refine ⟨⟨p1.2.2, p1.2.1, p1.1⟩, ?_, fb, ?_⟩
    · intro k hk
      interval_cases k
      · rw [p3.2.2]; exact p1.2.2
      · rw [p3.2.1]; exact p1.2.1
      · rw [p3.1]; exact p1.1
    · intro k hk
      interval_cases k
      · rw [p2.1]; exact p1.1
      · rw [p2.2.1]; exact p1.2.1
      · rw [p2.2.2]; exact p1.2.2
  · have hsf : { src.m_format with fourcc := PixelFormatRGB24 } = src.m_format :=
      format_with_fourcc _ _ h
    have c := (convert_of_rgb24 L src h).2.2.2.2.1
    have fm : (rgb24_to_bgr24 L src).m_format = { src.m_format with fourcc := PixelFormatBGR24 } := rfl
    have c2 := (convert_of_bgr24 L (rgb24_to_bgr24 L src)
      (by rw [fm])).2.1
    have fb : (bgr24_to_rgb24 L (rgb24_to_bgr24 L src)).m_format = src.m_format := by
      have e : (bgr24_to_rgb24 L (rgb24_to_bgr24 L src)).m_format
          = { (rgb24_to_bgr24 L src).m_format with fourcc := PixelFormatRGB24 } := rfl
      rw [e, fm]
      exact hsf
    have p1 := rgb24_to_bgr24_pixel L src (hfit _ (Or.inl rfl)) y x hy hx
    have p2 := bgr24_to_rgb24_pixel L (rgb24_to_bgr24 L src)
      (by rw [fm]; exact hfit _ (Or.inr rfl)) y x (by rw [fm]; exact hy) (by rw [fm]; exact hx)
    have p3 := swapRgb_pixel L src (by rw [h]; decide)
      (by rw [← hsf]; exact hfit _ (Or.inr rfl)) y x hy hx
    simp only [Prod.mk.injEq, RGB24.sizeof, BGR24.sizeof, RGB24.r, RGB24.g, RGB24.b,
      BGR24.r, BGR24.g, BGR24.b] at p1 p2 p3
    rw [c, c2]
    refine ⟨⟨p1.1, p1.2.1, p1.2.2⟩, ?_, fb, ?_⟩
    · intro k hk
      interval_cases k
      · rw [p3.2.2]; exact p1.1
      · rw [p3.2.1]; exact p1.2.1
      · rw [p3.1]; exact p1.2.2
    · intro k hk
      interval_cases k
      · rw [p2.2.2]; exact p1.2.2
      · rw [p2.2.1]; exact p1.2.1
      · rw [p2.1]; exact p1.1

/-- Witness for C7: pixel (1, 1) of the 2x2 BGR24 sample frame. -/
theorem convert_rgb24_bgr24_witness :
    ((1 : Int) < (sampleFrame PixelFormatBGR24).m_format.height ∧
      (1 : Int) < (sampleFrame PixelFormatBGR24).m_format.width) ∧
    
      (((sampleFrame PixelFormatBGR24).convert specLayout PixelFormatRGB24).field specLayout 1 3 1 0 = (sampleFrame PixelFormatBGR24).field specLayout 1 3 1 2 ∧
        ((sampleFrame PixelFormatBGR24).convert specLayout PixelFormatRGB24).field specLayout 1 3 1 1 = (sampleFrame PixelFormatBGR24).field specLayout 1 3 1 1 ∧
        ((sampleFrame PixelFormatBGR24).convert specLayout PixelFormatRGB24).field specLayout 1 3 1 2 = (sampleFrame PixelFormatBGR24).field specLayout 1 3 1 0) ∧
      (∀ k, k < 3 →
        ((sampleFrame PixelFormatBGR24).convert specLayout PixelFormatRGB24).field specLayout 1 3 1 k = ((sampleFrame PixelFormatBGR24).swapRgb specLayout).field specLayout 1 3 1 k) ∧
      (((sampleFrame PixelFormatBGR24).convert specLayout PixelFormatRGB24).convert specLayout PixelFormatBGR24).m_format = (sampleFrame PixelFormatBGR24).m_format ∧
      (∀ k, k < 3 →
        (((sampleFrame PixelFormatBGR24).convert specLayout PixelFormatRGB24).convert specLayout PixelFormatBGR24).field specLayout 1 3 1 k
          = (sampleFrame PixelFormatBGR24).field specLayout 1 3 1 k) :=
  ⟨by decide,
    (convert_rgb24_bgr24 specLayout (sampleFrame PixelFormatBGR24) 1 1 (by decide) (by decide)
      (by
        intro t ht
        rcases ht with rfl | rfl <;> (unfold Layout.PlaneFits; decide))).1 rfl⟩

/-! ## The packed YUV targets -/

theorem bgr24_to_uyvy_group (L : Layout) (src : VideoFrame)
    (hfit : L.PlaneFits { src.m_format with fourcc := PixelFormatUYVY } 0
      (4 * ((src.m_format.width.toNat + 1) / 2)) src.m_format.height.toNat)
    (y k : Nat) (hy : (y : Int) < src.m_format.height)
    (hk : k < (src.m_format.width.toNat + 1) / 2) :
    ((bgr24_to_uyvy L src).field L y UYVY.sizeof k UYVY.u0,
      (bgr24_to_uyvy L src).field L y UYVY.sizeof k UYVY.y0,
      (bgr24_to_uyvy L src).field L y UYVY.sizeof k UYVY.v0,
      (bgr24_to_uyvy L src).field L y UYVY.sizeof k UYVY.y1)
      = (src.uAt L y (2 * k) BGR24.r BGR24.g BGR24.b, src.lumaAt L y (2 * k) BGR24.r BGR24.g BGR24.b, src.vAt L y (2 * k) BGR24.r BGR24.g BGR24.b, src.lumaAt L y (2 * k + 1) BGR24.r BGR24.g BGR24.b) := by
  have hfuel : (src.m_format.width.toNat + 1) / 2 ≤ src.m_format.width.toNat := by omega
  have hdiv : ∀ j : Nat, 2 * j / 2 = j := fun j => Nat.mul_div_cancel_left j (by decide)
  simp only [bgr24_to_uyvy, pairLoop_eq_forLoop src.m_format.width _ _ hfuel, hdiv]
  exact write4_loop UYVY.u0 UYVY.y0 UYVY.v0 UYVY.y1
    (fun y k => src.uAt L y (2 * k) BGR24.r BGR24.g BGR24.b)
    (fun y k => src.lumaAt L y (2 * k) BGR24.r BGR24.g BGR24.b)
    (fun y k => src.vAt L y (2 * k) BGR24.r BGR24.g BGR24.b)
    (fun y k => src.lumaAt L y (2 * k + 1) BGR24.r BGR24.g BGR24.b)
    (by decide) _ _ src.m_format.height (((src.m_format.width.toNat + 1) / 2 : Nat) : Int) _
    (by rw [Int.toNat_ofNat]; exact hfit.1) (by rw [length_ofFormat]; exact hfit.2) y k hy
    (by exact_mod_cast hk)

theorem bgr24_to_yuy2_group (L : Layout) (src : VideoFrame)
    (hfit : L.PlaneFits { src.m_format with fourcc := PixelFormatYUY2 } 0
      (4 * ((src.m_format.width.toNat + 1) / 2)) src.m_format.height.toNat)
    (y k : Nat) (hy : (y : Int) < src.m_format.height)
    (hk : k < (src.m_format.width.toNat + 1) / 2) :
    ((bgr24_to_yuy2 L src).field L y YUY2.sizeof k YUY2.y0,
      (bgr24_to_yuy2 L src).field L y YUY2.sizeof k YUY2.u0,
      (bgr24_to_yuy2 L src).field L y YUY2.sizeof k YUY2.y1,
      (bgr24_to_yuy2 L src).field L y YUY2.sizeof k YUY2.v0)
      = (src.lumaAt L y (2 * k) BGR24.r BGR24.g BGR24.b, src.uAt L y (2 * k) BGR24.r BGR24.g BGR24.b, src.lumaAt L y (2 * k + 1) BGR24.r BGR24.g BGR24.b, src.vAt L y (2 * k) BGR24.r BGR24.g BGR24.b) := by
  have hfuel : (src.m_format.width.toNat + 1) / 2 ≤ src.m_format.width.toNat := by omega
  have hdiv : ∀ j : Nat, 2 * j / 2 = j := fun j => Nat.mul_div_cancel_left j (by decide)
  simp only [bgr24_to_yuy2, pairLoop_eq_forLoop src.m_format.width _ _ hfuel, hdiv]
  exact write4_loop YUY2.y0 YUY2.u0 YUY2.y1 YUY2.v0
    (fun y k => src.lumaAt L y (2 * k) BGR24.r BGR24.g BGR24.b)
    (fun y k => src.uAt L y (2 * k) BGR24.r BGR24.g BGR24.b)
    (fun y k => src.lumaAt L y (2 * k + 1) BGR24.r BGR24.g BGR24.b)
    (fun y k => src.vAt L y (2 * k) BGR24.r BGR24.g BGR24.b)
    (by decide) _ _ src.m_format.height (((src.m_format.width.toNat + 1) / 2 : Nat) : Int) _
    (by rw [Int.toNat_ofNat]; exact hfit.1) (by rw [length_ofFormat]; exact hfit.2) y k hy
    (by exact_mod_cast hk)

theorem rgb24_to_uyvy_group (L : Layout) (src : VideoFrame)
    (hfit : L.PlaneFits { src.m_format with fourcc := PixelFormatUYVY } 0
      (4 * ((src.m_format.width.toNat + 1) / 2)) src.m_format.height.toNat)
    (y k : Nat) (hy : (y : Int) < src.m_format.height)
    (hk : k < (src.m_format.width.toNat + 1) / 2) :
    ((rgb24_to_uyvy L src).field L y UYVY.sizeof k UYVY.u0,
      (rgb24_to_uyvy L src).field L y UYVY.sizeof k UYVY.y0,
      (rgb24_to_uyvy L src).field L y UYVY.sizeof k UYVY.v0,
      (rgb24_to_uyvy L src).field L y UYVY.sizeof k UYVY.y1)
      = (src.uAt L y (2 * k) RGB24.r RGB24.g RGB24.b, src.lumaAt L y (2 * k) RGB24.r RGB24.g RGB24.b, src.vAt L y (2 * k) RGB24.r RGB24.g RGB24.b, src.lumaAt L y (2 * k + 1) RGB24.r RGB24.g RGB24.b) := by
  have hfuel : (src.m_format.width.toNat + 1) / 2 ≤ src.m_format.width.toNat := by omega
  have hdiv : ∀ j : Nat, 2 * j / 2 = j := fun j => Nat.mul_div_cancel_left j (by decide)
  simp only [rgb24_to_uyvy, pairLoop_eq_forLoop src.m_format.width _ _ hfuel, hdiv]
  exact write4_loop UYVY.u0 UYVY.y0 UYVY.v0 UYVY.y1
    (fun y k => src.uAt L y (2 * k) RGB24.r RGB24.g RGB24.b)
    (fun y k => src.lumaAt L y (2 * k) RGB24.r RGB24.g RGB24.b)
    (fun y k => src.vAt L y (2 * k) RGB24.r RGB24.g RGB24.b)
    (fun y k => src.lumaAt L y (2 * k + 1) RGB24.r RGB24.g RGB24.b)
    (by decide) _ _ src.m_format.height (((src.m_format.width.toNat + 1) / 2 : Nat) : Int) _
    (by rw [Int.toNat_ofNat]; exact hfit.1) (by rw [length_ofFormat]; exact hfit.2) y k hy
    (by exact_mod_cast hk)

theorem rgb24_to_yuy2_group (L : Layout) (src : VideoFrame)
    (hfit : L.PlaneFits { src.m_format with fourcc := PixelFormatYUY2 } 0
      (4 * ((src.m_format.width.toNat + 1) / 2)) src.m_format.height.toNat)
    (y k : Nat) (hy : (y : Int) < src.m_format.height)
    (hk : k < (src.m_format.width.toNat + 1) / 2) :
    ((rgb24_to_yuy2 L src).field L y YUY2.sizeof k YUY2.y0,
      (rgb24_to_yuy2 L src).field L y YUY2.sizeof k YUY2.u0,
      (rgb24_to_yuy2 L src).field L y YUY2.sizeof k YUY2.y1,
      (rgb24_to_yuy2 L src).field L y YUY2.sizeof k YUY2.v0)
      = (src.lumaAt L y (2 * k) RGB24.r RGB24.g RGB24.b, src.uAt L y (2 * k) RGB24.r RGB24.g RGB24.b, src.lumaAt L y (2 * k + 1) RGB24.r RGB24.g RGB24.b, src.vAt L y (2 * k) RGB24.r RGB24.g RGB24.b) := by
  have hfuel : (src.m_format.width.toNat + 1) / 2 ≤ src.m_format.width.toNat := by omega
  have hdiv : ∀ j : Nat, 2 * j / 2 = j := fun j => Nat.mul_div_cancel_left j (by decide)
  simp only [rgb24_to_yuy2, pairLoop_eq_forLoop src.m_format.width _ _ hfuel, hdiv]
  exact write4_loop YUY2.y0 YUY2.u0 YUY2.y1 YUY2.v0
    (fun y k => src.lumaAt L y (2 * k) RGB24.r RGB24.g RGB24.b)
    (fun y k => src.uAt L y (2 * k) RGB24.r RGB24.g RGB24.b)
    (fun y k => src.lumaAt L y (2 * k + 1) RGB24.r RGB24.g RGB24.b)
    (fun y k => src.vAt L y (2 * k) RGB24.r RGB24.g RGB24.b)
    (by decide) _ _ src.m_format.height (((src.m_format.width.toNat + 1) / 2 : Nat) : Int) _
    (by rw [Int.toNat_ofNat]; exact hfit.1) (by rw [length_ofFormat]; exact hfit.2) y k hy
    (by exact_mod_cast hk)

/-- C8 (as amended): for a BGR24 or RGB24 frame of even width, the 4-byte group `k` of row
`y` written by conversion to UYVY holds, in memory order, `[V, Y0, U, Y1]`, and the group
written by conversion to YUY2 holds `[Y0, V, Y1, U]`, where `U = rgb_u` and `V = rgb_v` of
pixel `2k`, `Y0 = rgb_y` of pixel `2k` and `Y1 = rgb_y` of pixel `2k + 1`. -/
theorem packed_yuv_byte_order (L : Layout) (src : VideoFrame) (y k : Nat)
    (heven : src.m_format.width % 2 = 0)
    (hy : (y : Int) < src.m_format.height) (hk : 2 * (k : Int) < src.m_format.width)
    (hfit : ∀ t, t = PixelFormatUYVY ∨ t = PixelFormatYUY2 →
      L.PlaneFits { src.m_format with fourcc := t } 0
        (2 * src.m_format.width.toNat) src.m_format.height.toNat) :
    (src.m_format.fourcc = PixelFormatBGR24 →
      ([(src.convert L PixelFormatUYVY).field L y 4 k 0,
          (src.convert L PixelFormatUYVY).field L y 4 k 1,
          (src.convert L PixelFormatUYVY).field L y 4 k 2,
          (src.convert L PixelFormatUYVY).field L y 4 k 3]
        = [src.vAt L y (2 * k) BGR24.r BGR24.g BGR24.b,
            src.lumaAt L y (2 * k) BGR24.r BGR24.g BGR24.b,
            src.uAt L y (2 * k) BGR24.r BGR24.g BGR24.b,
            src.lumaAt L y (2 * k + 1) BGR24.r BGR24.g BGR24.b] ∧
      [(src.convert L PixelFormatYUY2).field L y 4 k 0,
          (src.convert L PixelFormatYUY2).field L y 4 k 1,
          (src.convert L PixelFormatYUY2).field L y 4 k 2,
          (src.convert L PixelFormatYUY2).field L y 4 k 3]
        = [src.lumaAt L y (2 * k) BGR24.r BGR24.g BGR24.b,
            src.vAt L y (2 * k) BGR24.r BGR24.g BGR24.b,
            src.lumaAt L y (2 * k + 1) BGR24.r BGR24.g BGR24.b,
            src.uAt L y (2 * k) BGR24.r BGR24.g BGR24.b])) ∧
    (src.m_format.fourcc = PixelFormatRGB24 →
      ([(src.convert L PixelFormatUYVY).field L y 4 k 0,
          (src.convert L PixelFormatUYVY).field L y 4 k 1,
          (src.convert L PixelFormatUYVY).field L y 4 k 2,
          (src.convert L PixelFormatUYVY).field L y 4 k 3]
        = [src.vAt L y (2 * k) RGB24.r RGB24.g RGB24.b,
            src.lumaAt L y (2 * k) RGB24.r RGB24.g RGB24.b,
            src.uAt L y (2 * k) RGB24.r RGB24.g RGB24.b,
            src.lumaAt L y (2 * k + 1) RGB24.r RGB24.g RGB24.b] ∧
      [(src.convert L PixelFormatYUY2).field L y 4 k 0,
          (src.convert L PixelFormatYUY2).field L y 4 k 1,
          (src.convert L PixelFormatYUY2).field L y 4 k 2,
          (src.convert L PixelFormatYUY2).field L y 4 k 3]
        = [src.lumaAt L y (2 * k) RGB24.r RGB24.g RGB24.b,
            src.vAt L y (2 * k) RGB24.r RGB24.g RGB24.b,
            src.lumaAt L y (2 * k + 1) RGB24.r RGB24.g RGB24.b,
            src.uAt L y (2 * k) RGB24.r RGB24.g RGB24.b])) := by
  refine ⟨fun h => ?_, fun h => ?_⟩
  · have c := convert_of_bgr24 L src h
    have p1 := bgr24_to_uyvy_group L src
      ⟨by have := (hfit _ (Or.inl rfl)).1; omega, (hfit _ (Or.inl rfl)).2⟩ y k hy (by omega)
    have p2 := bgr24_to_yuy2_group L src
      ⟨by have := (hfit _ (Or.inr rfl)).1; omega, (hfit _ (Or.inr rfl)).2⟩ y k hy (by omega)
    simp only [Prod.mk.injEq, UYVY.sizeof, UYVY.u0, UYVY.y0, UYVY.v0, UYVY.y1,
      YUY2.sizeof, YUY2.u0, YUY2.y0, YUY2.v0, YUY2.y1] at p1 p2
    rw [c.2.2.2.2.2.2.2.1, c.2.2.2.2.2.2.2.2.1]
    rw [p1.1, p1.2.1, p1.2.2.1, p1.2.2.2, p2.1, p2.2.1, p2.2.2.1, p2.2.2.2]
    exact ⟨rfl, rfl⟩
  · have c := convert_of_rgb24 L src h
    have p1 := rgb24_to_uyvy_group L src
      ⟨by have := (hfit _ (Or.inl rfl)).1; omega, (hfit _ (Or.inl rfl)).2⟩ y k hy (by omega)
    have p2 := rgb24_to_yuy2_group L src
      ⟨by have := (hfit _ (Or.inr rfl)).1; omega, (hfit _ (Or.inr rfl)).2⟩ y k hy (by omega)
    simp only [Prod.mk.injEq, UYVY.sizeof, UYVY.u0, UYVY.y0, UYVY.v0, UYVY.y1,
      YUY2.sizeof, YUY2.u0, YUY2.y0, YUY2.v0, YUY2.y1] at p1 p2
    rw [c.2.2.2.2.2.2.2.1, c.2.2.2.2.2.2.2.2.1]
    rw [p1.1, p1.2.1, p1.2.2.1, p1.2.2.2, p2.1, p2.2.1, p2.2.2.1, p2.2.2.2]
    exact ⟨rfl, rfl⟩

/-- Witness for C8 (as amended): group 0 of row 1 of the 2x2 BGR24 sample frame. -/
theorem packed_yuv_byte_order_witness :
    ((sampleFrame PixelFormatBGR24).m_format.width % 2 = 0 ∧
      (1 : Int) < (sampleFrame PixelFormatBGR24).m_format.height) ∧
      ([((sampleFrame PixelFormatBGR24).convert specLayout PixelFormatUYVY).field specLayout 1 4 0 0,
          ((sampleFrame PixelFormatBGR24).convert specLayout PixelFormatUYVY).field specLayout 1 4 0 1,
          ((sampleFrame PixelFormatBGR24).convert specLayout PixelFormatUYVY).field specLayout 1 4 0 2,
          ((sampleFrame PixelFormatBGR24).convert specLayout PixelFormatUYVY).field specLayout 1 4 0 3]
        = [(sampleFrame PixelFormatBGR24).vAt specLayout 1 (2 * 0) BGR24.r BGR24.g BGR24.b,
            (sampleFrame PixelFormatBGR24).lumaAt specLayout 1 (2 * 0) BGR24.r BGR24.g BGR24.b,
            (sampleFrame PixelFormatBGR24).uAt specLayout 1 (2 * 0) BGR24.r BGR24.g BGR24.b,
            (sampleFrame PixelFormatBGR24).lumaAt specLayout 1 (2 * 0 + 1) BGR24.r BGR24.g BGR24.b] ∧
      [((sampleFrame PixelFormatBGR24).convert specLayout PixelFormatYUY2).field specLayout 1 4 0 0,
          ((sampleFrame PixelFormatBGR24).convert specLayout PixelFormatYUY2).field specLayout 1 4 0 1,
          ((sampleFrame PixelFormatBGR24).convert specLayout PixelFormatYUY2).field specLayout 1 4 0 2,
          ((sampleFrame PixelFormatBGR24).convert specLayout PixelFormatYUY2).field specLayout 1 4 0 3]
        = [(sampleFrame PixelFormatBGR24).lumaAt specLayout 1 (2 * 0) BGR24.r BGR24.g BGR24.b,
            (sampleFrame PixelFormatBGR24).vAt specLayout 1 (2 * 0) BGR24.r BGR24.g BGR24.b,
            (sampleFrame PixelFormatBGR24).lumaAt specLayout 1 (2 * 0 + 1) BGR24.r BGR24.g BGR24.b,
            (sampleFrame PixelFormatBGR24).uAt specLayout 1 (2 * 0) BGR24.r BGR24.g BGR24.b]) :=
  ⟨by decide,
    (packed_yuv_byte_order specLayout (sampleFrame PixelFormatBGR24) 1 0 (by decide) (by decide)
      (by decide)
      (by
        intro t ht
        rcases ht with rfl | rfl <;> (unfold Layout.PlaneFits; decide))).1 rfl⟩

/-- Counterexample for C8 as stated: in group 0 of row 0 of the converted 2x2 BGR24 sample
frame the bytes are not `[U, Y0, V, Y1]` for UYVY and not `[Y0, U, Y1, V]` for YUY2. -/
theorem packed_yuv_byte_order_counterexample :
    [((sampleFrame PixelFormatBGR24).convert specLayout PixelFormatUYVY).field specLayout 0 4 0 0,
          ((sampleFrame PixelFormatBGR24).convert specLayout PixelFormatUYVY).field specLayout 0 4 0 1,
          ((sampleFrame PixelFormatBGR24).convert specLayout PixelFormatUYVY).field specLayout 0 4 0 2,
          ((sampleFrame PixelFormatBGR24).convert specLayout PixelFormatUYVY).field specLayout 0 4 0 3]
        ≠ [(sampleFrame PixelFormatBGR24).uAt specLayout 0 (2 * 0) BGR24.r BGR24.g BGR24.b,
            (sampleFrame PixelFormatBGR24).lumaAt specLayout 0 (2 * 0) BGR24.r BGR24.g BGR24.b,
            (sampleFrame PixelFormatBGR24).vAt specLayout 0 (2 * 0) BGR24.r BGR24.g BGR24.b,
            (sampleFrame PixelFormatBGR24).lumaAt specLayout 0 (2 * 0 + 1) BGR24.r BGR24.g BGR24.b] ∧
      [((sampleFrame PixelFormatBGR24).convert specLayout PixelFormatYUY2).field specLayout 0 4 0 0,
          ((sampleFrame PixelFormatBGR24).convert specLayout PixelFormatYUY2).field specLayout 0 4 0 1,
          ((sampleFrame PixelFormatBGR24).convert specLayout PixelFormatYUY2).field specLayout 0 4 0 2,
          ((sampleFrame PixelFormatBGR24).convert specLayout PixelFormatYUY2).field specLayout 0 4 0 3]
        ≠ [(sampleFrame PixelFormatBGR24).lumaAt specLayout 0 (2 * 0) BGR24.r BGR24.g BGR24.b,
            (sampleFrame PixelFormatBGR24).uAt specLayout 0 (2 * 0) BGR24.r BGR24.g BGR24.b,
            (sampleFrame PixelFormatBGR24).lumaAt specLayout 0 (2 * 0 + 1) BGR24.r BGR24.g BGR24.b,
            (sampleFrame PixelFormatBGR24).vAt specLayout 0 (2 * 0) BGR24.r BGR24.g BGR24.b] := by
  decide

theorem foldl_snoc_eq_map {α β : Type} (f : α → β) (l : List α) (acc : List β) :
    l.foldl (fun t j => t ++ [f j]) acc = acc ++ l.map f := by
  induction l generalizing acc with
  | nil => simp
  | cons a l ih => simp [ih]

theorem join_pairs (n : Nat) :
    ((List.range n).map fun j => [2 * j, 2 * j + 1]).flatten = List.range (2 * n) := by
  induction n with
  | zero => rfl
  | succ n ih =>
    have e : 2 * (n + 1) = (2 * n + 1) + 1 := by ring
    rw [List.range_succ, List.map_append, List.flatten_append, ih, e, List.range_succ,
      List.range_succ]
    simp

/-- The accesses of the pair loop over a row: pair after pair, in increasing order. -/
theorem pairTrace_eq (width : Int) :
    pairTrace width = (List.range ((width.toNat + 1) / 2)).map fun j => pairAccess (2 * j) := by
  unfold pairTrace
  rw [pairLoop_eq_forLoop width _ _ (by omega)]
  unfold forLoop
  rw [Int.toNat_ofNat, foldl_snoc_eq_map (fun j => pairAccess (2 * j))]
  rfl

/-- C9: for a BGR24 or RGB24 frame of even width `W`, conversion to UYVY or YUY2 handles each
row as the `W / 2` pixel pairs `(2k, 2k + 1)`: the members `u0` and `v0` of group `k` are
`rgb_u` and `rgb_v` of pixel `2k`, `y0` is `rgb_y` of pixel `2k` and `y1` is `rgb_y` of
pixel `2k + 1`; both columns read are below `W` and the group written is below `W / 2`; with
enough fuel the pair loop is the loop over `k < W / 2` running its body at column `2k`, so
the columns read are `0, ..., W - 1` and the groups written `0, ..., W / 2 - 1`, once each. -/
theorem packed_yuv_pairs (L : Layout) (src : VideoFrame) (y k : Nat)
    (heven : src.m_format.width % 2 = 0)
    (hy : (y : Int) < src.m_format.height) (hk : 2 * (k : Int) < src.m_format.width)
    (hfit : ∀ t, t = PixelFormatUYVY ∨ t = PixelFormatYUY2 →
      L.PlaneFits { src.m_format with fourcc := t } 0
        (2 * src.m_format.width.toNat) src.m_format.height.toNat) :
    (src.m_format.fourcc = PixelFormatBGR24 →
      ((src.convert L PixelFormatUYVY).field L y UYVY.sizeof k UYVY.u0
            = src.uAt L y (2 * k) BGR24.r BGR24.g BGR24.b ∧
          (src.convert L PixelFormatUYVY).field L y UYVY.sizeof k UYVY.v0
            = src.vAt L y (2 * k) BGR24.r BGR24.g BGR24.b ∧
          (src.convert L PixelFormatUYVY).field L y UYVY.sizeof k UYVY.y0
            = src.lumaAt L y (2 * k) BGR24.r BGR24.g BGR24.b ∧
          (src.convert L PixelFormatUYVY).field L y UYVY.sizeof k UYVY.y1
            = src.lumaAt L y (2 * k + 1) BGR24.r BGR24.g BGR24.b) ∧
      ((src.convert L PixelFormatYUY2).field L y YUY2.sizeof k YUY2.u0
            = src.uAt L y (2 * k) BGR24.r BGR24.g BGR24.b ∧
          (src.convert L PixelFormatYUY2).field L y YUY2.sizeof k YUY2.v0
            = src.vAt L y (2 * k) BGR24.r BGR24.g BGR24.b ∧
          (src.convert L PixelFormatYUY2).field L y YUY2.sizeof k YUY2.y0
            = src.lumaAt L y (2 * k) BGR24.r BGR24.g BGR24.b ∧
          (src.convert L PixelFormatYUY2).field L y YUY2.sizeof k YUY2.y1
            = src.lumaAt L y (2 * k + 1) BGR24.r BGR24.g BGR24.b)) ∧
    (src.m_format.fourcc = PixelFormatRGB24 →
      ((src.convert L PixelFormatUYVY).field L y UYVY.sizeof k UYVY.u0
            = src.uAt L y (2 * k) RGB24.r RGB24.g RGB24.b ∧
          (src.convert L PixelFormatUYVY).field L y UYVY.sizeof k UYVY.v0
            = src.vAt L y (2 * k) RGB24.r RGB24.g RGB24.b ∧
          (src.convert L PixelFormatUYVY).field L y UYVY.sizeof k UYVY.y0
            = src.lumaAt L y (2 * k) RGB24.r RGB24.g RGB24.b ∧
          (src.convert L PixelFormatUYVY).field L y UYVY.sizeof k UYVY.y1
            = src.lumaAt L y (2 * k + 1) RGB24.r RGB24.g RGB24.b) ∧
      ((src.convert L PixelFormatYUY2).field L y YUY2.sizeof k YUY2.u0
            = src.uAt L y (2 * k) RGB24.r RGB24.g RGB24.b ∧
          (src.convert L PixelFormatYUY2).field L y YUY2.sizeof k YUY2.v0
            = src.vAt L y (2 * k) RGB24.r RGB24.g RGB24.b ∧
          (src.convert L PixelFormatYUY2).field L y YUY2.sizeof k YUY2.y0
            = src.lumaAt L y (2 * k) RGB24.r RGB24.g RGB24.b ∧
          (src.convert L PixelFormatYUY2).field L y YUY2.sizeof k YUY2.y1
            = src.lumaAt L y (2 * k + 1) RGB24.r RGB24.g RGB24.b)) ∧
    ((2 * k : Int) < src.m_format.width ∧ (2 * k + 1 : Int) < src.m_format.width ∧
      (k : Int) < src.m_format.width / 2) ∧
    (∀ (σ : Type) (body : Nat → σ → σ) (fuel : Nat) (s : σ),
      src.m_format.width.toNat / 2 ≤ fuel →
      pairLoop src.m_format.width body fuel 0 s =
        forLoop ((src.m_format.width.toNat / 2 : Nat) : Int) s (fun j => body (2 * j))) ∧
    ((pairTrace src.m_format.width).map Prod.fst).flatten = List.range src.m_format.width.toNat ∧
    (pairTrace src.m_format.width).map Prod.snd = List.range (src.m_format.width.toNat / 2) := by
  have hhalf : (src.m_format.width.toNat + 1) / 2 = src.m_format.width.toNat / 2 := by omega
  refine ⟨fun h => ?_, fun h => ?_, ⟨by omega, by omega, by omega⟩, ?_, ?_, ?_⟩
  · have c := convert_of_bgr24 L src h
    have p1 := bgr24_to_uyvy_group L src
      ⟨by have := (hfit _ (Or.inl rfl)).1; omega, (hfit _ (Or.inl rfl)).2⟩ y k hy (by omega)
    have p2 := bgr24_to_yuy2_group L src
      ⟨by have := (hfit _ (Or.inr rfl)).1; omega, (hfit _ (Or.inr rfl)).2⟩ y k hy (by omega)
    simp only [Prod.mk.injEq] at p1 p2
    rw [c.2.2.2.2.2.2.2.1, c.2.2.2.2.2.2.2.2.1]
    exact ⟨⟨p1.1, p1.2.2.1, p1.2.1, p1.2.2.2⟩, ⟨p2.2.1, p2.2.2.2, p2.1, p2.2.2.1⟩⟩
  · have c := convert_of_rgb24 L src h
    have p1 := rgb24_to_uyvy_group L src
      ⟨by have := (hfit _ (Or.inl rfl)).1; omega, (hfit _ (Or.inl rfl)).2⟩ y k hy (by omega)
    have p2 := rgb24_to_yuy2_group L src
      ⟨by have := (hfit _ (Or.inr rfl)).1; omega, (hfit _ (Or.inr rfl)).2⟩ y k hy (by omega)
    simp only [Prod.mk.injEq] at p1 p2
    rw [c.2.2.2.2.2.2.2.1, c.2.2.2.2.2.2.2.2.1]
    exact ⟨⟨p1.1, p1.2.2.1, p1.2.1, p1.2.2.2⟩, ⟨p2.2.1, p2.2.2.2, p2.1, p2.2.2.1⟩⟩
  · intro σ body fuel s hfuel
    rw [pairLoop_eq_forLoop src.m_format.width body fuel (by omega), hhalf]
  · rw [pairTrace_eq, hhalf, List.map_map]
    have e : (Prod.fst ∘ fun j => pairAccess (2 * j)) = fun j => [2 * j, 2 * j + 1] := rfl
    rw [e, join_pairs]
    congr 1
    omega
  · rw [pairTrace_eq, hhalf, List.map_map]
    have e : (Prod.snd ∘ fun j => pairAccess (2 * j)) = fun j => j := by
      funext j
      exact Nat.mul_div_cancel_left j (by decide)
    rw [e, List.map_id']

/-- Witness for C9: group 0 of row 1 of the 2x2 BGR24 sample frame, converted to UYVY. -/
theorem packed_yuv_pairs_witness :
    ((sampleFrame PixelFormatBGR24).m_format.width % 2 = 0 ∧
      (1 : Int) < (sampleFrame PixelFormatBGR24).m_format.height) ∧
      (((sampleFrame PixelFormatBGR24).convert specLayout PixelFormatUYVY).field specLayout 1 UYVY.sizeof 0 UYVY.u0
            = (sampleFrame PixelFormatBGR24).uAt specLayout 1 (2 * 0) BGR24.r BGR24.g BGR24.b ∧
          ((sampleFrame PixelFormatBGR24).convert specLayout PixelFormatUYVY).field specLayout 1 UYVY.sizeof 0 UYVY.v0
            = (sampleFrame PixelFormatBGR24).vAt specLayout 1 (2 * 0) BGR24.r BGR24.g BGR24.b ∧
          ((sampleFrame PixelFormatBGR24).convert specLayout PixelFormatUYVY).field specLayout 1 UYVY.sizeof 0 UYVY.y0
            = (sampleFrame PixelFormatBGR24).lumaAt specLayout 1 (2 * 0) BGR24.r BGR24.g BGR24.b ∧
          ((sampleFrame PixelFormatBGR24).convert specLayout PixelFormatUYVY).field specLayout 1 UYVY.sizeof 0 UYVY.y1
            = (sampleFrame PixelFormatBGR24).lumaAt specLayout 1 (2 * 0 + 1) BGR24.r BGR24.g BGR24.b) :=
  ⟨by decide,
    ((packed_yuv_pairs specLayout (sampleFrame PixelFormatBGR24) 1 0 (by decide) (by decide)
      (by decide)
      (by
        intro t ht
        rcases ht with rfl | rfl <;> (unfold Layout.PlaneFits; decide))).1 rfl).1⟩

/-! ## The planar YUV targets at concrete frames -/

/-- C10, the code at the failing input: after converting the 2x2 BGR24 sample frame to NV12 or
NV21, the luma byte at column 1 of row 0 is still the initial 0, while `rgb_y` of source
pixel (1, 0) is 57; the byte at column 0 of row 0 holds that 57 instead of `rgb_y` of pixel
(0, 0), which is 32. The same happens from RGB24. -/
theorem nv_luma_at_sample :
    (peek ((sampleFrame PixelFormatBGR24).convert specLayout PixelFormatNV12).m_data
        (((sampleFrame PixelFormatBGR24).convert specLayout PixelFormatNV12).line specLayout 0 0 + 1)
        = 0 ∧
      peek ((sampleFrame PixelFormatBGR24).convert specLayout PixelFormatNV21).m_data
        (((sampleFrame PixelFormatBGR24).convert specLayout PixelFormatNV21).line specLayout 0 0 + 1)
        = 0 ∧
      (sampleFrame PixelFormatBGR24).lumaAt specLayout 0 1 BGR24.r BGR24.g BGR24.b = 57) ∧
    (peek ((sampleFrame PixelFormatBGR24).convert specLayout PixelFormatNV12).m_data
        (((sampleFrame PixelFormatBGR24).convert specLayout PixelFormatNV12).line specLayout 0 0 + 0)
        = 57 ∧
      (sampleFrame PixelFormatBGR24).lumaAt specLayout 0 0 BGR24.r BGR24.g BGR24.b = 32) ∧
    (peek ((sampleFrame PixelFormatRGB24).convert specLayout PixelFormatNV12).m_data
        (((sampleFrame PixelFormatRGB24).convert specLayout PixelFormatNV12).line specLayout 0 0 + 1)
        = 0 ∧
      (sampleFrame PixelFormatRGB24).lumaAt specLayout 0 1 RGB24.r RGB24.g RGB24.b = 61) := by
  decide

/-- C11, the code at the failing input: after converting the BGR24 frame 2 pixels wide and 4
pixels high to NV12, the chroma pair at index 0 of chroma row 0 is `[123, 212]`, while
`[rgb_v, rgb_u]` of source pixel (0, 0) is `[123, 134]`: its second byte was overwritten by
the luma write of row 3, which is indexed by the row and lands in the chroma plane, and 212
is `rgb_y` of pixel (1, 3). For NV21 the pair is `[134, 212]` instead of `[134, 123]`. -/
theorem nv_chroma_at_tall :
    ([getField ((tallFrame PixelFormatBGR24).convert specLayout PixelFormatNV12).m_data
          (((tallFrame PixelFormatBGR24).convert specLayout PixelFormatNV12).line specLayout 1 0)
          VU.sizeof 0 0,
        getField ((tallFrame PixelFormatBGR24).convert specLayout PixelFormatNV12).m_data
          (((tallFrame PixelFormatBGR24).convert specLayout PixelFormatNV12).line specLayout 1 0)
          VU.sizeof 0 1] = [123, 212] ∧
      [(tallFrame PixelFormatBGR24).vAt specLayout 0 0 BGR24.r BGR24.g BGR24.b,
        (tallFrame PixelFormatBGR24).uAt specLayout 0 0 BGR24.r BGR24.g BGR24.b] = [123, 134] ∧
      (tallFrame PixelFormatBGR24).lumaAt specLayout 3 1 BGR24.r BGR24.g BGR24.b = 212) ∧
    [getField ((tallFrame PixelFormatBGR24).convert specLayout PixelFormatNV21).m_data
          (((tallFrame PixelFormatBGR24).convert specLayout PixelFormatNV21).line specLayout 1 0)
          UV.sizeof 0 0,
        getField ((tallFrame PixelFormatBGR24).convert specLayout PixelFormatNV21).m_data
          (((tallFrame PixelFormatBGR24).convert specLayout PixelFormatNV21).line specLayout 1 0)
          UV.sizeof 0 1] = [134, 212] := by
  decide

/-! ## Neutral calls and non-adjustable encodings -/

/-- C12: for every frame, of any encoding, each neutral call returns the frame itself (same
format, same bytes): `scaled` to the frame's own dimensions, `mirror(false, false)`,
`swapRgb(false)`, `adjustHsl(0, 0, 0)`, `adjustGamma(0)`, `adjustContrast(0)` and
`adjust(0, 0, 0, 0, 0, false)`; no condition on the encoding is needed, the neutral check
comes first. -/
theorem neutral_calls (L : Layout) (T : Tables) (frame : VideoFrame) (mode : Scaling)
    (aspectRatio : AspectRatio) :
    frame.scaled L frame.m_format.width frame.m_format.height mode aspectRatio = frame ∧
      frame.mirror L false false = frame ∧
      frame.swapRgbIf L false = frame ∧
      frame.adjustHsl L 0 0 0 = frame ∧
      frame.adjustGamma L T 0 = frame ∧
      frame.adjustContrast L T 0 = frame ∧
      frame.adjust L T 0 0 0 0 0 false = frame := by
  refine ⟨?_, ?_, ?_, ?_, ?_, ?_, ?_⟩
  · unfold VideoFrame.scaled
    rw [if_pos ⟨rfl, rfl⟩]
  · unfold VideoFrame.mirror
    exact if_pos rfl
  · rfl
  · unfold VideoFrame.adjustHsl
    rw [if_pos ⟨rfl, rfl, rfl⟩]
  · unfold VideoFrame.adjustGamma
    rw [if_pos rfl]
  · unfold VideoFrame.adjustContrast
    rw [if_pos rfl]
  · unfold VideoFrame.adjust
    exact if_pos ⟨rfl, rfl, rfl, rfl, rfl, rfl⟩

theorem not_adjustable (fourcc : FourCC)
    (h : fourcc ≠ PixelFormatBGR24 ∧ fourcc ≠ PixelFormatRGB24) : fourcc ∉ m_adjustFormats := by
  unfold m_adjustFormats
  intro hm
  rcases List.mem_cons.1 hm with h1 | h1
  · exact h.1 h1
  · rcases List.mem_cons.1 h1 with h2 | h2
    · exact h.2 h2
    · exact absurd h2 (List.not_mem_nil _)

/-- C13: for a frame whose encoding is neither BGR24 nor RGB24, every non-neutral call returns
the default-constructed (empty) frame: `mirror` with a flag set, `scaled` to other
dimensions, `swapRgb()`, `swapRgb(true)`, `toGrayScale()`, `adjustHsl` with a non-zero
argument, `adjustGamma` and `adjustContrast` with a non-zero level, and `adjust` with a
non-neutral argument. -/
theorem non_adjustable_empty (L : Layout) (T : Tables) (frame : VideoFrame)
    (h : frame.m_format.fourcc ≠ PixelFormatBGR24 ∧ frame.m_format.fourcc ≠ PixelFormatRGB24) :
    (∀ hm vm : Bool, hm = true ∨ vm = true → frame.mirror L hm vm = {}) ∧
      (∀ (width height : Int) (mode : Scaling) (aspectRatio : AspectRatio),
        ¬ (frame.m_format.width = width ∧ frame.m_format.height = height) →
        frame.scaled L width height mode aspectRatio = {}) ∧
      frame.swapRgb L = {} ∧
      frame.swapRgbIf L true = {} ∧
      frame.toGrayScale L = {} ∧
      (∀ hue saturation luminance : Int, ¬ (hue = 0 ∧ saturation = 0 ∧ luminance = 0) →
        frame.adjustHsl L hue saturation luminance = {}) ∧
      (∀ gamma : Int, gamma ≠ 0 → frame.adjustGamma L T gamma = {}) ∧
      (∀ contrast : Int, contrast ≠ 0 → frame.adjustContrast L T contrast = {}) ∧
      (∀ (hue saturation luminance gamma contrast : Int) (gray : Bool),
        ¬ (hue = 0 ∧ saturation = 0 ∧ luminance = 0 ∧ gamma = 0 ∧ contrast = 0 ∧ gray = false) →
        frame.adjust L T hue saturation luminance gamma contrast gray = {}) := by
  have hn := not_adjustable _ h
  have hswap : frame.swapRgb L = {} := by
    unfold VideoFrame.swapRgb
    rw [if_pos hn]
  refine ⟨?_, ?_, hswap, ?_, ?_, ?_, ?_, ?_, ?_⟩
  · intro hm vm hflag
    unfold VideoFrame.mirror
    have hf : ¬ ((!hm && !vm) = true) := by
      rcases hflag with rfl | rfl <;> simp
    rw [if_neg hf, if_pos hn]
  · intro width height mode aspectRatio hdim
    unfold VideoFrame.scaled
    rw [if_neg hdim, if_pos hn]
  · unfold VideoFrame.swapRgbIf
    rw [if_pos rfl]
    exact hswap
  · unfold VideoFrame.toGrayScale
    rw [if_pos hn]
  · intro hue saturation luminance hnz
    unfold VideoFrame.adjustHsl
    rw [if_neg hnz, if_pos hn]
  · intro gamma hnz
    unfold VideoFrame.adjustGamma
    rw [if_neg hnz, if_pos hn]
  · intro contrast hnz
    unfold VideoFrame.adjustContrast
    rw [if_neg hnz, if_pos hn]
  · intro hue saturation luminance gamma contrast gray hnz
    unfold VideoFrame.adjust
    have hf : ¬ (hue = 0 ∧ saturation = 0 ∧ luminance = 0 ∧ gamma = 0 ∧ contrast = 0
        ∧ (!gray) = true) := by
      intro hh
      exact hnz ⟨hh.1, hh.2.1, hh.2.2.1, hh.2.2.2.1, hh.2.2.2.2.1, by simpa using hh.2.2.2.2.2⟩
    rw [if_neg hf, if_pos hn]

/-- Witness for C13: the sample frame tagged NV12. -/
theorem non_adjustable_empty_witness :
    (sampleFrame PixelFormatNV12).m_format.fourcc ≠ PixelFormatBGR24 ∧
      (sampleFrame PixelFormatNV12).toGrayScale specLayout = {} ∧
      (sampleFrame PixelFormatNV12).mirror specLayout true false = {} :=
  ⟨by decide,
    (non_adjustable_empty specLayout ⟨[], []⟩ (sampleFrame PixelFormatNV12)
      ⟨by decide, by decide⟩).2.2.2.2.1,
    (non_adjustable_empty specLayout ⟨[], []⟩ (sampleFrame PixelFormatNV12)
      ⟨by decide, by decide⟩).1 true false (Or.inl rfl)⟩

/-! ## `swapRgb` and `toGrayScale` -/

theorem adjustable_of (fourcc : FourCC)
    (h : fourcc = PixelFormatBGR24 ∨ fourcc = PixelFormatRGB24) : fourcc ∈ m_adjustFormats := by
  unfold m_adjustFormats
  rcases h with h | h <;> simp [h]

/-- C16: for a BGR24 or RGB24 frame, `swapRgb()` returns a frame of the same format in which
every pixel inside the frame has its `r` and `b` members exchanged and `g` unchanged, and
applying `swapRgb()` twice gives back the original bytes of the pixel. -/
theorem swapRgb_twice (L : Layout) (self : VideoFrame) (y x : Nat)
    (hfmt : self.m_format.fourcc = PixelFormatBGR24 ∨ self.m_format.fourcc = PixelFormatRGB24)
    (hy : (y : Int) < self.m_format.height) (hx : (x : Int) < self.m_format.width)
    (hfit : L.PlaneFits self.m_format 0
      (3 * self.m_format.width.toNat) self.m_format.height.toNat) :
    (self.swapRgb L).m_format = self.m_format ∧
      ((self.swapRgb L).field L y RGB24.sizeof x RGB24.r = self.field L y RGB24.sizeof x RGB24.b ∧
        (self.swapRgb L).field L y RGB24.sizeof x RGB24.g
          = self.field L y RGB24.sizeof x RGB24.g ∧
        (self.swapRgb L).field L y RGB24.sizeof x RGB24.b
          = self.field L y RGB24.sizeof x RGB24.r) ∧
      (∀ k, k < 3 →
        ((self.swapRgb L).swapRgb L).field L y 3 x k = self.field L y 3 x k) := by
  have ha := adjustable_of _ hfmt
  have hf := swapRgb_format L self ha
  have p1 := swapRgb_pixel L self ha hfit y x hy hx
  have p2 := swapRgb_pixel L (self.swapRgb L) (by rw [hf]; exact ha) (by rw [hf]; exact hfit)
    y x (by rw [hf]; exact hy) (by rw [hf]; exact hx)
  simp only [Prod.mk.injEq] at p1 p2
  refine ⟨hf, p1, ?_⟩
  simp only [RGB24.sizeof, RGB24.r, RGB24.g, RGB24.b] at p1 p2
  intro k hk
  interval_cases k
  · rw [p2.2.2]; exact p1.1
  · rw [p2.2.1]; exact p1.2.1
  · rw [p2.1]; exact p1.2.2

/-- Witness for C16: pixel (1, 1) of the 2x2 RGB24 sample frame. -/
theorem swapRgb_twice_witness :
    (1 : Int) < (sampleFrame PixelFormatRGB24).m_format.height ∧
      ((sampleFrame PixelFormatRGB24).swapRgb specLayout).m_format
        = (sampleFrame PixelFormatRGB24).m_format ∧
      (∀ k, k < 3 →
        (((sampleFrame PixelFormatRGB24).swapRgb specLayout).swapRgb specLayout).field
          specLayout 1 3 1 k = (sampleFrame PixelFormatRGB24).field specLayout 1 3 1 k) :=
  ⟨by decide,
    (swapRgb_twice specLayout (sampleFrame PixelFormatRGB24) 1 1 (Or.inr rfl) (by decide)
      (by decide) (by unfold Layout.PlaneFits; decide)).1,
    (swapRgb_twice specLayout (sampleFrame PixelFormatRGB24) 1 1 (Or.inr rfl) (by decide)
      (by decide) (by unfold Layout.PlaneFits; decide)).2.2⟩

theorem toGrayScale_adjustable (L : Layout) (self : VideoFrame)
    (hfmt : self.m_format.fourcc ∈ m_adjustFormats) :
    self.toGrayScale L =
      VideoFrame.mk self.m_format
        (forLoop self.m_format.height (VideoFrame.ofFormat L self.m_format).m_data fun y data =>
          forLoop self.m_format.width data fun x data =>
            setField (setField (setField data
              ((VideoFrame.ofFormat L self.m_format).line L 0 y) RGB24.sizeof x RGB24.r
                (toUInt8 (grayval (self.field L y RGB24.sizeof x RGB24.r).val
                  (self.field L y RGB24.sizeof x RGB24.g).val
                  (self.field L y RGB24.sizeof x RGB24.b).val)))
              ((VideoFrame.ofFormat L self.m_format).line L 0 y) RGB24.sizeof x RGB24.g
                (toUInt8 (grayval (self.field L y RGB24.sizeof x RGB24.r).val
                  (self.field L y RGB24.sizeof x RGB24.g).val
                  (self.field L y RGB24.sizeof x RGB24.b).val)))
              ((VideoFrame.ofFormat L self.m_format).line L 0 y) RGB24.sizeof x RGB24.b
                (toUInt8 (grayval (self.field L y RGB24.sizeof x RGB24.r).val
                  (self.field L y RGB24.sizeof x RGB24.g).val
                  (self.field L y RGB24.sizeof x RGB24.b).val))) := by
  unfold VideoFrame.toGrayScale
  rw [if_neg (not_not.2 hfmt)]
  rfl

theorem toGrayScale_pixel (L : Layout) (self : VideoFrame)
    (hfmt : self.m_format.fourcc ∈ m_adjustFormats)
    (hfit : L.PlaneFits self.m_format 0
      (3 * self.m_format.width.toNat) self.m_format.height.toNat)
    (y x : Nat) (hy : (y : Int) < self.m_format.height) (hx : (x : Int) < self.m_format.width) :
    ((self.toGrayScale L).field L y RGB24.sizeof x RGB24.r,
      (self.toGrayScale L).field L y RGB24.sizeof x RGB24.g,
      (self.toGrayScale L).field L y RGB24.sizeof x RGB24.b)
      = (toUInt8 (grayval (self.field L y RGB24.sizeof x RGB24.r).val
            (self.field L y RGB24.sizeof x RGB24.g).val
            (self.field L y RGB24.sizeof x RGB24.b).val),
          toUInt8 (grayval (self.field L y RGB24.sizeof x RGB24.r).val
            (self.field L y RGB24.sizeof x RGB24.g).val
            (self.field L y RGB24.sizeof x RGB24.b).val),
          toUInt8 (grayval (self.field L y RGB24.sizeof x RGB24.r).val
            (self.field L y RGB24.sizeof x RGB24.g).val
            (self.field L y RGB24.sizeof x RGB24.b).val)) := by
  rw [toGrayScale_adjustable L self hfmt]
  exact write3_loop RGB24.r RGB24.g RGB24.b
    (fun y x => toUInt8 (grayval (self.field L y RGB24.sizeof x RGB24.r).val
            (self.field L y RGB24.sizeof x RGB24.g).val
            (self.field L y RGB24.sizeof x RGB24.b).val))
    (fun y x => toUInt8 (grayval (self.field L y RGB24.sizeof x RGB24.r).val
            (self.field L y RGB24.sizeof x RGB24.g).val
            (self.field L y RGB24.sizeof x RGB24.b).val))
    (fun y x => toUInt8 (grayval (self.field L y RGB24.sizeof x RGB24.r).val
            (self.field L y RGB24.sizeof x RGB24.g).val
            (self.field L y RGB24.sizeof x RGB24.b).val))
    (by decide) _ _ _ _ _ hfit.1 (by rw [length_ofFormat]; exact hfit.2) y x hy hx

theorem grayval_eq (r g b : Int) : grayval r g b = (11 * r + 16 * g + 5 * b) / 32 := by
  unfold grayval
  rw [Int.shiftRight_eq_div_pow]
  norm_num

theorem toUInt8_of_byte (v : Int) (h0 : 0 ≤ v) (h1 : v ≤ 255) : ((toUInt8 v).val : Int) = v := by
  simp only [toUInt8]
  omega

/-- C17: for a BGR24 or RGB24 frame and every pixel inside it with members `(r, g, b)`,
`toGrayScale()` gives a pixel whose three members all equal `(11 r + 16 g + 5 b) >> 5`; that
value lies in `[0, 255]`, so the conversion to a byte keeps it. -/
theorem toGrayScale_value (L : Layout) (self : VideoFrame) (y x : Nat)
    (hfmt : self.m_format.fourcc = PixelFormatBGR24 ∨ self.m_format.fourcc = PixelFormatRGB24)
    (hy : (y : Int) < self.m_format.height) (hx : (x : Int) < self.m_format.width)
    (hfit : L.PlaneFits self.m_format 0
      (3 * self.m_format.width.toNat) self.m_format.height.toNat) :
    (((self.toGrayScale L).field L y RGB24.sizeof x RGB24.r).val : Int)
        = (11 * ((self.field L y RGB24.sizeof x RGB24.r).val : Int)
            + 16 * ((self.field L y RGB24.sizeof x RGB24.g).val : Int)
            + 5 * ((self.field L y RGB24.sizeof x RGB24.b).val : Int)) >>> (5 : Nat) ∧
      (self.toGrayScale L).field L y RGB24.sizeof x RGB24.g
        = (self.toGrayScale L).field L y RGB24.sizeof x RGB24.r ∧
      (self.toGrayScale L).field L y RGB24.sizeof x RGB24.b
        = (self.toGrayScale L).field L y RGB24.sizeof x RGB24.r ∧
      0 ≤ grayval (self.field L y RGB24.sizeof x RGB24.r).val
          (self.field L y RGB24.sizeof x RGB24.g).val
          (self.field L y RGB24.sizeof x RGB24.b).val ∧
      grayval (self.field L y RGB24.sizeof x RGB24.r).val
          (self.field L y RGB24.sizeof x RGB24.g).val
          (self.field L y RGB24.sizeof x RGB24.b).val ≤ 255 := by
  have p := toGrayScale_pixel L self (adjustable_of _ hfmt) hfit y x hy hx
  simp only [Prod.mk.injEq] at p
  have hr := (self.field L y RGB24.sizeof x RGB24.r).isLt
  have hg := (self.field L y RGB24.sizeof x RGB24.g).isLt
  have hb := (self.field L y RGB24.sizeof x RGB24.b).isLt
  have e := grayval_eq (self.field L y RGB24.sizeof x RGB24.r).val
    (self.field L y RGB24.sizeof x RGB24.g).val (self.field L y RGB24.sizeof x RGB24.b).val
  have h0 : 0 ≤ grayval (self.field L y RGB24.sizeof x RGB24.r).val
      (self.field L y RGB24.sizeof x RGB24.g).val
      (self.field L y RGB24.sizeof x RGB24.b).val := by rw [e]; omega
  have h1 : grayval (self.field L y RGB24.sizeof x RGB24.r).val
      (self.field L y RGB24.sizeof x RGB24.g).val
      (self.field L y RGB24.sizeof x RGB24.b).val ≤ 255 := by rw [e]; omega
  refine ⟨?_, ?_, ?_, h0, h1⟩
  · rw [p.1, toUInt8_of_byte _ h0 h1]
    rfl
  · rw [p.2.1, p.1]
  · rw [p.2.2, p.1]

/-- Witness for C17: pixel (1, 1) of the 2x2 RGB24 sample frame. -/
theorem toGrayScale_value_witness :
    (1 : Int) < (sampleFrame PixelFormatRGB24).m_format.height ∧
      (((sampleFrame PixelFormatRGB24).toGrayScale specLayout).field
          specLayout 1 RGB24.sizeof 1 RGB24.r).val
        = (11 * (((sampleFrame PixelFormatRGB24).field specLayout 1 RGB24.sizeof 1 RGB24.r).val
              : Int)
            + 16 * (((sampleFrame PixelFormatRGB24).field specLayout 1 RGB24.sizeof 1
                RGB24.g).val : Int)
            + 5 * (((sampleFrame PixelFormatRGB24).field specLayout 1 RGB24.sizeof 1
                RGB24.b).val : Int)) >>> (5 : Nat) :=
  ⟨by decide,
    (toGrayScale_value specLayout (sampleFrame PixelFormatRGB24) 1 1 (Or.inr rfl) (by decide)
      (by decide) (by unfold Layout.PlaneFits; decide)).1⟩

/-! ## `mirror` -/

/-- One byte written per cell of one byte. -/
theorem write1_loop (v : Nat → Nat → uint8_t) (off B : Nat) (H W : Int) (d0 : VideoData)
    (hB : W.toNat ≤ B) (hS : off + H.toNat * B ≤ d0.length)
    (y x : Nat) (hy : (y : Int) < H) (hx : (x : Int) < W) :
    peek (forLoop H d0 fun y data => forLoop W data fun x data =>
        poke data (off + y * B + x) (v y x)) (off + y * B + x) = v y x := by
  refine cellLoop_obs 1 off B H W (fun y x data => poke data (off + y * B + x) (v y x))
    (fun d => peek d (off + y * B + x)) _ y x hy hx (by omega) ?_ ?_ ?_ ?_ d0 hS
  · intro y x d
    simp only [length_poke]
  · intro y x d q hq
    rw [peek_poke_ne _ _ _ _ (by omega)]
  · intro d d' h
    have h0 := h 0 (by omega)
    simp only [Nat.mul_one, Nat.add_zero] at h0
    exact h0
  · intro d hd
    exact peek_poke_same _ _ _ (by omega)

theorem mirror_adjustable (L : Layout) (self : VideoFrame)
    (hfmt : self.m_format.fourcc ∈ m_adjustFormats) :
    self.mirror L true true =
      VideoFrame.mk self.m_format
        (forLoop self.m_format.height (VideoFrame.ofFormat L self.m_format).m_data fun y data =>
          forLoop self.m_format.width data fun x data =>
            setPixel data ((VideoFrame.ofFormat L self.m_format).line L 0 y) x
              (getPixel self.m_data (self.line L 0 (self.m_format.height - y - 1).toNat)
                (self.m_format.width - x - 1).toNat)) ∧
    self.mirror L true false =
      VideoFrame.mk self.m_format
        (forLoop self.m_format.height (VideoFrame.ofFormat L self.m_format).m_data fun y data =>
          forLoop self.m_format.width data fun x data =>
            setPixel data ((VideoFrame.ofFormat L self.m_format).line L 0 y) x
              (getPixel self.m_data (self.line L 0 y) (self.m_format.width - x - 1).toNat)) ∧
    self.mirror L false true =
      VideoFrame.mk self.m_format
        (forLoop self.m_format.height (VideoFrame.ofFormat L self.m_format).m_data fun y data =>
          memcpy data ((VideoFrame.ofFormat L self.m_format).line L 0 y) self.m_data
            (self.line L 0 (self.m_format.height - y - 1).toNat)
            (self.m_format.width.toNat * RGB24.sizeof)) := by
  refine ⟨?_, ?_, ?_⟩ <;>
  · unfold VideoFrame.mirror
    rw [if_neg (by decide), if_neg (not_not.2 hfmt)]
    rfl

theorem mirror_format (L : Layout) (self : VideoFrame)
    (hfmt : self.m_format.fourcc ∈ m_adjustFormats) (hm vm : Bool) :
    (self.mirror L hm vm).m_format = self.m_format := by
  obtain ⟨e1, e2, e3⟩ := mirror_adjustable L self hfmt
  cases hm <;> cases vm
  · rfl
  · rw [e3]
  · rw [e2]
  · rw [e1]

/-- The pixel of the mirrored frame, for each pair of flags. -/
theorem mirror_pixel (L : Layout) (self : VideoFrame)
    (hfmt : self.m_format.fourcc ∈ m_adjustFormats)
    (hfit : L.PlaneFits self.m_format 0
      (3 * self.m_format.width.toNat) self.m_format.height.toNat)
    (hm vm : Bool) (y x : Nat)
    (hy : (y : Int) < self.m_format.height) (hx : (x : Int) < self.m_format.width)
    (k : Nat) (hk : k < 3) :
    (self.mirror L hm vm).field L y 3 x k =
      self.field L (if vm = true then (self.m_format.height - y - 1).toNat else y) 3
        (if hm = true then (self.m_format.width - x - 1).toNat else x) k := by
  obtain ⟨e1, e2, e3⟩ := mirror_adjustable L self hfmt
  cases hm <;> cases vm
  · rfl
  · rw [e3]
    simp only [if_true, Bool.false_eq_true, if_false]
    have h := write1_loop
      (fun y i => peek self.m_data
        (self.line L 0 (self.m_format.height - y - 1).toNat + i))
      (L.offset self.m_format 0) (L.bypl self.m_format 0) self.m_format.height
      ((self.m_format.width.toNat * RGB24.sizeof : Nat) : Int)
      (VideoFrame.ofFormat L self.m_format).m_data
      (by rw [Int.toNat_ofNat]; have := hfit.1; simp only [RGB24.sizeof]; omega)
      (by rw [length_ofFormat]; exact hfit.2) y (x * 3 + k) hy
      (by simp only [RGB24.sizeof]; omega)
    simp only [VideoFrame.field, getField, VideoFrame.line, ← Nat.add_assoc] at h ⊢
    exact h
  · rw [e2]
    simp only [if_true, Bool.false_eq_true, if_false]
    have h := write3_loop RGB24.b RGB24.g RGB24.r
      (fun y x => self.field L y 3 (self.m_format.width - x - 1).toNat RGB24.b)
      (fun y x => self.field L y 3 (self.m_format.width - x - 1).toNat RGB24.g)
      (fun y x => self.field L y 3 (self.m_format.width - x - 1).toNat RGB24.r)
      (by decide) _ _ _ _ _ hfit.1 (by rw [length_ofFormat]; exact hfit.2) y x hy hx
    simp only [Prod.mk.injEq] at h
    interval_cases k
    · exact h.1
    · exact h.2.1
    · exact h.2.2
  · rw [e1]
    simp only [if_true]
    have h := write3_loop RGB24.b RGB24.g RGB24.r
      (fun y x => self.field L (self.m_format.height - y - 1).toNat 3
        (self.m_format.width - x - 1).toNat RGB24.b)
      (fun y x => self.field L (self.m_format.height - y - 1).toNat 3
        (self.m_format.width - x - 1).toNat RGB24.g)
      (fun y x => self.field L (self.m_format.height - y - 1).toNat 3
        (self.m_format.width - x - 1).toNat RGB24.r)
      (by decide) _ _ _ _ _ hfit.1 (by rw [length_ofFormat]; exact hfit.2) y x hy hx
    simp only [Prod.mk.injEq] at h
    interval_cases k
    · exact h.1
    · exact h.2.1
    · exact h.2.2

/-- C15: for a BGR24 or RGB24 frame of size `W x H`, pixel `(x, y)` of `mirror(h, v)` is the
source pixel `(h ? W - 1 - x : x, v ? H - 1 - y : y)`; hence the pixel of the one-pass
`mirror(true, true)` is the pixel of `mirror(true, false)` followed by `mirror(false, true)`,
and of `mirror(false, true)` followed by `mirror(true, false)`. -/
theorem mirror_spec (L : Layout) (self : VideoFrame) (y x : Nat)
    (hfmt : self.m_format.fourcc = PixelFormatBGR24 ∨ self.m_format.fourcc = PixelFormatRGB24)
    (hy : (y : Int) < self.m_format.height) (hx : (x : Int) < self.m_format.width)
    (hfit : L.PlaneFits self.m_format 0
      (3 * self.m_format.width.toNat) self.m_format.height.toNat) :
    (∀ (hm vm : Bool) (k : Nat), k < 3 →
      (self.mirror L hm vm).field L y 3 x k =
        self.field L (if vm = true then (self.m_format.height - y - 1).toNat else y) 3
          (if hm = true then (self.m_format.width - x - 1).toNat else x) k) ∧
    (∀ k : Nat, k < 3 →
      (self.mirror L true true).field L y 3 x k
          = ((self.mirror L true false).mirror L false true).field L y 3 x k ∧
        (self.mirror L true true).field L y 3 x k
          = ((self.mirror L false true).mirror L true false).field L y 3 x k) := by
  have ha := adjustable_of _ hfmt
  refine ⟨fun hm vm k hk => mirror_pixel L self ha hfit hm vm y x hy hx k hk, ?_⟩
  intro k hk
  have f1 := mirror_format L self ha true false
  have f2 := mirror_format L self ha false true
  have hyy : (((self.m_format.height - y - 1).toNat : Nat) : Int) < self.m_format.height := by
    omega
  have hxx : (((self.m_format.width - x - 1).toNat : Nat) : Int) < self.m_format.width := by
    omega
  have a := mirror_pixel L self ha hfit true true y x hy hx k hk
  have b1 := mirror_pixel L (self.mirror L true false) (by rw [f1]; exact ha)
    (by rw [f1]; exact hfit) false true y x (by rw [f1]; exact hy) (by rw [f1]; exact hx) k hk
  have b2 := mirror_pixel L self ha hfit true false (self.m_format.height - y - 1).toNat x
    hyy hx k hk
  have c1 := mirror_pixel L (self.mirror L false true) (by rw [f2]; exact ha)
    (by rw [f2]; exact hfit) true false y x (by rw [f2]; exact hy) (by rw [f2]; exact hx) k hk
  have c2 := mirror_pixel L self ha hfit false true y (self.m_format.width - x - 1).toNat
    hy hxx k hk
  simp only [if_true, Bool.false_eq_true, if_false, f1, f2] at a b1 b2 c1 c2
  exact ⟨by rw [a, b1, b2], by rw [a, c1, c2]⟩

/-- Witness for C15: pixel (1, 0) of the 2x2 BGR24 sample frame. -/
theorem mirror_spec_witness :
    (0 : Int) < (sampleFrame PixelFormatBGR24).m_format.height ∧
      (∀ (hm vm : Bool) (k : Nat), k < 3 →
        ((sampleFrame PixelFormatBGR24).mirror specLayout hm vm).field specLayout 0 3 1 k =
          (sampleFrame PixelFormatBGR24).field specLayout
            (if vm = true then ((sampleFrame PixelFormatBGR24).m_format.height - (0 : Nat) - 1).toNat
              else 0) 3
            (if hm = true then ((sampleFrame PixelFormatBGR24).m_format.width - (1 : Nat) - 1).toNat
              else 1) k) :=
  ⟨by decide,
    (mirror_spec specLayout (sampleFrame PixelFormatBGR24) 0 1 (Or.inl rfl) (by decide)
      (by decide) (by unfold Layout.PlaneFits; decide)).1⟩

/-- C14: for a BGR24 or RGB24 frame and every pair of flags, applying `mirror(h, v)` twice
gives a frame with the format of the original in which every pixel inside the frame has its
original three bytes; in particular for `mirror(true, true)`. -/
theorem mirror_twice (L : Layout) (self : VideoFrame) (y x : Nat)
    (hfmt : self.m_format.fourcc = PixelFormatBGR24 ∨ self.m_format.fourcc = PixelFormatRGB24)
    (hy : (y : Int) < self.m_format.height) (hx : (x : Int) < self.m_format.width)
    (hfit : L.PlaneFits self.m_format 0
      (3 * self.m_format.width.toNat) self.m_format.height.toNat) :
    (∀ hm vm : Bool,
      ((self.mirror L hm vm).mirror L hm vm).m_format = self.m_format ∧
      ∀ k : Nat, k < 3 →
        ((self.mirror L hm vm).mirror L hm vm).field L y 3 x k = self.field L y 3 x k) ∧
    (∀ k : Nat, k < 3 →
      ((self.mirror L true true).mirror L true true).field L y 3 x k
        = self.field L y 3 x k) := by
  have ha := adjustable_of _ hfmt
  have key : ∀ hm vm : Bool,
      ((self.mirror L hm vm).mirror L hm vm).m_format = self.m_format ∧
      ∀ k : Nat, k < 3 →
        ((self.mirror L hm vm).mirror L hm vm).field L y 3 x k = self.field L y 3 x k := by
    intro hm vm
    have f1 := mirror_format L self ha hm vm
    have f2 := mirror_format L (self.mirror L hm vm) (by rw [f1]; exact ha) hm vm
    refine ⟨by rw [f2, f1], ?_⟩
    intro k hk
    have a := mirror_pixel L (self.mirror L hm vm) (by rw [f1]; exact ha)
      (by rw [f1]; exact hfit) hm vm y x (by rw [f1]; exact hy) (by rw [f1]; exact hx) k hk
    have b := mirror_pixel L self ha hfit hm vm
      (if vm = true then (self.m_format.height - y - 1).toNat else y)
      (if hm = true then (self.m_format.width - x - 1).toNat else x)
      (by split_ifs <;> omega) (by split_ifs <;> omega) k hk
    rw [f1] at a
    rw [a, b]
    have ey : (if vm = true then
        (self.m_format.height
          - ((if vm = true then (self.m_format.height - y - 1).toNat else y : Nat) : Int)
          - 1).toNat
        else (if vm = true then (self.m_format.height - y - 1).toNat else y)) = y := by
      split_ifs <;> omega
    have ex : (if hm = true then
        (self.m_format.width
          - ((if hm = true then (self.m_format.width - x - 1).toNat else x : Nat) : Int)
          - 1).toNat
        else (if hm = true then (self.m_format.width - x - 1).toNat else x)) = x := by
      split_ifs <;> omega
    rw [ey, ex]
  exact ⟨key, (key true true).2⟩

/-- Witness for C14: pixel (1, 0) of the 2x2 BGR24 sample frame. -/
theorem mirror_twice_witness :
    (0 : Int) < (sampleFrame PixelFormatBGR24).m_format.height ∧
      (∀ k : Nat, k < 3 →
        (((sampleFrame PixelFormatBGR24).mirror specLayout true true).mirror
          specLayout true true).field specLayout 0 3 1 k
          = (sampleFrame PixelFormatBGR24).field specLayout 0 3 1 k) :=
  ⟨by decide,
    (mirror_twice specLayout (sampleFrame PixelFormatBGR24) 0 1 (Or.inl rfl) (by decide)
      (by decide) (by unfold Layout.PlaneFits; decide)).2⟩

/-! ## Hue rotation -/

theorem tdiv_of_nonpos (a b : Int) (ha : a ≤ 0) (hb : 0 ≤ b) : a.tdiv b = -((-a) / b) := by
  have e : a.tdiv b = (-(-a)).tdiv b := by rw [Int.neg_neg]
  rw [e, Int.neg_tdiv, Int.tdiv_eq_ediv (by omega) hb]

/-- `mod(value, 360)` is the non-negative remainder of `value` modulo 360. -/
theorem mod_360 (v : Int) : mod v 360 = v % 360 := by
  unfold mod
  by_cases h : 0 ≤ v
  · rw [Int.tmod_eq_emod h (by decide), Int.tmod_eq_emod (by omega) (by decide)]
    omega
  · have e : v.tmod 360 = -((-v) % 360) := by
      rw [Int.tmod_def, tdiv_of_nonpos v 360 (by omega) (by decide)]
      omega
    rw [e, Int.tmod_eq_emod (by omega) (by decide)]
    omega

theorem mod_360_shift (a hue k : Int) : mod (a + (hue + 360 * k)) 360 = mod (a + hue) 360 := by
  rw [mod_360, mod_360]
  omega

/-! ## Table lookups -/

theorem forLoop_length {α : Type} (n : Int) (c : Nat) (body : Nat → List α → List α)
    (t : List α) (h : ∀ i t, (body i t).length = t.length + c) :
    (forLoop n t body).length = t.length + n.toNat * c := by
  unfold forLoop
  generalize n.toNat = m
  induction m with
  | zero => simp
  | succ m ih =>
    rw [List.range_succ, List.foldl_append, List.foldl_cons, List.foldl_nil, h, ih]
    ring

theorem length_initGammaTable (F : FloatExprs) : (initGammaTable F).length = 511 * 256 := by
  unfold initGammaTable
  rw [forLoop_length _ 256 _ _ (fun j t => forLoop_length _ 1 _ _ (fun i t => by simp)),
    forLoop_length _ 1 _ _ (fun i t => by simp)]
  rfl

theorem length_initContrastTable (F : FloatExprs) :
    (initContrastTable F).length = 511 * 256 := by
  unfold initContrastTable
  rw [forLoop_length _ 256 _ _ (fun j t => forLoop_length _ 1 _ _ (fun i t => by simp))]
  rfl

theorem bound_idem (v : Int) : bound (-255) (bound (-255) v 255) 255 = bound (-255) v 255 := by
  unfold bound
  split_ifs <;> omega

theorem bound_eq_zero (v : Int) : bound (-255) v 255 = 0 ↔ v = 0 := by
  unfold bound
  constructor
  · intro h
    split_ifs at h <;> omega
  · intro h
    subst h
    decide

theorem tableOffset_eq (value : Int) :
    toSizeT (bound (-255) value 255 + 255) <<< 8
      = 2 ^ 8 * (bound (-255) value 255 + 255).toNat := by
  have h : -255 ≤ bound (-255) value 255 ∧ bound (-255) value 255 ≤ 255 := by
    unfold bound
    split_ifs <;> omega
  have e : toSizeT (bound (-255) value 255 + 255) = (bound (-255) value 255 + 255).toNat := by
    unfold toSizeT
    omega
  rw [e, Nat.shiftLeft_eq, Nat.mul_comm]

/-! ## `scaled` -/

/-- As `cellLoop_obs`, with the bound on the buffer given cell by cell. -/
theorem cellLoop_obs_of_cells {β : Type} (n off B : Nat) (H W : Int)
    (body : Nat → Nat → VideoData → VideoData) (obs : VideoData → β) (v : β) (y0 x0 : Nat)
    (hy0 : (y0 : Int) < H) (hx0 : (x0 : Int) < W) (hB : n * W.toNat ≤ B)
    (hlen : ∀ y x d, (body y x d).length = d.length)
    (hother : ∀ y x d q, (q < off + y * B + x * n ∨ off + y * B + x * n + n ≤ q) →
      peek (body y x d) q = peek d q)
    (hobs : ∀ d d', (∀ k, k < n →
      peek d (off + y0 * B + x0 * n + k) = peek d' (off + y0 * B + x0 * n + k)) → obs d = obs d')
    (hset : ∀ d, off + y0 * B + x0 * n + n ≤ d.length → obs (body y0 x0 d) = v)
    (d0 : VideoData) (hS : off + y0 * B + x0 * n + n ≤ d0.length) :
    obs (forLoop H d0 fun y d => forLoop W d (body y)) = v := by
  have hWn : n * W.toNat = W.toNat * n := Nat.mul_comm _ _
  refine forLoop2_last (fun d => d.length = d0.length) (fun d => obs d = v) H W body y0 x0
    hy0 hx0 ?_ ?_ ?_ d0 rfl
  · intro y x s _ _ hs
    rw [hlen, hs]
  · intro s hs
    apply hset
    omega
  · intro y x s hy hx hlt _ hq
    rw [← hq]
    apply hobs
    intro k hk
    apply hother
    have h2 := row_le n x0 W.toNat (by omega)
    have h3 := row_le n x W.toNat (by omega)
    by_cases hyy : y = y0
    · subst hyy
      have hxx : x ≠ x0 := by omega
      have h4 := row_sep n x x0 hxx
      omega
    · have h4 := row_sep B y y0 hyy
      omega

/-- A nested loop whose body at `(y, x)` only writes inside the `n`-byte cell of column `x`
in row `y` leaves every byte outside all the cells as it was. -/
theorem cellLoop_frame (n off B : Nat) (H W : Int)
    (body : Nat → Nat → VideoData → VideoData)
    (hother : ∀ y x d q, (q < off + y * B + x * n ∨ off + y * B + x * n + n ≤ q) →
      peek (body y x d) q = peek d q)
    (d0 : VideoData) (q : Nat)
    (hq : ∀ y x : Nat, (y : Int) < H → (x : Int) < W →
      (q < off + y * B + x * n ∨ off + y * B + x * n + n ≤ q)) :
    peek (forLoop H d0 fun y d => forLoop W d (body y)) q = peek d0 q :=
  forLoop2_inv (fun d => peek d q = peek d0 q) H W body d0 rfl
    fun y x s hy hx hs => by
      show peek (body y x s) q = peek d0 q
      rw [hother y x s q (hq y x hy hx)]
      exact hs

theorem length_setPixel (d : VideoData) (line x : Nat) (v : RGB24Value) :
    (setPixel d line x v).length = d.length := by
  simp only [setPixel, setField, length_poke]

theorem peek_setPixel_other (d : VideoData) (line x : Nat) (v : RGB24Value) (q : Nat)
    (hq : q < line + x * 3 ∨ line + x * 3 + 3 ≤ q) :
    peek (setPixel d line x v) q = peek d q := by
  simp only [setPixel, setField, RGB24.sizeof, RGB24.b, RGB24.g, RGB24.r]
  rw [peek_poke_ne _ _ _ _ (by omega), peek_poke_ne _ _ _ _ (by omega),
    peek_poke_ne _ _ _ _ (by omega)]

theorem getPixel_setPixel (d : VideoData) (line x : Nat) (v : RGB24Value)
    (h : line + x * 3 + 3 ≤ d.length) : getPixel (setPixel d line x v) line x = v := by
  simp only [getPixel, setPixel, getField, setField, RGB24.sizeof, RGB24.b, RGB24.g, RGB24.r,
    peek_poke, length_poke]
  have e1 : ∀ a b : Nat, a ≠ b → ¬ (line + x * 3 + a = line + x * 3 + b ∧
      line + x * 3 + b < d.length) := fun a b hab hh => hab (by omega)
  have e2 : ∀ a : Nat, a < 3 → line + x * 3 + a < d.length := fun a ha => by omega
  simp only [if_neg (e1 1 0 (by decide)), if_neg (e1 2 0 (by decide)),
    if_neg (e1 2 1 (by decide)), if_neg (e1 0 1 (by decide)), if_neg (e1 0 2 (by decide)),
    if_neg (e1 1 2 (by decide)), true_and, if_pos (e2 0 (by decide)), if_pos (e2 1 (by decide)),
    if_pos (e2 2 (by decide))]

theorem getPixel_congr (d d' : VideoData) (line x : Nat)
    (h : ∀ k, k < 3 → peek d (line + x * 3 + k) = peek d' (line + x * 3 + k)) :
    getPixel d line x = getPixel d' line x := by
  simp only [getPixel, getField, RGB24.sizeof, RGB24.b, RGB24.g, RGB24.r]
  rw [h 0 (by decide), h 1 (by decide), h 2 (by decide)]

theorem peek_ofFormat (L : Layout) (format : VideoFormat) (q : Nat) :
    peek (VideoFrame.ofFormat L format).m_data q = 0 := by
  unfold VideoFrame.ofFormat peek
  by_cases h : L.size format > 0
  · simp only [h, if_true, List.getD_eq_getElem?_getD, List.getElem?_replicate]
    split_ifs <;> rfl
  · simp only [h, if_false]
    rfl

/-- The loops of `scaled` write the rectangle of pixels `[xMin, xMin + W) x [yMin, yMin + H)`
of the buffer: a pixel inside it holds the value written for it, and every byte of the rows
outside these pixels is as it was. -/
theorem rectLoop (off B : Nat) (xMin yMin W H : Int) (v : Nat → Nat → RGB24Value)
    (d0 : VideoData) (hx0 : 0 ≤ xMin) (hy0 : 0 ≤ yMin)
    (hB : 3 * (xMin + W).toNat ≤ B) (hS : off + (yMin + H).toNat * B ≤ d0.length) :
    (∀ ky kx : Nat, (ky : Int) < H → (kx : Int) < W →
      getPixel (forLoop H d0 fun ky d => forLoop W d fun kx d =>
          setPixel d (off + (yMin + ky).toNat * B) (xMin + kx).toNat (v ky kx))
        (off + (yMin + ky).toNat * B) (xMin + kx).toNat = v ky kx) ∧
    (∀ y x k : Nat, k < 3 → x * 3 + 3 ≤ B →
      ¬ (yMin ≤ y ∧ (y : Int) < yMin + H ∧ xMin ≤ x ∧ (x : Int) < xMin + W) →
      peek (forLoop H d0 fun ky d => forLoop W d fun kx d =>
          setPixel d (off + (yMin + ky).toNat * B) (xMin + kx).toNat (v ky kx))
        (off + y * B + x * 3 + k) = peek d0 (off + y * B + x * 3 + k)) := by
  have hpos : ∀ ky kx : Nat, off + (yMin + ky).toNat * B + (xMin + kx).toNat * 3
      = (off + yMin.toNat * B + xMin.toNat * 3) + ky * B + kx * 3 := by
    intro ky kx
    have e1 : (yMin + ky).toNat = yMin.toNat + ky := by omega
    have e2 : (xMin + kx).toNat = xMin.toNat + kx := by omega
    rw [e1, e2]
    ring
  have hother : ∀ (y x : Nat) (d : VideoData) (q : Nat),
      (q < (off + yMin.toNat * B + xMin.toNat * 3) + y * B + x * 3
        ∨ (off + yMin.toNat * B + xMin.toNat * 3) + y * B + x * 3 + 3 ≤ q) →
      peek (setPixel d (off + (yMin + y).toNat * B) (xMin + x).toNat (v y x)) q = peek d q := by
    intro y x d q hq
    apply peek_setPixel_other
    rw [hpos]
    exact hq
  constructor
  · intro ky kx hky hkx
    have hrow := row_le B (yMin.toNat + ky) (yMin + H).toNat (by omega)
    have hcol := row_le 3 (xMin.toNat + kx) (xMin + W).toNat (by omega)
    have hin : off + (yMin + ky).toNat * B + (xMin + kx).toNat * 3 + 3 ≤ d0.length := by
      have e1 : (yMin + ky).toNat = yMin.toNat + ky := by omega
      have e2 : (xMin + kx).toNat = xMin.toNat + kx := by omega
      rw [e1, e2]
      omega
    refine cellLoop_obs_of_cells 3 (off + yMin.toNat * B + xMin.toNat * 3) B H W
      (fun ky kx d => setPixel d (off + (yMin + ky).toNat * B) (xMin + kx).toNat (v ky kx))
      (fun d => getPixel d (off + (yMin + ky).toNat * B) (xMin + kx).toNat) _ ky kx hky hkx
      (by omega) ?_ hother ?_ ?_ d0 (by rw [← hpos]; exact hin)
    · intro y x d
      exact length_setPixel _ _ _ _
    · intro d d' h
      apply getPixel_congr
      intro k hk
      rw [hpos]
      exact h k hk
    · intro d hd
      apply getPixel_setPixel
      rw [hpos]
      exact hd
  · intro y x k hk hxB hout
    refine cellLoop_frame 3 (off + yMin.toNat * B + xMin.toNat * 3) B H W
      (fun ky kx d => setPixel d (off + (yMin + ky).toNat * B) (xMin + kx).toNat (v ky kx))
      hother d0 _ ?_
    intro ky kx hky hkx
    have hcol := row_le 3 (xMin.toNat + kx) (xMin + W).toNat (by omega)
    by_cases hyy : y = yMin.toNat + ky
    · have hxx : x ≠ xMin.toNat + kx := by omega
      have h4 := row_sep 3 x (xMin.toNat + kx) hxx
      subst hyy
      have e : (yMin.toNat + ky) * B = yMin.toNat * B + ky * B := by ring
      have e3 : (xMin.toNat + kx) * 3 = xMin.toNat * 3 + kx * 3 := by ring
      omega
    · have h4 := row_sep B y (yMin.toNat + ky) hyy
      have e : (yMin.toNat + ky) * B = yMin.toNat * B + ky * B := by ring
      have e3 : (xMin.toNat + kx) * 3 = xMin.toNat * 3 + kx * 3 := by ring
      omega

/-- The result of `scaled` in `ScalingFast` mode for an adjustable encoding and a size other
than the frame's own, over the geometry `g` computed by the method. -/
theorem scaled_fast (L : Layout) (self : VideoFrame) (width height : Int)
    (aspectRatio : AspectRatio) (g : ScaledGeometry)
    (hg : g = scaledGeometry self.m_format.width self.m_format.height width height
      Scaling.ScalingFast aspectRatio)
    (hne : ¬ (self.m_format.width = width ∧ self.m_format.height = height))
    (hfmt : self.m_format.fourcc ∈ m_adjustFormats) :
    self.scaled L width height Scaling.ScalingFast aspectRatio =
      VideoFrame.mk { self.m_format with width := width, height := height }
        (forLoop (g.yDstMax - g.yDstMin)
          (VideoFrame.ofFormat L { self.m_format with width := width, height := height }).m_data
          fun ky data =>
            forLoop (g.xDstMax - g.xDstMin) data fun kx data =>
              setPixel data
                (L.offset { self.m_format with width := width, height := height } 0
                  + (g.yDstMin + ky).toNat
                    * L.bypl { self.m_format with width := width, height := height } 0)
                (g.xDstMin + kx).toNat
                (getPixel self.m_data
                  (self.line L 0 ((g.yNum * (g.yDstMin + ky - g.yDstMin) + g.ys).tdiv g.yDen).toNat)
                  ((g.xNum * (g.xDstMin + kx - g.xDstMin) + g.xs).tdiv g.xDen).toNat)) := by
  subst hg
  unfold VideoFrame.scaled
  rw [if_neg hne, if_neg (not_not.2 hfmt)]
  rfl

theorem getPixel_field (d d' : VideoData) (line line' x x' : Nat)
    (h : getPixel d line x = getPixel d' line' x') (k : Nat) (hk : k < 3) :
    getField d line 3 x k = getField d' line' 3 x' k := by
  simp only [getPixel, RGB24Value.mk.injEq, RGB24.sizeof, RGB24.b, RGB24.g, RGB24.r] at h
  interval_cases k
  · exact h.1
  · exact h.2.1
  · exact h.2.2

/-- The pixels of the frame returned by `scaled` in `ScalingFast` mode, when the destination
rectangle of the geometry lies inside the destination frame: a pixel `(x, y)` of the rectangle
is the source pixel `((xNum (x - xDstMin) + xs) / xDen, (yNum (y - yDstMin) + ys) / yDen)`,
and every other pixel of the frame has the three zero bytes of the new buffer. -/
theorem scaled_fast_pixels (L : Layout) (self : VideoFrame) (width height : Int)
    (aspectRatio : AspectRatio) (g : ScaledGeometry)
    (hg : g = scaledGeometry self.m_format.width self.m_format.height width height
      Scaling.ScalingFast aspectRatio)
    (hne : ¬ (self.m_format.width = width ∧ self.m_format.height = height))
    (hfmt : self.m_format.fourcc ∈ m_adjustFormats)
    (hx0 : 0 ≤ g.xDstMin) (hx1 : g.xDstMax ≤ width) (hy0 : 0 ≤ g.yDstMin)
    (hy1 : g.yDstMax ≤ height)
    (hfit : L.PlaneFits { self.m_format with width := width, height := height } 0
      (3 * width.toNat) height.toNat)
    (y x k : Nat) (hk : k < 3) (hx : (x : Int) < width) :
    (g.yDstMin ≤ y ∧ (y : Int) < g.yDstMax ∧ g.xDstMin ≤ x ∧ (x : Int) < g.xDstMax →
      (self.scaled L width height Scaling.ScalingFast aspectRatio).field L y 3 x k
        = self.field L ((g.yNum * (y - g.yDstMin) + g.ys).tdiv g.yDen).toNat 3
            ((g.xNum * (x - g.xDstMin) + g.xs).tdiv g.xDen).toNat k) ∧
    (¬ (g.yDstMin ≤ y ∧ (y : Int) < g.yDstMax ∧ g.xDstMin ≤ x ∧ (x : Int) < g.xDstMax) →
      (self.scaled L width height Scaling.ScalingFast aspectRatio).field L y 3 x k = 0) := by
  rw [scaled_fast L self width height aspectRatio g hg hne hfmt]
  have hB : 3 * (g.xDstMin + (g.xDstMax - g.xDstMin)).toNat
      ≤ L.bypl { self.m_format with width := width, height := height } 0 := by
    have := hfit.1
    omega
  have hS : L.offset { self.m_format with width := width, height := height } 0
      + (g.yDstMin + (g.yDstMax - g.yDstMin)).toNat
        * L.bypl { self.m_format with width := width, height := height } 0
      ≤ (VideoFrame.ofFormat L
          { self.m_format with width := width, height := height }).m_data.length := by
    rw [length_ofFormat]
    have h2 := hfit.2
    by_cases hpos : 0 ≤ g.yDstMax
    · have h3 := Nat.mul_le_mul_right
        (L.bypl { self.m_format with width := width, height := height } 0)
        (show (g.yDstMin + (g.yDstMax - g.yDstMin)).toNat ≤ height.toNat by omega)
      omega
    · have e : (g.yDstMin + (g.yDstMax - g.yDstMin)).toNat = 0 := by omega
      rw [e]
      have h3 := Nat.zero_le (height.toNat
        * L.bypl { self.m_format with width := width, height := height } 0)
      omega
  obtain ⟨hin, hout⟩ := rectLoop
    (L.offset { self.m_format with width := width, height := height } 0)
    (L.bypl { self.m_format with width := width, height := height } 0)
    g.xDstMin g.yDstMin (g.xDstMax - g.xDstMin) (g.yDstMax - g.yDstMin)
    (fun ky kx => getPixel self.m_data
      (self.line L 0 ((g.yNum * (g.yDstMin + ky - g.yDstMin) + g.ys).tdiv g.yDen).toNat)
      ((g.xNum * (g.xDstMin + kx - g.xDstMin) + g.xs).tdiv g.xDen).toNat)
    (VideoFrame.ofFormat L { self.m_format with width := width, height := height }).m_data
    hx0 hy0 hB hS
  constructor
  · intro hr
    have h := hin (y - g.yDstMin).toNat (x - g.xDstMin).toNat (by omega) (by omega)
    have ey : (g.yDstMin + ((y - g.yDstMin).toNat : Int)) = y := by omega
    have ex : (g.xDstMin + ((x - g.xDstMin).toNat : Int)) = x := by omega
    rw [ey, ex, Int.toNat_ofNat, Int.toNat_ofNat] at h
    exact getPixel_field _ _ _ _ _ _ h k hk
  · intro hr
    have h := hout y x k hk (by have := hfit.1; omega) (by omega)
    rw [peek_ofFormat] at h
    exact h

theorem scaledGeometry_ignore (srcWidth srcHeight width height : Int) (mode : Scaling) :
    scaledGeometry srcWidth srcHeight width height mode AspectRatio.AspectRatioIgnore
      = { xDstMin := 0, xDstMax := width, yDstMin := 0, yDstMax := height,
          xNum := srcWidth - 1, xDen := width - 1, xs := 0,
          yNum := srcHeight - 1, yDen := height - 1, ys := 0 } := by
  simp [scaledGeometry]

theorem scale_coord (n d c : Int) (hn : 0 ≤ n) (hd : 1 ≤ d) (hc0 : 0 ≤ c) (hc : c ≤ d) :
    (n * (c - 0) + 0).tdiv d = n * c / d ∧ 0 ≤ n * c / d ∧ n * c / d ≤ n := by
  have hnc : 0 ≤ n * c := Int.mul_nonneg hn hc0
  refine ⟨?_, Int.ediv_nonneg hnc (by omega), ?_⟩
  · rw [Int.sub_zero, Int.add_zero, Int.tdiv_eq_ediv hnc (by omega)]
  · exact Int.ediv_le_of_le_mul (by omega) (Int.mul_le_mul_of_nonneg_left hc hn)

/-- The `ScalingFast` loops under `AspectRatioIgnore` over `Int`, where no product overflows:
for a BGR24 or RGB24 frame of size `W x H` with `W, H >= 1` and a target size `w x h` with
`w, h >= 2` other than `W x H`, the frame has the source encoding and size `w x h`, its pixel
`(x, y)` is the source pixel `(floor((W-1) x / (w-1)), floor((H-1) y / (h-1)))`, these
coordinates lie in `[0, W-1]` and `[0, H-1]`, and the four corners map to the four
corners. -/
theorem scaled_fast_ignore (L : Layout) (self : VideoFrame) (width height : Int) (y x : Nat)
    (hfmt : self.m_format.fourcc = PixelFormatBGR24 ∨ self.m_format.fourcc = PixelFormatRGB24)
    (hW : 1 ≤ self.m_format.width) (hH : 1 ≤ self.m_format.height)
    (hw : 2 ≤ width) (hh : 2 ≤ height)
    (hne : ¬ (self.m_format.width = width ∧ self.m_format.height = height))
    (hy : (y : Int) < height) (hx : (x : Int) < width)
    (hfit : L.PlaneFits { self.m_format with width := width, height := height } 0
      (3 * width.toNat) height.toNat) :
    (self.scaled L width height Scaling.ScalingFast AspectRatio.AspectRatioIgnore).m_format
        = { self.m_format with width := width, height := height } ∧
      (∀ k : Nat, k < 3 →
        (self.scaled L width height Scaling.ScalingFast AspectRatio.AspectRatioIgnore).field
            L y 3 x k
          = self.field L ((self.m_format.height - 1) * y / (height - 1)).toNat 3
              ((self.m_format.width - 1) * x / (width - 1)).toNat k) ∧
      (0 ≤ (self.m_format.width - 1) * x / (width - 1) ∧
        (self.m_format.width - 1) * x / (width - 1) ≤ self.m_format.width - 1 ∧
        0 ≤ (self.m_format.height - 1) * y / (height - 1) ∧
        (self.m_format.height - 1) * y / (height - 1) ≤ self.m_format.height - 1) ∧
      ((x = 0 → (self.m_format.width - 1) * x / (width - 1) = 0) ∧
        ((x : Int) = width - 1 →
          (self.m_format.width - 1) * x / (width - 1) = self.m_format.width - 1) ∧
        (y = 0 → (self.m_format.height - 1) * y / (height - 1) = 0) ∧
        ((y : Int) = height - 1 →
          (self.m_format.height - 1) * y / (height - 1) = self.m_format.height - 1)) := by
  have ha := adjustable_of _ hfmt
  have hg := scaledGeometry_ignore self.m_format.width self.m_format.height width height
    Scaling.ScalingFast
  have cx := scale_coord (self.m_format.width - 1) (width - 1) x (by omega) (by omega)
    (by omega) (by omega)
  have cy := scale_coord (self.m_format.height - 1) (height - 1) y (by omega) (by omega)
    (by omega) (by omega)
  refine ⟨?_, ?_, ⟨cx.2.1, cx.2.2, cy.2.1, cy.2.2⟩, ?_, ?_, ?_, ?_⟩
  · rw [scaled_fast L self width height _ _ hg.symm hne ha]
  · intro k hk
    have h := (scaled_fast_pixels L self width height AspectRatio.AspectRatioIgnore _ hg.symm
      hne ha (le_refl _) (le_refl _) (le_refl _) (le_refl _) hfit y x k hk hx).1
      ⟨Int.ofNat_nonneg y, hy, Int.ofNat_nonneg x, hx⟩
    rw [h]
    show self.field L (((self.m_format.height - 1) * ((y : Int) - 0) + 0).tdiv
      (height - 1)).toNat 3 (((self.m_format.width - 1) * ((x : Int) - 0) + 0).tdiv
      (width - 1)).toNat k = _
    rw [cx.1, cy.1]
  · intro h0
    subst h0
    simp
  · intro h1
    rw [h1]
    exact Int.mul_ediv_cancel _ (by omega)
  · intro h0
    subst h0
    simp
  · intro h1
    rw [h1]
    exact Int.mul_ediv_cancel _ (by omega)

theorem scaledGeometry_keep_wide (W H w h : Int) (mode : Scaling) (c : w * H > W * h) :
    scaledGeometry W H w h mode AspectRatio.AspectRatioKeep
      = { xDstMin := (w * H - W * h).tdiv (2 * H), xDstMax := (w * H + W * h).tdiv (2 * H),
          yDstMin := 0, yDstMax := h,
          xNum := W - 1,
          xDen := (w * H + W * h).tdiv (2 * H) - (w * H - W * h).tdiv (2 * H) - 1, xs := 0,
          yNum := H - 1, yDen := h - 1, ys := 0 } := by
  simp [scaledGeometry, c]

theorem scaledGeometry_keep_tall (W H w h : Int) (mode : Scaling) (c : w * H < W * h) :
    scaledGeometry W H w h mode AspectRatio.AspectRatioKeep
      = { xDstMin := 0, xDstMax := w,
          yDstMin := (W * h - w * H).tdiv (2 * W), yDstMax := (W * h + w * H).tdiv (2 * W),
          xNum := W - 1, xDen := w - 1, xs := 0,
          yNum := H - 1,
          yDen := (W * h + w * H).tdiv (2 * W) - (W * h - w * H).tdiv (2 * W) - 1, ys := 0 } := by
  have c1 : ¬ (W * h < w * H) := by omega
  simp [scaledGeometry, c, c1]

theorem scaledGeometry_keep_exact (W H w h : Int) (mode : Scaling) (c : w * H = W * h) :
    scaledGeometry W H w h mode AspectRatio.AspectRatioKeep
      = { xDstMin := 0, xDstMax := w, yDstMin := 0, yDstMax := h,
          xNum := W - 1, xDen := w - 1, xs := 0, yNum := H - 1, yDen := h - 1, ys := 0 } := by
  simp [scaledGeometry, c]

theorem scaledGeometry_keep (W H w h : Int) (mode : Scaling)
    (hW : 1 ≤ W) (hH : 1 ≤ H) (hw : 1 ≤ w) (hh : 1 ≤ h) (g : ScaledGeometry)
    (hg : g = scaledGeometry W H w h mode AspectRatio.AspectRatioKeep) :
    (0 ≤ g.xDstMin ∧ g.xDstMax ≤ w ∧ 0 ≤ g.yDstMin ∧ g.yDstMax ≤ h) ∧
      (g.xNum = W - 1 ∧ g.xDen = g.xDstMax - g.xDstMin - 1 ∧ g.xs = 0 ∧
        g.yNum = H - 1 ∧ g.yDen = g.yDstMax - g.yDstMin - 1 ∧ g.ys = 0) := by
  subst hg
  have e1 : w * (2 * H) = 2 * (w * H) := by ring
  have e2 : h * (2 * W) = 2 * (W * h) := by ring
  have p1 : 0 < w * H := Int.mul_pos (by omega) (by omega)
  have p2 : 0 < W * h := Int.mul_pos (by omega) (by omega)
  rcases Int.lt_trichotomy (w * H) (W * h) with c | c | c
  · rw [scaledGeometry_keep_tall W H w h mode c]
    refine ⟨⟨le_refl _, le_refl _, Int.tdiv_nonneg (by omega) (by omega), ?_⟩,
      rfl, by simp, rfl, rfl, rfl, rfl⟩
    show (W * h + w * H).tdiv (2 * W) ≤ h
    rw [Int.tdiv_eq_ediv (by omega) (by omega)]
    exact Int.ediv_le_of_le_mul (by omega) (by omega)
  · rw [scaledGeometry_keep_exact W H w h mode c]
    exact ⟨⟨le_refl _, le_refl _, le_refl _, le_refl _⟩, rfl, by simp, rfl, rfl, by simp, rfl⟩
  · rw [scaledGeometry_keep_wide W H w h mode c]
    refine ⟨⟨Int.tdiv_nonneg (by omega) (by omega), ?_, le_refl _, le_refl _⟩,
      rfl, rfl, rfl, rfl, by simp, rfl⟩
    show (w * H + W * h).tdiv (2 * H) ≤ w
    rw [Int.tdiv_eq_ediv (by omega) (by omega)]
    exact Int.ediv_le_of_le_mul (by omega) (by omega)
/-- The result of `scaled` in `ScalingLinear` mode for an adjustable encoding and a size
other than the frame's own, over the geometry `g` computed by the method. -/
theorem scaled_linear (L : Layout) (self : VideoFrame) (width height : Int)
    (aspectRatio : AspectRatio) (g : ScaledGeometry)
    (hg : g = scaledGeometry self.m_format.width self.m_format.height width height
      Scaling.ScalingLinear aspectRatio)
    (hne : ¬ (self.m_format.width = width ∧ self.m_format.height = height))
    (hfmt : self.m_format.fourcc ∈ m_adjustFormats) :
    self.scaled L width height Scaling.ScalingLinear aspectRatio =
      VideoFrame.mk { self.m_format with width := width, height := height }
        (forLoop (g.yDstMax - g.yDstMin)
          (VideoFrame.ofFormat L { self.m_format with width := width, height := height }).m_data
          fun ky data =>
            forLoop (g.xDstMax - g.xDstMin) data fun kx data =>
              setPixel data
                (L.offset { self.m_format with width := width, height := height } 0
                  + (g.yDstMin + ky).toNat
                    * L.bypl { self.m_format with width := width, height := height } 0)
                (g.xDstMin + kx).toNat
                (self.extrapolateColor L
                  ((if self.m_format.width < width then extrapolateUp else extrapolateDown)
                    (g.xDstMin + kx - g.xDstMin) g.xNum g.xDen g.xs).1
                  ((if self.m_format.width < width then extrapolateUp else extrapolateDown)
                    (g.xDstMin + kx - g.xDstMin) g.xNum g.xDen g.xs).2.1
                  ((if self.m_format.width < width then extrapolateUp else extrapolateDown)
                    (g.xDstMin + kx - g.xDstMin) g.xNum g.xDen g.xs).2.2.1
                  ((if self.m_format.width < width then extrapolateUp else extrapolateDown)
                    (g.xDstMin + kx - g.xDstMin) g.xNum g.xDen g.xs).2.2.2
                  ((if self.m_format.height < height then extrapolateUp else extrapolateDown)
                    (g.yDstMin + ky - g.yDstMin) g.yNum g.yDen g.ys).1
                  ((if self.m_format.height < height then extrapolateUp else extrapolateDown)
                    (g.yDstMin + ky - g.yDstMin) g.yNum g.yDen g.ys).2.1
                  ((if self.m_format.height < height then extrapolateUp else extrapolateDown)
                    (g.yDstMin + ky - g.yDstMin) g.yNum g.yDen g.ys).2.2.1
                  ((if self.m_format.height < height then extrapolateUp else extrapolateDown)
                    (g.yDstMin + ky - g.yDstMin) g.yNum g.yDen g.ys).2.2.2)) := by
  subst hg
  unfold VideoFrame.scaled
  rw [if_neg hne, if_neg (not_not.2 hfmt)]
  rfl

/-- Every pixel of the frame returned by `scaled` in `ScalingLinear` mode outside the
destination rectangle of the geometry has the three zero bytes of the new buffer. -/
theorem scaled_linear_outside (L : Layout) (self : VideoFrame) (width height : Int)
    (aspectRatio : AspectRatio) (g : ScaledGeometry)
    (hg : g = scaledGeometry self.m_format.width self.m_format.height width height
      Scaling.ScalingLinear aspectRatio)
    (hne : ¬ (self.m_format.width = width ∧ self.m_format.height = height))
    (hfmt : self.m_format.fourcc ∈ m_adjustFormats)
    (hx0 : 0 ≤ g.xDstMin) (hx1 : g.xDstMax ≤ width) (hy0 : 0 ≤ g.yDstMin)
    (hy1 : g.yDstMax ≤ height)
    (hfit : L.PlaneFits { self.m_format with width := width, height := height } 0
      (3 * width.toNat) height.toNat)
    (y x k : Nat) (hk : k < 3) (hx : (x : Int) < width)
    (hout : ¬ (g.yDstMin ≤ y ∧ (y : Int) < g.yDstMax ∧ g.xDstMin ≤ x ∧ (x : Int) < g.xDstMax)) :
    (self.scaled L width height Scaling.ScalingLinear aspectRatio).field L y 3 x k = 0 := by
  rw [scaled_linear L self width height aspectRatio g hg hne hfmt]
  have hB : 3 * (g.xDstMin + (g.xDstMax - g.xDstMin)).toNat
      ≤ L.bypl { self.m_format with width := width, height := height } 0 := by
    have := hfit.1
    omega
  have hS : L.offset { self.m_format with width := width, height := height } 0
      + (g.yDstMin + (g.yDstMax - g.yDstMin)).toNat
        * L.bypl { self.m_format with width := width, height := height } 0
      ≤ (VideoFrame.ofFormat L
          { self.m_format with width := width, height := height }).m_data.length := by
    rw [length_ofFormat]
    have h2 := hfit.2
    by_cases hpos : 0 ≤ g.yDstMax
    · have h3 := Nat.mul_le_mul_right
        (L.bypl { self.m_format with width := width, height := height } 0)
        (show (g.yDstMin + (g.yDstMax - g.yDstMin)).toNat ≤ height.toNat by omega)
      omega
    · have e : (g.yDstMin + (g.yDstMax - g.yDstMin)).toNat = 0 := by omega
      rw [e]
      have h3 := Nat.zero_le (height.toNat
        * L.bypl { self.m_format with width := width, height := height } 0)
      omega
  exact Eq.trans ((rectLoop
    (L.offset { self.m_format with width := width, height := height } 0)
    (L.bypl { self.m_format with width := width, height := height } 0)
    g.xDstMin g.yDstMin (g.xDstMax - g.xDstMin) (g.yDstMax - g.yDstMin) _
    (VideoFrame.ofFormat L { self.m_format with width := width, height := height }).m_data
    hx0 hy0 hB hS).2 y x k hk (by have := hfit.1; omega) (by omega)) (peek_ofFormat _ _ _)

theorem scaledGeometry_keep_mode (W H w h : Int) (mode : Scaling) :
    scaledGeometry W H w h mode AspectRatio.AspectRatioKeep
      = scaledGeometry W H w h Scaling.ScalingFast AspectRatio.AspectRatioKeep := by
  simp [scaledGeometry]

/-- The loops of `scaled` under `AspectRatioKeep` over `Int`, where no product overflows and
the division is total: every pixel of the destination frame outside the sub-rectangle
`[xDstMin, xDstMax) x [yDstMin, yDstMax)` has three zero bytes, in `ScalingFast` mode every
pixel `(x, y)` inside it is the source pixel
`((xNum (x - xDstMin)) / xDen, (yNum (y - yDstMin)) / yDen)`, and for a 4x2 source scaled to
4x4 rows 0 and 3 are zero and rows 1 and 2 are source rows 0 and 1. -/
theorem scaled_keep (L : Layout) (self : VideoFrame) (width height : Int) (y x : Nat)
    (g : ScaledGeometry)
    (hg : g = scaledGeometry self.m_format.width self.m_format.height width height
      Scaling.ScalingFast AspectRatio.AspectRatioKeep)
    (hfmt : self.m_format.fourcc = PixelFormatBGR24 ∨ self.m_format.fourcc = PixelFormatRGB24)
    (hW : 1 ≤ self.m_format.width) (hH : 1 ≤ self.m_format.height)
    (hw : 1 ≤ width) (hh : 1 ≤ height)
    (hne : ¬ (self.m_format.width = width ∧ self.m_format.height = height))
    (hy : (y : Int) < height) (hx : (x : Int) < width)
    (hfit : L.PlaneFits { self.m_format with width := width, height := height } 0
      (3 * width.toNat) height.toNat) :
    (∀ (mode : Scaling) (k : Nat), k < 3 →
      ¬ (g.yDstMin ≤ y ∧ (y : Int) < g.yDstMax ∧ g.xDstMin ≤ x ∧ (x : Int) < g.xDstMax) →
      (self.scaled L width height mode AspectRatio.AspectRatioKeep).field L y 3 x k = 0) ∧
    (∀ k : Nat, k < 3 →
      (g.yDstMin ≤ y ∧ (y : Int) < g.yDstMax ∧ g.xDstMin ≤ x ∧ (x : Int) < g.xDstMax) →
      (self.scaled L width height Scaling.ScalingFast AspectRatio.AspectRatioKeep).field
          L y 3 x k
        = self.field L ((g.yNum * (y - g.yDstMin)).tdiv g.yDen).toNat 3
            ((g.xNum * (x - g.xDstMin)).tdiv g.xDen).toNat k) ∧
    (self.m_format.width = 4 ∧ self.m_format.height = 2 ∧ width = 4 ∧ height = 4 →
      (g.xDstMin = 0 ∧ g.xDstMax = 4 ∧ g.yDstMin = 1 ∧ g.yDstMax = 3) ∧
      ∀ k : Nat, k < 3 →
        ((y = 0 ∨ y = 3) →
          (self.scaled L width height Scaling.ScalingFast AspectRatio.AspectRatioKeep).field
            L y 3 x k = 0) ∧
        ((y = 1 ∨ y = 2) →
          (self.scaled L width height Scaling.ScalingFast AspectRatio.AspectRatioKeep).field
            L y 3 x k = self.field L (y - 1) 3 x k)) := by
  have ha := adjustable_of _ hfmt
  obtain ⟨⟨b1, b2, b3, b4⟩, n1, n2, n3, n4, n5, n6⟩ :=
    scaledGeometry_keep self.m_format.width self.m_format.height width height
      Scaling.ScalingFast hW hH hw hh g hg
  have hfast : ∀ k : Nat, k < 3 →
      (g.yDstMin ≤ y ∧ (y : Int) < g.yDstMax ∧ g.xDstMin ≤ x ∧ (x : Int) < g.xDstMax) →
      (self.scaled L width height Scaling.ScalingFast AspectRatio.AspectRatioKeep).field
          L y 3 x k
        = self.field L ((g.yNum * (y - g.yDstMin)).tdiv g.yDen).toNat 3
            ((g.xNum * (x - g.xDstMin)).tdiv g.xDen).toNat k := by
    intro k hk hin
    have h := (scaled_fast_pixels L self width height AspectRatio.AspectRatioKeep g hg hne ha
      b1 b2 b3 b4 hfit y x k hk hx).1 hin
    rw [n3, n6, Int.add_zero, Int.add_zero] at h
    exact h
  have hzero : ∀ (mode : Scaling) (k : Nat), k < 3 →
      ¬ (g.yDstMin ≤ y ∧ (y : Int) < g.yDstMax ∧ g.xDstMin ≤ x ∧ (x : Int) < g.xDstMax) →
      (self.scaled L width height mode AspectRatio.AspectRatioKeep).field L y 3 x k = 0 := by
    intro mode k hk hout
    cases mode
    · exact (scaled_fast_pixels L self width height AspectRatio.AspectRatioKeep g hg hne ha
        b1 b2 b3 b4 hfit y x k hk hx).2 hout
    · exact scaled_linear_outside L self width height AspectRatio.AspectRatioKeep g
        (by rw [hg]; exact (scaledGeometry_keep_mode _ _ _ _ _).symm) hne ha b1 b2 b3 b4 hfit y x k hk hx hout
  refine ⟨hzero, hfast, ?_⟩
  rintro ⟨e1, e2, e3, e4⟩
  have hgv : g =
      { xDstMin := 0, xDstMax := 4, yDstMin := 1, yDstMax := 3,
        xNum := 3, xDen := 3, xs := 0, yNum := 1, yDen := 1, ys := 0 } := by
    rw [hg, e1, e2, e3, e4]
    decide
  have g1 : g.xDstMin = 0 := by rw [hgv]
  have g2 : g.xDstMax = 4 := by rw [hgv]
  have g3 : g.yDstMin = 1 := by rw [hgv]
  have g4 : g.yDstMax = 3 := by rw [hgv]
  have g5 : g.xNum = 3 := by rw [hgv]
  have g6 : g.xDen = 3 := by rw [hgv]
  have g7 : g.yNum = 1 := by rw [hgv]
  have g8 : g.yDen = 1 := by rw [hgv]
  refine ⟨⟨g1, g2, g3, g4⟩, ?_⟩
  intro k hk
  constructor
  · intro hy03
    exact hzero Scaling.ScalingFast k hk (by omega)
  · intro hy12
    rw [hfast k hk (by omega), g3, g1, g5, g6, g7, g8]
    have ey : (((1 : Int) * ((y : Int) - 1)).tdiv 1).toNat = y - 1 := by
      rw [Int.tdiv_one]
      omega
    have ex : (((3 : Int) * ((x : Int) - 0)).tdiv 3).toNat = x := by
      rw [Int.sub_zero, Int.mul_tdiv_cancel_left _ (by decide)]
      omega
    rw [ey, ex]

theorem extrapolateComponent_down (a b : uint8_t) : extrapolateComponent a b 0 1 = a := by
  unfold extrapolateComponent
  rw [Int.zero_mul, Int.zero_add, Int.one_mul, Int.tdiv_one]
  apply Fin.ext
  exact toUInt8_val a.val a.isLt

theorem extrapolateColor_down (L : Layout) (self : VideoFrame) (xMin yMin : Int) :
    self.extrapolateColor L xMin xMin 0 1 yMin yMin 0 1
      = getPixel self.m_data (self.line L 0 yMin.toNat) xMin.toNat := by
  simp only [VideoFrame.extrapolateColor, AkVCam.extrapolateColor, extrapolateComponent_down]

theorem scaledGeometry_ignore_keep_mode (W H w h : Int) (mode : Scaling)
    (aspectRatio : AspectRatio)
    (ha : aspectRatio = AspectRatio.AspectRatioIgnore
      ∨ aspectRatio = AspectRatio.AspectRatioKeep) :
    scaledGeometry W H w h mode aspectRatio
      = scaledGeometry W H w h Scaling.ScalingFast aspectRatio := by
  rcases ha with ha | ha <;> subst ha <;> simp [scaledGeometry]

/-- Over `Int` with the total division: for a target with `w <= W` and `h <= H` under
`AspectRatioIgnore` or `AspectRatioKeep` the loops of `ScalingLinear` compute the frame that
the loops of `ScalingFast` compute, since both extrapolation functions are
`extrapolateDown`. -/
theorem scaled_linear_shrink (L : Layout) (self : VideoFrame) (width height : Int)
    (aspectRatio : AspectRatio)
    (hw : width ≤ self.m_format.width) (hh : height ≤ self.m_format.height)
    (ha : aspectRatio = AspectRatio.AspectRatioIgnore
      ∨ aspectRatio = AspectRatio.AspectRatioKeep) :
    self.scaled L width height Scaling.ScalingLinear aspectRatio
      = self.scaled L width height Scaling.ScalingFast aspectRatio := by
  by_cases hne : self.m_format.width = width ∧ self.m_format.height = height
  · unfold VideoFrame.scaled
    rw [if_pos hne, if_pos hne]
  · by_cases hfmt : self.m_format.fourcc ∈ m_adjustFormats
    · rw [scaled_linear L self width height aspectRatio _
          (scaledGeometry_ignore_keep_mode _ _ _ _ _ _ ha).symm hne hfmt,
        scaled_fast L self width height aspectRatio _ rfl hne hfmt,
        if_neg (by omega), if_neg (by omega)]
      simp only [extrapolateDown, extrapolateColor_down]
    · unfold VideoFrame.scaled
      rw [if_neg hne, if_neg hne, if_pos hfmt, if_pos hfmt]

/-- C22, the code at the failing input: for an 11x3 source and the target 7x2 in `ScalingFast`
mode under `AspectRatioExpanding` the geometry is `xNum = 4`, `xDen = 2`, `xs = -2` over the
full destination rectangle, so the source column `(xNum x + xs) / xDen` is `-1` for the
destination column 0 and `11` for the destination column 6: both lie outside `[0, 11)`. -/
theorem scaled_expanding_crop_at_11x3 :
    scaledGeometry 11 3 7 2 Scaling.ScalingFast AspectRatio.AspectRatioExpanding
        = { xDstMin := 0, xDstMax := 7, yDstMin := 0, yDstMax := 2,
            xNum := 4, xDen := 2, xs := -2, yNum := 2, yDen := 1, ys := 0 } ∧
      ((4 : Int) * (0 - 0) + -2).tdiv 2 = -1 ∧ ((4 : Int) * (6 - 0) + -2).tdiv 2 = 11 := by
  decide

/-- C30, the code at the failing inputs: for a 2x3 source and the target 2x2 under
`AspectRatioKeep` the destination rectangle is one column wide and two rows high and `xDen`
is 0, in both scaling modes, so the division by `xDen` in the loops has a zero divisor; for a
2x2 source and the target 3x4 in `ScalingLinear` mode under `AspectRatioExpanding`, `xNum` is
0, and it is the divisor `num` of `extrapolateUp`, which is the horizontal extrapolation
function since 2 < 3. -/
theorem scaled_zero_divisor :
    scaledGeometry 2 3 2 2 Scaling.ScalingFast AspectRatio.AspectRatioKeep
        = { xDstMin := 0, xDstMax := 1, yDstMin := 0, yDstMax := 2,
            xNum := 1, xDen := 0, xs := 0, yNum := 2, yDen := 1, ys := 0 } ∧
      scaledGeometry 2 3 2 2 Scaling.ScalingLinear AspectRatio.AspectRatioKeep
        = { xDstMin := 0, xDstMax := 1, yDstMin := 0, yDstMax := 2,
            xNum := 1, xDen := 0, xs := 0, yNum := 2, yDen := 1, ys := 0 } ∧
      scaledGeometry 2 2 3 4 Scaling.ScalingLinear AspectRatio.AspectRatioExpanding
        = { xDstMin := 0, xDstMax := 3, yDstMin := 0, yDstMax := 4,
            xNum := 0, xDen := 4, xs := 0, yNum := 1, yDen := 3, ys := 0 } := by
  decide

/-! ## The buffer-size invariant -/

theorem forLoop_len (n : Int) (d : VideoData) (body : Nat → VideoData → VideoData)
    (h : ∀ i d, (body i d).length = d.length) : (forLoop n d body).length = d.length :=
  forLoop_inv (fun s => s.length = d.length) n body d rfl fun i s _ hs => by
    show (body i s).length = d.length
    rw [h, hs]

theorem pairLoop_len (width : Int) (body : Nat → VideoData → VideoData)
    (h : ∀ i d, (body i d).length = d.length) :
    ∀ (fuel x : Nat) (d : VideoData), (pairLoop width body fuel x d).length = d.length := by
  intro fuel
  induction fuel with
  | zero => intro x d; rfl
  | succ fuel ih =>
    intro x d
    unfold pairLoop
    split_ifs
    · rw [ih, h]
    · rfl

theorem length_memcpy (d : VideoData) (dst : Nat) (src : VideoData) (srcOff n : Nat) :
    (memcpy d dst src srcOff n).length = d.length :=
  forLoop_len _ _ _ fun _ _ => length_poke _ _ _

/-- Every conversion routine returns a buffer of the size of its format. -/
theorem routines_length (L : Layout) (src : VideoFrame) :
    ∀ c ∈ m_convert L, (c.convert src).m_data.length = L.size (c.convert src).m_format := by
  unfold m_convert
  simp only [List.forall_mem_cons, List.not_mem_nil, false_implies, implies_true, and_true]
  refine ⟨?_, ?_, ?_, ?_, ?_, ?_, ?_, ?_, ?_, ?_, ?_, ?_, ?_, ?_, ?_, ?_, ?_, ?_, ?_, ?_, ?_, ?_⟩ <;>
  · refine Eq.trans (forLoop_len _ _ _ ?_) (length_ofFormat L _)
    intro y d
    first
    | refine forLoop_len _ _ _ ?_
      intro x d
      simp only [setField, setBits, length_poke, length_pokeBits, apply_ite List.length, ite_self]
    | refine pairLoop_len _ _ ?_ _ _ _
      intro x d
      simp only [setField, setBits, length_poke, length_pokeBits]

theorem length_empty (L : Layout) (hL : L.size {} = 0) :
    (({} : VideoFrame)).m_data.length = L.size ({} : VideoFrame).m_format := by
  show ([] : VideoData).length = L.size {}
  rw [hL]
  rfl

theorem mirror_length (L : Layout) (hL : L.size {} = 0) (self : VideoFrame)
    (hinv : self.m_data.length = L.size self.m_format) (hm vm : Bool) :
    (self.mirror L hm vm).m_data.length = L.size (self.mirror L hm vm).m_format := by
  by_cases hfmt : self.m_format.fourcc ∈ m_adjustFormats
  · obtain ⟨e1, e2, e3⟩ := mirror_adjustable L self hfmt
    cases hm <;> cases vm
    · exact hinv
    · rw [e3]
      refine Eq.trans (forLoop_len _ _ _ ?_) (length_ofFormat L _)
      intro y d
      exact length_memcpy _ _ _ _ _
    · rw [e2]
      refine Eq.trans (forLoop_len _ _ _ ?_) (length_ofFormat L _)
      intro y d
      exact forLoop_len _ _ _ fun _ _ => length_setPixel _ _ _ _
    · rw [e1]
      refine Eq.trans (forLoop_len _ _ _ ?_) (length_ofFormat L _)
      intro y d
      exact forLoop_len _ _ _ fun _ _ => length_setPixel _ _ _ _
  · unfold VideoFrame.mirror
    split_ifs
    all_goals first
      | exact hinv
      | exact length_empty L hL

theorem scaled_length (L : Layout) (hL : L.size {} = 0) (self : VideoFrame)
    (hinv : self.m_data.length = L.size self.m_format) (width height : Int) (mode : Scaling)
    (aspectRatio : AspectRatio) :
    (self.scaled L width height mode aspectRatio).m_data.length
      = L.size (self.scaled L width height mode aspectRatio).m_format := by
  by_cases hne : self.m_format.width = width ∧ self.m_format.height = height
  · unfold VideoFrame.scaled
    rw [if_pos hne]
    exact hinv
  · by_cases hfmt : self.m_format.fourcc ∈ m_adjustFormats
    · cases mode
      · rw [scaled_fast L self width height aspectRatio _ rfl hne hfmt]
        refine Eq.trans (forLoop_len _ _ _ ?_) (length_ofFormat L _)
        intro y d
        exact forLoop_len _ _ _ fun _ _ => length_setPixel _ _ _ _
      · rw [scaled_linear L self width height aspectRatio _ rfl hne hfmt]
        refine Eq.trans (forLoop_len _ _ _ ?_) (length_ofFormat L _)
        intro y d
        exact forLoop_len _ _ _ fun _ _ => length_setPixel _ _ _ _
    · unfold VideoFrame.scaled
      rw [if_neg hne, if_pos hfmt]
      exact length_empty L hL

theorem convert_length (L : Layout) (hL : L.size {} = 0) (self : VideoFrame)
    (hinv : self.m_data.length = L.size self.m_format) (fourcc : FourCC) :
    (self.convert L fourcc).m_data.length = L.size (self.convert L fourcc).m_format := by
  unfold VideoFrame.convert
  split_ifs
  · exact hinv
  · cases hfind : (m_convert L).find? fun convert =>
        convert.«from» == self.m_format.fourcc && convert.«to» == fourcc with
    | none => exact length_empty L hL
    | some c => exact routines_length L self c (List.mem_of_find?_eq_some hfind)

theorem adjust_family_length (L : Layout) (T : Tables) (hL : L.size {} = 0) (self : VideoFrame)
    (hinv : self.m_data.length = L.size self.m_format) :
    (self.swapRgb L).m_data.length = L.size (self.swapRgb L).m_format ∧
    (∀ hue saturation luminance : Int,
      (self.adjustHsl L hue saturation luminance).m_data.length
        = L.size (self.adjustHsl L hue saturation luminance).m_format) ∧
    (∀ gamma : Int, (self.adjustGamma L T gamma).m_data.length
      = L.size (self.adjustGamma L T gamma).m_format) ∧
    (∀ contrast : Int, (self.adjustContrast L T contrast).m_data.length
      = L.size (self.adjustContrast L T contrast).m_format) ∧
    (self.toGrayScale L).m_data.length = L.size (self.toGrayScale L).m_format ∧
    (∀ (hue saturation luminance gamma contrast : Int) (gray : Bool),
      (self.adjust L T hue saturation luminance gamma contrast gray).m_data.length
        = L.size (self.adjust L T hue saturation luminance gamma contrast gray).m_format) := by
  have hloop : ∀ (n m : Int) (d0 : VideoData) (body : Nat → Nat → VideoData → VideoData),
      (∀ y x d, (body y x d).length = d.length) →
      (forLoop n d0 fun y d => forLoop m d (body y)).length = d0.length :=
    fun n m d0 body h => forLoop_len _ _ _ fun y _ => forLoop_len _ _ _ fun x d => h y x d
  refine ⟨?_, ?_, ?_, ?_, ?_, ?_⟩
  · unfold VideoFrame.swapRgb
    split_ifs
    all_goals first
      | exact length_empty L hL
      | refine Eq.trans (hloop _ _ _ _ ?_) (length_ofFormat L _)
        intro y x d
        simp only [setField, length_poke]
  · intro hue saturation luminance
    unfold VideoFrame.adjustHsl
    split_ifs
    all_goals first
      | exact hinv
      | exact length_empty L hL
      | refine Eq.trans (hloop _ _ _ _ ?_) (length_ofFormat L _)
        intro y x d
        simp only [setField, length_poke]
  · intro gamma
    unfold VideoFrame.adjustGamma
    split_ifs
    all_goals first
      | exact hinv
      | exact length_empty L hL
      | refine Eq.trans (hloop _ _ _ _ ?_) (length_ofFormat L _)
        intro y x d
        simp only [setField, length_poke]
  · intro contrast
    unfold VideoFrame.adjustContrast
    split_ifs
    all_goals first
      | exact hinv
      | exact length_empty L hL
      | refine Eq.trans (hloop _ _ _ _ ?_) (length_ofFormat L _)
        intro y x d
        simp only [setField, length_poke]
  · unfold VideoFrame.toGrayScale
    split_ifs
    all_goals first
      | exact length_empty L hL
      | refine Eq.trans (hloop _ _ _ _ ?_) (length_ofFormat L _)
        intro y x d
        simp only [setField, length_poke]
  · intro hue saturation luminance gamma contrast gray
    unfold VideoFrame.adjust
    split_ifs
    all_goals first
      | exact hinv
      | exact length_empty L hL
      | refine Eq.trans (hloop _ _ _ _ ?_) (length_ofFormat L _)
        intro y x d
        simp only [setField, length_poke]

/-- C28: buffer-size invariant, over a layout in which the cleared format has size 0. A frame
constructed from a format has a buffer of `format.size()` bytes (none when that size is 0),
the default-constructed frame has an empty buffer, and for a frame whose buffer has the size
of its format every frame returned by `mirror`, `scaled`, `swapRgb`, `convert`, `adjustHsl`,
`adjustGamma`, `adjustContrast`, `toGrayScale` and `adjust` has a buffer of the size of its
own format. -/
theorem buffer_size_invariant (L : Layout) (T : Tables) (self : VideoFrame)
    (hL : L.size {} = 0) (hinv : self.m_data.length = L.size self.m_format) :
    (∀ format : VideoFormat,
      (VideoFrame.ofFormat L format).m_data.length
        = L.size (VideoFrame.ofFormat L format).m_format) ∧
    (({} : VideoFrame).m_data.length = 0 ∧ L.size ({} : VideoFrame).m_format = 0) ∧
    (∀ hm vm : Bool,
      (self.mirror L hm vm).m_data.length = L.size (self.mirror L hm vm).m_format) ∧
    (∀ (width height : Int) (mode : Scaling) (aspectRatio : AspectRatio),
      (self.scaled L width height mode aspectRatio).m_data.length
        = L.size (self.scaled L width height mode aspectRatio).m_format) ∧
    ((self.swapRgb L).m_data.length = L.size (self.swapRgb L).m_format ∧
      ∀ swap : Bool,
        (self.swapRgbIf L swap).m_data.length = L.size (self.swapRgbIf L swap).m_format) ∧
    (∀ fourcc : FourCC,
      (self.convert L fourcc).m_data.length = L.size (self.convert L fourcc).m_format) ∧
    (∀ hue saturation luminance : Int,
      (self.adjustHsl L hue saturation luminance).m_data.length
        = L.size (self.adjustHsl L hue saturation luminance).m_format) ∧
    (∀ gamma : Int, (self.adjustGamma L T gamma).m_data.length
      = L.size (self.adjustGamma L T gamma).m_format) ∧
    (∀ contrast : Int, (self.adjustContrast L T contrast).m_data.length
      = L.size (self.adjustContrast L T contrast).m_format) ∧
    (self.toGrayScale L).m_data.length = L.size (self.toGrayScale L).m_format ∧
    (∀ (hue saturation luminance gamma contrast : Int) (gray : Bool),
      (self.adjust L T hue saturation luminance gamma contrast gray).m_data.length
        = L.size (self.adjust L T hue saturation luminance gamma contrast gray).m_format) := by
  obtain ⟨a1, a2, a3, a4, a5, a6⟩ := adjust_family_length L T hL self hinv
  refine ⟨fun format => length_ofFormat L format, ⟨rfl, hL⟩, mirror_length L hL self hinv,
    scaled_length L hL self hinv, ⟨a1, ?_⟩, convert_length L hL self hinv, a2, a3, a4, a5, a6⟩
  intro swap
  cases swap
  · exact hinv
  · exact a1

/-- Witness for C28: the 2x2 BGR24 sample frame over `specLayout`, with empty tables. -/
theorem buffer_size_invariant_witness :
    specLayout.size {} = 0 ∧
      (sampleFrame PixelFormatBGR24).m_data.length
        = specLayout.size (sampleFrame PixelFormatBGR24).m_format ∧
      (∀ fourcc : FourCC,
        ((sampleFrame PixelFormatBGR24).convert specLayout fourcc).m_data.length
          = specLayout.size ((sampleFrame PixelFormatBGR24).convert specLayout fourcc).m_format) :=
  ⟨by decide, by decide,
    (buffer_size_invariant specLayout { gamma := [], contrast := [] }
      (sampleFrame PixelFormatBGR24) (by decide) (by decide)).2.2.2.2.2.1⟩

/-! ## The luma plane of the NV12 and NV21 routines -/

/-- The loop of the NV12 and NV21 routines: the body at `(y, x)` writes the luma value of the
pixel at offset `y` of luma row `y`, and then writes nothing below `off1`, the start of the
chroma plane. When the rows are at least as long as the frame is high, the byte at offset `y`
of row `y` ends with the value of the last pixel of the row, and the other bytes of the row
are as they were. -/
theorem lumaLoop (off B off1 : Nat) (H W : Int) (v : Nat → Nat → uint8_t)
    (chroma : Nat → Nat → VideoData → VideoData) (d0 : VideoData)
    (hHW : H ≤ W) (hB : W.toNat ≤ B) (hplane : off + H.toNat * B ≤ off1)
    (hS : off + H.toNat * B ≤ d0.length)
    (hclen : ∀ y x d, (chroma y x d).length = d.length)
    (hcfar : ∀ y x d q, q < off1 → peek (chroma y x d) q = peek d q)
    (y0 : Nat) (hy0 : (y0 : Int) < H) :
    peek (forLoop H d0 fun y d => forLoop W d fun x d =>
        chroma y x (poke d (off + y * B + y) (v y x))) (off + y0 * B + y0)
      = v y0 (W - 1).toNat ∧
    ∀ x0 : Nat, x0 < B → x0 ≠ y0 →
      peek (forLoop H d0 fun y d => forLoop W d fun x d =>
        chroma y x (poke d (off + y * B + y) (v y x))) (off + y0 * B + x0)
      = peek d0 (off + y0 * B + x0) := by
  have hrow := row_le B y0 H.toNat (by omega)
  constructor
  · refine forLoop2_last (fun d => d.length = d0.length)
      (fun d => peek d (off + y0 * B + y0) = v y0 (W - 1).toNat) H W
      (fun y x d => chroma y x (poke d (off + y * B + y) (v y x))) y0 (W - 1).toNat hy0
      (by omega) ?_ ?_ ?_ d0 rfl
    · intro y x s _ _ hs
      show (chroma y x (poke s (off + y * B + y) (v y x))).length = d0.length
      rw [hclen, length_poke, hs]
    · intro s hs
      show peek (chroma y0 (W - 1).toNat (poke s (off + y0 * B + y0) (v y0 (W - 1).toNat)))
        (off + y0 * B + y0) = v y0 (W - 1).toNat
      rw [hcfar _ _ _ _ (by omega), peek_poke_same _ _ _ (by omega)]
    · intro y x s hy hx hlt _ hq
      show peek (chroma y x (poke s (off + y * B + y) (v y x))) (off + y0 * B + y0)
        = v y0 (W - 1).toNat
      have hyy : y ≠ y0 := by omega
      have h4 := row_sep B y y0 hyy
      rw [hcfar _ _ _ _ (by omega), peek_poke_ne _ _ _ _ (by omega)]
      exact hq
  · intro x0 hx0 hne
    refine forLoop2_inv (fun d => peek d (off + y0 * B + x0) = peek d0 (off + y0 * B + x0)) H W
      (fun y x d => chroma y x (poke d (off + y * B + y) (v y x))) d0 rfl ?_
    intro y x s hy hx hs
    show peek (chroma y x (poke s (off + y * B + y) (v y x))) (off + y0 * B + x0)
      = peek d0 (off + y0 * B + x0)
    have hp : off + y * B + y ≠ off + y0 * B + x0 := by
      by_cases hyy : y = y0
      · subst hyy
        omega
      · have h4 := row_sep B y y0 hyy
        omega
    rw [hcfar _ _ _ _ (by omega), peek_poke_ne _ _ _ _ hp]
    exact hs

/-- The luma plane written by the loop of the four NV routines, for the byte offsets
`ro`, `go`, `bo` of the source members and `vo`, `uo` of the chroma members. -/
theorem nv_luma_loop (L : Layout) (src : VideoFrame) (f : VideoFormat) (ro go bo vo uo : Nat)
    (hHW : src.m_format.height ≤ src.m_format.width)
    (hfit : L.PlaneFits f 0 src.m_format.width.toNat src.m_format.height.toNat)
    (hplane : L.offset f 0 + src.m_format.height.toNat * L.bypl f 0 ≤ L.offset f 1)
    (y : Nat) (hy : (y : Int) < src.m_format.height) :
    peek (forLoop src.m_format.height (VideoFrame.ofFormat L f).m_data fun y data =>
        forLoop src.m_format.width data fun x data =>
          if x &&& 0x1 = 0 ∧ y &&& 0x1 = 0 then
            setField (setField
              (poke data (L.offset f 0 + y * L.bypl f 0 + y) (src.lumaAt L y x ro go bo))
              (L.offset f 1 + y / 2 * L.bypl f 1) 2 (x / 2) vo (src.vAt L y x ro go bo))
              (L.offset f 1 + y / 2 * L.bypl f 1) 2 (x / 2) uo (src.uAt L y x ro go bo)
          else poke data (L.offset f 0 + y * L.bypl f 0 + y) (src.lumaAt L y x ro go bo))
        (L.offset f 0 + y * L.bypl f 0 + y)
      = src.lumaAt L y (src.m_format.width - 1).toNat ro go bo ∧
    ∀ x : Nat, (x : Int) < src.m_format.width → x ≠ y →
      peek (forLoop src.m_format.height (VideoFrame.ofFormat L f).m_data fun y data =>
        forLoop src.m_format.width data fun x data =>
          if x &&& 0x1 = 0 ∧ y &&& 0x1 = 0 then
            setField (setField
              (poke data (L.offset f 0 + y * L.bypl f 0 + y) (src.lumaAt L y x ro go bo))
              (L.offset f 1 + y / 2 * L.bypl f 1) 2 (x / 2) vo (src.vAt L y x ro go bo))
              (L.offset f 1 + y / 2 * L.bypl f 1) 2 (x / 2) uo (src.uAt L y x ro go bo)
          else poke data (L.offset f 0 + y * L.bypl f 0 + y) (src.lumaAt L y x ro go bo))
        (L.offset f 0 + y * L.bypl f 0 + x) = 0 := by
  have h := lumaLoop (L.offset f 0) (L.bypl f 0) (L.offset f 1) src.m_format.height
    src.m_format.width (fun y x => src.lumaAt L y x ro go bo)
    (fun y x d =>
      if x &&& 0x1 = 0 ∧ y &&& 0x1 = 0 then
        setField (setField d
          (L.offset f 1 + y / 2 * L.bypl f 1) 2 (x / 2) vo (src.vAt L y x ro go bo))
          (L.offset f 1 + y / 2 * L.bypl f 1) 2 (x / 2) uo (src.uAt L y x ro go bo)
      else d)
    (VideoFrame.ofFormat L f).m_data hHW hfit.1 hplane
    (by rw [length_ofFormat]; exact hfit.2)
    (by
      intro y x d
      dsimp only
      split_ifs
      · simp only [setField, length_poke]
      · rfl)
    (by
      intro y x d q hq
      dsimp only
      split_ifs
      · simp only [setField]
        rw [peek_poke_ne _ _ _ _ (by omega), peek_poke_ne _ _ _ _ (by omega)]
      · rfl)
    y hy
  exact ⟨h.1, fun x hx hne =>
    (h.2 x (by have := hfit.1; omega) hne).trans (peek_ofFormat _ _ _)⟩

/-- C29: in the BGR24/RGB24 to NV12/NV21 routines the luma write is indexed by the row. For
a source frame at least as wide as it is high, over a layout in which the luma plane of the
destination holds `height` rows of at least `width` bytes and ends before the chroma plane
starts, the byte at offset `y` of luma row `y` holds `rgb_y` of the last source pixel of that
row (`x = width - 1`), and every luma byte of the row at a column `x != y` has its initial
value 0. -/
theorem nv_luma_row_index (L : Layout) (src : VideoFrame) (y x : Nat)
    (hHW : src.m_format.height ≤ src.m_format.width)
    (hy : (y : Int) < src.m_format.height) (hx : (x : Int) < src.m_format.width)
    (hfit : ∀ t : FourCC, t = PixelFormatNV12 ∨ t = PixelFormatNV21 →
      L.PlaneFits { src.m_format with fourcc := t } 0
        src.m_format.width.toNat src.m_format.height.toNat ∧
      L.offset { src.m_format with fourcc := t } 0
          + src.m_format.height.toNat * L.bypl { src.m_format with fourcc := t } 0
        ≤ L.offset { src.m_format with fourcc := t } 1) :
    (peek (bgr24_to_nv12 L src).m_data ((bgr24_to_nv12 L src).line L 0 y + y)
        = src.lumaAt L y (src.m_format.width - 1).toNat BGR24.r BGR24.g BGR24.b ∧
      (x ≠ y → peek (bgr24_to_nv12 L src).m_data ((bgr24_to_nv12 L src).line L 0 y + x) = 0)) ∧
    (peek (bgr24_to_nv21 L src).m_data ((bgr24_to_nv21 L src).line L 0 y + y)
        = src.lumaAt L y (src.m_format.width - 1).toNat BGR24.r BGR24.g BGR24.b ∧
      (x ≠ y → peek (bgr24_to_nv21 L src).m_data ((bgr24_to_nv21 L src).line L 0 y + x) = 0)) ∧
    (peek (rgb24_to_nv12 L src).m_data ((rgb24_to_nv12 L src).line L 0 y + y)
        = src.lumaAt L y (src.m_format.width - 1).toNat RGB24.r RGB24.g RGB24.b ∧
      (x ≠ y → peek (rgb24_to_nv12 L src).m_data ((rgb24_to_nv12 L src).line L 0 y + x) = 0)) ∧
    (peek (rgb24_to_nv21 L src).m_data ((rgb24_to_nv21 L src).line L 0 y + y)
        = src.lumaAt L y (src.m_format.width - 1).toNat RGB24.r RGB24.g RGB24.b ∧
      (x ≠ y → peek (rgb24_to_nv21 L src).m_data ((rgb24_to_nv21 L src).line L 0 y + x) = 0)) := by
  have h12 := hfit PixelFormatNV12 (Or.inl rfl)
  have h21 := hfit PixelFormatNV21 (Or.inr rfl)
  have a := nv_luma_loop L src { src.m_format with fourcc := PixelFormatNV12 }
    BGR24.r BGR24.g BGR24.b VU.v VU.u hHW h12.1 h12.2 y hy
  have b := nv_luma_loop L src { src.m_format with fourcc := PixelFormatNV21 }
    BGR24.r BGR24.g BGR24.b UV.v UV.u hHW h21.1 h21.2 y hy
  have c := nv_luma_loop L src { src.m_format with fourcc := PixelFormatNV12 }
    RGB24.r RGB24.g RGB24.b VU.v VU.u hHW h12.1 h12.2 y hy
  have d := nv_luma_loop L src { src.m_format with fourcc := PixelFormatNV21 }
    RGB24.r RGB24.g RGB24.b UV.v UV.u hHW h21.1 h21.2 y hy
  exact ⟨⟨a.1, fun hne => a.2 x hx hne⟩, ⟨b.1, fun hne => b.2 x hx hne⟩,
    ⟨c.1, fun hne => c.2 x hx hne⟩, ⟨d.1, fun hne => d.2 x hx hne⟩⟩

/-- Witness for C29: row 0 of the 2x2 BGR24 sample frame, columns 0 and 1. -/
theorem nv_luma_row_index_witness :
    (sampleFrame PixelFormatBGR24).m_format.height ≤ (sampleFrame PixelFormatBGR24).m_format.width ∧
      (peek (bgr24_to_nv12 specLayout (sampleFrame PixelFormatBGR24)).m_data
          ((bgr24_to_nv12 specLayout (sampleFrame PixelFormatBGR24)).line specLayout 0 0 + 0)
        = (sampleFrame PixelFormatBGR24).lumaAt specLayout 0
            ((sampleFrame PixelFormatBGR24).m_format.width - 1).toNat BGR24.r BGR24.g BGR24.b ∧
      (1 ≠ 0 → peek (bgr24_to_nv12 specLayout (sampleFrame PixelFormatBGR24)).m_data
        ((bgr24_to_nv12 specLayout (sampleFrame PixelFormatBGR24)).line specLayout 0 0 + 1) = 0)) :=
  ⟨by decide,
    (nv_luma_row_index specLayout (sampleFrame PixelFormatBGR24) 0 1 (by decide) (by decide)
      (by decide)
      (by intro t ht; rcases ht with rfl | rfl <;> (unfold Layout.PlaneFits; decide))).1⟩

/-! ## The bitmap decoder -/

theorem read_ok (stream : IfStream) (n : Nat) (hf : stream.fail = false)
    (hn : stream.pos + n ≤ stream.bytes.length) :
    stream.read n = ({ stream with pos := stream.pos + n, fail := false },
      (stream.bytes.drop stream.pos).take n) := by
  have hl : ((stream.bytes.drop stream.pos).take n).length = n := by
    rw [List.length_take, List.length_drop]
    omega
  unfold IfStream.read
  rw [if_neg (by rw [hf]; decide)]
  simp only [hl, lt_irrefl, decide_False]

theorem stored_full (buf got : VideoData) (h : buf.length ≤ got.length) : stored buf got = got := by
  unfold stored
  rw [List.drop_eq_nil_of_le h, List.append_nil]

/-- The three reads at the start of `load` on a file of at least 54 bytes. -/
theorem loadHeaders_of_length (bytes typeInit : VideoData) (hlen : 54 ≤ bytes.length) :
    loadHeaders bytes typeInit =
      (stored typeInit (bytes.take 2), (bytes.drop 2).take 12, (bytes.drop 14).take 40,
        { bytes := bytes, pos := 54, fail := false }) := by
  unfold loadHeaders
  have r1 := read_ok { bytes := bytes } 2 rfl (by show 0 + 2 ≤ bytes.length; omega)
  have r2 := read_ok { bytes := bytes, pos := 2, fail := false } 12 rfl
    (by show 2 + 12 ≤ bytes.length; omega)
  have r3 := read_ok { bytes := bytes, pos := 14, fail := false } 40 rfl
    (by show 14 + 40 ≤ bytes.length; omega)
  have s2 : stored (List.replicate 12 0) (List.take 12 (List.drop 2 bytes))
      = List.take 12 (List.drop 2 bytes) :=
    stored_full _ _ (by rw [List.length_replicate, List.length_take, List.length_drop]; omega)
  have s3 : stored (List.replicate 40 0) (List.take 40 (List.drop 14 bytes))
      = List.take 40 (List.drop 14 bytes) :=
    stored_full _ _ (by rw [List.length_replicate, List.length_take, List.length_drop]; omega)
  simp only [Nat.zero_add, Nat.reduceAdd, List.drop_zero] at r1 r2 r3
  simp only [BmpHeader.sizeof, BmpImageHeader.sizeof]
  rw [r1]
  simp only []
  rw [r2]
  simp only []
  rw [r3]
  simp only [s2, s3]

theorem peek_take_drop (bytes : VideoData) (a n p : Nat) (hp : p < n) :
    peek ((bytes.drop a).take n) p = peek bytes (a + p) := by
  unfold peek
  simp only [List.getD_eq_getElem?_getD, List.getElem?_take, hp, if_true, List.getElem?_drop]

theorem loadHeaders_type (bytes typeInit : VideoData) (hlen : 2 ≤ bytes.length) :
    (loadHeaders bytes typeInit).1.take 2 = bytes.take 2 := by
  unfold loadHeaders
  have r1 := read_ok { bytes := bytes } 2 rfl (by show 0 + 2 ≤ bytes.length; omega)
  simp only [Nat.zero_add, List.drop_zero] at r1
  dsimp only
  rw [r1]
  simp only [stored]
  rw [List.take_append_of_le_length (by rw [List.length_take]; omega), List.take_take]
  simp

/-- C27: `load` returns false, leaving the frame as it was, when the file name is empty, when
the file cannot be opened, when the two bytes read into `type` are not `"BM"` (for a file of
at least two bytes these are its first two bytes), and when the format built from the width
and height of the header has a size below 1; it returns false and leaves the cleared frame
(empty format, empty buffer) when the bit count is neither 24 nor 32; and it returns true
only for the bit counts 24 and 32. -/
theorem load_failures (L : Layout) (self : VideoFrame) (fileName : String)
    (file : Option VideoData) (typeInit : VideoData) :
    (fileName.isEmpty = true → self.load L fileName file typeInit = (false, self)) ∧
    (file = none → self.load L fileName file typeInit = (false, self)) ∧
    (∀ bytes type header imageHeader stream, fileName.isEmpty = false → file = some bytes →
      loadHeaders bytes typeInit = (type, header, imageHeader, stream) →
      (2 ≤ bytes.length → type.take 2 = bytes.take 2) ∧
      (type.take 2 ≠ [66, 77] → self.load L fileName file typeInit = (false, self)) ∧
      (type.take 2 = [66, 77] →
        L.size { fourcc := PixelFormatRGB24,
                 width := c_int (uint32At imageHeader BmpImageHeader.width),
                 height := c_int (uint32At imageHeader BmpImageHeader.height) } < 1 →
        self.load L fileName file typeInit = (false, self)) ∧
      (type.take 2 = [66, 77] →
        ¬ L.size { fourcc := PixelFormatRGB24,
                   width := c_int (uint32At imageHeader BmpImageHeader.width),
                   height := c_int (uint32At imageHeader BmpImageHeader.height) } < 1 →
        uint16At imageHeader BmpImageHeader.bitCount ≠ 24 →
        uint16At imageHeader BmpImageHeader.bitCount ≠ 32 →
        self.load L fileName file typeInit = (false, {})) ∧
      ((self.load L fileName file typeInit).1 = true →
        uint16At imageHeader BmpImageHeader.bitCount = 24
          ∨ uint16At imageHeader BmpImageHeader.bitCount = 32)) := by
  refine ⟨?_, ?_, ?_⟩
  · intro h
    unfold VideoFrame.load
    rw [if_pos h]
  · intro h
    subst h
    unfold VideoFrame.load
    split_ifs <;> rfl
  · intro bytes type header imageHeader stream hname hfile hh
    subst hfile
    have e : self.load L fileName (some bytes) typeInit =
        if type.take 2 ≠ [66, 77] then (false, self)
        else if L.size (VideoFormat.mk PixelFormatRGB24
            (c_int (uint32At imageHeader BmpImageHeader.width))
            (c_int (uint32At imageHeader BmpImageHeader.height))) < 1
          then (false, self)
        else loadPixels L self header imageHeader stream
          (VideoFormat.mk PixelFormatRGB24
            (c_int (uint32At imageHeader BmpImageHeader.width))
            (c_int (uint32At imageHeader BmpImageHeader.height))) := by
      unfold VideoFrame.load
      rw [if_neg (by rw [hname]; decide)]
      simp only [hh]
    refine ⟨?_, ?_, ?_, ?_, ?_⟩
    · intro h2
      have := loadHeaders_type bytes typeInit h2
      rw [hh] at this
      exact this
    · intro h
      rw [e, if_pos h]
    · intro h1 h2
      rw [e, if_neg (not_not.2 h1), if_pos h2]
    · intro h1 h2 h3 h4
      rw [e, if_neg (not_not.2 h1), if_neg h2]
      unfold loadPixels
      simp only [if_neg h3, if_neg h4]
    · intro ht
      rw [e] at ht
      by_contra hb
      have h3 : uint16At imageHeader BmpImageHeader.bitCount ≠ 24 := fun h => hb (Or.inl h)
      have h4 : uint16At imageHeader BmpImageHeader.bitCount ≠ 32 := fun h => hb (Or.inr h)
      unfold loadPixels at ht
      simp only [if_neg h3, if_neg h4] at ht
      split_ifs at ht

/-- Witness for C27: a two-byte file that starts with `P6`, loaded into the 2x2 RGB24 sample
frame. -/
theorem load_failures_witness :
    (sampleFrame PixelFormatRGB24).load specLayout "a.bmp" (some [80, 54]) [0, 0]
      = (false, sampleFrame PixelFormatRGB24) :=
  ((load_failures specLayout (sampleFrame PixelFormatRGB24) "a.bmp" (some [80, 54])
    [0, 0]).2.2 [80, 54] _ _ _ _ (by decide) rfl rfl).2.1 (by decide)

/-- Three byte members written per 3-byte cell, the cells of loop row `y` lying in the buffer
row `ρ y`, for a map `ρ` of rows that is injective on the loop range. -/
theorem write3_rows (k1 k2 k3 : Nat) (v1 v2 v3 : Nat → Nat → uint8_t)
    (hperm : k1 < 3 ∧ k2 < 3 ∧ k3 < 3 ∧ k1 ≠ k2 ∧ k1 ≠ k3 ∧ k2 ≠ k3)
    (off B : Nat) (ρ : Nat → Nat) (H W : Int) (d0 : VideoData)
    (hρ : ∀ y y' : Nat, (y : Int) < H → (y' : Int) < H → ρ y = ρ y' → y = y')
    (hB : 3 * W.toNat ≤ B)
    (hS : ∀ y : Nat, (y : Int) < H → off + ρ y * B + B ≤ d0.length)
    (y x : Nat) (hy : (y : Int) < H) (hx : (x : Int) < W) :
    (fun d => (getField d (off + ρ y * B) 3 x k1, getField d (off + ρ y * B) 3 x k2,
        getField d (off + ρ y * B) 3 x k3))
      (forLoop H d0 fun y data => forLoop W data fun x data =>
        setField (setField (setField data (off + ρ y * B) 3 x k1 (v1 y x))
          (off + ρ y * B) 3 x k2 (v2 y x)) (off + ρ y * B) 3 x k3 (v3 y x))
      = (v1 y x, v2 y x, v3 y x) := by
  have hcell : ∀ x' : Nat, (x' : Int) < W → x' * 3 + 3 ≤ B := fun x' hx' => by
    have := row_le 3 x' W.toNat (by omega)
    omega
  obtain ⟨h1, h2, h3, h5, h6, h8⟩ := hperm
  refine forLoop2_last (fun d => d.length = d0.length)
    (fun d => (getField d (off + ρ y * B) 3 x k1, getField d (off + ρ y * B) 3 x k2,
        getField d (off + ρ y * B) 3 x k3) = (v1 y x, v2 y x, v3 y x)) H W
    (fun y x data =>
      setField (setField (setField data (off + ρ y * B) 3 x k1 (v1 y x))
          (off + ρ y * B) 3 x k2 (v2 y x)) (off + ρ y * B) 3 x k3 (v3 y x))
    y x hy hx ?_ ?_ ?_ d0 rfl
  · intro y' x' s _ _ hs
    simp only [setField, length_poke]
    exact hs
  · intro d hd
    have hc := hcell x hx
    have hs := hS y hy
    simp only [getField, setField, peek_poke, length_poke]
    have e1 : ∀ a b : Nat, a ≠ b → ¬ (off + ρ y * B + x * 3 + a = off + ρ y * B + x * 3 + b ∧
        off + ρ y * B + x * 3 + b < d.length) := fun a b hab hh => hab (by omega)
    have e2 : ∀ a : Nat, a < 3 → off + ρ y * B + x * 3 + a < d.length := fun a ha => by omega
    simp only [if_neg (e1 _ _ h5.symm), if_neg (e1 _ _ h6.symm),
      if_neg (e1 _ _ h8.symm), if_neg (e1 _ _ h5), if_neg (e1 _ _ h6),
      if_neg (e1 _ _ h8), true_and, if_pos (e2 _ h1), if_pos (e2 _ h2), if_pos (e2 _ h3)]
  · intro y' x' s hy' hx' hlt _ hq
    rw [← hq]
    have hc := hcell x hx
    have hc' := hcell x' hx'
    have hsep : ∀ a b : Nat, a < 3 → b < 3 →
        off + ρ y' * B + x' * 3 + a ≠ off + ρ y * B + x * 3 + b := by
      intro a b ha hb
      by_cases hyy : y' = y
      · subst hyy
        have hxx : x' ≠ x := by omega
        have h4 := row_sep 3 x' x hxx
        omega
      · have hr : ρ y' ≠ ρ y := fun h => hyy (hρ y' y hy' hy h)
        have h4 := row_sep B (ρ y') (ρ y) hr
        omega
    simp only [getField, setField]
    rw [peek_poke_ne _ _ _ _ (hsep k3 k1 h3 h1), peek_poke_ne _ _ _ _ (hsep k2 k1 h2 h1),
      peek_poke_ne _ _ _ _ (hsep k1 k1 h1 h1), peek_poke_ne _ _ _ _ (hsep k3 k2 h3 h2),
      peek_poke_ne _ _ _ _ (hsep k2 k2 h2 h2), peek_poke_ne _ _ _ _ (hsep k1 k2 h1 h2),
      peek_poke_ne _ _ _ _ (hsep k3 k3 h3 h3), peek_poke_ne _ _ _ _ (hsep k2 k3 h2 h3),
      peek_poke_ne _ _ _ _ (hsep k1 k3 h1 h3)]

theorem length_resize (d : VideoData) (n : Nat) : (resize d n).length = n := by
  unfold resize
  rw [List.length_append, List.length_take, List.length_replicate]
  omega

/-- The copy loops of `load`: loop row `y` is read from the stored row `y` of `data` and
written to row `height - y - 1` of the frame, so row `y` of the frame holds the members of the
stored row `height - 1 - y`. -/
theorem copy_rows (off B : Nat) (data d0 : VideoData) (stride bpp width height : Nat)
    (hB : 3 * width ≤ B) (hS : off + height * B ≤ d0.length)
    (y x : Nat) (hy : y < height) (hx : x < width) :
    (fun d => (getField d (off + y * B) 3 x RGB24.r, getField d (off + y * B) 3 x RGB24.g,
        getField d (off + y * B) 3 x RGB24.b))
      (forLoop (height : Int) d0 fun y m_data => forLoop (width : Int) m_data fun x m_data =>
        setField (setField (setField m_data (off + (height - y - 1) * B) 3 x RGB24.r
            (getField data (y * stride) bpp x 0))
          (off + (height - y - 1) * B) 3 x RGB24.g (getField data (y * stride) bpp x 1))
          (off + (height - y - 1) * B) 3 x RGB24.b (getField data (y * stride) bpp x 2))
      = (getField data ((height - 1 - y) * stride) bpp x 0,
          getField data ((height - 1 - y) * stride) bpp x 1,
          getField data ((height - 1 - y) * stride) bpp x 2) := by
  have h := write3_rows RGB24.r RGB24.g RGB24.b
    (fun y x => getField data (y * stride) bpp x 0)
    (fun y x => getField data (y * stride) bpp x 1)
    (fun y x => getField data (y * stride) bpp x 2) (by decide) off B
    (fun y => height - y - 1) (height : Int) (width : Int) d0
    (fun a b ha hb hab => by
      have e : height - a - 1 = height - b - 1 := hab
      omega)
    (by omega)
    (fun a ha => by
      have h1 := row_le B (height - a - 1) height (by omega)
      show off + (height - a - 1) * B + B ≤ d0.length
      omega)
    (height - 1 - y) x (by omega) (by omega)
  have e : height - (height - 1 - y) - 1 = y := by omega
  simp only [e] at h
  exact h

theorem c_int_of_lt (v : Nat) (h : v < 2147483648) : c_int v = v := by
  unfold c_int
  rw [if_pos h]

theorem uint32At_take_drop (bytes : VideoData) (a n p : Nat) (hp : p + 3 < n) :
    uint32At ((bytes.drop a).take n) p = uint32At bytes (a + p) := by
  unfold uint32At
  rw [peek_take_drop _ _ _ _ (by omega), peek_take_drop _ _ _ _ (by omega),
    peek_take_drop _ _ _ _ (by omega), peek_take_drop _ _ _ _ (by omega)]
  rfl

theorem uint16At_take_drop (bytes : VideoData) (a n p : Nat) (hp : p + 1 < n) :
    uint16At ((bytes.drop a).take n) p = uint16At bytes (a + p) := by
  unfold uint16At
  rw [peek_take_drop _ _ _ _ (by omega), peek_take_drop _ _ _ _ (by omega)]
  rfl

theorem take_stored (typeInit bytes : VideoData) (hlen : 2 ≤ bytes.length) :
    (stored typeInit (bytes.take 2)).take 2 = bytes.take 2 := by
  simp only [stored]
  rw [List.take_append_of_le_length (by rw [List.length_take]; omega), List.take_take]
  simp

/-- On a file of at least 54 bytes that starts with `"BM"` and whose header gives a format of
positive size, `load` runs the pixel part on the parsed header. -/
theorem load_eq_loadPixels (L : Layout) (self : VideoFrame) (fileName : String)
    (bytes typeInit : VideoData) (width height : Nat)
    (hname : fileName.isEmpty = false) (hlen : 54 ≤ bytes.length)
    (hmagic : bytes.take 2 = [66, 77])
    (hwidth : uint32At bytes 18 = width) (hheight : uint32At bytes 22 = height)
    (hw31 : width < 2147483648) (hh31 : height < 2147483648)
    (hsize : 1 ≤ L.size (VideoFormat.mk PixelFormatRGB24 width height)) :
    self.load L fileName (some bytes) typeInit =
      loadPixels L self ((bytes.drop 2).take 12) ((bytes.drop 14).take 40)
        { bytes := bytes, pos := 54, fail := false }
        (VideoFormat.mk PixelFormatRGB24 width height) := by
  unfold VideoFrame.load
  rw [if_neg (by rw [hname]; decide)]
  simp only [loadHeaders_of_length bytes typeInit hlen]
  have ew : uint32At ((bytes.drop 14).take 40) BmpImageHeader.width = width := by
    rw [← hwidth]
    exact uint32At_take_drop bytes 14 40 4 (by decide)
  have eh : uint32At ((bytes.drop 14).take 40) BmpImageHeader.height = height := by
    rw [← hheight]
    exact uint32At_take_drop bytes 14 40 8 (by decide)
  rw [take_stored typeInit bytes (by omega), ew, eh, c_int_of_lt _ hw31, c_int_of_lt _ hh31,
    if_neg (not_not.2 hmagic), if_neg (by omega)]

/-- The pixel data that `load` reads, for a file that holds them. -/
theorem load_data (bytes : VideoData) (offBits sizeImage : Nat)
    (hdata : offBits + sizeImage ≤ bytes.length) :
    stored (List.replicate sizeImage 0)
        ((IfStream.seekg { bytes := bytes, pos := 54, fail := false } offBits).read sizeImage).2
      = (bytes.drop offBits).take sizeImage := by
  have e : IfStream.seekg { bytes := bytes, pos := 54, fail := false } offBits
      = { bytes := bytes, pos := offBits, fail := false } := rfl
  rw [e, read_ok _ _ rfl hdata]
  show stored (List.replicate sizeImage 0) ((bytes.drop offBits).take sizeImage) = _
  exact stored_full _ _
    (by rw [List.length_replicate, List.length_take, List.length_drop]; omega)

/-- The copy loops of `load` when the buffer `data` holds the rows that they read: for a
bitmap file of at least 54 bytes with the magic `"BM"`, bit count 24 or 32, width and height
below `2^31`, whose pixel data lie inside the file and whose header member `sizeImage` covers
`height` rows of the row stride `bypl(0)` of the BGR24 (resp. BGR32) format of that size, each
row holding `width` pixels, `load` returns true and leaves an RGB24 frame of size
`width x height`; row `y` of the frame (0 = top) is built from the stored row
`height - 1 - y`: the members `r`, `g`, `b` of pixel `x` are the bytes 0, 1, 2 of the stored
pixel `x` of that row. The layout is assumed to give the RGB24 format a positive size and a
plane 0 that holds its rows. -/
theorem load_bitmap (L : Layout) (self : VideoFrame) (fileName : String)
    (bytes typeInit : VideoData) (width height bitCount sizeImage offBits bpp stride y x : Nat)
    (hname : fileName.isEmpty = false) (hlen : 54 ≤ bytes.length)
    (hmagic : bytes.take 2 = [66, 77])
    (hwidth : uint32At bytes 18 = width) (hheight : uint32At bytes 22 = height)
    (hbitCount : uint16At bytes 28 = bitCount) (hsizeImage : uint32At bytes 34 = sizeImage)
    (hoffBits : uint32At bytes 10 = offBits)
    (hbits : (bitCount = 24 ∧ bpp = 3 ∧
        stride = L.bypl (VideoFormat.mk PixelFormatBGR24 width height) 0) ∨
      (bitCount = 32 ∧ bpp = 4 ∧
        stride = L.bypl (VideoFormat.mk PixelFormatBGR32 width height) 0))
    (hw31 : width < 2147483648) (hh31 : height < 2147483648)
    (hdata : offBits + sizeImage ≤ bytes.length)
    (hrows : height * stride ≤ sizeImage) (hrow : bpp * width ≤ stride)
    (hsize : 1 ≤ L.size (VideoFormat.mk PixelFormatRGB24 width height))
    (hfit : L.PlaneFits (VideoFormat.mk PixelFormatRGB24 width height) 0 (3 * width) height)
    (hy : y < height) (hx : x < width) :
    (self.load L fileName (some bytes) typeInit).1 = true ∧
      (self.load L fileName (some bytes) typeInit).2.m_format
        = VideoFormat.mk PixelFormatRGB24 width height ∧
      (self.load L fileName (some bytes) typeInit).2.field L y 3 x RGB24.r
        = peek bytes (offBits + (height - 1 - y) * stride + x * bpp + 0) ∧
      (self.load L fileName (some bytes) typeInit).2.field L y 3 x RGB24.g
        = peek bytes (offBits + (height - 1 - y) * stride + x * bpp + 1) ∧
      (self.load L fileName (some bytes) typeInit).2.field L y 3 x RGB24.b
        = peek bytes (offBits + (height - 1 - y) * stride + x * bpp + 2) := by
  rw [load_eq_loadPixels L self fileName bytes typeInit width height hname hlen hmagic hwidth
    hheight hw31 hh31 hsize]
  have ew : uint32At ((bytes.drop 14).take 40) BmpImageHeader.width = width := by
    rw [← hwidth]
    exact uint32At_take_drop bytes 14 40 4 (by decide)
  have eh : uint32At ((bytes.drop 14).take 40) BmpImageHeader.height = height := by
    rw [← hheight]
    exact uint32At_take_drop bytes 14 40 8 (by decide)
  have es : uint32At ((bytes.drop 14).take 40) BmpImageHeader.sizeImage = sizeImage := by
    rw [← hsizeImage]
    exact uint32At_take_drop bytes 14 40 20 (by decide)
  have eb : uint16At ((bytes.drop 14).take 40) BmpImageHeader.bitCount = bitCount := by
    rw [← hbitCount]
    exact uint16At_take_drop bytes 14 40 14 (by decide)
  have eo : uint32At ((bytes.drop 2).take 12) BmpHeader.offBits = offBits := by
    rw [← hoffBits]
    exact uint32At_take_drop bytes 2 12 8 (by decide)
  have hcell := row_le bpp x width hx
  have hsrow := row_le stride (height - 1 - y) height (by omega)
  have hpk : ∀ k : Nat, k < 3 →
      getField ((bytes.drop offBits).take sizeImage) ((height - 1 - y) * stride) bpp x k
        = peek bytes (offBits + (height - 1 - y) * stride + x * bpp + k) := by
    intro k hk
    unfold getField
    have hb3 : 3 ≤ bpp := by rcases hbits with h | h <;> omega
    have hbw : width * bpp = bpp * width := Nat.mul_comm _ _
    rw [peek_take_drop _ _ _ _ (by omega)]
    congr 1
    omega
  have hcopy := copy_rows (L.offset (VideoFormat.mk PixelFormatRGB24 width height) 0)
    (L.bypl (VideoFormat.mk PixelFormatRGB24 width height) 0)
    ((bytes.drop offBits).take sizeImage)
    (resize self.m_data (L.size (VideoFormat.mk PixelFormatRGB24 width height)))
    stride bpp width height hfit.1 (by rw [length_resize]; exact hfit.2) y x hy hx
  simp only [Prod.mk.injEq, hpk 0 (by decide), hpk 1 (by decide), hpk 2 (by decide)] at hcopy
  unfold loadPixels
  simp only [ew, eh, es, eb, eo, load_data bytes offBits sizeImage hdata,
    c_int_of_lt _ hw31, c_int_of_lt _ hh31]
  rcases hbits with ⟨h24, hbpp, hst⟩ | ⟨h32, hbpp, hst⟩
  · subst hbpp
    rw [if_pos h24]
    rw [← hst]
    exact ⟨rfl, rfl, hcopy.1, hcopy.2.1, hcopy.2.2⟩
  · subst hbpp
    rw [if_neg (by omega), if_pos h32]
    rw [← hst]
    exact ⟨rfl, rfl, hcopy.1, hcopy.2.1, hcopy.2.2⟩

theorem adjustHsl_adjustable (L : Layout) (self : VideoFrame) (hue saturation luminance : Int)
    (hn : ¬ (hue = 0 ∧ saturation = 0 ∧ luminance = 0))
    (hfmt : self.m_format.fourcc ∈ m_adjustFormats) :
    self.adjustHsl L hue saturation luminance =
      VideoFrame.mk self.m_format
        (forLoop self.m_format.height (VideoFrame.ofFormat L self.m_format).m_data fun y data =>
          forLoop self.m_format.width data fun x data =>
            setField (setField (setField data
              ((VideoFrame.ofFormat L self.m_format).line L 0 y) RGB24.sizeof x RGB24.r
                (toUInt8 (hslPixel hue saturation luminance
                  (self.field L y RGB24.sizeof x RGB24.r).val
                  (self.field L y RGB24.sizeof x RGB24.g).val
                  (self.field L y RGB24.sizeof x RGB24.b).val).1))
              ((VideoFrame.ofFormat L self.m_format).line L 0 y) RGB24.sizeof x RGB24.g
                (toUInt8 (hslPixel hue saturation luminance
                  (self.field L y RGB24.sizeof x RGB24.r).val
                  (self.field L y RGB24.sizeof x RGB24.g).val
                  (self.field L y RGB24.sizeof x RGB24.b).val).2.1))
              ((VideoFrame.ofFormat L self.m_format).line L 0 y) RGB24.sizeof x RGB24.b
                (toUInt8 (hslPixel hue saturation luminance
                  (self.field L y RGB24.sizeof x RGB24.r).val
                  (self.field L y RGB24.sizeof x RGB24.g).val
                  (self.field L y RGB24.sizeof x RGB24.b).val).2.2)) := by
  unfold VideoFrame.adjustHsl
  rw [if_neg hn, if_neg (not_not.2 hfmt)]
  rfl

theorem tdiv_mul_le (s a d : Int) (hs0 : 0 ≤ s) (hs : s ≤ d) (ha : 0 ≤ a) (hd : 0 < d) :
    0 ≤ (s * a).tdiv d ∧ (s * a).tdiv d ≤ a := by
  have h0 : 0 ≤ s * a := Int.mul_nonneg hs0 ha
  rw [Int.tdiv_eq_ediv h0 (by omega)]
  refine ⟨Int.ediv_nonneg h0 (by omega), Int.ediv_le_of_le_mul hd ?_⟩
  rw [Int.mul_comm a d]
  exact Int.mul_le_mul_of_nonneg_right hs ha

/-- For `h >= 0` and `s`, `l` in `[0, 255]`, the three values stored by `hslToRgb` lie in
`[0, 255]`. -/
theorem hslToRgb_range (h s l : Int) (hh0 : 0 ≤ h) (hs0 : 0 ≤ s) (hs : s ≤ 255)
    (hl0 : 0 ≤ l) (hl : l ≤ 255) :
    (0 ≤ (hslToRgb h s l).1 ∧ (hslToRgb h s l).1 ≤ 255) ∧
    (0 ≤ (hslToRgb h s l).2.1 ∧ (hslToRgb h s l).2.1 ≤ 255) ∧
    (0 ≤ (hslToRgb h s l).2.2 ∧ (hslToRgb h s l).2.2 ≤ 255) := by
  have hA : 0 ≤ 255 - c_abs (2 * l - 255) ∧ 255 - c_abs (2 * l - 255) ≤ 2 * l
      ∧ 255 - c_abs (2 * l - 255) ≤ 510 - 2 * l := by
    unfold c_abs
    split_ifs <;> omega
  have hc := tdiv_mul_le s (255 - c_abs (2 * l - 255)) 255 hs0 hs hA.1 (by decide)
  have hm : h.tmod 120 = h % 120 := Int.tmod_eq_emod hh0 (by decide)
  have hB : 0 ≤ 60 - c_abs (h.tmod 120 - 60) ∧ 60 - c_abs (h.tmod 120 - 60) ≤ 60 := by
    rw [hm]
    unfold c_abs
    split_ifs <;> omega
  have hx : 0 ≤ ((s * (255 - c_abs (2 * l - 255))).tdiv 255
        * (60 - c_abs (h.tmod 120 - 60))).tdiv 60 ∧
      ((s * (255 - c_abs (2 * l - 255))).tdiv 255 * (60 - c_abs (h.tmod 120 - 60))).tdiv 60
        ≤ (s * (255 - c_abs (2 * l - 255))).tdiv 255 := by
    have h0 : 0 ≤ (s * (255 - c_abs (2 * l - 255))).tdiv 255
        * (60 - c_abs (h.tmod 120 - 60)) := Int.mul_nonneg hc.1 hB.1
    rw [Int.tdiv_eq_ediv h0 (by decide)]
    refine ⟨Int.ediv_nonneg h0 (by decide), Int.ediv_le_of_le_mul (by decide) ?_⟩
    exact Int.mul_le_mul_of_nonneg_left hB.2 hc.1
  have key : ∀ t : Int, 0 ≤ t → t ≤ (s * (255 - c_abs (2 * l - 255))).tdiv 255 →
      0 ≤ (2 * t + (2 * l - (s * (255 - c_abs (2 * l - 255))).tdiv 255)).tdiv 2 ∧
      (2 * t + (2 * l - (s * (255 - c_abs (2 * l - 255))).tdiv 255)).tdiv 2 ≤ 255 := by
    intro t ht0 ht
    rw [Int.tdiv_eq_ediv (by omega) (by decide)]
    omega
  have k0 := key 0 (le_refl _) hc.1
  have kc := key _ hc.1 (le_refl _)
  have kx := key _ hx.1 hx.2
  unfold hslToRgb
  simp only []
  split_ifs <;> exact ⟨by assumption, by assumption, by assumption⟩

theorem adjustGamma_adjustable (L : Layout) (T : Tables) (self : VideoFrame) (gamma : Int)
    (hn : gamma ≠ 0) (hfmt : self.m_format.fourcc ∈ m_adjustFormats) :
    self.adjustGamma L T gamma =
      VideoFrame.mk self.m_format
        (forLoop self.m_format.height (VideoFrame.ofFormat L self.m_format).m_data fun y data =>
          forLoop self.m_format.width data fun x data =>
            setField (setField (setField data
              ((VideoFrame.ofFormat L self.m_format).line L 0 y) RGB24.sizeof x RGB24.r
                (peek T.gamma ((toSizeT (bound (-255) gamma 255 + 255) <<< 8)
                  ||| (self.field L y RGB24.sizeof x RGB24.r).val)))
              ((VideoFrame.ofFormat L self.m_format).line L 0 y) RGB24.sizeof x RGB24.g
                (peek T.gamma ((toSizeT (bound (-255) gamma 255 + 255) <<< 8)
                  ||| (self.field L y RGB24.sizeof x RGB24.g).val)))
              ((VideoFrame.ofFormat L self.m_format).line L 0 y) RGB24.sizeof x RGB24.b
                (peek T.gamma ((toSizeT (bound (-255) gamma 255 + 255) <<< 8)
                  ||| (self.field L y RGB24.sizeof x RGB24.b).val))) := by
  unfold VideoFrame.adjustGamma
  rw [if_neg hn, if_neg (not_not.2 hfmt)]
  rfl

theorem adjustContrast_adjustable (L : Layout) (T : Tables) (self : VideoFrame) (contrast : Int)
    (hn : contrast ≠ 0) (hfmt : self.m_format.fourcc ∈ m_adjustFormats) :
    self.adjustContrast L T contrast =
      VideoFrame.mk self.m_format
        (forLoop self.m_format.height (VideoFrame.ofFormat L self.m_format).m_data fun y data =>
          forLoop self.m_format.width data fun x data =>
            setField (setField (setField data
              ((VideoFrame.ofFormat L self.m_format).line L 0 y) RGB24.sizeof x RGB24.r
                (peek T.contrast ((toSizeT (bound (-255) contrast 255 + 255) <<< 8)
                  ||| (self.field L y RGB24.sizeof x RGB24.r).val)))
              ((VideoFrame.ofFormat L self.m_format).line L 0 y) RGB24.sizeof x RGB24.g
                (peek T.contrast ((toSizeT (bound (-255) contrast 255 + 255) <<< 8)
                  ||| (self.field L y RGB24.sizeof x RGB24.g).val)))
              ((VideoFrame.ofFormat L self.m_format).line L 0 y) RGB24.sizeof x RGB24.b
                (peek T.contrast ((toSizeT (bound (-255) contrast 255 + 255) <<< 8)
                  ||| (self.field L y RGB24.sizeof x RGB24.b).val))) := by
  unfold VideoFrame.adjustContrast
  rw [if_neg hn, if_neg (not_not.2 hfmt)]
  rfl

/-- The frame written by the loops of the colour adjustments: the members of pixel `(x, y)`
are the three values written for it. -/
theorem adjust_loop (L : Layout) (format : VideoFormat) (v1 v2 v3 : Nat → Nat → uint8_t)
    (hfit : L.PlaneFits format 0 (3 * format.width.toNat) format.height.toNat)
    (y x : Nat) (hy : (y : Int) < format.height) (hx : (x : Int) < format.width) :
    (VideoFrame.mk format
      (forLoop format.height (VideoFrame.ofFormat L format).m_data fun y data =>
        forLoop format.width data fun x data =>
          setField (setField (setField data
            ((VideoFrame.ofFormat L format).line L 0 y) RGB24.sizeof x RGB24.r (v1 y x))
            ((VideoFrame.ofFormat L format).line L 0 y) RGB24.sizeof x RGB24.g (v2 y x))
            ((VideoFrame.ofFormat L format).line L 0 y) RGB24.sizeof x RGB24.b (v3 y x))).rgb
        L y x = (v1 y x, v2 y x, v3 y x) :=
  write3_loop RGB24.r RGB24.g RGB24.b v1 v2 v3 (by decide) _ _ _ _ _ hfit.1
    (by rw [length_ofFormat]; exact hfit.2) y x hy hx

theorem adjust_adjustable (L : Layout) (T : Tables) (self : VideoFrame)
    (hue saturation luminance gamma contrast : Int) (gray : Bool)
    (hn : ¬ (hue = 0 ∧ saturation = 0 ∧ luminance = 0 ∧ gamma = 0 ∧ contrast = 0
      ∧ (!gray) = true))
    (hfmt : self.m_format.fourcc ∈ m_adjustFormats) :
    self.adjust L T hue saturation luminance gamma contrast gray =
      VideoFrame.mk self.m_format
        (forLoop self.m_format.height (VideoFrame.ofFormat L self.m_format).m_data fun y data =>
          forLoop self.m_format.width data fun x data =>
            setField (setField (setField data
              ((VideoFrame.ofFormat L self.m_format).line L 0 y) RGB24.sizeof x RGB24.r
                (bytes3 (stageGray gray (stageContrast T contrast (stageGamma T gamma
                  (stageHsl hue saturation luminance (ints3 (self.rgb L y x))))))).1)
              ((VideoFrame.ofFormat L self.m_format).line L 0 y) RGB24.sizeof x RGB24.g
                (bytes3 (stageGray gray (stageContrast T contrast (stageGamma T gamma
                  (stageHsl hue saturation luminance (ints3 (self.rgb L y x))))))).2.1)
              ((VideoFrame.ofFormat L self.m_format).line L 0 y) RGB24.sizeof x RGB24.b
                (bytes3 (stageGray gray (stageContrast T contrast (stageGamma T gamma
                  (stageHsl hue saturation luminance (ints3 (self.rgb L y x))))))).2.2) := by
  unfold VideoFrame.adjust
  rw [if_neg hn, if_neg (not_not.2 hfmt)]
  rfl

/-! ### The stages on values in the byte range -/

theorem toUInt8_cast (b : uint8_t) : toUInt8 (b.val : Int) = b :=
  Fin.ext (toUInt8_val b.val b.isLt)

theorem toSizeT_cast (b : uint8_t) : toSizeT (b.val : Int) = b.val := by
  have := b.isLt
  unfold toSizeT
  omega

theorem bytes3_ints3 (p : uint8_t × uint8_t × uint8_t) : bytes3 (ints3 p) = p := by
  unfold bytes3 ints3
  simp only [toUInt8_cast]

theorem ints3_range (p : uint8_t × uint8_t × uint8_t) :
    (0 ≤ (ints3 p).1 ∧ (ints3 p).1 ≤ 255) ∧ (0 ≤ (ints3 p).2.1 ∧ (ints3 p).2.1 ≤ 255)
      ∧ (0 ≤ (ints3 p).2.2 ∧ (ints3 p).2.2 ≤ 255) := by
  have h1 := p.1.isLt
  have h2 := p.2.1.isLt
  have h3 := p.2.2.isLt
  unfold ints3
  simp only []
  omega

theorem ints3_bytes3 (q : Int × Int × Int)
    (h : (0 ≤ q.1 ∧ q.1 ≤ 255) ∧ (0 ≤ q.2.1 ∧ q.2.1 ≤ 255) ∧ (0 ≤ q.2.2 ∧ q.2.2 ≤ 255)) :
    ints3 (bytes3 q) = q := by
  unfold ints3 bytes3
  simp only [toUInt8_of_byte _ h.1.1 h.1.2, toUInt8_of_byte _ h.2.1.1 h.2.1.2,
    toUInt8_of_byte _ h.2.2.1 h.2.2.2]

theorem stageHsl_range (hue saturation luminance : Int) (q : Int × Int × Int)
    (h : (0 ≤ q.1 ∧ q.1 ≤ 255) ∧ (0 ≤ q.2.1 ∧ q.2.1 ≤ 255) ∧ (0 ≤ q.2.2 ∧ q.2.2 ≤ 255)) :
    (0 ≤ (stageHsl hue saturation luminance q).1 ∧ (stageHsl hue saturation luminance q).1 ≤ 255)
      ∧ (0 ≤ (stageHsl hue saturation luminance q).2.1
        ∧ (stageHsl hue saturation luminance q).2.1 ≤ 255)
      ∧ (0 ≤ (stageHsl hue saturation luminance q).2.2
        ∧ (stageHsl hue saturation luminance q).2.2 ≤ 255) := by
  unfold stageHsl
  split_ifs
  · unfold hslPixel
    have hb : ∀ v : Int, 0 ≤ bound 0 v 255 ∧ bound 0 v 255 ≤ 255 := by
      intro v
      unfold bound
      split_ifs <;> omega
    have hm : ∀ v : Int, 0 ≤ mod v 360 := by
      intro v
      rw [mod_360]
      omega
    exact hslToRgb_range _ _ _ (hm _) (hb _).1 (hb _).2 (hb _).1 (hb _).2
  · exact h

theorem stageGamma_range (T : Tables) (gamma : Int) (q : Int × Int × Int)
    (h : (0 ≤ q.1 ∧ q.1 ≤ 255) ∧ (0 ≤ q.2.1 ∧ q.2.1 ≤ 255) ∧ (0 ≤ q.2.2 ∧ q.2.2 ≤ 255)) :
    (0 ≤ (stageGamma T gamma q).1 ∧ (stageGamma T gamma q).1 ≤ 255)
      ∧ (0 ≤ (stageGamma T gamma q).2.1 ∧ (stageGamma T gamma q).2.1 ≤ 255)
      ∧ (0 ≤ (stageGamma T gamma q).2.2 ∧ (stageGamma T gamma q).2.2 ≤ 255) := by
  unfold stageGamma
  split_ifs
  · exact ints3_range (_, _, _)
  · exact h

theorem stageContrast_range (T : Tables) (contrast : Int) (q : Int × Int × Int)
    (h : (0 ≤ q.1 ∧ q.1 ≤ 255) ∧ (0 ≤ q.2.1 ∧ q.2.1 ≤ 255) ∧ (0 ≤ q.2.2 ∧ q.2.2 ≤ 255)) :
    (0 ≤ (stageContrast T contrast q).1 ∧ (stageContrast T contrast q).1 ≤ 255)
      ∧ (0 ≤ (stageContrast T contrast q).2.1 ∧ (stageContrast T contrast q).2.1 ≤ 255)
      ∧ (0 ≤ (stageContrast T contrast q).2.2 ∧ (stageContrast T contrast q).2.2 ≤ 255) := by
  unfold stageContrast
  split_ifs
  · exact ints3_range (_, _, _)
  · exact h

/-! ### The frames of the colour adjustments, pixel by pixel -/

theorem adjustHsl_rgb (L : Layout) (self : VideoFrame) (hue saturation luminance : Int)
    (hfmt : self.m_format.fourcc ∈ m_adjustFormats)
    (hfit : L.PlaneFits self.m_format 0
      (3 * self.m_format.width.toNat) self.m_format.height.toNat)
    (y x : Nat) (hy : (y : Int) < self.m_format.height) (hx : (x : Int) < self.m_format.width) :
    (self.adjustHsl L hue saturation luminance).m_format = self.m_format ∧
      (self.adjustHsl L hue saturation luminance).rgb L y x
        = bytes3 (stageHsl hue saturation luminance (ints3 (self.rgb L y x))) := by
  by_cases hn : hue = 0 ∧ saturation = 0 ∧ luminance = 0
  · have e : self.adjustHsl L hue saturation luminance = self := by
      unfold VideoFrame.adjustHsl
      rw [if_pos hn]
    have e2 : stageHsl hue saturation luminance (ints3 (self.rgb L y x))
        = ints3 (self.rgb L y x) := by
      unfold stageHsl
      rw [if_neg (by omega)]
    rw [e, e2, bytes3_ints3]
    exact ⟨rfl, rfl⟩
  · have e2 : stageHsl hue saturation luminance (ints3 (self.rgb L y x))
        = hslPixel hue saturation luminance (ints3 (self.rgb L y x)).1
            (ints3 (self.rgb L y x)).2.1 (ints3 (self.rgb L y x)).2.2 := by
      unfold stageHsl
      rw [if_pos (by omega)]
    rw [adjustHsl_adjustable L self hue saturation luminance hn hfmt, e2]
    exact ⟨rfl, adjust_loop L self.m_format _ _ _ hfit y x hy hx⟩

theorem adjustGamma_rgb (L : Layout) (T : Tables) (self : VideoFrame) (gamma : Int)
    (hfmt : self.m_format.fourcc ∈ m_adjustFormats)
    (hfit : L.PlaneFits self.m_format 0
      (3 * self.m_format.width.toNat) self.m_format.height.toNat)
    (y x : Nat) (hy : (y : Int) < self.m_format.height) (hx : (x : Int) < self.m_format.width) :
    (self.adjustGamma L T gamma).m_format = self.m_format ∧
      (self.adjustGamma L T gamma).rgb L y x
        = bytes3 (stageGamma T gamma (ints3 (self.rgb L y x))) := by
  by_cases hn : gamma = 0
  · have e : self.adjustGamma L T gamma = self := by
      unfold VideoFrame.adjustGamma
      rw [if_pos hn]
    have e2 : stageGamma T gamma (ints3 (self.rgb L y x)) = ints3 (self.rgb L y x) := by
      unfold stageGamma
      rw [if_neg (not_not.2 ((bound_eq_zero gamma).2 hn))]
    rw [e, e2, bytes3_ints3]
    exact ⟨rfl, rfl⟩
  · have e2 : bytes3 (stageGamma T gamma (ints3 (self.rgb L y x)))
        = (peek T.gamma ((toSizeT (bound (-255) gamma 255 + 255) <<< 8)
              ||| (self.field L y RGB24.sizeof x RGB24.r).val),
            peek T.gamma ((toSizeT (bound (-255) gamma 255 + 255) <<< 8)
              ||| (self.field L y RGB24.sizeof x RGB24.g).val),
            peek T.gamma ((toSizeT (bound (-255) gamma 255 + 255) <<< 8)
              ||| (self.field L y RGB24.sizeof x RGB24.b).val)) := by
      unfold stageGamma
      rw [if_pos (fun h => hn ((bound_eq_zero gamma).1 h))]
      simp only [bytes3, ints3, VideoFrame.rgb, toUInt8_cast, toSizeT_cast]
    rw [adjustGamma_adjustable L T self gamma hn hfmt, e2]
    exact ⟨rfl, adjust_loop L self.m_format _ _ _ hfit y x hy hx⟩

theorem adjustContrast_rgb (L : Layout) (T : Tables) (self : VideoFrame) (contrast : Int)
    (hfmt : self.m_format.fourcc ∈ m_adjustFormats)
    (hfit : L.PlaneFits self.m_format 0
      (3 * self.m_format.width.toNat) self.m_format.height.toNat)
    (y x : Nat) (hy : (y : Int) < self.m_format.height) (hx : (x : Int) < self.m_format.width) :
    (self.adjustContrast L T contrast).m_format = self.m_format ∧
      (self.adjustContrast L T contrast).rgb L y x
        = bytes3 (stageContrast T contrast (ints3 (self.rgb L y x))) := by
  by_cases hn : contrast = 0
  · have e : self.adjustContrast L T contrast = self := by
      unfold VideoFrame.adjustContrast
      rw [if_pos hn]
    have e2 : stageContrast T contrast (ints3 (self.rgb L y x)) = ints3 (self.rgb L y x) := by
      unfold stageContrast
      rw [if_neg (not_not.2 ((bound_eq_zero contrast).2 hn))]
    rw [e, e2, bytes3_ints3]
    exact ⟨rfl, rfl⟩
  · have e2 : bytes3 (stageContrast T contrast (ints3 (self.rgb L y x)))
        = (peek T.contrast ((toSizeT (bound (-255) contrast 255 + 255) <<< 8)
              ||| (self.field L y RGB24.sizeof x RGB24.r).val),
            peek T.contrast ((toSizeT (bound (-255) contrast 255 + 255) <<< 8)
              ||| (self.field L y RGB24.sizeof x RGB24.g).val),
            peek T.contrast ((toSizeT (bound (-255) contrast 255 + 255) <<< 8)
              ||| (self.field L y RGB24.sizeof x RGB24.b).val)) := by
      unfold stageContrast
      rw [if_pos (fun h => hn ((bound_eq_zero contrast).1 h))]
      simp only [bytes3, ints3, VideoFrame.rgb, toUInt8_cast, toSizeT_cast]
    rw [adjustContrast_adjustable L T self contrast hn hfmt, e2]
    exact ⟨rfl, adjust_loop L self.m_format _ _ _ hfit y x hy hx⟩

theorem toGrayScale_rgb (L : Layout) (self : VideoFrame) (gray : Bool)
    (hfmt : self.m_format.fourcc ∈ m_adjustFormats)
    (hfit : L.PlaneFits self.m_format 0
      (3 * self.m_format.width.toNat) self.m_format.height.toNat)
    (y x : Nat) (hy : (y : Int) < self.m_format.height) (hx : (x : Int) < self.m_format.width) :
    (if gray = true then self.toGrayScale L else self).m_format = self.m_format ∧
      (if gray = true then self.toGrayScale L else self).rgb L y x
        = bytes3 (stageGray gray (ints3 (self.rgb L y x))) := by
  cases gray
  · simp only [Bool.false_eq_true, if_false, stageGray, bytes3_ints3]
    exact ⟨trivial, trivial⟩
  · simp only [if_true, stageGray]
    rw [toGrayScale_adjustable L self hfmt]
    exact ⟨rfl, adjust_loop L self.m_format _ _ _ hfit y x hy hx⟩

theorem adjust_rgb (L : Layout) (T : Tables) (self : VideoFrame)
    (hue saturation luminance gamma contrast : Int) (gray : Bool)
    (hfmt : self.m_format.fourcc ∈ m_adjustFormats)
    (hfit : L.PlaneFits self.m_format 0
      (3 * self.m_format.width.toNat) self.m_format.height.toNat)
    (y x : Nat) (hy : (y : Int) < self.m_format.height) (hx : (x : Int) < self.m_format.width) :
    (self.adjust L T hue saturation luminance gamma contrast gray).m_format = self.m_format ∧
      (self.adjust L T hue saturation luminance gamma contrast gray).rgb L y x
        = bytes3 (stageGray gray (stageContrast T contrast (stageGamma T gamma
            (stageHsl hue saturation luminance (ints3 (self.rgb L y x)))))) := by
  by_cases hn : hue = 0 ∧ saturation = 0 ∧ luminance = 0 ∧ gamma = 0 ∧ contrast = 0
      ∧ (!gray) = true
  · have e : self.adjust L T hue saturation luminance gamma contrast gray = self := by
      unfold VideoFrame.adjust
      rw [if_pos hn]
    obtain ⟨h1, h2, h3, h4, h5, h6⟩ := hn
    have hg : gray = false := by
      cases gray
      · rfl
      · exact absurd h6 (by decide)
    subst h1 h2 h3 h4 h5 hg
    have e2 : stageGray false (stageContrast T 0 (stageGamma T 0
        (stageHsl 0 0 0 (ints3 (self.rgb L y x))))) = ints3 (self.rgb L y x) := by
      simp [stageGray, stageContrast, stageGamma, stageHsl, bound]
    rw [e, e2, bytes3_ints3]
    exact ⟨rfl, rfl⟩
  · rw [adjust_adjustable L T self hue saturation luminance gamma contrast gray hn hfmt]
    exact ⟨rfl, adjust_loop L self.m_format _ _ _ hfit y x hy hx⟩

/-- C18: for a BGR24 or RGB24 frame and all arguments, the fused `adjust(hue, saturation,
luminance, gamma, contrast, gray)` returns a frame with the format of, and at every pixel
inside the frame the same three bytes as, the sequential composition `adjustHsl(hue,
saturation, luminance)`, then `adjustGamma(gamma)`, then `adjustContrast(contrast)`, then
`toGrayScale()` only when `gray` is true. -/
theorem adjust_fused (L : Layout) (T : Tables) (self : VideoFrame)
    (hue saturation luminance gamma contrast : Int) (gray : Bool) (y x : Nat)
    (hfmt : self.m_format.fourcc = PixelFormatBGR24 ∨ self.m_format.fourcc = PixelFormatRGB24)
    (hy : (y : Int) < self.m_format.height) (hx : (x : Int) < self.m_format.width)
    (hfit : L.PlaneFits self.m_format 0
      (3 * self.m_format.width.toNat) self.m_format.height.toNat) :
    (self.adjust L T hue saturation luminance gamma contrast gray).m_format
        = (if gray = true then
            (((self.adjustHsl L hue saturation luminance).adjustGamma L T gamma).adjustContrast
              L T contrast).toGrayScale L
          else ((self.adjustHsl L hue saturation luminance).adjustGamma L T gamma).adjustContrast
              L T contrast).m_format ∧
      ∀ k : Nat, k < 3 →
        (self.adjust L T hue saturation luminance gamma contrast gray).field L y 3 x k
          = (if gray = true then
              (((self.adjustHsl L hue saturation luminance).adjustGamma L T gamma).adjustContrast
                L T contrast).toGrayScale L
            else ((self.adjustHsl L hue saturation luminance).adjustGamma L T gamma).adjustContrast
                L T contrast).field L y 3 x k := by
  have ha := adjustable_of _ hfmt
  obtain ⟨f0, p0⟩ := adjust_rgb L T self hue saturation luminance gamma contrast gray ha hfit
    y x hy hx
  obtain ⟨f1, p1⟩ := adjustHsl_rgb L self hue saturation luminance ha hfit y x hy hx
  obtain ⟨f2, p2⟩ := adjustGamma_rgb L T (self.adjustHsl L hue saturation luminance) gamma
    (by rw [f1]; exact ha) (by rw [f1]; exact hfit) y x (by rw [f1]; exact hy)
    (by rw [f1]; exact hx)
  have g2 : ((self.adjustHsl L hue saturation luminance).adjustGamma L T gamma).m_format
      = self.m_format := by rw [f2, f1]
  obtain ⟨f3, p3⟩ := adjustContrast_rgb L T
    ((self.adjustHsl L hue saturation luminance).adjustGamma L T gamma) contrast
    (by rw [g2]; exact ha) (by rw [g2]; exact hfit) y x (by rw [g2]; exact hy)
    (by rw [g2]; exact hx)
  have g3 : (((self.adjustHsl L hue saturation luminance).adjustGamma L T gamma).adjustContrast
      L T contrast).m_format = self.m_format := by rw [f3, g2]
  obtain ⟨f4, p4⟩ := toGrayScale_rgb L
    (((self.adjustHsl L hue saturation luminance).adjustGamma L T gamma).adjustContrast
      L T contrast) gray
    (by rw [g3]; exact ha) (by rw [g3]; exact hfit) y x (by rw [g3]; exact hy)
    (by rw [g3]; exact hx)
  have r0 := ints3_range (self.rgb L y x)
  have r1 := stageHsl_range hue saturation luminance _ r0
  have r2 := stageGamma_range T gamma _ r1
  have r3 := stageContrast_range T contrast _ r2
  have hrgb : (self.adjust L T hue saturation luminance gamma contrast gray).rgb L y x
      = (if gray = true then
          (((self.adjustHsl L hue saturation luminance).adjustGamma L T gamma).adjustContrast
            L T contrast).toGrayScale L
        else ((self.adjustHsl L hue saturation luminance).adjustGamma L T gamma).adjustContrast
            L T contrast).rgb L y x := by
    rw [p0, p4, p3, p2, p1, ints3_bytes3 _ r1, ints3_bytes3 _ r2, ints3_bytes3 _ r3]
  refine ⟨by rw [f0, f4, g3], ?_⟩
  intro k hk
  simp only [VideoFrame.rgb, Prod.mk.injEq, RGB24.sizeof, RGB24.r, RGB24.g, RGB24.b] at hrgb
  interval_cases k
  · exact hrgb.2.2
  · exact hrgb.2.1
  · exact hrgb.1

/-- Witness for C18: pixel (1, 1) of the 2x2 RGB24 sample frame, with hue 30, saturation 10,
luminance -5, gamma 20, contrast -30 and `gray` set, over constant tables of `511 * 256`
entries. -/
theorem adjust_fused_witness :
    (1 : Int) < (sampleFrame PixelFormatRGB24).m_format.height ∧
      ∀ k : Nat, k < 3 →
        ((sampleFrame PixelFormatRGB24).adjust specLayout constTables 30 10 (-5) 20 (-30)
            true).field specLayout 1 3 1 k
          = (if true = true then
              ((((sampleFrame PixelFormatRGB24).adjustHsl specLayout 30 10 (-5)).adjustGamma
                specLayout constTables 20).adjustContrast
                specLayout constTables (-30)).toGrayScale specLayout
            else (((sampleFrame PixelFormatRGB24).adjustHsl specLayout 30 10 (-5)).adjustGamma
                specLayout constTables 20).adjustContrast
                specLayout constTables (-30)).field specLayout 1 3 1 k :=
  ⟨by decide,
    (adjust_fused specLayout constTables (sampleFrame PixelFormatRGB24)
      30 10 (-5) 20 (-30) true 1 1 (Or.inr rfl) (by decide) (by decide)
      (by unfold Layout.PlaneFits; decide)).2⟩

/-! ## The YUV formulas -/

/-- C34: for `r`, `g`, `b` in `[0, 255]`, with `>> 8` the arithmetic shift (floor division by
256), the value converted to a byte by `rgb_y` lies in `[16, 235]` and the values converted by
`rgb_u` and `rgb_v` lie in `[16, 240]`, so the conversion to `uint8_t` keeps them; black maps
to `(16, 128, 128)` and white to `(235, 128, 128)`. -/
theorem rgb_yuv_range (r g b : Int) (hr : 0 ≤ r ∧ r ≤ 255) (hg : 0 ≤ g ∧ g ≤ 255)
    (hb : 0 ≤ b ∧ b ≤ 255) :
    (16 ≤ ((66 * r + 129 * g + 25 * b + 128) >>> (8 : Nat)) + 16 ∧
      ((66 * r + 129 * g + 25 * b + 128) >>> (8 : Nat)) + 16 ≤ 235 ∧
      ((rgb_y r g b).val : Int) = ((66 * r + 129 * g + 25 * b + 128) >>> (8 : Nat)) + 16) ∧
    (16 ≤ ((-38 * r - 74 * g + 112 * b + 128) >>> (8 : Nat)) + 128 ∧
      ((-38 * r - 74 * g + 112 * b + 128) >>> (8 : Nat)) + 128 ≤ 240 ∧
      ((rgb_u r g b).val : Int) = ((-38 * r - 74 * g + 112 * b + 128) >>> (8 : Nat)) + 128) ∧
    (16 ≤ ((112 * r - 94 * g - 18 * b + 128) >>> (8 : Nat)) + 128 ∧
      ((112 * r - 94 * g - 18 * b + 128) >>> (8 : Nat)) + 128 ≤ 240 ∧
      ((rgb_v r g b).val : Int) = ((112 * r - 94 * g - 18 * b + 128) >>> (8 : Nat)) + 128) ∧
    (rgb_y 0 0 0, rgb_u 0 0 0, rgb_v 0 0 0) = (16, 128, 128) ∧
    (rgb_y 255 255 255, rgb_u 255 255 255, rgb_v 255 255 255) = (235, 128, 128) := by
  obtain ⟨hr0, hr1⟩ := hr
  obtain ⟨hg0, hg1⟩ := hg
  obtain ⟨hb0, hb1⟩ := hb
  have ey : 16 ≤ ((66 * r + 129 * g + 25 * b + 128) >>> (8 : Nat)) + 16 ∧
      ((66 * r + 129 * g + 25 * b + 128) >>> (8 : Nat)) + 16 ≤ 235 := by
    rw [Int.shiftRight_eq_div_pow]
    omega
  have eu : 16 ≤ ((-38 * r - 74 * g + 112 * b + 128) >>> (8 : Nat)) + 128 ∧
      ((-38 * r - 74 * g + 112 * b + 128) >>> (8 : Nat)) + 128 ≤ 240 := by
    rw [Int.shiftRight_eq_div_pow]
    omega
  have ev : 16 ≤ ((112 * r - 94 * g - 18 * b + 128) >>> (8 : Nat)) + 128 ∧
      ((112 * r - 94 * g - 18 * b + 128) >>> (8 : Nat)) + 128 ≤ 240 := by
    rw [Int.shiftRight_eq_div_pow]
    omega
  refine ⟨⟨ey.1, ey.2, ?_⟩, ⟨eu.1, eu.2, ?_⟩, ⟨ev.1, ev.2, ?_⟩, by decide, by decide⟩
  · exact toUInt8_of_byte _ (by omega) (by omega)
  · exact toUInt8_of_byte _ (by omega) (by omega)
  · exact toUInt8_of_byte _ (by omega) (by omega)

/-- Witness for C34: the pixel `(200, 100, 50)`. -/
theorem rgb_yuv_range_witness :
    ((0 : Int) ≤ 200 ∧ (200 : Int) ≤ 255) ∧
      ((rgb_y 200 100 50).val : Int)
        = ((66 * 200 + 129 * 100 + 25 * 50 + 128) >>> (8 : Nat)) + 16 :=
  ⟨by decide, (rgb_yuv_range 200 100 50 (by decide) (by decide) (by decide)).1.2.2⟩

/-! ## The HSL conversions -/

/-- C36: for `h` in `[0, 360)` and `s`, `l` in `[0, 255]`, the values `r`, `g`, `b` stored by
`hslToRgb` lie in `[0, 255]`; hence the byte casts of `adjustHsl` keep them, and as table
indices in `adjust` the values `offset | r` (for an offset `size_t(level + 255) << 8` of a
clamped level) stay in the 256 entries that start at the offset. -/
theorem hslToRgb_bytes (h s l : Int) (hh : 0 ≤ h ∧ h < 360) (hs : 0 ≤ s ∧ s ≤ 255)
    (hl : 0 ≤ l ∧ l ≤ 255) :
    ((0 ≤ (hslToRgb h s l).1 ∧ (hslToRgb h s l).1 ≤ 255) ∧
      (0 ≤ (hslToRgb h s l).2.1 ∧ (hslToRgb h s l).2.1 ≤ 255) ∧
      (0 ≤ (hslToRgb h s l).2.2 ∧ (hslToRgb h s l).2.2 ≤ 255)) ∧
    (((toUInt8 (hslToRgb h s l).1).val : Int) = (hslToRgb h s l).1 ∧
      ((toUInt8 (hslToRgb h s l).2.1).val : Int) = (hslToRgb h s l).2.1 ∧
      ((toUInt8 (hslToRgb h s l).2.2).val : Int) = (hslToRgb h s l).2.2) ∧
    (∀ (level : Int) (v : Int),
      v = (hslToRgb h s l).1 ∨ v = (hslToRgb h s l).2.1 ∨ v = (hslToRgb h s l).2.2 →
      toSizeT (bound (-255) level 255 + 255) <<< 8 ≤
          ((toSizeT (bound (-255) level 255 + 255) <<< 8) ||| toSizeT v) ∧
        ((toSizeT (bound (-255) level 255 + 255) <<< 8) ||| toSizeT v)
          < (toSizeT (bound (-255) level 255 + 255) <<< 8) + 256) := by
  have hr := hslToRgb_range h s l hh.1 hs.1 hs.2 hl.1 hl.2
  refine ⟨hr, ⟨toUInt8_of_byte _ hr.1.1 hr.1.2, toUInt8_of_byte _ hr.2.1.1 hr.2.1.2,
    toUInt8_of_byte _ hr.2.2.1 hr.2.2.2⟩, ?_⟩
  intro level v hv
  have hv0 : 0 ≤ v ∧ v ≤ 255 := by
    rcases hv with e | e | e <;> rw [e]
    · exact hr.1
    · exact hr.2.1
    · exact hr.2.2
  have hz : toSizeT v < 2 ^ 8 := by
    unfold toSizeT
    omega
  rw [tableOffset_eq, ← Nat.mul_add_lt_is_or hz]
  omega

/-- Witness for C36: hue 20, saturation 153, luminance 125. -/
theorem hslToRgb_bytes_witness :
    ((0 : Int) ≤ 20 ∧ (20 : Int) < 360) ∧
      ((0 ≤ (hslToRgb 20 153 125).1 ∧ (hslToRgb 20 153 125).1 ≤ 255) ∧
        (0 ≤ (hslToRgb 20 153 125).2.1 ∧ (hslToRgb 20 153 125).2.1 ≤ 255) ∧
        (0 ≤ (hslToRgb 20 153 125).2.2 ∧ (hslToRgb 20 153 125).2.2 ≤ 255)) :=
  ⟨by decide, (hslToRgb_bytes 20 153 125 (by decide) (by decide) (by decide)).1⟩

theorem rgbToHsl_gray (v : Int) (hv : 0 ≤ v) : rgbToHsl v v v = (0, 0, v) := by
  unfold rgbToHsl
  simp only [max_self, min_self, sub_self, if_true]
  have e : (v + v).tdiv 2 = v := by
    rw [Int.tdiv_eq_ediv (by omega) (by decide)]
    omega
  rw [e]

theorem hslToRgb_gray (h v : Int) (hv : 0 ≤ v) : hslToRgb h 0 v = (v, v, v) := by
  unfold hslToRgb
  simp only [Int.zero_mul, Int.zero_tdiv, Int.sub_zero]
  have e : (2 * 0 + 2 * v).tdiv 2 = v := by
    rw [Int.tdiv_eq_ediv (by omega) (by decide)]
    omega
  split_ifs <;> simp only [e]

/-- C37: gray pixels are fixed points of the hue rotation. For a BGR24 or RGB24 frame, every
integer hue, every saturation `<= 0` and luminance 0, not all zero, a pixel inside the frame
whose members `r`, `g`, `b` are equal has the same three members in the frame returned by
`adjustHsl(hue, saturation, 0)`. -/
theorem adjustHsl_gray_fixed (L : Layout) (self : VideoFrame) (hue saturation : Int)
    (y x : Nat)
    (hfmt : self.m_format.fourcc = PixelFormatBGR24 ∨ self.m_format.fourcc = PixelFormatRGB24)
    (hsat : saturation ≤ 0) (hn : ¬ (hue = 0 ∧ saturation = 0))
    (hy : (y : Int) < self.m_format.height) (hx : (x : Int) < self.m_format.width)
    (hfit : L.PlaneFits self.m_format 0
      (3 * self.m_format.width.toNat) self.m_format.height.toNat)
    (hgray : self.field L y RGB24.sizeof x RGB24.r = self.field L y RGB24.sizeof x RGB24.g ∧
      self.field L y RGB24.sizeof x RGB24.g = self.field L y RGB24.sizeof x RGB24.b) :
    (self.adjustHsl L hue saturation 0).field L y RGB24.sizeof x RGB24.r
        = self.field L y RGB24.sizeof x RGB24.r ∧
      (self.adjustHsl L hue saturation 0).field L y RGB24.sizeof x RGB24.g
        = self.field L y RGB24.sizeof x RGB24.g ∧
      (self.adjustHsl L hue saturation 0).field L y RGB24.sizeof x RGB24.b
        = self.field L y RGB24.sizeof x RGB24.b := by
  have ha := adjustable_of _ hfmt
  have p := (adjustHsl_rgb L self hue saturation 0 ha hfit y x hy hx).2
  have hv := (self.field L y RGB24.sizeof x RGB24.r).isLt
  have e : stageHsl hue saturation 0 (ints3 (self.rgb L y x)) = ints3 (self.rgb L y x) := by
    unfold stageHsl
    rw [if_pos (by omega)]
    unfold hslPixel ints3 VideoFrame.rgb
    simp only [← hgray.2, ← hgray.1]
    rw [rgbToHsl_gray _ (by omega)]
    have es : bound 0 (0 + saturation) 255 = 0 := by
      unfold bound
      split_ifs <;> omega
    have el : bound 0 ((self.field L y RGB24.sizeof x RGB24.r).val + 0) 255
        = (self.field L y RGB24.sizeof x RGB24.r).val := by
      unfold bound
      split_ifs <;> omega
    simp only [es, el]
    rw [hslToRgb_gray _ _ (by omega)]
  rw [e, bytes3_ints3] at p
  simp only [VideoFrame.rgb, Prod.mk.injEq] at p
  exact p

/-- Witness for C37: the gray pixel (0, 0) of a 2x2 RGB24 frame, hue 90 and saturation -10. -/
theorem adjustHsl_gray_fixed_witness :
    (-10 : Int) ≤ 0 ∧
      (grayFrame.adjustHsl specLayout 90 (-10) 0).field specLayout 0 RGB24.sizeof 0 RGB24.r
        = grayFrame.field specLayout 0 RGB24.sizeof 0 RGB24.r :=
  ⟨by decide,
    (adjustHsl_gray_fixed specLayout grayFrame 90 (-10) 0 0 (Or.inr rfl) (by decide)
      (by decide) (by decide) (by decide) (by unfold Layout.PlaneFits; decide)
      (by decide)).1⟩

theorem tmod_gt_neg (v m : Int) (hm : 0 < m) : -m < v.tmod m := by
  by_cases hv : 0 ≤ v
  · have := Int.tmod_nonneg m hv
    omega
  · have e : v.tmod m = -((-v) % m) := by
      rw [Int.tmod_def, tdiv_of_nonpos v m (by omega) (by omega), Int.emod_def]
      ring
    have h1 := Int.emod_lt_of_pos (-v) hm
    omega

/-- `mod(value, mod)` lies in `[0, mod)` for a positive modulus. -/
theorem mod_range (v m : Int) (hm : 0 < m) : 0 ≤ mod v m ∧ mod v m < m := by
  unfold mod
  have h1 := tmod_gt_neg v m hm
  rw [Int.tmod_eq_emod (by omega) (by omega)]
  exact ⟨Int.emod_nonneg _ (by omega), Int.emod_lt_of_pos _ hm⟩

theorem hue_of_sector (t c : Int) (hc : 0 < c) (ht0 : 0 ≤ t) (ht : t < 6 * c) :
    0 ≤ (60 * t).tdiv c ∧ (60 * t).tdiv c < 360 := by
  rw [Int.tdiv_eq_ediv (by omega) (by omega)]
  exact ⟨Int.ediv_nonneg (by omega) (by omega), Int.ediv_lt_of_lt_mul hc (by omega)⟩

/-- The values stored by `rgbToHsl` for `r`, `g`, `b` in `[0, 255]`: when the chroma
`c = max - min` is not 0 the divisors `6 c` and `255 - abs(max + min - 255)` are not 0, and
`0 <= h < 360`, `0 <= s <= 255` and `0 <= l <= 255`; for a gray input `r = g = b = v` the
values are `(0, 0, v)`. -/
theorem rgbToHsl_range (r g b : Int) (hr : 0 ≤ r ∧ r ≤ 255) (hg : 0 ≤ g ∧ g ≤ 255)
    (hb : 0 ≤ b ∧ b ≤ 255) :
    (Max.max r (Max.max g b) - Min.min r (Min.min g b) ≠ 0 →
      6 * (Max.max r (Max.max g b) - Min.min r (Min.min g b)) ≠ 0 ∧
      255 - c_abs (Max.max r (Max.max g b) + Min.min r (Min.min g b) - 255) ≠ 0) ∧
    (0 ≤ (rgbToHsl r g b).1 ∧ (rgbToHsl r g b).1 < 360) ∧
    (0 ≤ (rgbToHsl r g b).2.1 ∧ (rgbToHsl r g b).2.1 ≤ 255) ∧
    (0 ≤ (rgbToHsl r g b).2.2 ∧ (rgbToHsl r g b).2.2 ≤ 255) ∧
    (r = g → g = b → rgbToHsl r g b = (0, 0, r)) := by
  have hfacts : (Min.min r (Min.min g b) ≤ r ∧ Min.min r (Min.min g b) ≤ g
      ∧ Min.min r (Min.min g b) ≤ b) ∧
      (r ≤ Max.max r (Max.max g b) ∧ g ≤ Max.max r (Max.max g b)
        ∧ b ≤ Max.max r (Max.max g b)) ∧
      (0 ≤ Min.min r (Min.min g b) ∧ Max.max r (Max.max g b) ≤ 255) ∧
      (Max.max r (Max.max g b) = r ∨ Max.max r (Max.max g b) = g
        ∨ Max.max r (Max.max g b) = b) := by
    omega
  have hgray : r = g → g = b → rgbToHsl r g b = (0, 0, r) := by
    intro h1 h2
    subst h1 h2
    exact rgbToHsl_gray r hr.1
  refine ⟨?_, ?_⟩
  · intro hc
    refine ⟨by omega, ?_⟩
    unfold c_abs
    split_ifs <;> omega
  suffices h : (0 ≤ (rgbToHsl r g b).1 ∧ (rgbToHsl r g b).1 < 360) ∧
      (0 ≤ (rgbToHsl r g b).2.1 ∧ (rgbToHsl r g b).2.1 ≤ 255) ∧
      (0 ≤ (rgbToHsl r g b).2.2 ∧ (rgbToHsl r g b).2.2 ≤ 255) from ⟨h.1, h.2.1, h.2.2, hgray⟩
  unfold rgbToHsl
  simp only []
  generalize Max.max r (Max.max g b) = M at hfacts ⊢
  generalize Min.min r (Min.min g b) = m at hfacts ⊢
  obtain ⟨⟨m1, m2, m3⟩, ⟨M1, M2, M3⟩, ⟨m0, M0⟩, hMax⟩ := hfacts
  have hl : 0 ≤ (M + m).tdiv 2 ∧ (M + m).tdiv 2 ≤ 255 := by
    rw [Int.tdiv_eq_ediv (by omega) (by decide)]
    omega
  by_cases hc : M - m = 0
  · rw [if_pos hc]
    exact ⟨⟨le_refl _, show (0 : Int) < 360 by decide⟩,
      ⟨le_refl _, show (0 : Int) ≤ 255 by decide⟩, hl⟩
  · rw [if_neg hc]
    have hcpos : 0 < M - m := by omega
    have hD : M - m ≤ 255 - c_abs (M + m - 255) := by
      unfold c_abs
      split_ifs <;> omega
    have hs : 0 ≤ (255 * (M - m)).tdiv (255 - c_abs (M + m - 255)) ∧
        (255 * (M - m)).tdiv (255 - c_abs (M + m - 255)) ≤ 255 := by
      rw [Int.tdiv_eq_ediv (by omega) (by omega)]
      exact ⟨Int.ediv_nonneg (by omega) (by omega),
        Int.ediv_le_of_le_mul (by omega) (by omega)⟩
    have ht : 0 ≤ (if M = r then mod (g - b) (6 * (M - m))
          else if M = g then b - r + 2 * (M - m) else r - g + 4 * (M - m)) ∧
        (if M = r then mod (g - b) (6 * (M - m))
          else if M = g then b - r + 2 * (M - m) else r - g + 4 * (M - m)) < 6 * (M - m) := by
      split_ifs with h1 h2
      · exact mod_range _ _ (by omega)
      · omega
      · omega
    exact ⟨hue_of_sector _ _ hcpos ht.1 ht.2, hs, hl⟩

/-! ## The bilinear weights -/

theorem extrapolateUp_weights (dstCoord num den : Int) (hnum : 0 < num) (hden : num ≤ den)
    (hd0 : 0 ≤ dstCoord) :
    1 ≤ (extrapolateUp dstCoord num den 0).2.2.2 ∧
      0 ≤ (extrapolateUp dstCoord num den 0).2.2.1 ∧
      (extrapolateUp dstCoord num den 0).2.2.1 ≤ (extrapolateUp dstCoord num den 0).2.2.2 := by
  have hnd : 0 ≤ num * dstCoord := Int.mul_nonneg (by omega) hd0
  have hq0 : 0 ≤ num * dstCoord / den := Int.ediv_nonneg hnd (by omega)
  have hdq : 0 ≤ den * (num * dstCoord / den) := Int.mul_nonneg (by omega) hq0
  have hdq1 : 0 ≤ den * (num * dstCoord / den + 1) := Int.mul_nonneg (by omega) (by omega)
  have e : extrapolateUp dstCoord num den 0
      = (num * dstCoord / den, num * dstCoord / den + 1,
          dstCoord - den * (num * dstCoord / den) / num,
          den * (num * dstCoord / den + 1) / num - den * (num * dstCoord / den) / num) := by
    unfold extrapolateUp
    simp only [Int.add_zero, Int.sub_zero]
    rw [Int.tdiv_eq_ediv hnd (by omega), Int.tdiv_eq_ediv hdq (by omega),
      Int.tdiv_eq_ediv hdq1 (by omega)]
  rw [e]
  simp only []
  have h1 : num * dstCoord / den * den ≤ num * dstCoord := Int.ediv_mul_le _ (by omega)
  have h2 : num * dstCoord < (num * dstCoord / den + 1) * den :=
    Int.lt_ediv_add_one_mul_self _ (by omega)
  have a1 : den * (num * dstCoord / den) / num ≤ dstCoord := by
    apply Int.ediv_le_of_le_mul hnum
    rw [Int.mul_comm den, Int.mul_comm dstCoord]
    exact h1
  have a2 : dstCoord ≤ den * (num * dstCoord / den + 1) / num := by
    apply Int.le_ediv_of_mul_le hnum
    rw [Int.mul_comm den, Int.mul_comm dstCoord]
    exact Int.le_of_lt h2
  have a3 : den * (num * dstCoord / den) / num + 1
      ≤ den * (num * dstCoord / den + 1) / num := by
    have e3 : den * (num * dstCoord / den) / num + 1
        = (den * (num * dstCoord / den) + 1 * num) / num := by
      rw [Int.add_mul_ediv_right _ _ (by omega)]
    rw [e3]
    apply Int.ediv_le_ediv hnum
    rw [Int.mul_add, Int.mul_one, Int.one_mul]
    omega
  omega

theorem extrapolateComponent_eq (a b : uint8_t) (kNum kDen : Int) (hDen : 1 ≤ kDen)
    (hNum0 : 0 ≤ kNum) (hNum : kNum ≤ kDen) :
    ((extrapolateComponent a b kNum kDen).val : Int)
        = (kNum * (b.val : Int) + (kDen - kNum) * (a.val : Int)) / kDen ∧
      (Min.min a.val b.val : Int) ≤ (kNum * (b.val : Int) + (kDen - kNum) * (a.val : Int)) / kDen ∧
      (kNum * (b.val : Int) + (kDen - kNum) * (a.val : Int)) / kDen ≤ (Max.max a.val b.val : Int) := by
  have ha := a.isLt
  have hb := b.isLt
  have hsum : kNum * ((b.val : Int) - (a.val : Int)) + kDen * (a.val : Int)
      = kNum * (b.val : Int) + (kDen - kNum) * (a.val : Int) := by ring
  have hlo : (Min.min a.val b.val : Int) * kDen
      ≤ kNum * (b.val : Int) + (kDen - kNum) * (a.val : Int) := by
    have h1 : kNum * (Min.min a.val b.val : Int) ≤ kNum * (b.val : Int) :=
      Int.mul_le_mul_of_nonneg_left (by omega) hNum0
    have h2 : (kDen - kNum) * (Min.min a.val b.val : Int) ≤ (kDen - kNum) * (a.val : Int) :=
      Int.mul_le_mul_of_nonneg_left (by omega) (by omega)
    have h3 : (Min.min a.val b.val : Int) * kDen
        = kNum * (Min.min a.val b.val : Int) + (kDen - kNum) * (Min.min a.val b.val : Int) := by
      ring
    omega
  have hhi : kNum * (b.val : Int) + (kDen - kNum) * (a.val : Int)
      ≤ (Max.max a.val b.val : Int) * kDen := by
    have h1 : kNum * (b.val : Int) ≤ kNum * (Max.max a.val b.val : Int) :=
      Int.mul_le_mul_of_nonneg_left (by omega) hNum0
    have h2 : (kDen - kNum) * (a.val : Int) ≤ (kDen - kNum) * (Max.max a.val b.val : Int) :=
      Int.mul_le_mul_of_nonneg_left (by omega) (by omega)
    have h3 : (Max.max a.val b.val : Int) * kDen
        = kNum * (Max.max a.val b.val : Int) + (kDen - kNum) * (Max.max a.val b.val : Int) := by
      ring
    omega
  have hnn : 0 ≤ kNum * (b.val : Int) + (kDen - kNum) * (a.val : Int) :=
    Int.add_nonneg (Int.mul_nonneg hNum0 (by omega)) (Int.mul_nonneg (by omega) (by omega))
  have lo := Int.le_ediv_of_mul_le (by omega : 0 < kDen) hlo
  have hi := Int.ediv_le_of_le_mul (by omega : 0 < kDen) hhi
  refine ⟨?_, lo, hi⟩
  unfold extrapolateComponent
  rw [hsum, Int.tdiv_eq_ediv hnn (by omega)]
  exact toUInt8_of_byte _ (by omega) (by omega)

/-! ## The geometry of `AspectRatioKeep` -/

/-- The centred interval `[(a - b) / (2 n), (a + b) / (2 n))` computed for `AspectRatioKeep`
inside `[0, a / n)`, for `0 < b < a` and `a = t n`. -/
theorem centred_interval (t n a b : Int) (hn : 0 < n) (ha : a = t * n) (hb : 0 < b)
    (hba : b < a) :
    0 ≤ (a - b).tdiv (2 * n) ∧ (a - b).tdiv (2 * n) ≤ (a + b).tdiv (2 * n) ∧
      (a + b).tdiv (2 * n) ≤ t ∧
      (t - (a + b).tdiv (2 * n) - (a - b).tdiv (2 * n) = 0
        ∨ t - (a + b).tdiv (2 * n) - (a - b).tdiv (2 * n) = 1) ∧
      -n < ((a + b).tdiv (2 * n) - (a - b).tdiv (2 * n)) * n - b ∧
      ((a + b).tdiv (2 * n) - (a - b).tdiv (2 * n)) * n - b < n := by
  rw [Int.tdiv_eq_ediv (by omega) (by omega), Int.tdiv_eq_ediv (by omega) (by omega)]
  have h2n : 0 < 2 * n := by omega
  have e1 := Int.emod_add_ediv (a - b) (2 * n)
  have e2 := Int.emod_add_ediv (a + b) (2 * n)
  have r1 := Int.emod_nonneg (a - b) (by omega : 2 * n ≠ 0)
  have r1' := Int.emod_lt_of_pos (a - b) h2n
  have r2 := Int.emod_nonneg (a + b) (by omega : 2 * n ≠ 0)
  have r2' := Int.emod_lt_of_pos (a + b) h2n
  have q1 : 0 ≤ (a - b) / (2 * n) := Int.ediv_nonneg (by omega) (by omega)
  have q12 : (a - b) / (2 * n) ≤ (a + b) / (2 * n) := Int.ediv_le_ediv h2n (by omega)
  have hk0 : 0 ≤ t - (a + b) / (2 * n) - (a - b) / (2 * n) := by
    by_contra hneg
    have hk : t - (a + b) / (2 * n) - (a - b) / (2 * n) ≤ -1 := by omega
    nlinarith
  have hk1 : t - (a + b) / (2 * n) - (a - b) / (2 * n) ≤ 1 := by
    by_contra hneg
    have hk : 2 ≤ t - (a + b) / (2 * n) - (a - b) / (2 * n) := by omega
    nlinarith
  refine ⟨q1, q12, by omega, by omega, ?_, ?_⟩
  · nlinarith
  · nlinarith

/-- The geometry of `AspectRatioKeep` over `Int`, where no product overflows, for a source
`W x H` and a target `w x h`, all positive. When `w H > W h` the columns satisfy
`0 <= xDstMin <= xDstMax <= w`, the right margin minus the left margin is 0 or 1, the width
`xDstMax - xDstMin` differs from `W h / H` by less than 1, and the rows span the full height;
symmetrically for the rows when `w H < W h`. -/
theorem keep_geometry (W H w h : Int) (mode : Scaling) (g : ScaledGeometry)
    (hW : 0 < W) (hH : 0 < H) (hw : 0 < w) (hh : 0 < h)
    (hg : g = scaledGeometry W H w h mode AspectRatio.AspectRatioKeep) :
    (w * H > W * h →
      (0 ≤ g.xDstMin ∧ g.xDstMin ≤ g.xDstMax ∧ g.xDstMax ≤ w) ∧
      ((w - g.xDstMax) - g.xDstMin = 0 ∨ (w - g.xDstMax) - g.xDstMin = 1) ∧
      (-H < (g.xDstMax - g.xDstMin) * H - W * h ∧ (g.xDstMax - g.xDstMin) * H - W * h < H) ∧
      g.yDstMin = 0 ∧ g.yDstMax = h) ∧
    (w * H < W * h →
      (0 ≤ g.yDstMin ∧ g.yDstMin ≤ g.yDstMax ∧ g.yDstMax ≤ h) ∧
      ((h - g.yDstMax) - g.yDstMin = 0 ∨ (h - g.yDstMax) - g.yDstMin = 1) ∧
      (-W < (g.yDstMax - g.yDstMin) * W - w * H ∧ (g.yDstMax - g.yDstMin) * W - w * H < W) ∧
      g.xDstMin = 0 ∧ g.xDstMax = w) := by
  subst hg
  constructor
  · intro c
    rw [scaledGeometry_keep_wide W H w h mode c]
    obtain ⟨a1, a2, a3, a4, a5, a6⟩ := centred_interval w H (w * H) (W * h) hH rfl
      (Int.mul_pos hW hh) c
    exact ⟨⟨a1, a2, a3⟩, a4, ⟨a5, a6⟩, rfl, rfl⟩
  · intro c
    rw [scaledGeometry_keep_tall W H w h mode c]
    obtain ⟨a1, a2, a3, a4, a5, a6⟩ := centred_interval h W (W * h) (w * H) hW
      (Int.mul_comm W h) (Int.mul_pos hw hH) c
    exact ⟨⟨a1, a2, a3⟩, a4, ⟨a5, a6⟩, rfl, rfl⟩

/-! ## Exact aspect match -/

theorem scaledGeometry_exact (W H w h : Int) (mode : Scaling) (aspectRatio : AspectRatio)
    (c : w * H = W * h) :
    scaledGeometry W H w h mode aspectRatio
      = { xDstMin := 0, xDstMax := w, yDstMin := 0, yDstMax := h,
          xNum := W - 1, xDen := w - 1, xs := 0, yNum := H - 1, yDen := h - 1, ys := 0 } := by
  cases aspectRatio <;> simp [scaledGeometry, c]

/-- The frame returned by `scaled` depends on the aspect policy only through the geometry. -/
theorem scaled_of_geometry (L : Layout) (self : VideoFrame) (width height : Int)
    (mode : Scaling) (a1 a2 : AspectRatio)
    (hg : scaledGeometry self.m_format.width self.m_format.height width height mode a1
      = scaledGeometry self.m_format.width self.m_format.height width height mode a2) :
    self.scaled L width height mode a1 = self.scaled L width height mode a2 := by
  by_cases hne : self.m_format.width = width ∧ self.m_format.height = height
  · unfold VideoFrame.scaled
    rw [if_pos hne, if_pos hne]
  · by_cases hfmt : self.m_format.fourcc ∈ m_adjustFormats
    · cases mode
      · rw [scaled_fast L self width height a1 _ rfl hne hfmt,
          scaled_fast L self width height a2 _ hg hne hfmt]
      · rw [scaled_linear L self width height a1 _ rfl hne hfmt,
          scaled_linear L self width height a2 _ hg hne hfmt]
    · unfold VideoFrame.scaled
      rw [if_neg hne, if_neg hne, if_pos hfmt, if_pos hfmt]

/-- C33: exact aspect match is policy-independent. For every frame of size `W x H` and every
target `(w, h)` with `w H = W h`, `scaled(w, h, mode, aspect)` returns the same frame for the
policies `AspectRatioIgnore`, `AspectRatioKeep` and `AspectRatioExpanding`, in each of the two
scaling modes. -/
theorem scaled_exact_aspect (L : Layout) (self : VideoFrame) (width height : Int)
    (mode : Scaling) (c : width * self.m_format.height = self.m_format.width * height) :
    self.scaled L width height mode AspectRatio.AspectRatioKeep
        = self.scaled L width height mode AspectRatio.AspectRatioIgnore ∧
      self.scaled L width height mode AspectRatio.AspectRatioExpanding
        = self.scaled L width height mode AspectRatio.AspectRatioIgnore := by
  constructor
  · apply scaled_of_geometry
    rw [scaledGeometry_exact _ _ _ _ _ _ c, scaledGeometry_exact _ _ _ _ _ _ c]
  · apply scaled_of_geometry
    rw [scaledGeometry_exact _ _ _ _ _ _ c, scaledGeometry_exact _ _ _ _ _ _ c]

/-- Witness for C33: the 2x2 RGB24 sample frame scaled to 4x4 in `ScalingLinear` mode. -/
theorem scaled_exact_aspect_witness :
    (4 : Int) * (sampleFrame PixelFormatRGB24).m_format.height
        = (sampleFrame PixelFormatRGB24).m_format.width * 4 ∧
      (sampleFrame PixelFormatRGB24).scaled specLayout 4 4 Scaling.ScalingLinear
          AspectRatio.AspectRatioExpanding
        = (sampleFrame PixelFormatRGB24).scaled specLayout 4 4 Scaling.ScalingLinear
          AspectRatio.AspectRatioIgnore :=
  ⟨by decide,
    (scaled_exact_aspect specLayout (sampleFrame PixelFormatRGB24) 4 4 Scaling.ScalingLinear
      (by decide)).2⟩

/-! ## Linear enlargement at the last column -/

/-- C31, the code at the failing input: for a 2x2 source enlarged to 3x3 in `ScalingLinear`
mode under `AspectRatioIgnore` the geometry is `xNum = 1`, `xDen = 2`, `xs = 0` (and the same
for the rows), and for the last destination column `x = 2` `extrapolateUp` stores
`xMin = 1`, `xMax = 2`, `kNum = 0`, `kDen = 2`: the corner column `xMax = 2` passed to
`extrapolateColor` is the source width, outside `[0, 1]`. The same holds for the last row. -/
theorem linear_enlarge_last_column :
    scaledGeometry 2 2 3 3 Scaling.ScalingLinear AspectRatio.AspectRatioIgnore
        = { xDstMin := 0, xDstMax := 3, yDstMin := 0, yDstMax := 3,
            xNum := 1, xDen := 2, xs := 0, yNum := 1, yDen := 2, ys := 0 } ∧
      extrapolateUp (2 - 0) 1 2 0 = (1, 2, 0, 2) := by
  decide

/-! ## The adjustment pipeline of the stream -/

theorem int32_of_range (v : Int) (h0 : -2147483648 ≤ v) (h1 : v ≤ 2147483647) :
    int32 v = v := by
  unfold int32
  omega

theorem int32_range (v : Int) : -2147483648 ≤ int32 v ∧ int32 v ≤ 2147483647 := by
  unfold int32
  omega

theorem int32_emod (v : Int) : int32 v % 4294967296 = v % 4294967296 := by
  unfold int32
  omega

/-- The reduction to 32 bits depends on the value modulo `2^32` only, so it may be applied to
the operands of `+`, `-` and `*` or once to the result. -/
theorem int32_congr (a b : Int) (h : a % 4294967296 = b % 4294967296) : int32 a = int32 b := by
  unfold int32
  omega

theorem int32_add (a b : Int) : int32 (int32 a + int32 b) = int32 (a + b) := by
  apply int32_congr
  rw [Int.add_emod, int32_emod, int32_emod, ← Int.add_emod]

theorem int32_sub (a b : Int) : int32 (int32 a - int32 b) = int32 (a - b) := by
  apply int32_congr
  rw [Int.sub_emod, int32_emod, int32_emod, ← Int.sub_emod]

theorem int32_mul (a b : Int) : int32 (int32 a * int32 b) = int32 (a * b) := by
  apply int32_congr
  rw [Int.mul_emod, int32_emod, int32_emod, ← Int.mul_emod]

theorem cdiv_of_pos (a b : Int) (hb : 0 < b) : cdiv a b = some (a.tdiv b) := by
  unfold cdiv
  rw [if_neg (by omega)]

theorem cmod_of_pos (a b : Int) (hb : 0 < b) : cmod a b = some (a.tmod b) := by
  unfold cmod
  rw [if_neg (by omega)]

theorem cdiv_zero (a : Int) : cdiv a 0 = none := by
  unfold cdiv
  rw [if_pos (Or.inl rfl)]

theorem forLoopT_some {σ : Type} (n : Int) (s : σ) (bodyT : Nat → σ → Option σ)
    (body : Nat → σ → σ)
    (h : ∀ (i : Nat) (s : σ), (i : Int) < n → bodyT i s = some (body i s)) :
    forLoopT n s bodyT = some (forLoop n s body) := by
  unfold forLoopT forLoop
  have key : ∀ m : Nat, m ≤ n.toNat →
      (List.range m).foldl (fun s i => s.bind (bodyT i)) (some s)
        = some ((List.range m).foldl (fun s i => body i s) s) := by
    intro m
    induction m with
    | zero => intro _; rfl
    | succ m ih =>
      intro hm
      rw [List.range_succ, List.foldl_append, List.foldl_append, ih (by omega)]
      simp only [List.foldl_cons, List.foldl_nil, Option.some_bind]
      exact h m _ (by omega)
  exact key _ le_rfl

theorem forLoopT_congr {σ : Type} (n : Int) (s : σ) (b1 b2 : Nat → σ → Option σ)
    (h : ∀ (i : Nat) (s : σ), (i : Int) < n → b1 i s = b2 i s) :
    forLoopT n s b1 = forLoopT n s b2 := by
  unfold forLoopT forLoop
  have key : ∀ m : Nat, m ≤ n.toNat →
      (List.range m).foldl (fun s i => s.bind (b1 i)) (some s)
        = (List.range m).foldl (fun s i => s.bind (b2 i)) (some s) := by
    intro m
    induction m with
    | zero => intro _; rfl
    | succ m ih =>
      intro hm
      rw [List.range_succ, List.foldl_append, List.foldl_append, ih (by omega)]
      simp only [List.foldl_cons, List.foldl_nil]
      cases (List.range m).foldl (fun s i => s.bind (b2 i)) (some s) with
      | none => rfl
      | some d => exact h m d (by omega)
  exact key _ le_rfl

theorem forLoopT_isSome {σ : Type} (n : Int) (s : σ) (body : Nat → σ → Option σ)
    (h : ∀ (i : Nat) (s : σ), (i : Int) < n → ∃ s', body i s = some s') :
    ∃ r, forLoopT n s body = some r := by
  unfold forLoopT forLoop
  have key : ∀ m : Nat, m ≤ n.toNat →
      ∃ r, (List.range m).foldl (fun s i => s.bind (body i)) (some s) = some r := by
    intro m
    induction m with
    | zero => intro _; exact ⟨s, rfl⟩
    | succ m ih =>
      intro hm
      obtain ⟨r, hr⟩ := ih (by omega)
      rw [List.range_succ, List.foldl_append, hr]
      simp only [List.foldl_cons, List.foldl_nil, Option.some_bind]
      exact h m r (by omega)
  exact key _ le_rfl

/-! ## The bilinear weights in machine arithmetic -/

/-- When `num * dstCoord + den` does not exceed `INT_MAX`, `extrapolateUp` computes in
machine arithmetic what it computes over `Int`. -/
theorem machine_extrapolateUp (dstCoord num den : Int) (hnum : 0 < num) (hden : num ≤ den)
    (hd0 : 0 ≤ dstCoord) (hb : num * dstCoord + den ≤ 2147483647) :
    Machine.extrapolateUp dstCoord num den 0 = some (extrapolateUp dstCoord num den 0) := by
  have hnd : 0 ≤ num * dstCoord := Int.mul_nonneg (by omega) hd0
  have hq0 : 0 ≤ num * dstCoord / den := Int.ediv_nonneg hnd (by omega)
  have hdq : 0 ≤ den * (num * dstCoord / den) := Int.mul_nonneg (by omega) hq0
  have hdq1 : 0 ≤ den * (num * dstCoord / den + 1) := Int.mul_nonneg (by omega) (by omega)
  have h1 : num * dstCoord / den * den ≤ num * dstCoord := Int.ediv_mul_le _ (by omega)
  have h1' : den * (num * dstCoord / den) ≤ num * dstCoord := by
    rw [Int.mul_comm]
    exact h1
  have h2 : den * (num * dstCoord / den + 1) = den * (num * dstCoord / den) + den := by ring
  have hqd : num * dstCoord / den ≤ den * (num * dstCoord / den) := by
    have := Int.mul_le_mul_of_nonneg_right (show 1 ≤ den by omega) hq0
    omega
  have hdn : dstCoord ≤ num * dstCoord := by
    have := Int.mul_le_mul_of_nonneg_right (show 1 ≤ num by omega) hd0
    omega
  have a0 : 0 ≤ den * (num * dstCoord / den) / num := Int.ediv_nonneg hdq (by omega)
  have a1 : den * (num * dstCoord / den) / num ≤ dstCoord := by
    apply Int.ediv_le_of_le_mul hnum
    rw [Int.mul_comm den, Int.mul_comm dstCoord]
    exact h1
  have b0 : 0 ≤ den * (num * dstCoord / den + 1) / num := Int.ediv_nonneg hdq1 (by omega)
  have b1 : den * (num * dstCoord / den + 1) / num ≤ den * (num * dstCoord / den + 1) :=
    Int.ediv_le_self _ hdq1
  have e1 : int32 (num * dstCoord) = num * dstCoord :=
    int32_of_range _ (by omega) (by omega)
  have t1 : (num * dstCoord).tdiv den = num * dstCoord / den :=
    Int.tdiv_eq_ediv hnd (by omega)
  have e2 : int32 (num * dstCoord / den + 1) = num * dstCoord / den + 1 :=
    int32_of_range _ (by omega) (by omega)
  have e3 : int32 (den * (num * dstCoord / den)) = den * (num * dstCoord / den) :=
    int32_of_range _ (by omega) (by omega)
  have t3 : (den * (num * dstCoord / den)).tdiv num = den * (num * dstCoord / den) / num :=
    Int.tdiv_eq_ediv hdq (by omega)
  have e4 : int32 (den * (num * dstCoord / den + 1)) = den * (num * dstCoord / den + 1) :=
    int32_of_range _ (by omega) (by omega)
  have t4 : (den * (num * dstCoord / den + 1)).tdiv num
      = den * (num * dstCoord / den + 1) / num := Int.tdiv_eq_ediv hdq1 (by omega)
  have e5 : int32 (dstCoord - den * (num * dstCoord / den) / num)
      = dstCoord - den * (num * dstCoord / den) / num :=
    int32_of_range _ (by omega) (by omega)
  have e6 : int32 (den * (num * dstCoord / den + 1) / num - den * (num * dstCoord / den) / num)
      = den * (num * dstCoord / den + 1) / num - den * (num * dstCoord / den) / num :=
    int32_of_range _ (by omega) (by omega)
  unfold Machine.extrapolateUp extrapolateUp
  simp only [e1, cdiv_of_pos _ _ (show 0 < den by omega), cdiv_of_pos _ _ hnum, t1, e2, e3, t3,
    e4, t4, e5, e6, Option.bind_eq_bind, Option.some_bind, Option.pure_def, Int.add_zero,
    Int.sub_zero]

/-- When `255 kDen` does not exceed `INT_MAX`, `extrapolateComponent` computes in machine
arithmetic what it computes over `Int`. -/
theorem machine_extrapolateComponent (a b : uint8_t) (kNum kDen : Int) (hDen : 1 ≤ kDen)
    (hNum0 : 0 ≤ kNum) (hNum : kNum ≤ kDen) (hk : 255 * kDen ≤ 2147483647) :
    Machine.extrapolateComponent a b kNum kDen = some (extrapolateComponent a b kNum kDen) := by
  have ha := a.isLt
  have hb := b.isLt
  have hsum : kNum * ((b.val : Int) - (a.val : Int)) + kDen * (a.val : Int)
      = kNum * (b.val : Int) + (kDen - kNum) * (a.val : Int) := by ring
  have h1 : 0 ≤ kNum * (b.val : Int) := Int.mul_nonneg hNum0 (by omega)
  have h2 : 0 ≤ (kDen - kNum) * (a.val : Int) := Int.mul_nonneg (by omega) (by omega)
  have h3 : kNum * (b.val : Int) ≤ kNum * 255 :=
    Int.mul_le_mul_of_nonneg_left (by omega) hNum0
  have h4 : (kDen - kNum) * (a.val : Int) ≤ (kDen - kNum) * 255 :=
    Int.mul_le_mul_of_nonneg_left (by omega) (by omega)
  have e : int32 (kNum * ((b.val : Int) - (a.val : Int)) + kDen * (a.val : Int))
      = kNum * ((b.val : Int) - (a.val : Int)) + kDen * (a.val : Int) := by
    apply int32_of_range
    · rw [hsum]
      omega
    · rw [hsum]
      omega
  unfold Machine.extrapolateComponent extrapolateComponent
  simp only [e, cdiv_of_pos _ _ (show 0 < kDen by omega), Option.bind_eq_bind,
    Option.some_bind, Option.pure_def]

/-- C40 (as amended): bilinear weights never overshoot while the products fit the type
`int`. For `0 < num <= den`, `s = 0` and `0 <= dstCoord` with
`num * dstCoord + den <= INT_MAX`, `extrapolateUp` stores `kDen >= 1` and
`0 <= kNum <= kDen`; and for bytes `a`, `b` and weights with `kDen >= 1`,
`0 <= kNum <= kDen` and `255 kDen <= INT_MAX`, `extrapolateComponent(a, b, kNum, kDen)` is
`floor((kNum b + (kDen - kNum) a) / kDen)`, lies between `min(a, b)` and `max(a, b)`, is `a`
when `kNum = 0` and `b` when `kNum = kDen`. No division of either function has a zero
divisor. -/
theorem weights_in_range (dstCoord num den : Int) (a b : uint8_t) (kNum kDen : Int)
    (hnum : 0 < num) (hden : num ≤ den) (hd0 : 0 ≤ dstCoord)
    (hb : num * dstCoord + den ≤ 2147483647)
    (hDen : 1 ≤ kDen) (hNum0 : 0 ≤ kNum) (hNum : kNum ≤ kDen)
    (hk : 255 * kDen ≤ 2147483647) :
    (∃ srcCoordMin srcCoordMax kN kD : Int,
      Machine.extrapolateUp dstCoord num den 0 = some (srcCoordMin, srcCoordMax, kN, kD) ∧
        1 ≤ kD ∧ 0 ≤ kN ∧ kN ≤ kD) ∧
    (∃ c : uint8_t, Machine.extrapolateComponent a b kNum kDen = some c ∧
      (c.val : Int) = (kNum * (b.val : Int) + (kDen - kNum) * (a.val : Int)) / kDen ∧
      (Min.min a.val b.val : Int) ≤ (c.val : Int) ∧ (c.val : Int) ≤ (Max.max a.val b.val : Int) ∧
      (kNum = 0 → c = a) ∧ (kNum = kDen → c = b)) := by
  have hu := extrapolateUp_weights dstCoord num den hnum hden hd0
  have hc := extrapolateComponent_eq a b kNum kDen hDen hNum0 hNum
  refine ⟨⟨_, _, _, _, machine_extrapolateUp dstCoord num den hnum hden hd0 hb, hu⟩,
    ⟨_, machine_extrapolateComponent a b kNum kDen hDen hNum0 hNum hk, hc.1, ?_, ?_, ?_, ?_⟩⟩
  · rw [hc.1]
    exact hc.2.1
  · rw [hc.1]
    exact hc.2.2
  · intro h0
    subst h0
    apply Fin.ext
    have e := hc.1
    rw [Int.zero_mul, Int.zero_add, Int.sub_zero, Int.mul_ediv_cancel_left _ (by omega)] at e
    omega
  · intro h1
    subst h1
    apply Fin.ext
    have e := hc.1
    rw [Int.sub_self, Int.zero_mul, Int.add_zero, Int.mul_ediv_cancel_left _ (by omega)] at e
    omega

/-- Witness for C40 (as amended): destination coordinate 3 of an enlargement from 3 to 5
samples (`num = 2`, `den = 4`), and the bytes 10 and 200 with the weight 1/2. -/
theorem weights_in_range_witness :
    ((2 : Int) * 3 + 4 ≤ 2147483647 ∧ (255 : Int) * 2 ≤ 2147483647) ∧
      (∃ srcCoordMin srcCoordMax kN kD : Int,
        Machine.extrapolateUp 3 2 4 0 = some (srcCoordMin, srcCoordMax, kN, kD) ∧
          1 ≤ kD ∧ 0 ≤ kN ∧ kN ≤ kD) :=
  ⟨by decide,
    (weights_in_range 3 2 4 10 200 1 2 (by decide) (by decide) (by decide) (by decide)
      (by decide) (by decide) (by decide) (by decide)).1⟩

/-- Counterexample for C40 as stated: `num = 49999`, `den = 59999`, `s = 0` and
`dstCoord = 59999` satisfy `0 < num <= den` and `0 <= dstCoord <= den`, but the product
`num * dstCoord = 2999890001` does not fit the type `int`: it is reduced to `-1295077295`,
and `extrapolateUp` stores `srcCoordMin = -21584`, `kNum = 85899` and `kDen = 1`, so
`kNum > kDen`. -/
theorem weights_in_range_counterexample :
    ((0 : Int) < 49999 ∧ (49999 : Int) ≤ 59999 ∧ (0 : Int) ≤ 59999 ∧ (59999 : Int) ≤ 59999) ∧
      Machine.extrapolateUp 59999 49999 59999 0 = some (-21584, -21583, 85899, 1) ∧
      ¬ ((85899 : Int) ≤ 1) := by
  decide

/-! ## The geometry of `scaled` in machine arithmetic -/

theorem machine_geometry_ignore (W H w h : Int) (mode : Scaling)
    (hW : -2147483647 ≤ W ∧ W ≤ 2147483647) (hH : -2147483647 ≤ H ∧ H ≤ 2147483647)
    (hw : -2147483647 ≤ w ∧ w ≤ 2147483647) (hh : -2147483647 ≤ h ∧ h ≤ 2147483647) :
    Machine.scaledGeometry W H w h mode AspectRatio.AspectRatioIgnore
      = some (scaledGeometry W H w h mode AspectRatio.AspectRatioIgnore) := by
  have e1 : int32 (W - 1) = W - 1 := int32_of_range _ (by omega) (by omega)
  have e2 : int32 (H - 1) = H - 1 := int32_of_range _ (by omega) (by omega)
  have e3 : int32 (w - 1) = w - 1 := int32_of_range _ (by omega) (by omega)
  have e4 : int32 (h - 1) = h - 1 := int32_of_range _ (by omega) (by omega)
  rw [scaledGeometry_ignore]
  simp [Machine.scaledGeometry, e1, e2, e3, e4]

theorem machine_geometry_keep (W H w h : Int) (mode : Scaling)
    (hW : 1 ≤ W) (hH : 1 ≤ H) (hw : 1 ≤ w) (hh : 1 ≤ h)
    (hsum : w * H + W * h ≤ 2147483647) (h2H : 2 * H ≤ 2147483647)
    (h2W : 2 * W ≤ 2147483647) :
    Machine.scaledGeometry W H w h mode AspectRatio.AspectRatioKeep
      = some (scaledGeometry W H w h mode AspectRatio.AspectRatioKeep) := by
  have p1 : 0 < w * H := Int.mul_pos (by omega) (by omega)
  have p2 : 0 < W * h := Int.mul_pos (by omega) (by omega)
  have q1 : w ≤ w * H := by
    have := Int.mul_le_mul_of_nonneg_left hH (show 0 ≤ w by omega)
    omega
  have q2 : h ≤ W * h := by
    have := Int.mul_le_mul_of_nonneg_right hW (show 0 ≤ h by omega)
    omega
  have q3 : H ≤ w * H := by
    have := Int.mul_le_mul_of_nonneg_right hw (show 0 ≤ H by omega)
    omega
  have q4 : W ≤ W * h := by
    have := Int.mul_le_mul_of_nonneg_left hh (show 0 ≤ W by omega)
    omega
  have e1 : int32 (w * H) = w * H := int32_of_range _ (by omega) (by omega)
  have e2 : int32 (W * h) = W * h := int32_of_range _ (by omega) (by omega)
  have e3 : int32 (w * H - W * h) = w * H - W * h := int32_of_range _ (by omega) (by omega)
  have e4 : int32 (w * H + W * h) = w * H + W * h := int32_of_range _ (by omega) (by omega)
  have e5 : int32 (W * h - w * H) = W * h - w * H := int32_of_range _ (by omega) (by omega)
  have e6 : int32 (W * h + w * H) = W * h + w * H := int32_of_range _ (by omega) (by omega)
  have e7 : int32 (2 * H) = 2 * H := int32_of_range _ (by omega) (by omega)
  have e8 : int32 (2 * W) = 2 * W := int32_of_range _ (by omega) (by omega)
  have e9 : int32 (W - 1) = W - 1 := int32_of_range _ (by omega) (by omega)
  have e10 : int32 (H - 1) = H - 1 := int32_of_range _ (by omega) (by omega)
  have e11 : int32 (w - 1) = w - 1 := int32_of_range _ (by omega) (by omega)
  have e12 : int32 (h - 1) = h - 1 := int32_of_range _ (by omega) (by omega)
  obtain ⟨⟨b1, b2, b3, b4⟩, -⟩ := scaledGeometry_keep W H w h mode hW hH hw hh _ rfl
  rcases Int.lt_trichotomy (w * H) (W * h) with c | c | c
  · have c1 : ¬ (W * h < w * H) := by omega
    rw [scaledGeometry_keep_tall W H w h mode c] at b3 b4 ⊢
    simp only [] at b3 b4
    have y0 : (W * h - w * H).tdiv (2 * W) ≤ W * h - w * H := by
      rw [Int.tdiv_eq_ediv (by omega) (by omega)]
      exact Int.ediv_le_self _ (by omega)
    have y1 : 0 ≤ (W * h + w * H).tdiv (2 * W) := Int.tdiv_nonneg (by omega) (by omega)
    have e13 : int32 ((W * h + w * H).tdiv (2 * W) - (W * h - w * H).tdiv (2 * W) - 1)
        = (W * h + w * H).tdiv (2 * W) - (W * h - w * H).tdiv (2 * W) - 1 :=
      int32_of_range _ (by omega) (by omega)
    simp [Machine.scaledGeometry, e1, e2, e5, e6, e8, e9, e10, e11, e13, c, c1,
      cdiv_of_pos _ _ (show 0 < 2 * W by omega)]
  · rw [scaledGeometry_keep_exact W H w h mode c]
    simp [Machine.scaledGeometry, e1, e2, e9, e10, e11, e12, c]
  · have c1 : ¬ (w * H < W * h) := by omega
    rw [scaledGeometry_keep_wide W H w h mode c] at b1 b2 ⊢
    simp only [] at b1 b2
    have x0 : (w * H - W * h).tdiv (2 * H) ≤ w * H - W * h := by
      rw [Int.tdiv_eq_ediv (by omega) (by omega)]
      exact Int.ediv_le_self _ (by omega)
    have x1 : 0 ≤ (w * H + W * h).tdiv (2 * H) := Int.tdiv_nonneg (by omega) (by omega)
    have e13 : int32 ((w * H + W * h).tdiv (2 * H) - (w * H - W * h).tdiv (2 * H) - 1)
        = (w * H + W * h).tdiv (2 * H) - (w * H - W * h).tdiv (2 * H) - 1 :=
      int32_of_range _ (by omega) (by omega)
    simp [Machine.scaledGeometry, e1, e2, e3, e4, e7, e9, e10, e12, e13, c, c1,
      cdiv_of_pos _ _ (show 0 < 2 * H by omega)]

/-- C32 (as amended): the geometry of `AspectRatioKeep` for a source `W x H` and a target
`w x h`, all positive, when `w H + W h`, `2 H` and `2 W` do not exceed `INT_MAX`: the block
divides by no zero, and when `w H > W h` the columns satisfy
`0 <= xDstMin <= xDstMax <= w`, the right margin `w - xDstMax` minus the left margin
`xDstMin` is 0 or 1, the width `xDstMax - xDstMin` differs from the exact width `W h / H` by
less than 1 (that is, `-H < (xDstMax - xDstMin) H - W h < H`), and the rows span the full
height; symmetrically for the rows when `w H < W h`. -/
theorem keep_geometry_in_range (W H w h : Int) (mode : Scaling)
    (hW : 0 < W) (hH : 0 < H) (hw : 0 < w) (hh : 0 < h)
    (hsum : w * H + W * h ≤ 2147483647) (h2H : 2 * H ≤ 2147483647)
    (h2W : 2 * W ≤ 2147483647) :
    ∃ g : ScaledGeometry,
      Machine.scaledGeometry W H w h mode AspectRatio.AspectRatioKeep = some g ∧
      (w * H > W * h →
        (0 ≤ g.xDstMin ∧ g.xDstMin ≤ g.xDstMax ∧ g.xDstMax ≤ w) ∧
        ((w - g.xDstMax) - g.xDstMin = 0 ∨ (w - g.xDstMax) - g.xDstMin = 1) ∧
        (-H < (g.xDstMax - g.xDstMin) * H - W * h ∧ (g.xDstMax - g.xDstMin) * H - W * h < H) ∧
        g.yDstMin = 0 ∧ g.yDstMax = h) ∧
      (w * H < W * h →
        (0 ≤ g.yDstMin ∧ g.yDstMin ≤ g.yDstMax ∧ g.yDstMax ≤ h) ∧
        ((h - g.yDstMax) - g.yDstMin = 0 ∨ (h - g.yDstMax) - g.yDstMin = 1) ∧
        (-W < (g.yDstMax - g.yDstMin) * W - w * H ∧ (g.yDstMax - g.yDstMin) * W - w * H < W) ∧
        g.xDstMin = 0 ∧ g.xDstMax = w) :=
  ⟨_, machine_geometry_keep W H w h mode hW hH hw hh hsum h2H h2W,
    keep_geometry W H w h mode _ hW hH hw hh rfl⟩

/-- Witness for C32 (as amended): a 4x3 source and the target 7x2, for which
`7 * 3 > 4 * 2`. -/
theorem keep_geometry_in_range_witness :
    ((0 : Int) < 4 ∧ (7 : Int) * 3 + 4 * 2 ≤ 2147483647 ∧ (7 : Int) * 3 > 4 * 2) ∧
      ∃ g : ScaledGeometry,
        Machine.scaledGeometry 4 3 7 2 Scaling.ScalingFast AspectRatio.AspectRatioKeep
          = some g ∧ 0 ≤ g.xDstMin ∧ g.xDstMin ≤ g.xDstMax ∧ g.xDstMax ≤ 7 :=
  ⟨by decide,
    (keep_geometry_in_range 4 3 7 2 Scaling.ScalingFast (by decide) (by decide) (by decide)
      (by decide) (by decide) (by decide) (by decide)).elim
      fun g hg => ⟨g, hg.1, (hg.2.1 (by decide)).1⟩⟩

/-- Counterexample for C32 as stated: for the source 60000x1 and the target 1x40000, all
positive, `w H = 1 < W h = 2400000000`, so the claim gives `xDstMin = 0` and `xDstMax = 1`;
but `W h` does not fit the type `int` and is reduced to `-1894967296`, the comparison
`w H > W h` holds in the code, and the block stores `xDstMin = 947483648` and
`xDstMax = -947483647`. -/
theorem keep_geometry_in_range_counterexample :
    ((0 : Int) < 60000 ∧ (0 : Int) < 1 ∧ (0 : Int) < 40000 ∧ (1 : Int) * 1 < 60000 * 40000) ∧
      Machine.scaledGeometry 60000 1 1 40000 Scaling.ScalingFast AspectRatio.AspectRatioKeep
        = some { xDstMin := 947483648, xDstMax := -947483647, yDstMin := 0, yDstMax := 40000,
                 xNum := 59999, xDen := -1894967296, xs := 0,
                 yNum := 0, yDen := 39999, ys := 0 } := by
  decide

/-! ## `scaled` in machine arithmetic -/

theorem toSizeT_of_nonneg (v : Int) (h0 : 0 ≤ v) (h1 : v ≤ 2147483647) :
    toSizeT v = v.toNat := by
  unfold toSizeT
  omega

theorem getPixelAt_of_nonneg (data : VideoData) (line : Nat) (x : Int) (hx : 0 ≤ x) :
    Machine.getPixelAt data line x = getPixel data line x.toNat := by
  unfold Machine.getPixelAt
  rw [if_pos (by omega)]
  have e : ((line : Int) + 3 * x).toNat = line + x.toNat * 3 := by omega
  simp only [getPixel, getField, e, RGB24.sizeof, Nat.zero_mul, Nat.add_zero]

theorem setPixelAt_of_nonneg (data : VideoData) (line : Nat) (x : Int) (v : RGB24Value)
    (hx : 0 ≤ x) : Machine.setPixelAt data line x v = setPixel data line x.toNat v := by
  unfold Machine.setPixelAt
  rw [if_pos (by omega)]
  have e : ((line : Int) + 3 * x).toNat = line + x.toNat * 3 := by omega
  simp only [setPixel, setField, e, RGB24.sizeof, Nat.zero_mul, Nat.add_zero]

/-- In `ScalingFast` mode, for an adjustable encoding and a size other than the frame's own,
`scaled` returns in machine arithmetic the frame that it returns over `Int`, when the
geometry is the same, the destination rectangle starts at non-negative coordinates, both
divisors are positive and the dividends `xNum kx + xs` and `yNum ky + ys` lie in
`[0, INT_MAX]` for every destination pixel. -/
theorem machine_scaled_fast (L : Layout) (self : VideoFrame) (width height : Int)
    (aspectRatio : AspectRatio) (g : ScaledGeometry)
    (hm : Machine.scaledGeometry self.m_format.width self.m_format.height width height
      Scaling.ScalingFast aspectRatio = some g)
    (hg : g = scaledGeometry self.m_format.width self.m_format.height width height
      Scaling.ScalingFast aspectRatio)
    (hne : ¬ (self.m_format.width = width ∧ self.m_format.height = height))
    (hfmt : self.m_format.fourcc ∈ m_adjustFormats)
    (hx0 : 0 ≤ g.xDstMin) (hy0 : 0 ≤ g.yDstMin)
    (hy1 : g.yDstMax ≤ 2147483647)
    (hxd : 0 < g.xDen) (hyd : 0 < g.yDen)
    (hxr : ∀ kx : Nat, (kx : Int) < g.xDstMax - g.xDstMin →
      0 ≤ g.xNum * kx + g.xs ∧ g.xNum * kx + g.xs ≤ 2147483647)
    (hyr : ∀ ky : Nat, (ky : Int) < g.yDstMax - g.yDstMin →
      0 ≤ g.yNum * ky + g.ys ∧ g.yNum * ky + g.ys ≤ 2147483647) :
    Machine.VideoFrame.scaled L self width height Scaling.ScalingFast aspectRatio
      = some (self.scaled L width height Scaling.ScalingFast aspectRatio) := by
  rw [scaled_fast L self width height aspectRatio g hg hne hfmt]
  unfold Machine.VideoFrame.scaled
  rw [if_neg hne, if_neg (not_not.2 hfmt), hm]
  simp only [Option.bind_eq_bind, Option.some_bind, Option.pure_def]
  rw [forLoopT_some _ _ _ (fun ky data =>
    forLoop (g.xDstMax - g.xDstMin) data fun kx data =>
      setPixel data
        (L.offset { self.m_format with width := width, height := height } 0
          + (g.yDstMin + ky).toNat
            * L.bypl { self.m_format with width := width, height := height } 0)
        (g.xDstMin + kx).toNat
        (getPixel self.m_data
          (self.line L 0 ((g.yNum * (g.yDstMin + ky - g.yDstMin) + g.ys).tdiv g.yDen).toNat)
          ((g.xNum * (g.xDstMin + kx - g.xDstMin) + g.xs).tdiv g.xDen).toNat))]
  · rfl
  · intro ky data hky
    have hy := hyr ky hky
    have ey : g.yDstMin + (ky : Int) - g.yDstMin = ky := by omega
    have e1 : int32 (g.yNum * (ky : Int) + g.ys) = g.yNum * ky + g.ys :=
      int32_of_range _ (by omega) (by omega)
    have q0 : 0 ≤ (g.yNum * (ky : Int) + g.ys).tdiv g.yDen :=
      Int.tdiv_nonneg hy.1 (by omega)
    have q1 : (g.yNum * (ky : Int) + g.ys).tdiv g.yDen ≤ 2147483647 := by
      rw [Int.tdiv_eq_ediv hy.1 (by omega)]
      have := Int.ediv_le_self g.yDen hy.1
      omega
    simp only [Machine.srcCoord, ey, e1, cdiv_of_pos _ _ hyd, Option.some_bind]
    rw [forLoopT_some]
    intro kx data hkx
    have hx := hxr kx hkx
    have ex : g.xDstMin + (kx : Int) - g.xDstMin = kx := by omega
    have e2 : int32 (g.xNum * (kx : Int) + g.xs) = g.xNum * kx + g.xs :=
      int32_of_range _ (by omega) (by omega)
    have p0 : 0 ≤ (g.xNum * (kx : Int) + g.xs).tdiv g.xDen :=
      Int.tdiv_nonneg hx.1 (by omega)
    simp only [ex, e2, cdiv_of_pos _ _ hxd, Option.some_bind, ey,
      getPixelAt_of_nonneg _ _ _ p0,
      setPixelAt_of_nonneg _ _ _ _ (show 0 ≤ g.xDstMin + (kx : Int) by omega),
      toSizeT_of_nonneg _ q0 q1,
      toSizeT_of_nonneg _ (show 0 ≤ g.yDstMin + (ky : Int) by omega) (by omega)]
    rfl

/-- C20 (as amended): for a BGR24 or RGB24 frame of size `W x H` with `W, H >= 1` and a
target size `w x h` with `w, h >= 2` other than `W x H`, all of type `int`, such that
`(W-1)(w-1)` and `(H-1)(h-1)` do not exceed `INT_MAX`,
`scaled(w, h, ScalingFast, AspectRatioIgnore)` divides by no zero and returns a frame of the
source encoding and size `w x h` whose pixel `(x, y)` is the source pixel
`(floor((W-1) x / (w-1)), floor((H-1) y / (h-1)))`; these coordinates lie in `[0, W-1]` and
`[0, H-1]`, column 0 and row 0 sample column 0 and row 0, and column `w-1` and row `h-1`
sample column `W-1` and row `H-1`, so the four corners map to the four corners. -/
theorem scaled_fast_ignore_in_range (L : Layout) (self : VideoFrame) (width height : Int)
    (y x : Nat)
    (hfmt : self.m_format.fourcc = PixelFormatBGR24 ∨ self.m_format.fourcc = PixelFormatRGB24)
    (hW : 1 ≤ self.m_format.width ∧ self.m_format.width ≤ 2147483647)
    (hH : 1 ≤ self.m_format.height ∧ self.m_format.height ≤ 2147483647)
    (hw : 2 ≤ width ∧ width ≤ 2147483647) (hh : 2 ≤ height ∧ height ≤ 2147483647)
    (hbx : (self.m_format.width - 1) * (width - 1) ≤ 2147483647)
    (hby : (self.m_format.height - 1) * (height - 1) ≤ 2147483647)
    (hne : ¬ (self.m_format.width = width ∧ self.m_format.height = height))
    (hy : (y : Int) < height) (hx : (x : Int) < width)
    (hfit : L.PlaneFits { self.m_format with width := width, height := height } 0
      (3 * width.toNat) height.toNat) :
    ∃ r : VideoFrame,
      Machine.VideoFrame.scaled L self width height Scaling.ScalingFast
        AspectRatio.AspectRatioIgnore = some r ∧
      r.m_format = { self.m_format with width := width, height := height } ∧
      (∀ k : Nat, k < 3 →
        r.field L y 3 x k
          = self.field L ((self.m_format.height - 1) * y / (height - 1)).toNat 3
              ((self.m_format.width - 1) * x / (width - 1)).toNat k) ∧
      (0 ≤ (self.m_format.width - 1) * x / (width - 1) ∧
        (self.m_format.width - 1) * x / (width - 1) ≤ self.m_format.width - 1 ∧
        0 ≤ (self.m_format.height - 1) * y / (height - 1) ∧
        (self.m_format.height - 1) * y / (height - 1) ≤ self.m_format.height - 1) ∧
      ((x = 0 → (self.m_format.width - 1) * x / (width - 1) = 0) ∧
        ((x : Int) = width - 1 →
          (self.m_format.width - 1) * x / (width - 1) = self.m_format.width - 1) ∧
        (y = 0 → (self.m_format.height - 1) * y / (height - 1) = 0) ∧
        ((y : Int) = height - 1 →
          (self.m_format.height - 1) * y / (height - 1) = self.m_format.height - 1)) := by
  have hg := scaledGeometry_ignore self.m_format.width self.m_format.height width height
    Scaling.ScalingFast
  have hm := machine_geometry_ignore self.m_format.width self.m_format.height width height
    Scaling.ScalingFast (by omega) (by omega) (by omega) (by omega)
  have hr : ∀ (n m : Int) (k : Nat), 0 ≤ n → n * (m - 1) ≤ 2147483647 → (k : Int) < m - 0 →
      0 ≤ n * k + 0 ∧ n * k + 0 ≤ 2147483647 := by
    intro n m k hn hnm hk
    have h1 : 0 ≤ n * (k : Int) := Int.mul_nonneg hn (Int.ofNat_nonneg k)
    have h2 : n * (k : Int) ≤ n * (m - 1) := Int.mul_le_mul_of_nonneg_left (by omega) hn
    omega
  have m1 := machine_scaled_fast L self width height AspectRatio.AspectRatioIgnore _ hm rfl hne
    (adjustable_of _ hfmt)
  rw [hg] at m1
  simp only [] at m1
  exact ⟨_, m1 (le_refl _) (le_refl _) hh.2 (show 0 < width - 1 by omega)
      (show 0 < height - 1 by omega) (fun kx hkx => hr _ _ kx (by omega) hbx hkx)
      (fun ky hky => hr _ _ ky (by omega) hby hky),
    scaled_fast_ignore L self width height y x hfmt hW.1 hH.1 hw.1 hh.1 hne hy hx hfit⟩

/-- Witness for C20 (as amended): pixel (4, 2) of the 2x2 RGB24 sample frame scaled to
5x3. -/
theorem scaled_fast_ignore_in_range_witness :
    ((2 : Int) ≤ 5 ∧ ((2 : Int) - 1) * (5 - 1) ≤ 2147483647) ∧
      ∃ r : VideoFrame,
        Machine.VideoFrame.scaled specLayout (sampleFrame PixelFormatRGB24) 5 3
          Scaling.ScalingFast AspectRatio.AspectRatioIgnore = some r ∧
        ∀ k : Nat, k < 3 →
          r.field specLayout 2 3 4 k
            = (sampleFrame PixelFormatRGB24).field specLayout
                (((sampleFrame PixelFormatRGB24).m_format.height - 1) * (2 : Nat) / (3 - 1)).toNat
                3
                (((sampleFrame PixelFormatRGB24).m_format.width - 1) * (4 : Nat) / (5 - 1)).toNat
                k :=
  ⟨by decide,
    (scaled_fast_ignore_in_range specLayout (sampleFrame PixelFormatRGB24) 5 3 2 4 (Or.inr rfl)
      (by decide) (by decide) (by decide) (by decide) (by decide) (by decide) (by decide)
      (by decide) (by decide) (by unfold Layout.PlaneFits; decide)).elim
      fun r hr => ⟨r, hr.1, hr.2.2.1⟩⟩

/-- Counterexample for C20 as stated: for a source 60000 pixels wide and 2 high and the
target 50000x2 the geometry is `xNum = 59999`, `xDen = 49999`, `xs = 0`, and for the
destination column 49999 the product `xNum * 49999 = 2999890001` does not fit the type
`int`: it is reduced to `-1295077295`, and the source column `srcX` computed by the
`ScalingFast` loop is `-25902`, outside the source, where the claim gives
`floor(59999 * 49999 / 49999) = 59999`. -/
theorem scaled_fast_ignore_in_range_counterexample :
    ((2 : Int) ≤ 50000 ∧ ¬ ((60000 : Int) = 50000 ∧ (2 : Int) = 2)) ∧
      (Machine.scaledGeometry 60000 2 50000 2 Scaling.ScalingFast
          AspectRatio.AspectRatioIgnore).bind
        (fun g => Machine.srcCoord g.xNum 49999 g.xDstMin g.xs g.xDen) = some (-25902) ∧
      ((60000 : Int) - 1) * 49999 / (50000 - 1) = 59999 := by
  decide

theorem int32_mul_int32_add (a d s : Int) : int32 (a * int32 d + s) = int32 (a * d + s) := by
  apply int32_congr
  rw [Int.add_emod, Int.mul_emod, int32_emod, ← Int.mul_emod, ← Int.add_emod]

theorem machine_geometry_mode (W H w h : Int) (mode : Scaling) (aspectRatio : AspectRatio)
    (ha : aspectRatio = AspectRatio.AspectRatioIgnore
      ∨ aspectRatio = AspectRatio.AspectRatioKeep) :
    Machine.scaledGeometry W H w h mode aspectRatio
      = Machine.scaledGeometry W H w h Scaling.ScalingFast aspectRatio := by
  rcases ha with ha | ha <;> subst ha <;> simp [Machine.scaledGeometry]

theorem machine_extrapolateComponent_down (a b : uint8_t) :
    Machine.extrapolateComponent a b 0 1 = some a := by
  have ha := a.isLt
  have e : int32 (0 * ((b.val : Int) - (a.val : Int)) + 1 * (a.val : Int)) = (a.val : Int) := by
    rw [Int.zero_mul, Int.zero_add, Int.one_mul]
    exact int32_of_range _ (by omega) (by omega)
  unfold Machine.extrapolateComponent
  simp only [e, cdiv_of_pos _ _ (show (0 : Int) < 1 by decide), Option.bind_eq_bind,
    Option.some_bind, Option.pure_def, Int.tdiv_one, toUInt8_cast]

theorem machine_extrapolateColor_down (L : Layout) (self : VideoFrame) (xMin yMin : Int) :
    Machine.VideoFrame.extrapolateColor L self xMin xMin 0 1 yMin yMin 0 1
      = some (Machine.getPixelAt self.m_data (self.line L 0 (toSizeT yMin)) xMin) := by
  simp only [Machine.VideoFrame.extrapolateColor, Machine.extrapolateColor,
    machine_extrapolateComponent_down, Option.bind_eq_bind, Option.some_bind, Option.pure_def]

/-- The result of `scaled` in machine arithmetic for an adjustable encoding, a size other
than the frame's own and a geometry `g`, in `ScalingFast` mode. -/
theorem machine_scaled_fast_loop (L : Layout) (self : VideoFrame) (width height : Int)
    (aspectRatio : AspectRatio) (g : ScaledGeometry)
    (hm : Machine.scaledGeometry self.m_format.width self.m_format.height width height
      Scaling.ScalingFast aspectRatio = some g)
    (hne : ¬ (self.m_format.width = width ∧ self.m_format.height = height))
    (hfmt : self.m_format.fourcc ∈ m_adjustFormats) :
    Machine.VideoFrame.scaled L self width height Scaling.ScalingFast aspectRatio
      = (forLoopT (g.yDstMax - g.yDstMin)
          (VideoFrame.ofFormat L { self.m_format with width := width, height := height }).m_data
          fun ky data =>
            (Machine.srcCoord g.yNum (g.yDstMin + ky) g.yDstMin g.ys g.yDen).bind fun srcY =>
              forLoopT (g.xDstMax - g.xDstMin) data fun kx data =>
                (Machine.srcCoord g.xNum (g.xDstMin + kx) g.xDstMin g.xs g.xDen).bind fun srcX =>
                  some (Machine.setPixelAt data
                    ((VideoFrame.ofFormat L
                      { self.m_format with width := width, height := height }).line L 0
                      (toSizeT (g.yDstMin + ky)))
                    (g.xDstMin + kx)
                    (Machine.getPixelAt self.m_data (self.line L 0 (toSizeT srcY)) srcX))).bind
        fun m_data =>
          some (VideoFrame.mk { self.m_format with width := width, height := height } m_data) := by
  unfold Machine.VideoFrame.scaled
  rw [if_neg hne, if_neg (not_not.2 hfmt), hm]
  rfl

/-- The result of `scaled` in machine arithmetic for an adjustable encoding, a size other
than the frame's own and a geometry `g`, in `ScalingLinear` mode when neither side grows. -/
theorem machine_scaled_linear_loop (L : Layout) (self : VideoFrame) (width height : Int)
    (aspectRatio : AspectRatio) (g : ScaledGeometry)
    (hm : Machine.scaledGeometry self.m_format.width self.m_format.height width height
      Scaling.ScalingLinear aspectRatio = some g)
    (hne : ¬ (self.m_format.width = width ∧ self.m_format.height = height))
    (hfmt : self.m_format.fourcc ∈ m_adjustFormats)
    (hw : ¬ self.m_format.width < width) (hh : ¬ self.m_format.height < height) :
    Machine.VideoFrame.scaled L self width height Scaling.ScalingLinear aspectRatio
      = (forLoopT (g.yDstMax - g.yDstMin)
          (VideoFrame.ofFormat L { self.m_format with width := width, height := height }).m_data
          fun ky data =>
            (Machine.extrapolateDown (int32 (g.yDstMin + ky - g.yDstMin)) g.yNum g.yDen
                g.ys).bind fun ey =>
              forLoopT (g.xDstMax - g.xDstMin) data fun kx data =>
                (Machine.extrapolateDown (int32 (g.xDstMin + kx - g.xDstMin)) g.xNum g.xDen
                    g.xs).bind fun ex =>
                  (Machine.VideoFrame.extrapolateColor L self ex.1 ex.2.1 ex.2.2.1 ex.2.2.2
                      ey.1 ey.2.1 ey.2.2.1 ey.2.2.2).bind fun color =>
                    some (Machine.setPixelAt data
                      ((VideoFrame.ofFormat L
                        { self.m_format with width := width, height := height }).line L 0
                        (toSizeT (g.yDstMin + ky)))
                      (g.xDstMin + kx) color)).bind
        fun m_data =>
          some (VideoFrame.mk { self.m_format with width := width, height := height } m_data) := by
  unfold Machine.VideoFrame.scaled
  rw [if_neg hne, if_neg (not_not.2 hfmt), hm]
  simp only [if_neg hw, if_neg hh]
  rfl

/-- When neither side grows, under `AspectRatioIgnore` or `AspectRatioKeep` and with both
divisors of the geometry at least 1, `scaled` returns a frame in `ScalingLinear` mode and in
`ScalingFast` mode, and it is the same frame. -/
theorem machine_scaled_linear_shrink (L : Layout) (self : VideoFrame) (width height : Int)
    (aspectRatio : AspectRatio) (g : ScaledGeometry)
    (hw : width ≤ self.m_format.width) (hh : height ≤ self.m_format.height)
    (ha : aspectRatio = AspectRatio.AspectRatioIgnore
      ∨ aspectRatio = AspectRatio.AspectRatioKeep)
    (hm : Machine.scaledGeometry self.m_format.width self.m_format.height width height
      Scaling.ScalingLinear aspectRatio = some g)
    (hxd : 1 ≤ g.xDen) (hyd : 1 ≤ g.yDen) :
    ∃ r : VideoFrame,
      Machine.VideoFrame.scaled L self width height Scaling.ScalingLinear aspectRatio = some r ∧
      Machine.VideoFrame.scaled L self width height Scaling.ScalingFast aspectRatio = some r := by
  by_cases hne : self.m_format.width = width ∧ self.m_format.height = height
  · refine ⟨self, ?_, ?_⟩ <;> unfold Machine.VideoFrame.scaled <;> rw [if_pos hne]
  · by_cases hfmt : self.m_format.fourcc ∈ m_adjustFormats
    · have hmf : Machine.scaledGeometry self.m_format.width self.m_format.height width height
          Scaling.ScalingFast aspectRatio = some g := by
        rw [← machine_geometry_mode _ _ _ _ _ _ ha]
        exact hm
      rw [machine_scaled_linear_loop L self width height aspectRatio g hm hne hfmt (by omega)
          (by omega),
        machine_scaled_fast_loop L self width height aspectRatio g hmf hne hfmt]
      have hloop : ∃ d, forLoopT (g.yDstMax - g.yDstMin)
          (VideoFrame.ofFormat L { self.m_format with width := width, height := height }).m_data
          (fun ky data =>
            (Machine.srcCoord g.yNum (g.yDstMin + ky) g.yDstMin g.ys g.yDen).bind fun srcY =>
              forLoopT (g.xDstMax - g.xDstMin) data fun kx data =>
                (Machine.srcCoord g.xNum (g.xDstMin + kx) g.xDstMin g.xs g.xDen).bind fun srcX =>
                  some (Machine.setPixelAt data
                    ((VideoFrame.ofFormat L
                      { self.m_format with width := width, height := height }).line L 0
                      (toSizeT (g.yDstMin + ky)))
                    (g.xDstMin + kx)
                    (Machine.getPixelAt self.m_data (self.line L 0 (toSizeT srcY)) srcX)))
          = some d := by
        apply forLoopT_isSome
        intro ky data _
        simp only [Machine.srcCoord, cdiv_of_pos _ _ (show 0 < g.yDen by omega),
          Option.some_bind]
        apply forLoopT_isSome
        intro kx data _
        simp only [cdiv_of_pos _ _ (show 0 < g.xDen by omega), Option.some_bind]
        exact ⟨_, rfl⟩
      obtain ⟨d, hd⟩ := hloop
      have hEq : forLoopT (g.yDstMax - g.yDstMin)
          (VideoFrame.ofFormat L { self.m_format with width := width, height := height }).m_data
          (fun ky data =>
            (Machine.extrapolateDown (int32 (g.yDstMin + ky - g.yDstMin)) g.yNum g.yDen
                g.ys).bind fun ey =>
              forLoopT (g.xDstMax - g.xDstMin) data fun kx data =>
                (Machine.extrapolateDown (int32 (g.xDstMin + kx - g.xDstMin)) g.xNum g.xDen
                    g.xs).bind fun ex =>
                  (Machine.VideoFrame.extrapolateColor L self ex.1 ex.2.1 ex.2.2.1 ex.2.2.2
                      ey.1 ey.2.1 ey.2.2.1 ey.2.2.2).bind fun color =>
                    some (Machine.setPixelAt data
                      ((VideoFrame.ofFormat L
                        { self.m_format with width := width, height := height }).line L 0
                        (toSizeT (g.yDstMin + ky)))
                      (g.xDstMin + kx) color))
          = some d := by
        rw [← hd]
        apply forLoopT_congr
        intro ky data _
        simp only [Machine.extrapolateDown, Machine.srcCoord, int32_mul_int32_add,
          Option.bind_eq_bind, Option.pure_def, Option.bind_assoc, Option.some_bind]
        congr 1
        funext srcY
        apply forLoopT_congr
        intro kx data _
        simp only [Option.bind_assoc, Option.some_bind, machine_extrapolateColor_down]
      rw [hEq, hd]
      exact ⟨_, rfl, rfl⟩
    · refine ⟨{}, ?_, ?_⟩ <;> unfold Machine.VideoFrame.scaled <;>
        rw [if_neg hne, if_pos hfmt]

theorem forLoopT_eq_of_some {σ : Type} (n : Int) (s : σ) (bodyT : Nat → σ → Option σ)
    (body : Nat → σ → σ) (r : σ)
    (h : ∀ (i : Nat) (s s' : σ), (i : Int) < n → bodyT i s = some s' → s' = body i s)
    (hr : forLoopT n s bodyT = some r) : r = forLoop n s body := by
  unfold forLoopT forLoop at *
  have key : ∀ m : Nat, m ≤ n.toNat → ∀ r,
      (List.range m).foldl (fun s i => s.bind (bodyT i)) (some s) = some r →
      r = (List.range m).foldl (fun s i => body i s) s := by
    intro m
    induction m with
    | zero =>
      intro _ r hr
      simp only [List.range_zero, List.foldl_nil, Option.some.injEq] at hr ⊢
      exact hr.symm
    | succ m ih =>
      intro hm r hr
      rw [List.range_succ, List.foldl_append] at hr ⊢
      simp only [List.foldl_cons, List.foldl_nil] at hr ⊢
      cases hp : (List.range m).foldl (fun s i => s.bind (bodyT i)) (some s) with
      | none =>
        rw [hp] at hr
        exact absurd hr (by simp)
      | some d =>
        rw [hp, Option.some_bind] at hr
        rw [← ih (by omega) d hp]
        exact h m d r (by omega) hr
  exact key _ le_rfl r hr

/-- The result of `scaled` in machine arithmetic for an adjustable encoding, a size other
than the frame's own and a geometry `g`, in `ScalingLinear` mode. -/
theorem machine_scaled_linear_form (L : Layout) (self : VideoFrame) (width height : Int)
    (aspectRatio : AspectRatio) (g : ScaledGeometry)
    (hm : Machine.scaledGeometry self.m_format.width self.m_format.height width height
      Scaling.ScalingLinear aspectRatio = some g)
    (hne : ¬ (self.m_format.width = width ∧ self.m_format.height = height))
    (hfmt : self.m_format.fourcc ∈ m_adjustFormats) :
    Machine.VideoFrame.scaled L self width height Scaling.ScalingLinear aspectRatio
      = (forLoopT (g.yDstMax - g.yDstMin)
          (VideoFrame.ofFormat L { self.m_format with width := width, height := height }).m_data
          fun ky data =>
            ((if self.m_format.height < height then Machine.extrapolateUp
                else Machine.extrapolateDown)
              (int32 (g.yDstMin + ky - g.yDstMin)) g.yNum g.yDen g.ys).bind fun ey =>
              forLoopT (g.xDstMax - g.xDstMin) data fun kx data =>
                ((if self.m_format.width < width then Machine.extrapolateUp
                    else Machine.extrapolateDown)
                  (int32 (g.xDstMin + kx - g.xDstMin)) g.xNum g.xDen g.xs).bind fun ex =>
                  (Machine.VideoFrame.extrapolateColor L self ex.1 ex.2.1 ex.2.2.1 ex.2.2.2
                      ey.1 ey.2.1 ey.2.2.1 ey.2.2.2).bind fun color =>
                    some (Machine.setPixelAt data
                      ((VideoFrame.ofFormat L
                        { self.m_format with width := width, height := height }).line L 0
                        (toSizeT (g.yDstMin + ky)))
                      (g.xDstMin + kx) color)).bind
        fun m_data =>
          some (VideoFrame.mk { self.m_format with width := width, height := height } m_data) := by
  unfold Machine.VideoFrame.scaled
  rw [if_neg hne, if_neg (not_not.2 hfmt), hm]
  rfl

/-- A frame returned by `scaled` in machine arithmetic in `ScalingLinear` mode has three zero
bytes at every pixel outside the destination rectangle of the geometry. -/
theorem machine_scaled_linear_outside (L : Layout) (self : VideoFrame) (width height : Int)
    (aspectRatio : AspectRatio) (g : ScaledGeometry) (r : VideoFrame)
    (hm : Machine.scaledGeometry self.m_format.width self.m_format.height width height
      Scaling.ScalingLinear aspectRatio = some g)
    (hne : ¬ (self.m_format.width = width ∧ self.m_format.height = height))
    (hfmt : self.m_format.fourcc ∈ m_adjustFormats)
    (hx0 : 0 ≤ g.xDstMin) (hx1 : g.xDstMax ≤ width) (hy0 : 0 ≤ g.yDstMin)
    (hy1 : g.yDstMax ≤ height) (hh : height ≤ 2147483647)
    (hfit : L.PlaneFits { self.m_format with width := width, height := height } 0
      (3 * width.toNat) height.toNat)
    (hr : Machine.VideoFrame.scaled L self width height Scaling.ScalingLinear aspectRatio
      = some r)
    (y x k : Nat) (hk : k < 3) (hx : (x : Int) < width)
    (hout : ¬ (g.yDstMin ≤ y ∧ (y : Int) < g.yDstMax ∧ g.xDstMin ≤ x ∧ (x : Int) < g.xDstMax)) :
    r.field L y 3 x k = 0 := by
  rw [machine_scaled_linear_form L self width height aspectRatio g hm hne hfmt] at hr
  cases hp : forLoopT (g.yDstMax - g.yDstMin)
      (VideoFrame.ofFormat L { self.m_format with width := width, height := height }).m_data
      (fun ky data =>
        ((if self.m_format.height < height then Machine.extrapolateUp
            else Machine.extrapolateDown)
          (int32 (g.yDstMin + ky - g.yDstMin)) g.yNum g.yDen g.ys).bind fun ey =>
          forLoopT (g.xDstMax - g.xDstMin) data fun kx data =>
            ((if self.m_format.width < width then Machine.extrapolateUp
                else Machine.extrapolateDown)
              (int32 (g.xDstMin + kx - g.xDstMin)) g.xNum g.xDen g.xs).bind fun ex =>
              (Machine.VideoFrame.extrapolateColor L self ex.1 ex.2.1 ex.2.2.1 ex.2.2.2
                  ey.1 ey.2.1 ey.2.2.1 ey.2.2.2).bind fun color =>
                some (Machine.setPixelAt data
                  ((VideoFrame.ofFormat L
                    { self.m_format with width := width, height := height }).line L 0
                    (toSizeT (g.yDstMin + ky)))
                  (g.xDstMin + kx) color)) with
  | none =>
    rw [hp] at hr
    exact absurd hr (by simp)
  | some d =>
    rw [hp, Option.some_bind, Option.some.injEq] at hr
    subst hr
    have hd := forLoopT_eq_of_some _ _ _
      (fun ky data => forLoop (g.xDstMax - g.xDstMin) data fun kx data =>
        setPixel data
          (L.offset { self.m_format with width := width, height := height } 0
            + (g.yDstMin + ky).toNat
              * L.bypl { self.m_format with width := width, height := height } 0)
          (g.xDstMin + kx).toNat
          ((((if self.m_format.height < height then Machine.extrapolateUp
                else Machine.extrapolateDown)
              (int32 (g.yDstMin + ky - g.yDstMin)) g.yNum g.yDen g.ys).bind fun ey =>
            ((if self.m_format.width < width then Machine.extrapolateUp
                else Machine.extrapolateDown)
              (int32 (g.xDstMin + kx - g.xDstMin)) g.xNum g.xDen g.xs).bind fun ex =>
              Machine.VideoFrame.extrapolateColor L self ex.1 ex.2.1 ex.2.2.1 ex.2.2.2
                ey.1 ey.2.1 ey.2.2.1 ey.2.2.2).getD { b := 0, g := 0, r := 0 }))
      d ?_ hp
    · have hB : 3 * (g.xDstMin + (g.xDstMax - g.xDstMin)).toNat
          ≤ L.bypl { self.m_format with width := width, height := height } 0 := by
        have := hfit.1
        omega
      have hS : L.offset { self.m_format with width := width, height := height } 0
          + (g.yDstMin + (g.yDstMax - g.yDstMin)).toNat
            * L.bypl { self.m_format with width := width, height := height } 0
          ≤ (VideoFrame.ofFormat L
              { self.m_format with width := width, height := height }).m_data.length := by
        rw [length_ofFormat]
        have h2 := hfit.2
        by_cases hpos : 0 ≤ g.yDstMax
        · have h3 := Nat.mul_le_mul_right
            (L.bypl { self.m_format with width := width, height := height } 0)
            (show (g.yDstMin + (g.yDstMax - g.yDstMin)).toNat ≤ height.toNat by omega)
          omega
        · have e : (g.yDstMin + (g.yDstMax - g.yDstMin)).toNat = 0 := by omega
          rw [e]
          have h3 := Nat.zero_le (height.toNat
            * L.bypl { self.m_format with width := width, height := height } 0)
          omega
      show getField d _ 3 x k = 0
      rw [hd]
      exact Eq.trans ((rectLoop
        (L.offset { self.m_format with width := width, height := height } 0)
        (L.bypl { self.m_format with width := width, height := height } 0)
        g.xDstMin g.yDstMin (g.xDstMax - g.xDstMin) (g.yDstMax - g.yDstMin) _
        (VideoFrame.ofFormat L { self.m_format with width := width, height := height }).m_data
        hx0 hy0 hB hS).2 y x k hk (by have := hfit.1; omega) (by omega)) (peek_ofFormat _ _ _)
    · intro ky data s' hky hs
      cases hey : (if self.m_format.height < height then Machine.extrapolateUp
            else Machine.extrapolateDown)
          (int32 (g.yDstMin + ky - g.yDstMin)) g.yNum g.yDen g.ys with
      | none =>
        rw [hey] at hs
        exact absurd hs (by simp)
      | some ey =>
        rw [hey, Option.some_bind] at hs
        refine forLoopT_eq_of_some _ _ _ _ s' ?_ hs
        intro kx data d' hkx hd'
        cases hex : (if self.m_format.width < width then Machine.extrapolateUp
              else Machine.extrapolateDown)
            (int32 (g.xDstMin + kx - g.xDstMin)) g.xNum g.xDen g.xs with
        | none =>
          rw [hex] at hd'
          exact absurd hd' (by simp)
        | some ex =>
          rw [hex, Option.some_bind] at hd'
          cases hc : Machine.VideoFrame.extrapolateColor L self ex.1 ex.2.1 ex.2.2.1 ex.2.2.2
              ey.1 ey.2.1 ey.2.2.1 ey.2.2.2 with
          | none =>
            rw [hc] at hd'
            exact absurd hd' (by simp)
          | some color =>
            rw [hc, Option.some_bind, Option.some.injEq] at hd'
            rw [← hd']
            simp only [hey, hex, Option.some_bind, hc, Option.getD_some,
              setPixelAt_of_nonneg _ _ _ _ (show 0 ≤ g.xDstMin + (kx : Int) by omega),
              toSizeT_of_nonneg _ (show 0 ≤ g.yDstMin + (ky : Int) by omega) (by omega)]
            rfl

/-- C21 (as amended): `AspectRatioKeep` scaling of a BGR24 or RGB24 frame of size `W x H` to
a size `w x h` other than `W x H`, all sides at least 1, when `w H + W h`, `2 H`, `2 W`,
`(W-1)(w-1)` and `(H-1)(h-1)` do not exceed `INT_MAX` and the divisors `xDen` and `yDen` of
the geometry are at least 1. In `ScalingFast` mode the call returns a frame in which every
pixel outside the sub-rectangle `[xDstMin, xDstMax) x [yDstMin, yDstMax)` has three zero
bytes and every pixel `(x, y)` inside it is the source pixel
`((xNum (x - xDstMin)) / xDen, (yNum (y - yDstMin)) / yDen)`; in `ScalingLinear` mode every
frame that the call returns has three zero bytes at every pixel outside the sub-rectangle,
and the call returns a frame when `w <= W` and `h <= H`.
For a 4x2 source scaled to 4x4 the sub-rectangle is rows 1 and 2 of all four columns, so rows
0 and 3 are zero and rows 1 and 2 are source rows 0 and 1. -/
theorem scaled_keep_in_range (L : Layout) (self : VideoFrame) (width height : Int) (y x : Nat)
    (g : ScaledGeometry)
    (hm : Machine.scaledGeometry self.m_format.width self.m_format.height width height
      Scaling.ScalingFast AspectRatio.AspectRatioKeep = some g)
    (hfmt : self.m_format.fourcc = PixelFormatBGR24 ∨ self.m_format.fourcc = PixelFormatRGB24)
    (hW : 1 ≤ self.m_format.width) (hH : 1 ≤ self.m_format.height)
    (hw : 1 ≤ width) (hh : 1 ≤ height)
    (hsum : width * self.m_format.height + self.m_format.width * height ≤ 2147483647)
    (h2H : 2 * self.m_format.height ≤ 2147483647)
    (h2W : 2 * self.m_format.width ≤ 2147483647)
    (hbx : (self.m_format.width - 1) * (width - 1) ≤ 2147483647)
    (hby : (self.m_format.height - 1) * (height - 1) ≤ 2147483647)
    (hxd : 1 ≤ g.xDen) (hyd : 1 ≤ g.yDen)
    (hne : ¬ (self.m_format.width = width ∧ self.m_format.height = height))
    (hy : (y : Int) < height) (hx : (x : Int) < width)
    (hfit : L.PlaneFits { self.m_format with width := width, height := height } 0
      (3 * width.toNat) height.toNat) :
    (∃ r : VideoFrame,
      Machine.VideoFrame.scaled L self width height Scaling.ScalingFast
        AspectRatio.AspectRatioKeep = some r ∧
      (∀ k : Nat, k < 3 →
        ¬ (g.yDstMin ≤ y ∧ (y : Int) < g.yDstMax ∧ g.xDstMin ≤ x ∧ (x : Int) < g.xDstMax) →
        r.field L y 3 x k = 0) ∧
      (∀ k : Nat, k < 3 →
        (g.yDstMin ≤ y ∧ (y : Int) < g.yDstMax ∧ g.xDstMin ≤ x ∧ (x : Int) < g.xDstMax) →
        r.field L y 3 x k
          = self.field L ((g.yNum * (y - g.yDstMin)).tdiv g.yDen).toNat 3
              ((g.xNum * (x - g.xDstMin)).tdiv g.xDen).toNat k) ∧
      (self.m_format.width = 4 ∧ self.m_format.height = 2 ∧ width = 4 ∧ height = 4 →
        (g.xDstMin = 0 ∧ g.xDstMax = 4 ∧ g.yDstMin = 1 ∧ g.yDstMax = 3) ∧
        ∀ k : Nat, k < 3 →
          ((y = 0 ∨ y = 3) → r.field L y 3 x k = 0) ∧
          ((y = 1 ∨ y = 2) → r.field L y 3 x k = self.field L (y - 1) 3 x k))) ∧
    (∀ r : VideoFrame,
      Machine.VideoFrame.scaled L self width height Scaling.ScalingLinear
        AspectRatio.AspectRatioKeep = some r →
      ∀ k : Nat, k < 3 →
        ¬ (g.yDstMin ≤ y ∧ (y : Int) < g.yDstMax ∧ g.xDstMin ≤ x ∧ (x : Int) < g.xDstMax) →
        r.field L y 3 x k = 0) ∧
    (width ≤ self.m_format.width → height ≤ self.m_format.height →
      ∃ r : VideoFrame,
        Machine.VideoFrame.scaled L self width height Scaling.ScalingLinear
          AspectRatio.AspectRatioKeep = some r) := by
  have ha := adjustable_of _ hfmt
  have hmi := machine_geometry_keep self.m_format.width self.m_format.height width height
    Scaling.ScalingFast hW hH hw hh hsum h2H h2W
  have hg : g = scaledGeometry self.m_format.width self.m_format.height width height
      Scaling.ScalingFast AspectRatio.AspectRatioKeep := by
    rw [hm, Option.some.injEq] at hmi
    exact hmi
  obtain ⟨⟨b1, b2, b3, b4⟩, n1, n2, n3, n4, n5, n6⟩ :=
    scaledGeometry_keep self.m_format.width self.m_format.height width height
      Scaling.ScalingFast hW hH hw hh g hg
  have q2 : height ≤ self.m_format.width * height := by
    have := Int.mul_le_mul_of_nonneg_right hW (show 0 ≤ height by omega)
    omega
  have p1 : 0 < width * self.m_format.height := Int.mul_pos (by omega) (by omega)
  have hr : ∀ (n m : Int) (k : Nat), 0 ≤ n → n * (m - 1) ≤ 2147483647 → (k : Int) < m →
      0 ≤ n * k + 0 ∧ n * k + 0 ≤ 2147483647 := by
    intro n m k hn hnm hk
    have h1 : 0 ≤ n * (k : Int) := Int.mul_nonneg hn (Int.ofNat_nonneg k)
    have h2 : n * (k : Int) ≤ n * (m - 1) := Int.mul_le_mul_of_nonneg_left (by omega) hn
    omega
  have mf := machine_scaled_fast L self width height AspectRatio.AspectRatioKeep g hm hg hne ha
    b1 b3 (by omega) (by omega) (by omega)
    (fun kx hkx => by
      rw [n1, n3]
      exact hr _ width kx (by omega) hbx (by omega))
    (fun ky hky => by
      rw [n4, n6]
      exact hr _ height ky (by omega) hby (by omega))
  have old := scaled_keep L self width height y x g hg hfmt hW hH hw hh hne hy hx hfit
  have hml : Machine.scaledGeometry self.m_format.width self.m_format.height width height
      Scaling.ScalingLinear AspectRatio.AspectRatioKeep = some g := by
    rw [machine_geometry_mode _ _ _ _ _ _ (Or.inr rfl)]
    exact hm
  refine ⟨⟨_, mf, old.1 Scaling.ScalingFast, old.2.1, old.2.2⟩, ?_, ?_⟩
  · intro r hr k hk hout
    exact machine_scaled_linear_outside L self width height AspectRatio.AspectRatioKeep g r
      hml hne ha b1 b2 b3 b4 (by omega) hfit hr y x k hk hx hout
  · intro hwW hhH
    obtain ⟨r, h1, _⟩ := machine_scaled_linear_shrink L self width height
      AspectRatio.AspectRatioKeep g hwW hhH (Or.inr rfl) hml hxd hyd
    exact ⟨r, h1⟩

/-- Witness for C21 (as amended): pixel (2, 1) of the 4x2 BGR24 frame scaled to 4x4. -/
theorem scaled_keep_in_range_witness :
    ((1 : Int) ≤ (wideFrame PixelFormatBGR24).m_format.width ∧
        (4 : Int) * 2 + 4 * 4 ≤ 2147483647) ∧
      ∃ r : VideoFrame,
        Machine.VideoFrame.scaled specLayout (wideFrame PixelFormatBGR24) 4 4
          Scaling.ScalingFast AspectRatio.AspectRatioKeep = some r ∧
        ∀ k : Nat, k < 3 →
          r.field specLayout 2 3 1 k = (wideFrame PixelFormatBGR24).field specLayout (2 - 1) 3 1 k :=
  ⟨by decide,
    (scaled_keep_in_range specLayout (wideFrame PixelFormatBGR24) 4 4 2 1
      { xDstMin := 0, xDstMax := 4, yDstMin := 1, yDstMax := 3,
        xNum := 3, xDen := 3, xs := 0, yNum := 1, yDen := 1, ys := 0 }
      (by decide) (Or.inl rfl)
      (by decide) (by decide) (by decide) (by decide) (by decide) (by decide) (by decide)
      (by decide) (by decide) (by decide) (by decide) (by decide) (by decide) (by decide)
      (by unfold Layout.PlaneFits; decide)).1.elim
      fun r hr => ⟨r, hr.1, fun k hk => ((hr.2.2.2 ⟨rfl, rfl, rfl, rfl⟩).2 k hk).2 (Or.inr rfl)⟩⟩

/-- Counterexample for C21 as stated: for the 4x2 BGR24 frame and the target 3x2 the
sub-rectangle is one row high, `yDen` is 0 and the division by `yDen` in the `ScalingFast`
loop stops the program, so no frame is returned; and for a source 60000x3 and the target
50000x3 the product `xNum (x - xDstMin) = 59999 * 49999` for the destination column 49999
does not fit the type `int`, and the loop computes the source column `-25902` where the
claim gives `(59999 * 49999) / 49999 = 59999`. -/
theorem scaled_keep_in_range_counterexample :
    Machine.VideoFrame.scaled specLayout (wideFrame PixelFormatBGR24) 3 2 Scaling.ScalingFast
        AspectRatio.AspectRatioKeep = none ∧
      Machine.scaledGeometry 60000 3 50000 3 Scaling.ScalingFast AspectRatio.AspectRatioKeep
        = some { xDstMin := 0, xDstMax := 50000, yDstMin := 0, yDstMax := 2,
                 xNum := 59999, xDen := 49999, xs := 0, yNum := 2, yDen := 1, ys := 0 } ∧
      Machine.srcCoord 59999 49999 0 0 49999 = some (-25902) ∧
      ((59999 : Int) * (49999 - 0)).tdiv 49999 = 59999 := by
  decide

/-! ## Hue rotation in machine arithmetic -/

theorem machine_adjustHsl_adjustable (L : Layout) (self : VideoFrame)
    (hue saturation luminance : Int)
    (hn : ¬ (hue = 0 ∧ saturation = 0 ∧ luminance = 0))
    (hfmt : self.m_format.fourcc ∈ m_adjustFormats) :
    Machine.VideoFrame.adjustHsl L self hue saturation luminance =
      VideoFrame.mk self.m_format
        (forLoop self.m_format.height (VideoFrame.ofFormat L self.m_format).m_data fun y data =>
          forLoop self.m_format.width data fun x data =>
            setField (setField (setField data
              ((VideoFrame.ofFormat L self.m_format).line L 0 y) RGB24.sizeof x RGB24.r
                (toUInt8 (Machine.hslPixel hue saturation luminance
                  (self.field L y RGB24.sizeof x RGB24.r).val
                  (self.field L y RGB24.sizeof x RGB24.g).val
                  (self.field L y RGB24.sizeof x RGB24.b).val).1))
              ((VideoFrame.ofFormat L self.m_format).line L 0 y) RGB24.sizeof x RGB24.g
                (toUInt8 (Machine.hslPixel hue saturation luminance
                  (self.field L y RGB24.sizeof x RGB24.r).val
                  (self.field L y RGB24.sizeof x RGB24.g).val
                  (self.field L y RGB24.sizeof x RGB24.b).val).2.1))
              ((VideoFrame.ofFormat L self.m_format).line L 0 y) RGB24.sizeof x RGB24.b
                (toUInt8 (Machine.hslPixel hue saturation luminance
                  (self.field L y RGB24.sizeof x RGB24.r).val
                  (self.field L y RGB24.sizeof x RGB24.g).val
                  (self.field L y RGB24.sizeof x RGB24.b).val).2.2)) := by
  unfold Machine.VideoFrame.adjustHsl
  rw [if_neg hn, if_neg (not_not.2 hfmt)]
  rfl

/-- On the members of a pixel, the values written by `adjustHsl` for the hues `hue` and
`hue + 360 k` are the same when neither sum `h + hue` overflows. -/
theorem machine_hslPixel_period (hue saturation luminance k : Int) (r g b : uint8_t)
    (hr1 : -2147483648 ≤ hue ∧ hue ≤ 2147483647 - 359)
    (hr2 : -2147483648 ≤ hue + 360 * k ∧ hue + 360 * k ≤ 2147483647 - 359) :
    Machine.hslPixel (hue + 360 * k) saturation luminance r.val g.val b.val
      = Machine.hslPixel hue saturation luminance r.val g.val b.val := by
  have hr := r.isLt
  have hg := g.isLt
  have hb := b.isLt
  have h := (rgbToHsl_range r.val g.val b.val (by omega) (by omega) (by omega)).2.1
  have e1 : int32 ((rgbToHsl r.val g.val b.val).1 + (hue + 360 * k))
      = (rgbToHsl r.val g.val b.val).1 + (hue + 360 * k) :=
    int32_of_range _ (by omega) (by omega)
  have e2 : int32 ((rgbToHsl r.val g.val b.val).1 + hue)
      = (rgbToHsl r.val g.val b.val).1 + hue :=
    int32_of_range _ (by omega) (by omega)
  show hslToRgb (mod (int32 ((rgbToHsl r.val g.val b.val).1 + (hue + 360 * k))) 360) _ _
    = hslToRgb (mod (int32 ((rgbToHsl r.val g.val b.val).1 + hue)) 360) _ _
  rw [e1, e2, mod_360_shift]

/-- C19 (as amended): hue is applied modulo 360 whenever neither call is the neutral one and
neither sum `h + hue` overflows: if `(hue, saturation, luminance)` and
`(hue + 360 k, saturation, luminance)` both differ from `(0, 0, 0)` and `hue` and
`hue + 360 k` both lie in `[INT_MIN, INT_MAX - 359]`, then
`adjustHsl(hue + 360 k, saturation, luminance)` returns the same frame as
`adjustHsl(hue, saturation, luminance)`. -/
theorem hue_period_in_range (L : Layout) (self : VideoFrame) (hue saturation luminance k : Int)
    (h1 : ¬ (hue = 0 ∧ saturation = 0 ∧ luminance = 0))
    (h2 : ¬ (hue + 360 * k = 0 ∧ saturation = 0 ∧ luminance = 0))
    (hr1 : -2147483648 ≤ hue ∧ hue ≤ 2147483647 - 359)
    (hr2 : -2147483648 ≤ hue + 360 * k ∧ hue + 360 * k ≤ 2147483647 - 359) :
    Machine.VideoFrame.adjustHsl L self (hue + 360 * k) saturation luminance
      = Machine.VideoFrame.adjustHsl L self hue saturation luminance := by
  by_cases hfmt : self.m_format.fourcc ∈ m_adjustFormats
  · rw [machine_adjustHsl_adjustable L self _ _ _ h1 hfmt,
      machine_adjustHsl_adjustable L self _ _ _ h2 hfmt]
    simp only [machine_hslPixel_period hue saturation luminance k _ _ _ hr1 hr2]
  · unfold Machine.VideoFrame.adjustHsl
    rw [if_neg h1, if_neg h2, if_pos hfmt, if_pos hfmt]

/-- Witness for C19 (as amended): hue 10 and hue 370 on the 2x2 RGB24 sample frame. -/
theorem hue_period_in_range_witness :
    (¬ ((10 : Int) = 0 ∧ (0 : Int) = 0 ∧ (0 : Int) = 0) ∧
        (10 : Int) + 360 * 1 ≤ 2147483647 - 359) ∧
      Machine.VideoFrame.adjustHsl specLayout (sampleFrame PixelFormatRGB24) (10 + 360 * 1) 0 0
        = Machine.VideoFrame.adjustHsl specLayout (sampleFrame PixelFormatRGB24) 10 0 0 :=
  ⟨by decide,
    hue_period_in_range specLayout (sampleFrame PixelFormatRGB24) 10 0 0 1 (by decide)
      (by decide) (by decide) (by decide)⟩

/-- Counterexample for C19 as stated: with hue 0, saturation 0, luminance 0 and `k = 1` the
call `adjustHsl(360, 0, 0)` converts every pixel to HSL and back, which changes pixel (0, 0)
of the 2x2 RGB24 sample frame, while `adjustHsl(0, 0, 0)` returns the frame unchanged; and
with hue `INT_MAX - 360` and `k = 1` the sum `h + INT_MAX` of the second call overflows, so
that the two calls rotate the hue of pixel (0, 0) by different angles. -/
theorem hue_period_in_range_counterexample :
    (Machine.VideoFrame.adjustHsl specLayout (sampleFrame PixelFormatRGB24) (0 + 360 * 1) 0
          0).field specLayout 0 RGB24.sizeof 0 RGB24.g
        ≠ (Machine.VideoFrame.adjustHsl specLayout (sampleFrame PixelFormatRGB24) 0 0 0).field
          specLayout 0 RGB24.sizeof 0 RGB24.g ∧
      (Machine.VideoFrame.adjustHsl specLayout (sampleFrame PixelFormatRGB24)
          (2147483287 + 360 * 1) 0 0).field specLayout 0 RGB24.sizeof 0 RGB24.g
        ≠ (Machine.VideoFrame.adjustHsl specLayout (sampleFrame PixelFormatRGB24) 2147483287 0
          0).field specLayout 0 RGB24.sizeof 0 RGB24.g := by
  decide

/-! ## `rgbToHsl` in machine arithmetic -/

theorem machine_mod (v m : Int) (hm0 : 0 < m) (hm : m ≤ 1073741823) :
    Machine.mod v m = some (mod v m) := by
  have h1 := tmod_gt_neg v m hm0
  have h2 : v.tmod m < m := Int.tmod_lt_of_pos v hm0
  have e : int32 (v.tmod m + m) = v.tmod m + m := int32_of_range _ (by omega) (by omega)
  unfold Machine.mod mod
  simp only [cmod_of_pos _ _ hm0, e, Option.bind_eq_bind, Option.some_bind]

/-- On values in the byte range `rgbToHsl` divides by no zero and no intermediate value
overflows: in machine arithmetic it stores what it stores over `Int`. -/
theorem machine_rgbToHsl (r g b : Int) (hr : 0 ≤ r ∧ r ≤ 255) (hg : 0 ≤ g ∧ g ≤ 255)
    (hb : 0 ≤ b ∧ b ≤ 255) : Machine.rgbToHsl r g b = some (rgbToHsl r g b) := by
  have hfacts : (Min.min r (Min.min g b) ≤ r ∧ Min.min r (Min.min g b) ≤ g
      ∧ Min.min r (Min.min g b) ≤ b) ∧
      (r ≤ Max.max r (Max.max g b) ∧ g ≤ Max.max r (Max.max g b)
        ∧ b ≤ Max.max r (Max.max g b)) ∧
      (0 ≤ Min.min r (Min.min g b) ∧ Max.max r (Max.max g b) ≤ 255) ∧
      (Max.max r (Max.max g b) = r ∨ Max.max r (Max.max g b) = g
        ∨ Max.max r (Max.max g b) = b) := by
    omega
  unfold Machine.rgbToHsl rgbToHsl
  simp only []
  generalize Max.max r (Max.max g b) = M at hfacts ⊢
  generalize Min.min r (Min.min g b) = m at hfacts ⊢
  obtain ⟨⟨m1, m2, m3⟩, ⟨M1, M2, M3⟩, ⟨m0, M0⟩, hMax⟩ := hfacts
  have e1 : int32 (M - m) = M - m := int32_of_range _ (by omega) (by omega)
  have e2 : int32 (M + m) = M + m := int32_of_range _ (by omega) (by omega)
  simp only [e1, e2, cdiv_of_pos _ _ (show (0 : Int) < 2 by decide), Option.bind_eq_bind,
    Option.some_bind, Option.pure_def]
  by_cases hc : M - m = 0
  · rw [if_pos hc, if_pos hc]
  · have hcpos : 0 < M - m := by omega
    have hD : M - m ≤ 255 - c_abs (M + m - 255) := by
      unfold c_abs
      split_ifs <;> omega
    have hD2 : 255 - c_abs (M + m - 255) ≤ 255 := by
      unfold c_abs
      split_ifs <;> omega
    have e3 : int32 (g - b) = g - b := int32_of_range _ (by omega) (by omega)
    have e4 : int32 (6 * (M - m)) = 6 * (M - m) := int32_of_range _ (by omega) (by omega)
    have e5 : int32 (b - r + 2 * (M - m)) = b - r + 2 * (M - m) :=
      int32_of_range _ (by omega) (by omega)
    have e6 : int32 (r - g + 4 * (M - m)) = r - g + 4 * (M - m) :=
      int32_of_range _ (by omega) (by omega)
    have e7 : int32 (255 * (M - m)) = 255 * (M - m) := int32_of_range _ (by omega) (by omega)
    have e8 : int32 (M + m - 255) = M + m - 255 := int32_of_range _ (by omega) (by omega)
    have e9 : int32 (255 - c_abs (M + m - 255)) = 255 - c_abs (M + m - 255) :=
      int32_of_range _ (by omega) (by omega)
    have ht : 0 ≤ (if M = r then mod (g - b) (6 * (M - m))
          else if M = g then b - r + 2 * (M - m) else r - g + 4 * (M - m)) ∧
        (if M = r then mod (g - b) (6 * (M - m))
          else if M = g then b - r + 2 * (M - m) else r - g + 4 * (M - m)) < 6 * (M - m) := by
      split_ifs with h1 h2
      · exact mod_range _ _ (by omega)
      · omega
      · omega
    rw [if_neg hc, if_neg hc]
    simp only [e3, e4, e5, e6, e7, e8, e9, Option.some_bind, cdiv_of_pos _ _ hcpos,
      cdiv_of_pos _ _ (show 0 < 255 - c_abs (M + m - 255) by omega)]
    split_ifs at ht ⊢ with h1 h2
    · rw [machine_mod _ _ (by omega) (by omega), Option.some_bind,
        int32_of_range (60 * mod (g - b) (6 * (M - m))) (by omega) (by omega)]
    · rw [int32_of_range (60 * (b - r + 2 * (M - m))) (by omega) (by omega)]
    · rw [int32_of_range (60 * (r - g + 4 * (M - m))) (by omega) (by omega)]

/-- C35: for `r`, `g`, `b` in `[0, 255]`, `rgbToHsl` divides by no zero (with the machine
division, which has no result for a zero divisor, it stores values `h`, `s`, `l`), and these
satisfy `0 <= h < 360`, `0 <= s <= 255` and `0 <= l <= 255`; for a gray input
`r = g = b = v` they are `(0, 0, v)`. -/
theorem rgbToHsl_defined (r g b : Int) (hr : 0 ≤ r ∧ r ≤ 255) (hg : 0 ≤ g ∧ g ≤ 255)
    (hb : 0 ≤ b ∧ b ≤ 255) :
    ∃ h s l : Int, Machine.rgbToHsl r g b = some (h, s, l) ∧
      (0 ≤ h ∧ h < 360) ∧ (0 ≤ s ∧ s ≤ 255) ∧ (0 ≤ l ∧ l ≤ 255) ∧
      (r = g → g = b → (h, s, l) = (0, 0, r)) := by
  have h := rgbToHsl_range r g b hr hg hb
  exact ⟨_, _, _, machine_rgbToHsl r g b hr hg hb, h.2.1, h.2.2.1, h.2.2.2.1, h.2.2.2.2⟩

/-- Witness for C35: the pixel `(200, 100, 50)`. -/
theorem rgbToHsl_defined_witness :
    ((0 : Int) ≤ 200 ∧ (200 : Int) ≤ 255) ∧
      ∃ h s l : Int, Machine.rgbToHsl 200 100 50 = some (h, s, l) ∧ 0 ≤ h ∧ h < 360 :=
  ⟨by decide,
    (rgbToHsl_defined 200 100 50 (by decide) (by decide) (by decide)).elim
      fun h hh => hh.elim fun s hs => hs.elim fun l hl => ⟨h, s, l, hl.1, hl.2.1⟩⟩

/-! ## The index of the table lookups -/

theorem lookupIndex_eq (value n : Int) (h0 : 0 ≤ n) (h1 : n ≤ 255) :
    (toSizeT (bound (-255) value 255 + 255) <<< 8) ||| toSizeT n
      = (bound (-255) value 255 + 255).toNat * 256 + (toUInt8 n).val := by
  have h : -255 ≤ bound (-255) value 255 ∧ bound (-255) value 255 ≤ 255 := by
    unfold bound
    split_ifs <;> omega
  have e1 : toSizeT n = n.toNat := by
    unfold toSizeT
    omega
  have e2 : ((toUInt8 n).val : Int) = n := toUInt8_of_byte n h0 h1
  rw [tableOffset_eq, e1, ← Nat.mul_add_lt_is_or (by omega)]
  omega

theorem stageGamma_bytes (T : Tables) (value : Int) (q : Int × Int × Int) (hv : value ≠ 0)
    (h : (0 ≤ q.1 ∧ q.1 ≤ 255) ∧ (0 ≤ q.2.1 ∧ q.2.1 ≤ 255) ∧ (0 ≤ q.2.2 ∧ q.2.2 ≤ 255)) :
    bytes3 (stageGamma T value q)
      = (peek T.gamma ((bound (-255) value 255 + 255).toNat * 256 + (bytes3 q).1.val),
          peek T.gamma ((bound (-255) value 255 + 255).toNat * 256 + (bytes3 q).2.1.val),
          peek T.gamma ((bound (-255) value 255 + 255).toNat * 256 + (bytes3 q).2.2.val)) := by
  unfold stageGamma
  rw [if_pos (fun hz => hv ((bound_eq_zero value).1 hz))]
  simp only [bytes3, toUInt8_cast, lookupIndex_eq value _ h.1.1 h.1.2,
    lookupIndex_eq value _ h.2.1.1 h.2.1.2, lookupIndex_eq value _ h.2.2.1 h.2.2.2]

theorem stageContrast_bytes (T : Tables) (value : Int) (q : Int × Int × Int) (hv : value ≠ 0)
    (h : (0 ≤ q.1 ∧ q.1 ≤ 255) ∧ (0 ≤ q.2.1 ∧ q.2.1 ≤ 255) ∧ (0 ≤ q.2.2 ∧ q.2.2 ≤ 255)) :
    bytes3 (stageContrast T value q)
      = (peek T.contrast ((bound (-255) value 255 + 255).toNat * 256 + (bytes3 q).1.val),
          peek T.contrast ((bound (-255) value 255 + 255).toNat * 256 + (bytes3 q).2.1.val),
          peek T.contrast ((bound (-255) value 255 + 255).toNat * 256 + (bytes3 q).2.2.val)) := by
  unfold stageContrast
  rw [if_pos (fun hz => hv ((bound_eq_zero value).1 hz))]
  simp only [bytes3, toUInt8_cast, lookupIndex_eq value _ h.1.1 h.1.2,
    lookupIndex_eq value _ h.2.1.1 h.2.1.2, lookupIndex_eq value _ h.2.2.1 h.2.2.2]

theorem stageContrast_zero (T : Tables) (q : Int × Int × Int) : stageContrast T 0 q = q := by
  unfold stageContrast
  rw [if_neg (not_not.2 ((bound_eq_zero 0).2 rfl))]

/-- C24: for every integer level `value` other than 0 (gamma or contrast), also outside
`[-255, 255]`, and every pixel `(x, y)` of a BGR24 or RGB24 frame, each member of the pixel
returned by `adjustGamma(value)` is the entry of the gamma table at the index
`(bound(-255, value, 255) + 255) * 256 + v`, where `v` is that member of the source pixel, and
likewise for `adjustContrast(value)` and the contrast table; in `adjust` the gamma lookup
uses that index with `v` the member after the HSL step, and the contrast lookup uses it with
`v` the member after the gamma step; every such index is less than the length `511 * 256` of
the tables built by `initGammaTable` and `initContrastTable`; and each of the three
methods returns for `value` what it returns for `bound(-255, value, 255)`, also for the level
0. The tables are arbitrary, so the equations determine the index that is read. -/
theorem lookup_entry (L : Layout) (T : Tables) (F : FloatExprs) (self : VideoFrame)
    (value : Int) (y x : Nat)
    (hfmt : self.m_format.fourcc = PixelFormatBGR24 ∨ self.m_format.fourcc = PixelFormatRGB24)
    (hfit : L.PlaneFits self.m_format 0
      (3 * self.m_format.width.toNat) self.m_format.height.toNat)
    (hy : (y : Int) < self.m_format.height) (hx : (x : Int) < self.m_format.width)
    (hv : value ≠ 0) :
    ((self.adjustGamma L T value).rgb L y x
      = (peek T.gamma ((bound (-255) value 255 + 255).toNat * 256 + (self.rgb L y x).1.val),
          peek T.gamma ((bound (-255) value 255 + 255).toNat * 256 + (self.rgb L y x).2.1.val),
          peek T.gamma
            ((bound (-255) value 255 + 255).toNat * 256 + (self.rgb L y x).2.2.val))) ∧
    ((self.adjustContrast L T value).rgb L y x
      = (peek T.contrast ((bound (-255) value 255 + 255).toNat * 256 + (self.rgb L y x).1.val),
          peek T.contrast
            ((bound (-255) value 255 + 255).toNat * 256 + (self.rgb L y x).2.1.val),
          peek T.contrast
            ((bound (-255) value 255 + 255).toNat * 256 + (self.rgb L y x).2.2.val))) ∧
    (∀ hue saturation luminance : Int,
      (self.adjust L T hue saturation luminance value 0 false).rgb L y x
        = (peek T.gamma ((bound (-255) value 255 + 255).toNat * 256
              + ((self.adjustHsl L hue saturation luminance).rgb L y x).1.val),
            peek T.gamma ((bound (-255) value 255 + 255).toNat * 256
              + ((self.adjustHsl L hue saturation luminance).rgb L y x).2.1.val),
            peek T.gamma ((bound (-255) value 255 + 255).toNat * 256
              + ((self.adjustHsl L hue saturation luminance).rgb L y x).2.2.val))) ∧
    (∀ hue saturation luminance gamma : Int,
      (self.adjust L T hue saturation luminance gamma value false).rgb L y x
        = (peek T.contrast ((bound (-255) value 255 + 255).toNat * 256
              + ((self.adjust L T hue saturation luminance gamma 0 false).rgb L y x).1.val),
            peek T.contrast ((bound (-255) value 255 + 255).toNat * 256
              + ((self.adjust L T hue saturation luminance gamma 0 false).rgb L y x).2.1.val),
            peek T.contrast ((bound (-255) value 255 + 255).toNat * 256
              + ((self.adjust L T hue saturation luminance gamma 0 false).rgb L y x).2.2.val))) ∧
    (∀ v : uint8_t,
      (bound (-255) value 255 + 255).toNat * 256 + v.val < (initGammaTable F).length ∧
      (bound (-255) value 255 + 255).toNat * 256 + v.val < (initContrastTable F).length) ∧
    ((initGammaTable F).length = 511 * 256 ∧ (initContrastTable F).length = 511 * 256) ∧
    (∀ level : Int,
      self.adjustGamma L T level = self.adjustGamma L T (bound (-255) level 255) ∧
      self.adjustContrast L T level = self.adjustContrast L T (bound (-255) level 255) ∧
      ∀ (hue saturation luminance other : Int) (gray : Bool),
        self.adjust L T hue saturation luminance level other gray
          = self.adjust L T hue saturation luminance (bound (-255) level 255) other gray ∧
        self.adjust L T hue saturation luminance other level gray
          = self.adjust L T hue saturation luminance other (bound (-255) level 255) gray) := by
  have ha := adjustable_of _ hfmt
  have hb : -255 ≤ bound (-255) value 255 ∧ bound (-255) value 255 ≤ 255 := by
    unfold bound
    split_ifs <;> omega
  have hg := length_initGammaTable F
  have hc := length_initContrastTable F
  have hsrc := ints3_range (self.rgb L y x)
  refine ⟨?_, ?_, ?_, ?_, ?_, ⟨hg, hc⟩, ?_⟩
  · rw [(adjustGamma_rgb L T self value ha hfit y x hy hx).2,
      stageGamma_bytes T value _ hv hsrc, bytes3_ints3]
  · rw [(adjustContrast_rgb L T self value ha hfit y x hy hx).2,
      stageContrast_bytes T value _ hv hsrc, bytes3_ints3]
  · intro hue saturation luminance
    rw [(adjust_rgb L T self hue saturation luminance value 0 false ha hfit y x hy hx).2,
      (adjustHsl_rgb L self hue saturation luminance ha hfit y x hy hx).2,
      stageContrast_zero]
    exact stageGamma_bytes T value _ hv (stageHsl_range _ _ _ _ hsrc)
  · intro hue saturation luminance gamma
    rw [(adjust_rgb L T self hue saturation luminance gamma value false ha hfit y x hy hx).2,
      (adjust_rgb L T self hue saturation luminance gamma 0 false ha hfit y x hy hx).2,
      stageContrast_zero]
    exact stageContrast_bytes T value _ hv
      (stageGamma_range T gamma _ (stageHsl_range _ _ _ _ hsrc))
  · intro v
    have hv := v.isLt
    rw [hg, hc]
    omega
  · intro level
    have hz := bound_eq_zero level
    refine ⟨?_, ?_, ?_⟩
    · unfold VideoFrame.adjustGamma
      simp only [hz, bound_idem]
    · unfold VideoFrame.adjustContrast
      simp only [hz, bound_idem]
    · intro hue saturation luminance other gray
      unfold VideoFrame.adjust
      simp only [hz, bound_idem]
      exact ⟨trivial, trivial⟩

/-- Witness for C24: the gamma level 300, outside `[-255, 255]`, at pixel (1, 0) of the 2x2
RGB24 sample frame. -/
theorem lookup_entry_witness :
    (300 : Int) ≠ 0 ∧
      ((sampleFrame PixelFormatRGB24).adjustGamma specLayout constTables 300).rgb specLayout 0 1
        = (peek constTables.gamma ((bound (-255) 300 255 + 255).toNat * 256
              + ((sampleFrame PixelFormatRGB24).rgb specLayout 0 1).1.val),
            peek constTables.gamma ((bound (-255) 300 255 + 255).toNat * 256
              + ((sampleFrame PixelFormatRGB24).rgb specLayout 0 1).2.1.val),
            peek constTables.gamma ((bound (-255) 300 255 + 255).toNat * 256
              + ((sampleFrame PixelFormatRGB24).rgb specLayout 0 1).2.2.val)) :=
  ⟨by decide,
    (lookup_entry specLayout constTables exactContrast (sampleFrame PixelFormatRGB24) 300 0 1
      (Or.inr rfl) (by unfold Layout.PlaneFits; decide)
      (by decide) (by decide) (by decide)).1⟩

/-! ## The contrast table -/

theorem appendLoop (m : Nat) (f : Nat → uint8_t) (t : VideoData) :
    (List.range m).foldl (fun t i => t ++ [f i]) t = t ++ (List.range m).map f := by
  induction m with
  | zero => simp
  | succ m ih =>
    rw [List.range_succ, List.foldl_append, ih]
    simp

/-- The table built by `m` passes of the outer loop of `initContrastTable` has `256 m`
entries, and the entry at offset `256 j + i` is the value pushed for the level of index `j`
and the sample `i`. -/
theorem tableLoop (e : Nat → Nat → uint8_t) (m : Nat) :
    ((List.range m).foldl
        (fun t j => (List.range 256).foldl (fun t i => t ++ [e j i]) t) []).length = m * 256 ∧
      ∀ j i : Nat, j < m → i < 256 →
        peek ((List.range m).foldl
          (fun t j => (List.range 256).foldl (fun t i => t ++ [e j i]) t) []) (j * 256 + i)
          = e j i := by
  induction m with
  | zero => exact ⟨rfl, fun j i hj => absurd hj (Nat.not_lt_zero _)⟩
  | succ m ih =>
    obtain ⟨hl, hv⟩ := ih
    rw [@List.range_succ m, List.foldl_append]
    simp only [List.foldl_cons, List.foldl_nil]
    rw [appendLoop]
    constructor
    · rw [List.length_append, hl, List.length_map, List.length_range]
      ring
    · intro j i hj hi
      unfold peek at hv ⊢
      by_cases hjm : j < m
      · rw [List.getD_append _ _ _ _ (by rw [hl]; omega)]
        exact hv j i hjm hi
      · have hjm' : j = m := by omega
        subst hjm'
        rw [List.getD_append_right _ _ _ _ (by rw [hl]; omega), hl]
        simp only [Nat.add_sub_cancel_left, List.getD_eq_getElem?_getD, List.getElem?_map,
          List.getElem?_range hi, Option.map_some', Option.getD_some]

theorem initContrastTable_entry (F : FloatExprs) (j i : Nat) (hj : j < 511) (hi : i < 256) :
    peek (initContrastTable F) (j * 256 + i)
      = toUInt8 (bound 0 (F.contrastEntry (-255 + (j : Int)) i) 255) := by
  have h := (tableLoop
    (fun j i => toUInt8 (bound 0 (F.contrastEntry (-255 + (j : Int)) i) 255)) 511).2 j i hj hi
  have e1 : ((256 : Int) - (-255)).toNat = 511 := by decide
  have e2 : (256 : Int).toNat = 256 := by decide
  unfold initContrastTable forLoop
  rw [e1, e2]
  exact h

theorem bound_byte (v : Int) : ((toUInt8 (bound 0 v 255)).val : Int) = bound 0 v 255 := by
  apply toUInt8_of_byte <;> unfold bound <;> split_ifs <;> omega

/-- C38 (as amended): with the `double` expression taken in exact arithmetic, for every
contrast level `c` in `[-255, 255]` and every sample `v` in `[0, 255]` the entry of the
contrast table at offset `(c + 255) * 256 + v` is `clamp(0, 255, trunc(f (v - 128) + 128))`
with `f = 259 (255 + c) / (255 (259 - c))`, where `trunc` discards the fractional part
(rounding toward zero) as the conversion `int()` does; and the table has exactly `511 * 256`
entries. -/
theorem contrast_entry_truncates (c : Int) (v : Nat) (hc : -255 ≤ c ∧ c ≤ 255)
    (hv : v < 256) :
    ((peek (initContrastTable exactContrast) ((c + 255).toNat * 256 + v)).val : Int)
        = bound 0
            (if (0 : ℚ) ≤ 259 * (255 + (c : ℚ)) / (255 * (259 - (c : ℚ))) * ((v : ℚ) - 128) + 128
              then ⌊259 * (255 + (c : ℚ)) / (255 * (259 - (c : ℚ))) * ((v : ℚ) - 128) + 128⌋
              else ⌈259 * (255 + (c : ℚ)) / (255 * (259 - (c : ℚ))) * ((v : ℚ) - 128) + 128⌉)
            255 ∧
      (initContrastTable exactContrast).length = 511 * 256 := by
  refine ⟨?_, length_initContrastTable _⟩
  rw [initContrastTable_entry exactContrast _ v (by omega) hv, bound_byte]
  have e : -255 + (((c + 255).toNat : Nat) : Int) = c := by omega
  rw [e]
  rfl

/-- Witness for C38 (as amended): the level 1 and the sample 200. -/
theorem contrast_entry_truncates_witness :
    ((-255 : Int) ≤ 1 ∧ (1 : Int) ≤ 255 ∧ 200 < 256) ∧
      ((peek (initContrastTable exactContrast) (((1 : Int) + 255).toNat * 256 + 200)).val : Int)
        = bound 0
            (if (0 : ℚ) ≤ 259 * (255 + ((1 : Int) : ℚ)) / (255 * (259 - ((1 : Int) : ℚ)))
                * (((200 : Nat) : ℚ) - 128) + 128
              then ⌊259 * (255 + ((1 : Int) : ℚ)) / (255 * (259 - ((1 : Int) : ℚ)))
                * (((200 : Nat) : ℚ) - 128) + 128⌋
              else ⌈259 * (255 + ((1 : Int) : ℚ)) / (255 * (259 - ((1 : Int) : ℚ)))
                * (((200 : Nat) : ℚ) - 128) + 128⌉)
            255 :=
  ⟨by decide, (contrast_entry_truncates 1 200 (by decide) (by decide)).1⟩

/-- Counterexample for C38 as stated: for the level `c = 1` and the sample `v = 200` the
exact value of `f (v - 128) + 128` is `733056 / 3655 = 200.56...`; `int()` discards the
fraction, so the entry at offset `(1 + 255) * 256 + 200` is 200, where the claim gives
`clamp(0, 255, round(200.56...)) = 201`. -/
theorem contrast_entry_truncates_counterexample :
    contrastValue 1 200 = 733056 / 3655 ∧
      peek (initContrastTable exactContrast) ((1 + 255) * 256 + 200) = 200 ∧
      bound 0 (round (contrastValue 1 200)) 255 = 201 := by
  have hq : contrastValue 1 200 = 733056 / 3655 := by
    unfold contrastValue
    norm_num
  have ht : truncToInt (contrastValue 1 200) = 200 := by
    rw [hq]
    unfold truncToInt
    rw [if_pos (by norm_num), Int.floor_eq_iff]
    norm_num
  have hr : round (contrastValue 1 200) = 201 := by
    rw [hq, round_eq, Int.floor_eq_iff]
    norm_num
  refine ⟨hq, ?_, ?_⟩
  · rw [initContrastTable_entry exactContrast 256 200 (by decide) (by decide)]
    show toUInt8 (bound 0 (truncToInt (contrastValue (-255 + ((256 : Nat) : Int)) 200)) 255) = 200
    have e : -255 + ((256 : Nat) : Int) = 1 := by decide
    rw [e, ht]
    decide
  · rw [hr]
    decide

/-! ## The bitmap decoder: the size of the pixel buffer, and the channel order -/

/-- C25, the code at the failing input: the 24-bit bitmap 4 pixels wide and 1 pixel high
with `sizeImage = 0` in its image header has the magic `"BM"`, `width = 4`, `height = 1`,
`bitCount = 24`, `offBits = 54` and one row of 12 bytes of pixel data at offset 54, so the
pixel data cover `height` rows of the row stride `bypl(0) = 12`, which is 32-bit aligned;
`load` passes the size check, and the buffer `data` that it allocates and fills has
`sizeImage = 0` bytes, while the copy loop reads `height = 1` row of `width = 4` pixels from
it, starting at its offset 0. -/
theorem load_zero_size_image :
    zeroSizeBitmap.length = 54 + 1 * 12 ∧ zeroSizeBitmap.take 2 = [66, 77] ∧
      uint32At (loadHeaders zeroSizeBitmap [0, 0]).2.2.1 BmpImageHeader.width = 4 ∧
      uint32At (loadHeaders zeroSizeBitmap [0, 0]).2.2.1 BmpImageHeader.height = 1 ∧
      uint16At (loadHeaders zeroSizeBitmap [0, 0]).2.2.1 BmpImageHeader.bitCount = 24 ∧
      uint32At (loadHeaders zeroSizeBitmap [0, 0]).2.1 BmpHeader.offBits = 54 ∧
      uint32At (loadHeaders zeroSizeBitmap [0, 0]).2.2.1 BmpImageHeader.sizeImage = 0 ∧
      1 ≤ specLayout.size { fourcc := PixelFormatRGB24, width := 4, height := 1 } ∧
      (stored (List.replicate
            (uint32At (loadHeaders zeroSizeBitmap [0, 0]).2.2.1 BmpImageHeader.sizeImage) 0)
          (((loadHeaders zeroSizeBitmap [0, 0]).2.2.2.seekg
              (uint32At (loadHeaders zeroSizeBitmap [0, 0]).2.1 BmpHeader.offBits)).read
            (uint32At (loadHeaders zeroSizeBitmap [0, 0]).2.2.1
              BmpImageHeader.sizeImage)).2).length = 0 ∧
      specLayout.bypl { fourcc := PixelFormatBGR24, width := 4, height := 1 } 0 = 12 ∧
      (({} : VideoFrame).load specLayout "a.bmp" (some zeroSizeBitmap) [0, 0]).1 = true := by
  decide

/-- C26 (as amended): for a 24-bit bitmap file of at least 54 bytes with the magic `"BM"`,
width and height below `2^31`, whose pixel data lie inside the file and whose header member
`sizeImage` covers `height` rows of the row stride `bypl(0)` of the BGR24 format of that
size, the three bytes of each decoded pixel, in memory order, are the red, the green and the
blue value stored for that pixel (file byte order blue, green, red). These bytes are the
members `b`, `g` and `r` of `struct RGB24`, which are declared in this order: the member
named `b` holds the red value and the member named `r` the blue value. -/
theorem load_channel_bytes (L : Layout) (self : VideoFrame) (fileName : String)
    (bytes typeInit : VideoData) (width height sizeImage offBits stride y x : Nat)
    (hname : fileName.isEmpty = false) (hlen : 54 ≤ bytes.length)
    (hmagic : bytes.take 2 = [66, 77])
    (hwidth : uint32At bytes 18 = width) (hheight : uint32At bytes 22 = height)
    (hbitCount : uint16At bytes 28 = 24) (hsizeImage : uint32At bytes 34 = sizeImage)
    (hoffBits : uint32At bytes 10 = offBits)
    (hstride : stride = L.bypl (VideoFormat.mk PixelFormatBGR24 width height) 0)
    (hw31 : width < 2147483648) (hh31 : height < 2147483648)
    (hdata : offBits + sizeImage ≤ bytes.length)
    (hrows : height * stride ≤ sizeImage) (hrow : 3 * width ≤ stride)
    (hsize : 1 ≤ L.size (VideoFormat.mk PixelFormatRGB24 width height))
    (hfit : L.PlaneFits (VideoFormat.mk PixelFormatRGB24 width height) 0 (3 * width) height)
    (hy : y < height) (hx : x < width) :
    (self.load L fileName (some bytes) typeInit).1 = true ∧
      (RGB24.b = 0 ∧ RGB24.g = 1 ∧ RGB24.r = 2) ∧
      (self.load L fileName (some bytes) typeInit).2.field L y 3 x 0
        = peek bytes (offBits + (height - 1 - y) * stride + x * 3 + 2) ∧
      (self.load L fileName (some bytes) typeInit).2.field L y 3 x 1
        = peek bytes (offBits + (height - 1 - y) * stride + x * 3 + 1) ∧
      (self.load L fileName (some bytes) typeInit).2.field L y 3 x 2
        = peek bytes (offBits + (height - 1 - y) * stride + x * 3 + 0) := by
  have h := load_bitmap L self fileName bytes typeInit width height 24 sizeImage offBits 3
    stride y x hname hlen hmagic hwidth hheight hbitCount hsizeImage hoffBits
    (Or.inl ⟨rfl, rfl, hstride⟩) hw31 hh31 hdata hrows hrow hsize hfit hy hx
  exact ⟨h.1, ⟨rfl, rfl, rfl⟩, h.2.2.2.2, h.2.2.2.1, h.2.2.1⟩

/-- Witness for C26 (as amended): the bitmap of the decoding scenario, whose stored bottom
row is `[B=10, G=20, R=30]` and whose top row is `[B=40, G=50, R=60]`: byte 0 of the pixel of
row 0 is the stored red value 60 of the top row. -/
theorem load_channel_bytes_witness :
    (54 ≤ scenarioBitmap.length ∧ peek scenarioBitmap (54 + (2 - 1 - 0) * 3 + 0 * 3 + 2) = 60) ∧
      (({} : VideoFrame).load specLayout "a.bmp" (some scenarioBitmap) [0, 0]).2.field
          specLayout 0 3 0 0
        = peek scenarioBitmap (54 + (2 - 1 - 0) * 3 + 0 * 3 + 2) :=
  ⟨by decide,
    (load_channel_bytes specLayout {} "a.bmp" scenarioBitmap [0, 0] 1 2 6 54 3 0 0 (by decide)
      (by decide) (by decide) (by decide) (by decide) (by decide) (by decide) (by decide)
      (by decide) (by decide) (by decide) (by decide) (by decide) (by decide) (by decide)
      (by unfold Layout.PlaneFits; decide) (by decide) (by decide)).2.2.1⟩

/-- Counterexample for C26 as stated: for the 24-bit bitmap of the decoding scenario, whose
stored bottom row is `[B=10, G=20, R=30]` and whose top row is `[B=40, G=50, R=60]`, `load`
returns true and the fields `(r, g, b)` of the RGB24 pixel of row 0 are `(40, 50, 60)` and
those of row 1 are `(10, 20, 30)`, not `(60, 50, 40)` and `(30, 20, 10)`: the field named `r`
holds the stored blue value. The bytes of the two rows in memory order are `60, 50, 40` and
`30, 20, 10`, as the scenario of the spec asks. -/
theorem load_channel_bytes_counterexample :
    (({} : VideoFrame).load specLayout "a.bmp" (some scenarioBitmap) [0, 0]).1 = true ∧
      ((({} : VideoFrame).load specLayout "a.bmp" (some scenarioBitmap) [0, 0]).2.field
          specLayout 0 3 0 RGB24.r,
        (({} : VideoFrame).load specLayout "a.bmp" (some scenarioBitmap) [0, 0]).2.field
          specLayout 0 3 0 RGB24.g,
        (({} : VideoFrame).load specLayout "a.bmp" (some scenarioBitmap) [0, 0]).2.field
          specLayout 0 3 0 RGB24.b) = (40, 50, 60) ∧
      ((({} : VideoFrame).load specLayout "a.bmp" (some scenarioBitmap) [0, 0]).2.field
          specLayout 1 3 0 RGB24.r,
        (({} : VideoFrame).load specLayout "a.bmp" (some scenarioBitmap) [0, 0]).2.field
          specLayout 1 3 0 RGB24.g,
        (({} : VideoFrame).load specLayout "a.bmp" (some scenarioBitmap) [0, 0]).2.field
          specLayout 1 3 0 RGB24.b) = (10, 20, 30) ∧
      (({} : VideoFrame).load specLayout "a.bmp" (some scenarioBitmap) [0, 0]).2.m_data
        = [60, 50, 40, 30, 20, 10] := by
  decide

end AkVCam
